import Mathlib

/-!
# Antares motion core: `src/src/game/motion.cpp`

A shallow embedding of `InitMotion`, `MoveSpaceObjects`, `CollideSpaceObjects` and
`CorrectPhysicalSpace` (and of `scale_by` and `evil_scale_by` of
`src/src/math/scale.cpp`), and the properties of the per-tick physics that are
checked against them.

Conventions of the embedding.

* Machine integers (`int32_t`, `Fixed`, `uint32_t` coordinates) are `Int`, without
  wrap-around: the statements below are about the arithmetic the code writes down,
  on values for which the C++ operations do not overflow.
* `x >> n` on a signed value is the arithmetic shift `x >>> n` (floor division by
  `2 ^ n`); C++ `/` on integers is `Int.tdiv` (truncation toward zero).
* A `Handle<SpaceObject>` is an index `Nat`; a nullable handle is an `Option Nat`.
* Attribute masks and state tags that are declared in headers outside this source
  tree are fields of `Consts`; every definition takes them as a parameter.
-/

namespace Antares

/-! ## Fixed-point arithmetic -/

/-- Modelled from the spec: `more_evil_fixed_to_long` (declared in `math/fixed.hpp`,
not part of this tree) converts a fixed-point value with scale 256 to an integer by
an arithmetic right shift of 8 bits. -/
def more_evil_fixed_to_long (x : Int) : Int := x >>> (8 : Nat)

/-- Modelled from the spec: `mLongToFixed(l)` (declared in `math/macros.hpp`, not part
of this tree) is `l << 8`, that is `l` times the scale 256. -/
def mLongToFixed (l : Int) : Int := l * 256

/-- Modelled from the spec: the value of `mFloatToFixed(0.5)` (macro of
`math/macros.hpp`, not part of this tree), one half at scale 256. -/
def mFloatToFixed_half : Int := 128

/-- Modelled from the spec: `mMultiplyFixed(a, b)` (macro of `math/macros.hpp`, not
part of this tree) divides the raw product by the scale with a shift. -/
def mMultiplyFixed (a b : Int) : Int := (a * b) >>> (8 : Nat)

/-- Modelled from the spec: `ROT_POS` (declared in `math/rotation.hpp`, not part of
this tree), the number of degrees of a full turn. -/
def ROT_POS : Int := 360

/-- The rounding written out at motion.cpp:176-179, 277-280, 284-287 (and again in
`CorrectPhysicalSpace`, 1093-1096 ...): the integer amount extracted from an
accumulated fraction `f`. -/
def extractRounded (f : Int) : Int :=
  if f ≥ 0 then more_evil_fixed_to_long (f + mFloatToFixed_half)
  else more_evil_fixed_to_long (f - mFloatToFixed_half) + 1

/-! ## Data model -/

/-- `Point`, `coordPointType` and `fixedPointType`: a pair `h`, `v`. -/
structure Point where
  h : Int
  v : Int
deriving DecidableEq, Repr

/-- `Rect`: `absoluteBounds`. -/
structure Rect where
  left : Int
  top : Int
  right : Int
  bottom : Int
deriving DecidableEq, Repr

/-- The geometry of the current sprite frame, `sprite->table->at(sprite->whichShape)`:
`width()`, `height()` and `center()`. -/
structure Frame where
  width : Int
  height : Int
  center : Point
deriving DecidableEq, Repr

/-- The part of `frame.beam` that the collision pass reads. -/
structure Beam where
  lastGlobalLocation : Point
deriving DecidableEq, Repr

/-- Attribute masks, state tags and world constants declared outside this tree
(`data/space-object.hpp`, `game/space-object.hpp`, `math/units.hpp`). -/
structure Consts where
  kCanTurn : Nat
  kIsRemote : Nat
  kIsHumanControlled : Nat
  kIsBeam : Nat
  kDoesBounce : Nat
  kCanCollide : Nat
  kCanBeHit : Nat
  kIsDestination : Nat
  kOccupiesSpace : Nat
  kCanBeEvaded : Nat
  kCanThink : Nat
  kConsiderDistance : Nat
  kHated : Nat
  kHideEffect : Nat
  kPotentialTarget : Nat
  kRemoteOrHuman : Nat
  kIsHidden : Nat
  kAppearOnRadar : Nat
  kMaximumRelevantDistance : Int
  kMaximumRelevantDistanceSquared : Int
  kObjectInUse : Int
  kObjectToBeFreed : Int
  kWarpingPresence : Int
  kWarpOutPresence : Int
  kUniversalCenter : Int
deriving DecidableEq

/-- External numeric helpers called by the thrust computation and by
`CorrectPhysicalSpace` (`math/rotation.hpp`, `math/special.hpp`): `GetRotPoint` yields
the two components it stores through its pointer arguments; `lsqrt` is the integer
square root routine. -/
structure MathExt where
  GetRotPoint : Int → Int × Int
  MyFixRatio : Int → Int → Int
  AngleFromSlope : Int → Int
  lsqrt : Int → Int

/-- `SpaceObject`: the fields read or written by the code embedded here;
`offenseValue`, `expireDontDie`, `activatePeriod`, `activatePeriodRange` and `mass` are
the fields of `baseType` of these names. The intrusive grid links
(`nextNearObject`, `nextFarObject`) and the grid coordinates (`collisionGrid`,
`distanceGrid`) of an object are kept in `Grid`, indexed by the handle. -/
structure SpaceObject where
  active : Int
  attributes : Nat
  owner : Option Nat
  location : Point
  velocity : Point
  motionFraction : Point
  maxVelocity : Int
  thrust : Int
  direction : Int
  turnFraction : Int
  turnVelocity : Int
  presenceState : Int
  presence_warping : Int
  presence_warp_out : Int
  absoluteBounds : Rect
  naturalScale : Int
  sprite : Option Frame
  beam : Option Beam
  offenseValue : Int
  localFriendStrength : Int
  localFoeStrength : Int
  closestObject : Option Nat
  closestDistance : Int
  seenByPlayerFlags : Nat
  myPlayerFlag : Nat
  runTimeFlags : Nat
  age : Int
  periodicTime : Int
  expireDontDie : Bool
  activatePeriod : Int
  activatePeriodRange : Int
  randomSeed : Int
  distanceFromPlayer : Int
  mass : Int
deriving DecidableEq

/-- `attributes & mask` used as a condition. -/
def hasAttr (o : SpaceObject) (mask : Nat) : Bool := (o.attributes &&& mask) != 0

/-- motion.cpp:66. -/
def kThinkiverseTopLeft (K : Consts) : Int := K.kUniversalCenter - 2 * 65534

/-- motion.cpp:67. -/
def kThinkiverseBottomRight (K : Consts) : Int := K.kUniversalCenter + 2 * 65534

/-- motion.cpp:62-64. -/
def kConsiderDistanceAttributes (K : Consts) : Nat :=
  K.kCanCollide ||| K.kCanBeHit ||| K.kIsDestination ||| K.kCanThink |||
    K.kConsiderDistance ||| K.kCanBeEvaded ||| K.kIsHumanControlled ||| K.kIsRemote

/-! ## `MoveSpaceObjects`: one object, one sub-tick unit -/

/-- The loop `while (direction >= ROT_POS) direction -= ROT_POS;` (motion.cpp:183-184);
the first argument bounds the iterations and `wrapDirection` passes one that the
loop cannot use up. -/
def subtractTurns : Nat → Int → Int
  | 0, d => d
  | n + 1, d => if d ≥ ROT_POS then subtractTurns n (d - ROT_POS) else d

/-- The loop `while (direction < 0) direction += ROT_POS;` (motion.cpp:185-186). -/
def addTurns : Nat → Int → Int
  | 0, d => d
  | n + 1, d => if d < 0 then addTurns n (d + ROT_POS) else d

/-- Both wrap loops of motion.cpp:183-186, in order. -/
def wrapDirection (d : Int) : Int :=
  let d1 := subtractTurns d.toNat d
  addTurns (-d1).toNat d1

/-- Turning, motion.cpp:172-187. -/
def turnPhase (K : Consts) (o : SpaceObject) : SpaceObject :=
  if hasAttr o K.kCanTurn then
    let tf := o.turnFraction + o.turnVelocity
    let h := extractRounded tf
    { o with direction := wrapDirection (o.direction + h), turnFraction := tf - mLongToFixed h }
  else o

/-- The angle of the vector `(fa, fb)`, motion.cpp:226-238. -/
def thrustAngle (X : MathExt) (fa fb : Int) : Int :=
  if fa = 0 then (if fb < 0 then 180 else 0)
  else
    let angle := X.AngleFromSlope (X.MyFixRatio fa fb)
    let angle := if fa > 0 then angle + 180 else angle
    if angle ≥ 360 then angle - 360 else angle

/-- The clamp of one component of the velocity change against the thrust limit `m`,
motion.cpp:249-257 and 259-267. -/
def clampThrust (d m : Int) : Int :=
  if m < 0 then (if d < m then m else d) else (if d > m then m else d)

/-- Thrust, motion.cpp:189-272. -/
def thrustPhase (K : Consts) (X : MathExt) (o : SpaceObject) : SpaceObject :=
  if o.thrust ≠ 0 then
    let goal : Int × Int × Int :=
      if o.thrust > 0 then
        let r := X.GetRotPoint o.direction
        let s : Int × Int :=
          if o.presenceState = K.kWarpingPresence then
            (mMultiplyFixed r.1 o.presence_warping, mMultiplyFixed r.2 o.presence_warping)
          else if o.presenceState = K.kWarpOutPresence then
            (mMultiplyFixed r.1 o.presence_warp_out, mMultiplyFixed r.2 o.presence_warp_out)
          else
            (mMultiplyFixed o.maxVelocity r.1, mMultiplyFixed o.maxVelocity r.2)
        (s.1 - o.velocity.h, s.2 - o.velocity.v, o.thrust)
      else
        (-o.velocity.h, -o.velocity.v, -o.thrust)
    let fa := goal.1
    let fb := goal.2.1
    let useThrust := goal.2.2
    let r := X.GetRotPoint (thrustAngle X fa fb)
    let fh := mMultiplyFixed useThrust r.1
    let fv := mMultiplyFixed useThrust r.2
    { o with velocity := ⟨o.velocity.h + clampThrust fa fh, o.velocity.v + clampThrust fb fv⟩ }
  else o

/-- Fractional accumulation, motion.cpp:274-289. -/
def integratePhase (o : SpaceObject) : SpaceObject :=
  let mh := o.motionFraction.h + o.velocity.h
  let mv := o.motionFraction.v + o.velocity.v
  let h := extractRounded mh
  let v := extractRounded mv
  { o with
    location := ⟨o.location.h - h, o.location.v - v⟩
    motionFraction := ⟨mh - mLongToFixed h, mv - mLongToFixed v⟩ }

/-- The guard of motion.cpp:170: the object moves. -/
def isMoving (K : Consts) (o : SpaceObject) : Bool :=
  o.maxVelocity != 0 || hasAttr o K.kCanTurn

/-- The block guarded by motion.cpp:170, lines 170-291. -/
def motionPhase (K : Consts) (X : MathExt) (o : SpaceObject) : SpaceObject :=
  if isMoving K o then integratePhase (thrustPhase K X (turnPhase K o)) else o

/-- The `h` axis of the bounce, motion.cpp:313-321. -/
def bounceH (K : Consts) (o : SpaceObject) : SpaceObject :=
  if o.location.h < kThinkiverseTopLeft K then
    { o with location := ⟨kThinkiverseTopLeft K, o.location.v⟩,
             velocity := ⟨-o.velocity.h, o.velocity.v⟩ }
  else if o.location.h > kThinkiverseBottomRight K then
    { o with location := ⟨kThinkiverseBottomRight K, o.location.v⟩,
             velocity := ⟨-o.velocity.h, o.velocity.v⟩ }
  else o

/-- The `v` axis of the bounce, motion.cpp:322-330. -/
def bounceV (K : Consts) (o : SpaceObject) : SpaceObject :=
  if o.location.v < kThinkiverseTopLeft K then
    { o with location := ⟨o.location.h, kThinkiverseTopLeft K⟩,
             velocity := ⟨o.velocity.h, -o.velocity.v⟩ }
  else if o.location.v > kThinkiverseBottomRight K then
    { o with location := ⟨o.location.h, kThinkiverseBottomRight K⟩,
             velocity := ⟨o.velocity.h, -o.velocity.v⟩ }
  else o

/-- World-boundary policy, motion.cpp:301-333. -/
def boundsPhase (K : Consts) (o : SpaceObject) : SpaceObject :=
  if !hasAttr o K.kDoesBounce then
    if o.location.h < kThinkiverseTopLeft K ∨ o.location.v < kThinkiverseTopLeft K ∨
        o.location.h > kThinkiverseBottomRight K ∨ o.location.v > kThinkiverseBottomRight K then
      { o with active := K.kObjectToBeFreed }
    else o
  else bounceV K (bounceH K o)

/-- The body of the object loop of `MoveSpaceObjects` for one sub-tick unit, lines
165-333: motion and boundary policy of an object in use. The two branches that
follow in the source (335-458) advance the frame counter of a self-animated object
and re-anchor a beam to its targets; they are not part of this function. -/
def moveObject (K : Consts) (X : MathExt) (o : SpaceObject) : SpaceObject :=
  if o.active = K.kObjectInUse then boundsPhase K (motionPhase K X o) else o

/-! ## Reference roundings and sample data -/

/-- The rounding the specification words describe: `f / 256` rounded to the nearest
integer with halves away from zero, computed as the spec says by adding (for `f ≥ 0`)
or subtracting (for `f < 0`) one half at scale 256 before truncating. -/
def roundHalfAwayFromZero (f : Int) : Int :=
  if f ≥ 0 then Int.tdiv (f + 128) 256 else Int.tdiv (f - 128) 256

/-- One assignment of the constants of `Consts`, for evaluating the model on concrete
objects. -/
def demoConsts : Consts where
  kCanTurn := 0x1
  kIsRemote := 0x8
  kIsHumanControlled := 0x10
  kIsBeam := 0x20
  kDoesBounce := 0x40
  kCanCollide := 0x40000
  kCanBeHit := 0x80000
  kIsDestination := 0x100000
  kOccupiesSpace := 0x1000000
  kCanBeEvaded := 0x4000000
  kCanThink := 0x9800
  kConsiderDistance := 0x9c00
  kHated := 0x800000
  kHideEffect := 0x200000
  kPotentialTarget := 0x4000002
  kRemoteOrHuman := 0x200
  kIsHidden := 0x4
  kAppearOnRadar := 0x20000000
  kMaximumRelevantDistance := 46340
  kMaximumRelevantDistanceSquared := 2147395600
  kObjectInUse := 1
  kObjectToBeFreed := 2
  kWarpingPresence := 4
  kWarpOutPresence := 5
  kUniversalCenter := 1073741823

/-- Numeric helpers for evaluating the model on objects that do not thrust. -/
def demoExt : MathExt where
  GetRotPoint := fun _ => (0, 0)
  MyFixRatio := fun _ _ => 0
  AngleFromSlope := fun _ => 0
  lsqrt := fun _ => 0

/-- An object in use at the centre of the universe, at rest, able to move. -/
def demoObject : SpaceObject where
  active := 1
  attributes := 0
  owner := none
  location := ⟨1073741823, 1073741823⟩
  velocity := ⟨0, 0⟩
  motionFraction := ⟨0, 0⟩
  maxVelocity := 512
  thrust := 0
  direction := 0
  turnFraction := 0
  turnVelocity := 0
  presenceState := 0
  presence_warping := 0
  presence_warp_out := 0
  absoluteBounds := ⟨0, 0, 0, 0⟩
  naturalScale := 4096
  sprite := none
  beam := none
  offenseValue := 0
  localFriendStrength := 0
  localFoeStrength := 0
  closestObject := none
  closestDistance := 0
  seenByPlayerFlags := 0
  myPlayerFlag := 0
  runTimeFlags := 0
  age := -1
  periodicTime := 0
  expireDontDie := false
  activatePeriod := 0
  activatePeriodRange := 0
  randomSeed := 0
  distanceFromPlayer := 0
  mass := 0

/-- The sample object drifting with velocity `(256, -384)`, that is `(1, -1.5)`, and a
fraction of `(0, 64)` carried over. -/
def demoDrifter : SpaceObject :=
  { demoObject with velocity := ⟨256, -384⟩, motionFraction := ⟨0, 64⟩ }

/-! ## The proximity grid -/

/-- motion.cpp:46. -/
def kProximitySuperSize : Int := 16

/-- motion.cpp:47. -/
def kProximityGridDataLength : Int := kProximitySuperSize * kProximitySuperSize

/-- motion.cpp:48. -/
def kProximityUnitAndModulo : Int := kProximitySuperSize - 1

/-- motion.cpp:49. -/
def kProximityWidthMultiply : Nat := 4

/-- motion.cpp:51. -/
def kCollisionUnitBitShift : Nat := 7

/-- motion.cpp:52. -/
def kCollisionSuperUnitBitShift : Nat := 11

/-- motion.cpp:53. -/
def kCollisionSuperExtraShift : Nat := kCollisionSuperUnitBitShift - kCollisionUnitBitShift

/-- motion.cpp:55. -/
def kDistanceUnitBitShift : Nat := 11

/-- motion.cpp:56. -/
def kDistanceSuperUnitBitShift : Nat := 15

/-- motion.cpp:57. -/
def kDistanceSuperExtraShift : Nat := kDistanceSuperUnitBitShift - kDistanceUnitBitShift

/-- motion.cpp:58. -/
def kDistanceUnitExtraShift : Nat := 0

/-- Modelled from the spec: `kUnitsToCheckNumber` (declared in `game/motion.hpp`, not
part of this tree), the number of adjacency entries of a cell: itself and 4
neighbours, one per entry of `cAdjacentUnits`. -/
def kUnitsToCheckNumber : Nat := 5

/-- motion.cpp:69-75. -/
def cAdjacentUnits : List Point := [⟨0, 0⟩, ⟨1, 0⟩, ⟨-1, 1⟩, ⟨0, 1⟩, ⟨1, 1⟩]

/-- The left shift `x << n` of a value that does not overflow. -/
def shiftLeft (x : Int) (n : Nat) : Int := x * 2 ^ n

/-- `adjacentUnitType`: one entry of `unitsToCheck`. -/
structure adjacentUnitType where
  adjacentUnit : Int
  superOffset : Point
deriving DecidableEq, Repr

/-- The table of objects: the arena addressed by handle. -/
abbrev Objs := Nat → SpaceObject

/-- The state of `gProximityGrid` together with the grid fields of the objects. Per
cell (index `0 .. 255`): `nearObject`, `farObject`, `unitsToCheck`. Per object
(handle): `nextNearObject`, `nextFarObject`, `collisionGrid`, `distanceGrid`. These
are written by `InitMotion` and by the rebuild at the start of `CollideSpaceObjects`
only; the hit and separation callbacks receive the object table, not the grid. -/
structure Grid where
  nearObject : Int → Option Nat
  farObject : Int → Option Nat
  unitsToCheck : Int → Nat → adjacentUnitType
  nextNearObject : Nat → Option Nat
  nextFarObject : Nat → Option Nat
  collisionGrid : Nat → Point
  distanceGrid : Nat → Point

/-- The wrap of one coordinate of a neighbour cell, motion.cpp:109-115 and 118-124:
the wrapped coordinate and the super offset. -/
def wrapUnit (u : Int) : Int × Int :=
  if u < 0 then (u + kProximitySuperSize, -1)
  else if u ≥ kProximitySuperSize then (u - kProximitySuperSize, 1)
  else (u, 0)

/-- The loop over `i` of motion.cpp:103-132 for the cell `(x, y)`, from the entry
`cAdjacentUnits[i]` on, with the running `adjacentAdd`. -/
def initUnitsToCheck (x y : Int) : List Point → Int → List adjacentUnitType
  | [], _ => []
  | c :: rest, adjacentAdd =>
    let ux := wrapUnit (x + c.h)
    let uy := wrapUnit (y + c.v)
    let adjacentUnit := (shiftLeft uy.1 kProximityWidthMultiply + ux.1) - adjacentAdd
    ⟨adjacentUnit, ⟨ux.2, uy.2⟩⟩ :: initUnitsToCheck x y rest (adjacentAdd + adjacentUnit)

/-- `InitMotion`, motion.cpp:94-135: the cell `(y << 4) + x`, for `x` and `y` in
`0 .. 15`, gets empty lists and the adjacency table computed from `(x, y)`. -/
def InitMotion (g : Grid) : Grid :=
  { g with
    nearObject := fun i => if 0 ≤ i ∧ i < kProximityGridDataLength then none else g.nearObject i
    farObject := fun i => if 0 ≤ i ∧ i < kProximityGridDataLength then none else g.farObject i
    unitsToCheck := fun i k =>
      if 0 ≤ i ∧ i < kProximityGridDataLength then
        (initUnitsToCheck (i % kProximitySuperSize) (i / kProximitySuperSize)
          (cAdjacentUnits.take kUnitsToCheckNumber) 0).getD k (g.unitsToCheck i k)
      else g.unitsToCheck i k }

/-- The reset of the collision grid, motion.cpp:571-575. -/
def resetGrid (g : Grid) : Grid :=
  { g with
    nearObject := fun i => if 0 ≤ i ∧ i < kProximityGridDataLength then none else g.nearObject i
    farObject := fun i => if 0 ≤ i ∧ i < kProximityGridDataLength then none else g.farObject i }

/-- The list reached from a handle by following a next-in-bucket link: the objects a
loop `for (o = start; o.get(); o = next(o))` visits. The first argument bounds the
number of objects followed. -/
def chainFrom (next : Nat → Option Nat) : Nat → Option Nat → List Nat
  | 0, _ => []
  | _ + 1, none => []
  | fuel + 1, some a => a :: chainFrom next fuel (next a)

/-! ## `CollideSpaceObjects`: the grid rebuild -/

/-- The near cell of a location, motion.cpp:651-662: the index added to
`gProximityGrid.get()`. -/
def nearCellIndex (loc : Point) : Int :=
  shiftLeft (Int.land (loc.v >>> kCollisionUnitBitShift) kProximityUnitAndModulo)
      kProximityWidthMultiply
    + Int.land (loc.h >>> kCollisionUnitBitShift) kProximityUnitAndModulo

/-- The value stored in `collisionGrid`, motion.cpp:652-666. -/
def collisionGridOf (loc : Point) : Point :=
  ⟨(loc.h >>> kCollisionUnitBitShift) >>> kCollisionSuperExtraShift,
   (loc.v >>> kCollisionUnitBitShift) >>> kCollisionSuperExtraShift⟩

/-- The far cell of a location, motion.cpp:668-676, computed from the `collisionGrid`
coordinate. -/
def farCellIndex (loc : Point) : Int :=
  shiftLeft (Int.land ((collisionGridOf loc).v >>> kDistanceUnitExtraShift)
      kProximityUnitAndModulo) kProximityWidthMultiply
    + Int.land ((collisionGridOf loc).h >>> kDistanceUnitExtraShift) kProximityUnitAndModulo

/-- The value stored in `distanceGrid`, motion.cpp:668-680. -/
def distanceGridOf (loc : Point) : Point :=
  ⟨((collisionGridOf loc).h >>> kDistanceUnitExtraShift) >>> kDistanceSuperExtraShift,
   ((collisionGridOf loc).v >>> kDistanceUnitExtraShift) >>> kDistanceSuperExtraShift⟩

/-- Applies `f` to the object of handle `i`: a write through the handle. -/
def modifyObject (objs : Objs) (i : Nat) (f : SpaceObject → SpaceObject) : Objs :=
  Function.update objs i (f (objs i))

/-- A record of one insertion performed by the rebuild: the handle, and the object as
it was when it reached the test of motion.cpp:644. -/
structure Insertion where
  object : Nat
  snapshot : SpaceObject

/-- What the rebuild loop takes from outside `motion.cpp`: the actions run by
`exec(baseType->expire, ...)` and `exec(baseType->activate, ...)` as functions on the
object table, `randomSeed.next(range)` as a function of seed and range giving the
value and the new seed, the handle `g.ship`, and whether the zoom mode is
`kNearestFoeZoom`. -/
structure RebuildEnv where
  execExpire : Objs → Nat → Objs
  execActivate : Objs → Nat → Objs
  randomNext : Int → Int → Int × Int
  ship : Option Nat
  nearestFoeZoom : Bool

/-- The state of the rebuild loop: object table, grid, `g.closest`, `g.farthest`, the
locals `closestDist` and `farthestDist`, and the insertions performed so far, oldest
first. -/
structure RebuildState where
  objs : Objs
  grid : Grid
  closest : Option Nat
  farthest : Option Nat
  closestDist : Int
  farthestDist : Int
  inserted : List Insertion

/-- Expiry, motion.cpp:585-597: the object table left, and whether the loop goes on
to the next object. -/
def expirePhase (K : Consts) (R : RebuildEnv) (objs : Objs) (a : Nat) : Objs × Bool :=
  if (objs a).age ≥ 0 then
    let objs1 := modifyObject objs a fun o => { o with age := o.age - 3 }
    if (objs1 a).age < 0 then
      let objs2 :=
        if !(objs1 a).expireDontDie then
          modifyObject objs1 a fun o => { o with active := K.kObjectToBeFreed }
        else objs1
      let objs3 := R.execExpire objs2 a
      (objs3, decide ((objs3 a).active = 0))
    else (objs1, false)
  else (objs, false)

/-- Periodic activation, motion.cpp:599-610: the object table left, and whether the
loop goes on to the next object. -/
def periodicPhase (R : RebuildEnv) (objs : Objs) (a : Nat) : Objs × Bool :=
  if (objs a).periodicTime > 0 then
    let objs1 := modifyObject objs a fun o => { o with periodicTime := o.periodicTime - 1 }
    if (objs1 a).periodicTime ≤ 0 then
      let objs2 := R.execActivate objs1 a
      let r := R.randomNext (objs2 a).randomSeed (objs2 a).activatePeriodRange
      let objs3 := modifyObject objs2 a fun o =>
        { o with periodicTime := o.activatePeriod + r.1, randomSeed := r.2 }
      (objs3, decide ((objs3 a).active = 0))
    else (objs1, false)
  else (objs, false)

/-- The squared distance from the player of motion.cpp:614-628, the 32-bit branch
computed modulo `2 ^ 32`. -/
def distanceFromShip (K : Consts) (player o : SpaceObject) : Int :=
  let dcalc := |player.location.h - o.location.h|
  let distance := |player.location.v - o.location.v|
  if dcalc > K.kMaximumRelevantDistance ∨ distance > K.kMaximumRelevantDistance then
    dcalc * dcalc + distance * distance
  else (distance * distance + dcalc * dcalc) % 2 ^ 32

/-- Distance from the player and nearest and farthest object, motion.cpp:612-642. -/
def radarPhase (K : Consts) (R : RebuildEnv) (s : RebuildState) (a : Nat) : RebuildState :=
  match R.ship with
  | none => s
  | some player =>
    if (s.objs player).active ≠ 0 then
      if hasAttr (s.objs a) K.kAppearOnRadar then
        let hugeDistance := distanceFromShip K (s.objs player) (s.objs a)
        let s1 : RebuildState :=
          { s with objs := modifyObject s.objs a fun o =>
              { o with distanceFromPlayer := hugeDistance } }
        let s2 : RebuildState :=
          if s1.closestDist > hugeDistance then
            if some a ≠ R.ship
                ∧ (R.nearestFoeZoom = false ∨ (s1.objs a).owner ≠ (s1.objs player).owner) then
              { s1 with closestDist := hugeDistance, closest := some a }
            else s1
          else s1
        if hugeDistance > s2.farthestDist then
          { s2 with farthestDist := hugeDistance, farthest := some a }
        else s2
      else s
    else s

/-- The block of motion.cpp:644-690 for the object `a`: reset of the per-tick fields
and insertion at the head of its near and far cell lists. (The copy of `tinySize`
into the sprite, 687-689, concerns presentation only.) -/
def insertInGrid (K : Consts) (s : RebuildState) (a : Nat) : RebuildState :=
  let o := s.objs a
  if hasAttr o (kConsiderDistanceAttributes K) then
    let g := s.grid
    let near := nearCellIndex o.location
    let g1 : Grid :=
      { g with
        nextNearObject := Function.update g.nextNearObject a (g.nearObject near)
        nearObject := Function.update g.nearObject near (some a)
        collisionGrid := Function.update g.collisionGrid a (collisionGridOf o.location) }
    let far := farCellIndex o.location
    let g2 : Grid :=
      { g1 with
        nextFarObject := Function.update g1.nextFarObject a (g1.farObject far)
        farObject := Function.update g1.farObject far (some a)
        distanceGrid := Function.update g1.distanceGrid a (distanceGridOf o.location) }
    let o1 : SpaceObject :=
      { o with
        localFriendStrength := o.offenseValue
        localFoeStrength := 0
        closestObject := none
        closestDistance := K.kMaximumRelevantDistanceSquared
        absoluteBounds := { o.absoluteBounds with right := 0, left := 0 }
        seenByPlayerFlags :=
          if !hasAttr o K.kIsDestination then 0x80000000 else o.seenByPlayerFlags
        runTimeFlags := o.runTimeFlags &&& (0xffffffff ^^^ K.kIsHidden) }
    { s with objs := Function.update s.objs a o1, grid := g2,
             inserted := s.inserted ++ [⟨a, o⟩] }
  else s

/-- The body of the loop of motion.cpp:577-691 for the object `a`. -/
def rebuildStep (K : Consts) (R : RebuildEnv) (s : RebuildState) (a : Nat) : RebuildState :=
  if (s.objs a).active = 0 then
    match R.ship with
    | none => s
    | some player =>
      if (s.objs player).active ≠ 0 then
        { s with objs := modifyObject s.objs a fun o =>
            { o with distanceFromPlayer := 0x7fffffffffffffff } }
      else s
  else
    let r1 := expirePhase K R s.objs a
    if r1.2 then { s with objs := r1.1 }
    else
      let r2 := periodicPhase R r1.1 a
      if r2.2 then { s with objs := r2.1 }
      else insertInGrid K (radarPhase K R { s with objs := r2.1 } a) a

/-- The start of `CollideSpaceObjects`, motion.cpp:565-575: the player bookkeeping is
reset and the grid cleared. -/
def rebuildStart (objs : Objs) (g : Grid) : RebuildState :=
  { objs := objs, grid := resetGrid g, closest := some 0, farthest := some 0,
    closestDist := 0x7fffffffffffffff, farthestDist := 0, inserted := [] }

/-- The grid rebuild, motion.cpp:565-691: reset, then the loop over the active-object
list `order` (the handles from `g.root` along `nextObject`). -/
def rebuildGrid (K : Consts) (R : RebuildEnv) (objs : Objs) (g : Grid) (order : List Nat) :
    RebuildState :=
  order.foldl (rebuildStep K R) (rebuildStart objs g)

/-- The handles a rebuild has put in the near cell `c`, newest first. -/
def nearBucket (inserted : List Insertion) (c : Int) : List Nat :=
  ((inserted.filter fun e => decide (nearCellIndex e.snapshot.location = c)).map
    fun e => e.object).reverse

/-- The handles a rebuild has put in the far cell `c`, newest first. -/
def farBucket (inserted : List Insertion) (c : Int) : List Nat :=
  ((inserted.filter fun e => decide (farCellIndex e.snapshot.location = c)).map
    fun e => e.object).reverse

/-- The list `l` is what following `next` from `start` visits, and it ends at a null
handle. -/
def isChain (next : Nat → Option Nat) : Option Nat → List Nat → Prop
  | none, [] => True
  | some a, x :: l => a = x ∧ isChain next (next a) l
  | _, _ => False

/-! ## `CollideSpaceObjects`: beam clipping -/

/-- Modelled from the spec: the outcode macro `mClipCode` (declared in
`math/macros.hpp`, not part of this tree): bit 8 for `x < left`, bit 4 for
`x > right - 1`, bit 2 for `y < top`, bit 1 for `y > bottom - 1`. -/
def mClipCode (x y : Int) (bounds : Rect) : Nat :=
  (if x < bounds.left then 8 else 0) ||| (if x > bounds.right - 1 then 4 else 0) |||
    (if y < bounds.top then 2 else 0) ||| (if y > bounds.bottom - 1 then 1 else 0)

/-- The variables of the clipping loop, motion.cpp:804-810. -/
structure ClipState where
  xs : Int
  ys : Int
  xe : Int
  ye : Int
  cs : Nat
  ce : Nat
deriving DecidableEq, Repr

/-- How the clipping of motion.cpp:804-861 ends: `beamHit` true or false on leaving
the loop, a division by zero inside the loop, or a loop still running when the
iteration bound is used up. -/
inductive ClipOutcome where
  | hit
  | miss
  | divideByZero
  | unfinished
deriving DecidableEq, Repr

/-- One iteration of the loop body after the shared-bit test, motion.cpp:822-857;
`none` when the iteration divides by zero. -/
def clipIteration (bounds : Rect) (c : ClipState) : Option ClipState :=
  let xd := c.xe - c.xs
  let yd := c.ye - c.ys
  if c.cs ≠ 0 then
    if c.cs &&& 8 ≠ 0 then
      if xd = 0 then none
      else
        let ys := c.ys + Int.tdiv (yd * (bounds.left - c.xs)) xd
        let xs := bounds.left
        some { c with xs := xs, ys := ys, cs := mClipCode xs ys bounds }
    else if c.cs &&& 4 ≠ 0 then
      if xd = 0 then none
      else
        let ys := c.ys + Int.tdiv (yd * (bounds.right - 1 - c.xs)) xd
        let xs := bounds.right - 1
        some { c with xs := xs, ys := ys, cs := mClipCode xs ys bounds }
    else if c.cs &&& 2 ≠ 0 then
      if yd = 0 then none
      else
        let xs := c.xs + Int.tdiv (xd * (bounds.top - c.ys)) yd
        let ys := bounds.top
        some { c with xs := xs, ys := ys, cs := mClipCode xs ys bounds }
    else if c.cs &&& 1 ≠ 0 then
      if yd = 0 then none
      else
        let xs := c.xs + Int.tdiv (xd * (bounds.bottom - 1 - c.ys)) yd
        let ys := bounds.bottom - 1
        some { c with xs := xs, ys := ys, cs := mClipCode xs ys bounds }
    else some { c with cs := mClipCode c.xs c.ys bounds }
  else if c.ce ≠ 0 then
    if c.ce &&& 8 ≠ 0 then
      if xd = 0 then none
      else
        let ye := c.ye + Int.tdiv (yd * (bounds.left - c.xe)) xd
        let xe := bounds.left
        some { c with xe := xe, ye := ye, ce := mClipCode xe ye bounds }
    else if c.ce &&& 4 ≠ 0 then
      if xd = 0 then none
      else
        let ye := c.ye + Int.tdiv (yd * (bounds.right - 1 - c.xe)) xd
        let xe := bounds.right - 1
        some { c with xe := xe, ye := ye, ce := mClipCode xe ye bounds }
    else if c.ce &&& 2 ≠ 0 then
      if yd = 0 then none
      else
        let xe := c.xe + Int.tdiv (xd * (bounds.top - c.ye)) yd
        let ye := bounds.top
        some { c with xe := xe, ye := ye, ce := mClipCode xe ye bounds }
    else if c.ce &&& 1 ≠ 0 then
      if yd = 0 then none
      else
        let xe := c.xe + Int.tdiv (xd * (bounds.bottom - 1 - c.ye)) yd
        let ye := bounds.bottom - 1
        some { c with xe := xe, ye := ye, ce := mClipCode xe ye bounds }
    else some { c with ce := mClipCode c.xe c.ye bounds }
  else some c

/-- The loop `while (cs | ce)` of motion.cpp:817-858 and the value of `beamHit` it
leaves. The first argument bounds the number of iterations that run the body. -/
def clipLoop (bounds : Rect) : Nat → ClipState → Bool → ClipOutcome
  | fuel, c, beamHit =>
    if c.cs ||| c.ce = 0 then (if beamHit then ClipOutcome.hit else ClipOutcome.miss)
    else if c.cs &&& c.ce ≠ 0 then ClipOutcome.miss
    else
      match fuel with
      | 0 => ClipOutcome.unfinished
      | fuel + 1 =>
        match clipIteration bounds c with
        | none => ClipOutcome.divideByZero
        | some c1 => clipLoop bounds fuel c1 beamHit

/-- The beam test of motion.cpp:804-858 for a beam `sObject` whose segment runs from
its location to `lastGlobalLocation`, against the box of the target. -/
def beamClip (K : Consts) (fuel : Nat) (sObject : SpaceObject) (lastGlobalLocation : Point)
    (bounds : Rect) : ClipOutcome :=
  let xs := sObject.location.h
  let ys := sObject.location.v
  let xe := lastGlobalLocation.h
  let ye := lastGlobalLocation.v
  let cs := mClipCode xs ys bounds
  let ce := mClipCode xe ye bounds
  if sObject.active = K.kObjectToBeFreed then
    clipLoop bounds fuel ⟨xs, ys, xe, ye, 1, 1⟩ false
  else
    clipLoop bounds fuel ⟨xs, ys, xe, ye, cs, ce⟩ true

/-! ## `CollideSpaceObjects`: the near-grid pass -/

/-- What the passes do that is visible from outside, in order: entering the part of
the pair body that follows the grid-coordinate match for `(a, b)`, a call
`HitObject(target, source)`, a call `CorrectPhysicalSpace(a, b)`. -/
inductive Event where
  | examined (a b : Nat)
  | hit (target source : Nat)
  | correct (a b : Nat)
deriving DecidableEq, Repr

/-- The state threaded through a pass: the object table, the events so far, and
whether the pass has stopped short (the exception of motion.cpp:730, or behaviour
the source leaves undefined: a beam without beam data, a division by zero, a
clipping loop that does not end within the bound). -/
structure PassState where
  objs : Objs
  trace : List Event
  aborted : Bool

/-- The lazy computation of `absoluteBounds`, motion.cpp:699-717 and 755-773, with
`SHIFT_SCALE` passed in. -/
def computeBounds (SHIFT_SCALE : Nat) (o : SpaceObject) : SpaceObject :=
  if o.absoluteBounds.left ≥ o.absoluteBounds.right then
    match o.sprite with
    | some frame =>
      let width := (frame.width * o.naturalScale) >>> SHIFT_SCALE
      let height := (frame.height * o.naturalScale) >>> SHIFT_SCALE
      let cornerH := -((frame.center.h * o.naturalScale) >>> SHIFT_SCALE)
      let cornerV := -((frame.center.v * o.naturalScale) >>> SHIFT_SCALE)
      let left := o.location.h + cornerH
      let top := o.location.v + cornerV
      { o with absoluteBounds := ⟨left, top, left + width, top + height⟩ }
    | none => o
  else o

/-- The overlap test of motion.cpp:784-787, `s` against `d`. -/
def boundsOverlap (s d : Rect) : Bool :=
  !(decide (s.right < d.left) || decide (s.left > d.right) ||
    decide (s.bottom < d.top) || decide (s.top > d.bottom))

/-- The test of motion.cpp:876-879, `s` against `d`. -/
def occupySameSpace (s d : Rect) : Bool :=
  decide (s.right ≥ d.left) && decide (s.left ≤ d.right) &&
    decide (s.bottom ≥ d.top) && decide (s.top ≤ d.bottom)

/-- Parameters of a pass that come from outside `motion.cpp` or are passed in:
`HitObject(target, source)` and `CorrectPhysicalSpace(a, b)` as functions on the
object table, the `engages` predicate, `SHIFT_SCALE`, and the bounds on the length of
a bucket list followed and on the iterations of the clipping loop. -/
structure PassEnv where
  HitObject : Objs → Nat → Nat → Objs
  CorrectPhysicalSpace : Objs → Nat → Nat → Objs
  engages : SpaceObject → SpaceObject → Bool
  SHIFT_SCALE : Nat
  chainFuel : Nat
  clipFuel : Nat

/-- The first notification of a non-beam pair, motion.cpp:788-790: `a` hit by `b`. -/
def hitFirst (K : Consts) (E : PassEnv) (s1 : PassState) (a b : Nat) : PassState :=
  if hasAttr (s1.objs a) K.kCanBeHit && hasAttr (s1.objs b) K.kCanCollide then
    { s1 with objs := E.HitObject s1.objs a b, trace := s1.trace ++ [Event.hit a b] }
  else s1

/-- The second notification of a non-beam pair, motion.cpp:791-793: `b` hit by `a`. -/
def hitSecond (K : Consts) (E : PassEnv) (s2 : PassState) (a b : Nat) : PassState :=
  if hasAttr (s2.objs b) K.kCanBeHit && hasAttr (s2.objs a) K.kCanCollide then
    { s2 with objs := E.HitObject s2.objs b a, trace := s2.trace ++ [Event.hit b a] }
  else s2

/-- Two non-beam objects, motion.cpp:782-794: `d` is `a`, `s` is `b`. -/
def hitBoxes (K : Consts) (E : PassEnv) (s1 : PassState) (a b : Nat) : PassState :=
  if boundsOverlap (s1.objs b).absoluteBounds (s1.objs a).absoluteBounds then
    hitSecond K E (hitFirst K E s1 a b) a b
  else s1

/-- A pair with a beam, motion.cpp:796-861: `s` is the beam, `d` the other object. -/
def hitBeam (K : Consts) (E : PassEnv) (s1 : PassState) (a b : Nat) : PassState :=
  let sObject := if hasAttr (s1.objs b) K.kIsBeam then b else a
  let dObject := if hasAttr (s1.objs b) K.kIsBeam then a else b
  match (s1.objs sObject).beam with
  | none => { s1 with aborted := true }
  | some beam =>
    match beamClip K E.clipFuel (s1.objs sObject) beam.lastGlobalLocation
        (s1.objs dObject).absoluteBounds with
    | ClipOutcome.hit =>
      { s1 with objs := E.HitObject s1.objs dObject sObject,
                trace := s1.trace ++ [Event.hit dObject sObject] }
    | ClipOutcome.miss => s1
    | _ => { s1 with aborted := true }

/-- The hand-over to the separation resolver, motion.cpp:864-882. -/
def separate (K : Consts) (E : PassEnv) (s2 : PassState) (a b : Nat) : PassState :=
  if ((s2.objs b).attributes &&& (s2.objs a).attributes) &&& K.kOccupiesSpace = 0
      ∨ (s2.objs b).owner = (s2.objs a).owner then s2
  else if occupySameSpace (s2.objs b).absoluteBounds (s2.objs a).absoluteBounds then
    { s2 with objs := E.CorrectPhysicalSpace s2.objs a b,
              trace := s2.trace ++ [Event.correct a b] }
  else s2

/-- The object table when the pair body is entered for `bObject = b`: the bounds of
`b` have been brought up to date (motion.cpp:755-773). -/
def withBounds (E : PassEnv) (objs : Objs) (b : Nat) : Objs :=
  Function.update objs b (computeBounds E.SHIFT_SCALE (objs b))

/-- The part of the pair body that follows the capability and grid-coordinate test,
motion.cpp:753-882, for `aObject = a` and `bObject = b`. -/
def collidePair (K : Consts) (E : PassEnv) (s : PassState) (a b : Nat) : PassState :=
  let s1 : PassState :=
    { s with objs := withBounds E s.objs b, trace := s.trace ++ [Event.examined a b] }
  if (s1.objs a).owner = (s1.objs b).owner then s1
  else
    let s2 :=
      if ((s1.objs b).attributes ||| (s1.objs a).attributes) &&& K.kIsBeam = 0 then
        hitBoxes K E s1 a b
      else hitBeam K E s1 a b
    if s2.aborted then s2 else separate K E s2 a b

/-- The body of the loop over `bObject`, motion.cpp:744-883, with the `continue` of
746-751. -/
def nearPair (K : Consts) (E : PassEnv) (g : Grid) (a : Nat) (superx supery : Int)
    (s : PassState) (b : Nat) : PassState :=
  if s.aborted then s
  else if ((s.objs b).attributes ||| (s.objs a).attributes) &&& K.kCanCollide = 0
      ∨ ((s.objs b).attributes ||| (s.objs a).attributes) &&& K.kCanBeHit = 0
      ∨ (g.collisionGrid b).h ≠ superx
      ∨ (g.collisionGrid b).v ≠ supery then s
  else collidePair K E s a b

/-- The body of the loop over `k`, motion.cpp:720-884, for the object `a` of the cell
`i`; the state carries `currentProximity` as a cell index. -/
def nearUnit (K : Consts) (E : PassEnv) (g : Grid) (i : Int) (a : Nat)
    (st : PassState × Int) (k : Nat) : PassState × Int :=
  if st.1.aborted then st
  else if k = 0 then
    let superx := (g.collisionGrid a).h
    let supery := (g.collisionGrid a).v
    if superx < 0 ∨ supery < 0 then st
    else
      ((chainFrom g.nextNearObject E.chainFuel (g.nextNearObject a)).foldl
        (nearPair K E g a superx supery) st.1, st.2)
  else
    let u := g.unitsToCheck i k
    if u.adjacentUnit > 256 ∨ u.adjacentUnit < -256 then ({ st.1 with aborted := true }, st.2)
    else
      let currentProximity := st.2 + u.adjacentUnit
      let superx := (g.collisionGrid a).h + u.superOffset.h
      let supery := (g.collisionGrid a).v + u.superOffset.v
      if superx < 0 ∨ supery < 0 then (st.1, currentProximity)
      else
        ((chainFrom g.nextNearObject E.chainFuel (g.nearObject currentProximity)).foldl
          (nearPair K E g a superx supery) st.1, currentProximity)

/-- The body of the loop over `aObject`, motion.cpp:696-885, for the object `a` of the
cell `i`. -/
def nearObjectStep (K : Consts) (E : PassEnv) (g : Grid) (i : Int) (s : PassState) (a : Nat) :
    PassState :=
  if s.aborted then s
  else
    let s1 : PassState :=
      { s with objs := Function.update s.objs a (computeBounds E.SHIFT_SCALE (s.objs a)) }
    ((List.range kUnitsToCheckNumber).foldl (nearUnit K E g i a) (s1, i)).1

/-- The body of the loop over the cells, motion.cpp:693-886, for the cell `i`. -/
def nearCell (K : Consts) (E : PassEnv) (g : Grid) (s : PassState) (i : Nat) : PassState :=
  (chainFrom g.nextNearObject E.chainFuel (g.nearObject i)).foldl
    (nearObjectStep K E g i) s

/-- The near-grid pass, motion.cpp:693-886. -/
def nearPass (K : Consts) (E : PassEnv) (g : Grid) (objs : Objs) : PassState :=
  (List.range kProximityGridDataLength.toNat).foldl (nearCell K E g) ⟨objs, [], false⟩

/-! ## `CollideSpaceObjects`: the far-grid pass -/

/-- The test of motion.cpp:914-916 (and 917-919) on one object. -/
def canSee (K : Consts) (o : SpaceObject) : Bool :=
  hasAttr o K.kCanThink || hasAttr o K.kRemoteOrHuman || hasAttr o K.kHated

/-- The distance of motion.cpp:920-927, in 32-bit unsigned arithmetic. -/
def pairDistance (K : Consts) (a b : SpaceObject) : Int :=
  let dcalc := |b.location.h - a.location.h|
  let distance := |b.location.v - a.location.v|
  if dcalc > K.kMaximumRelevantDistance ∨ distance > K.kMaximumRelevantDistance then
    K.kMaximumRelevantDistanceSquared
  else (distance * distance + dcalc * dcalc) % 2 ^ 32

/-- The visibility and hiding updates of motion.cpp:929-940. -/
def farSeen (K : Consts) (distance : Int) (objs : Objs) (a b : Nat) : Objs :=
  if distance < K.kMaximumRelevantDistanceSquared then
    let o1 := modifyObject objs a fun A =>
      { A with seenByPlayerFlags := A.seenByPlayerFlags ||| (objs b).myPlayerFlag }
    let o2 := modifyObject o1 b fun B =>
      { B with seenByPlayerFlags := B.seenByPlayerFlags ||| (o1 a).myPlayerFlag }
    let o3 :=
      if hasAttr (o2 b) K.kHideEffect then
        modifyObject o2 a fun A => { A with runTimeFlags := A.runTimeFlags ||| K.kIsHidden }
      else o2
    if hasAttr (o3 a) K.kHideEffect then
      modifyObject o3 b fun B => { B with runTimeFlags := B.runTimeFlags ||| K.kIsHidden }
    else o3
  else objs

/-- The nearest-target update of motion.cpp:942-947 (and, with the roles exchanged,
949-954): `x` considers `y`. -/
def farClosest (K : Consts) (E : PassEnv) (distance : Int) (objs : Objs) (x y : Nat) : Objs :=
  if E.engages (objs x) (objs y) then
    if distance < (objs x).closestDistance ∧ hasAttr (objs y) K.kPotentialTarget then
      modifyObject objs x fun X => { X with closestDistance := distance, closestObject := some y }
    else objs
  else objs

/-- The two additions `b.foe += a.friend; b.friend += a.foe` of motion.cpp:956-957
and 963-964. -/
def farStrengthFoe (objs : Objs) (a b : Nat) : Objs :=
  let o1 := modifyObject objs b fun B =>
    { B with localFoeStrength := B.localFoeStrength + (objs a).localFriendStrength }
  modifyObject o1 b fun B =>
    { B with localFriendStrength := B.localFriendStrength + (o1 a).localFoeStrength }

/-- The two additions `b.foe += a.foe; b.friend += a.friend` of motion.cpp:966-967. -/
def farStrengthFriend (objs : Objs) (a b : Nat) : Objs :=
  let o1 := modifyObject objs b fun B =>
    { B with localFoeStrength := B.localFoeStrength + (objs a).localFoeStrength }
  modifyObject o1 b fun B =>
    { B with localFriendStrength := B.localFriendStrength + (o1 a).localFriendStrength }

/-- The body of the loop over `bObject` of the far pass, motion.cpp:910-970. -/
def farPair (K : Consts) (E : PassEnv) (g : Grid) (a : Nat) (k : Nat) (superx supery : Int)
    (s : PassState) (b : Nat) : PassState :=
  if (s.objs b).owner ≠ (s.objs a).owner
      ∧ (g.distanceGrid b).h = superx ∧ (g.distanceGrid b).v = supery
      ∧ canSee K (s.objs b) = true ∧ canSee K (s.objs a) = true then
    let distance := pairDistance K (s.objs a) (s.objs b)
    let o1 := farSeen K distance s.objs a b
    let o2 := farClosest K E distance o1 a b
    let o3 := farClosest K E distance o2 b a
    { s with objs := farStrengthFoe o3 a b, trace := s.trace ++ [Event.examined a b] }
  else if (g.distanceGrid b).h = superx ∧ (g.distanceGrid b).v = supery ∧ k = 0 then
    if (s.objs a).owner ≠ (s.objs b).owner then
      { s with objs := farStrengthFoe s.objs a b, trace := s.trace ++ [Event.examined a b] }
    else
      { s with objs := farStrengthFriend s.objs a b, trace := s.trace ++ [Event.examined a b] }
  else s

/-- The body of the loop over `k` of the far pass, motion.cpp:893-971. -/
def farUnit (K : Consts) (E : PassEnv) (g : Grid) (i : Int) (a : Nat)
    (st : PassState × Int) (k : Nat) : PassState × Int :=
  if k = 0 then
    let superx := (g.distanceGrid a).h
    let supery := (g.distanceGrid a).v
    if superx < 0 ∨ supery < 0 then st
    else
      ((chainFrom g.nextFarObject E.chainFuel (g.nextFarObject a)).foldl
        (farPair K E g a k superx supery) st.1, st.2)
  else
    let u := g.unitsToCheck i k
    let currentProximity := st.2 + u.adjacentUnit
    let superx := (g.distanceGrid a).h + u.superOffset.h
    let supery := (g.distanceGrid a).v + u.superOffset.v
    if superx < 0 ∨ supery < 0 then (st.1, currentProximity)
    else
      ((chainFrom g.nextFarObject E.chainFuel (g.farObject currentProximity)).foldl
        (farPair K E g a k superx supery) st.1, currentProximity)

/-- The body of the loop over `aObject` of the far pass, motion.cpp:891-972. -/
def farObjectStep (K : Consts) (E : PassEnv) (g : Grid) (i : Int) (s : PassState) (a : Nat) :
    PassState :=
  ((List.range kUnitsToCheckNumber).foldl (farUnit K E g i a) (s, i)).1

/-- The body of the loop over the cells of the far pass, for the cell `i`. -/
def farCell (K : Consts) (E : PassEnv) (g : Grid) (s : PassState) (i : Nat) : PassState :=
  (chainFrom g.nextFarObject E.chainFuel (g.farObject i)).foldl (farObjectStep K E g i) s

/-- The far-grid pass, motion.cpp:888-973. -/
def farPass (K : Consts) (E : PassEnv) (g : Grid) (objs : Objs) : PassState :=
  (List.range kProximityGridDataLength.toNat).foldl (farCell K E g) ⟨objs, [], false⟩

/-- The pairs `(a, b)` for which a trace records that the pair body was entered. -/
def examinedPairs (trace : List Event) : List (Nat × Nat) :=
  trace.filterMap fun e =>
    match e with
    | Event.examined a b => some (a, b)
    | _ => none

/-- The number of times a trace records that the pair body was entered for the
unordered pair of `x` and `y`. -/
def timesExamined (trace : List Event) (x y : Nat) : Nat :=
  (examinedPairs trace).countP fun p => (p.1 == x && p.2 == y) || (p.1 == y && p.2 == x)

/-- The calls of `HitObject` recorded in a trace, in order. -/
def hitEvents (trace : List Event) : List Event :=
  trace.filter fun e =>
    match e with
    | Event.hit _ _ => true
    | _ => false

/-- The object table when the second notification of a non-beam pair is decided
(motion.cpp:791): the table after the first notification, if there was one. -/
def afterFirstHit (K : Consts) (E : PassEnv) (objs : Objs) (a b : Nat) : Objs :=
  if hasAttr (withBounds E objs b a) K.kCanBeHit && hasAttr (withBounds E objs b b) K.kCanCollide
  then E.HitObject (withBounds E objs b) a b
  else withBounds E objs b


/-! ## Sample data for the collision pass -/

/-- The first object of the scenario of the specification: at `(1000, 1000)`, at rest,
`canCollide | canBeHit | occupiesSpace`, owner 0, sprite frame 10 by 10 centred. -/
def demoShipA : SpaceObject :=
  { demoObject with
    attributes := 0x40000 ||| 0x80000 ||| 0x1000000
    owner := some 0
    location := ⟨1000, 1000⟩
    maxVelocity := 0
    naturalScale := 4096
    sprite := some ⟨10, 10, ⟨5, 5⟩⟩ }

/-- The second object of the scenario: as the first, at `(1000, 1005)`, owner 1. -/
def demoShipB : SpaceObject :=
  { demoShipA with owner := some 1, location := ⟨1000, 1005⟩ }

/-- A beam of owner 1 that can collide, from `(1000, 900)` to `(1000, 950)`: a segment
above the box of the first object. -/
def demoBeam : SpaceObject :=
  { demoObject with
    attributes := 0x20 ||| 0x40000
    owner := some 1
    location := ⟨1000, 900⟩
    maxVelocity := 0
    beam := some ⟨⟨1000, 950⟩⟩ }

/-- An object in use with no attribute at all. -/
def demoInert : SpaceObject :=
  { demoObject with attributes := 0, location := ⟨1000, 1000⟩, maxVelocity := 0 }

/-- The object table of the scenario: handles 0 and 1 are the two ships, 2 the beam,
3 the inert object; every other slot is not in use. -/
def demoObjs : Objs := fun i =>
  if i = 0 then demoShipA
  else if i = 1 then demoShipB
  else if i = 2 then demoBeam
  else if i = 3 then demoInert
  else { demoObject with active := 0 }

/-- A pass environment whose callbacks leave the object table as it is. -/
def demoEnv : PassEnv where
  HitObject := fun objs _ _ => objs
  CorrectPhysicalSpace := fun objs _ _ => objs
  engages := fun _ _ => false
  SHIFT_SCALE := 12
  chainFuel := 4
  clipFuel := 8

/-- A grid full of stale entries: every head and every link points somewhere. -/
def staleGrid : Grid where
  nearObject := fun _ => some 7
  farObject := fun _ => some 5
  unitsToCheck := fun _ _ => ⟨0, ⟨0, 0⟩⟩
  nextNearObject := fun _ => some 3
  nextFarObject := fun _ => some 2
  collisionGrid := fun _ => ⟨9, 9⟩
  distanceGrid := fun _ => ⟨9, 9⟩

/-- A rebuild environment whose actions leave the object table as it is, without a
player ship. -/
def demoRebuildEnv : RebuildEnv where
  execExpire := fun objs _ => objs
  execActivate := fun objs _ => objs
  randomNext := fun seed _ => (0, seed)
  ship := none
  nearestFoeZoom := false

/-- The sample table with the bounds of the second ship already computed, as they are
when the loop over `bObject` starts for `aObject = 1` (the ship inserted last heads
the bucket list). -/
def demoObjsA : Objs := withBounds demoEnv demoObjs 1

/-- The sample table with the bounds of the first ship computed, as they are when the
loop over `bObject` runs for `aObject = 0`. -/
def demoObjsB : Objs := withBounds demoEnv demoObjs 0


/-! ## Invariant of the rebuild loop -/

/-- What holds of the rebuild state once the objects of `done` have been visited: the
handles inserted are a sublist of `done`; in every cell the near (resp. far) list is
the chain of the handles inserted into that cell, newest first, ending at a null
handle; every object inserted was active and grid-eligible when inserted; and the
grid coordinates stored for it are those of its location. -/
def RebuildInv (K : Consts) (s : RebuildState) (done : List Nat) : Prop :=
  (s.inserted.map fun e => e.object).Sublist done ∧
  (∀ c : Int, 0 ≤ c → c < kProximityGridDataLength →
    isChain s.grid.nextNearObject (s.grid.nearObject c) (nearBucket s.inserted c)) ∧
  (∀ c : Int, 0 ≤ c → c < kProximityGridDataLength →
    isChain s.grid.nextFarObject (s.grid.farObject c) (farBucket s.inserted c)) ∧
  (∀ e ∈ s.inserted, e.snapshot.active ≠ 0 ∧
    hasAttr e.snapshot (kConsiderDistanceAttributes K) = true) ∧
  (∀ e ∈ s.inserted, s.grid.collisionGrid e.object = collisionGridOf e.snapshot.location ∧
    s.grid.distanceGrid e.object = distanceGridOf e.snapshot.location)

/-- The rebuild state `s` with the grid replaced by `g`. -/
def withGrid (s : RebuildState) (g : Grid) : RebuildState := { s with grid := g }

/-! ## The pairs a traversal can reach -/

/-- The cell index held by `currentProximity` after the adjacency entries `1 .. k` of
the cell `i` have been added. -/
def cellAfter (table : Int → Nat → adjacentUnitType) (i : Int) : Nat → Int
  | 0 => i
  | k + 1 => cellAfter table i k + (table i (k + 1)).adjacentUnit

/-- The list the loop over `bObject` runs through for the object `a` of the cell `i`
under the adjacency entry `k`, when it is not skipped: the rest of the list of `a`
for `k = 0`, the list of the cell reached for `k > 0`. -/
def unitCandidates (head : Int → Option Nat) (next : Nat → Option Nat)
    (table : Int → Nat → adjacentUnitType) (fuel : Nat) (i : Int) (a : Nat) (k : Nat) :
    List Nat :=
  if k = 0 then chainFrom next fuel (next a)
  else chainFrom next fuel (head (cellAfter table i k))

/-- The objects `b` met for the object `a` of the cell `i`, over all adjacency
entries. -/
def objectCandidates (head : Int → Option Nat) (next : Nat → Option Nat)
    (table : Int → Nat → adjacentUnitType) (fuel : Nat) (i : Int) (a : Nat) : List Nat :=
  (List.range kUnitsToCheckNumber).flatMap (unitCandidates head next table fuel i a)

/-- The pairs `(a, b)` met for the objects of the cell `i`. -/
def cellCandidates (head : Int → Option Nat) (next : Nat → Option Nat)
    (table : Int → Nat → adjacentUnitType) (fuel : Nat) (i : Int) : List (Nat × Nat) :=
  (chainFrom next fuel (head i)).flatMap fun a =>
    (objectCandidates head next table fuel i a).map (Prod.mk a)

/-- The pairs `(a, b)` a traversal of the grid can reach, in the order of the loops. -/
def pairCandidates (head : Int → Option Nat) (next : Nat → Option Nat)
    (table : Int → Nat → adjacentUnitType) (fuel : Nat) : List (Nat × Nat) :=
  (List.range kProximityGridDataLength.toNat).flatMap fun i =>
    cellCandidates head next table fuel i

/-- The two pairs are the same unordered pair. -/
def samePair (p q : Nat × Nat) : Prop :=
  (p.1 = q.1 ∧ p.2 = q.2) ∨ (p.1 = q.2 ∧ p.2 = q.1)

/-- What the traversal needs of the adjacency table: from a cell `i` of the grid, the
four entries `1 .. 4` lead to four cells of the grid, different from `i` and from one
another, and no entry leads back from any of them to `i`. -/
def AdjacencyOK (table : Int → Nat → adjacentUnitType) : Prop :=
  ∀ i : Int, 0 ≤ i → i < kProximityGridDataLength → ∀ k ∈ [1, 2, 3, 4],
    0 ≤ cellAfter table i k ∧ cellAfter table i k < kProximityGridDataLength ∧
    cellAfter table i k ≠ i ∧
    (∀ k1 ∈ [1, 2, 3, 4], k1 ≠ k → cellAfter table i k1 ≠ cellAfter table i k) ∧
    (∀ k1 ∈ [1, 2, 3, 4], cellAfter table (cellAfter table i k) k1 ≠ i)

/-- What the traversal needs of the bucket lists: the list of every cell has no
duplicates, no object is in the lists of two cells, and the list followed from the
link of an object is what comes after that object in the list of its cell. -/
def BucketsOK (head : Int → Option Nat) (next : Nat → Option Nat) (fuel : Nat) : Prop :=
  (∀ c : Int, 0 ≤ c → c < kProximityGridDataLength → (chainFrom next fuel (head c)).Nodup) ∧
  (∀ c c1 : Int, 0 ≤ c → c < kProximityGridDataLength → 0 ≤ c1 → c1 < kProximityGridDataLength →
    ∀ x, x ∈ chainFrom next fuel (head c) → x ∈ chainFrom next fuel (head c1) → c = c1) ∧
  (∀ c : Int, 0 ≤ c → c < kProximityGridDataLength → ∀ (l1 : List Nat) (a : Nat) (l2 : List Nat),
    chainFrom next fuel (head c) = l1 ++ a :: l2 → chainFrom next fuel (next a) = l2)

/-! ## `CorrectPhysicalSpace` -/

/-- Modelled from the spec: `mDivideFixed(a, b)` (macro of `math/macros.hpp`, not part
of this tree) multiplies the dividend by the scale 256 first and then divides, with
the truncating division of C++; `none` stands for a division by zero. -/
def mDivideFixed (a b : Int) : Option Int :=
  if b = 0 then none else some (Int.tdiv (a * 256) b)

/-- Modelled from the spec: `mAddAngle(angle, d)` (macro of `math/rotation.hpp`, not
part of this tree) adds `d` to the angle and brings the sum back into one turn. -/
def mAddAngle (angle d : Int) : Int :=
  if angle + d ≥ ROT_POS then angle + d - ROT_POS
  else if angle + d < 0 then angle + d + ROT_POS
  else angle + d

/-- The relative speed of the two objects, motion.cpp:1016-1021. -/
def separationForce (X : MathExt) (aObject bObject : SpaceObject) : Int :=
  X.lsqrt
    (mMultiplyFixed (bObject.velocity.h - aObject.velocity.h)
        (bObject.velocity.h - aObject.velocity.h)
      + mMultiplyFixed (bObject.velocity.v - aObject.velocity.v)
        (bObject.velocity.v - aObject.velocity.v))

/-- The bearing from `aObject` to `bObject`, motion.cpp:1022-1037. -/
def separationAngle (X : MathExt) (aObject bObject : SpaceObject) : Int :=
  let ah := bObject.location.h - aObject.location.h
  let av := bObject.location.v - aObject.location.v
  if ah = 0 then (if av < 0 then 180 else 0)
  else
    let angle := X.AngleFromSlope (X.MyFixRatio ah av)
    let angle := if ah > 0 then angle + 180 else angle
    if angle ≥ 360 then angle - 360 else angle

/-- The mass-weighted speed term `tfix` of motion.cpp:1039-1045 (and 1057-1063) before
half the maximum velocity is added: `mass` is the base mass of the object, `force` the
relative speed and `totalMass` the sum of the two base masses. -/
def massTerm (mass force totalMass : Int) : Option Int :=
  if totalMass = 0 then some (-1)
  else mDivideFixed (mMultiplyFixed mass force) totalMass

/-- The velocity of motion.cpp:1046-1049 (and 1064-1067): `tfix` plus half the maximum
velocity of the object, along the direction `angle`. -/
def pushVelocity (X : MathExt) (o : SpaceObject) (tfix angle : Int) : Point :=
  ⟨mMultiplyFixed (tfix + (o.maxVelocity >>> (1 : Nat))) (X.GetRotPoint angle).1,
   mMultiplyFixed (tfix + (o.maxVelocity >>> (1 : Nat))) (X.GetRotPoint angle).2⟩

/-- The first half of `CorrectPhysicalSpace`, motion.cpp:1015-1070: both objects with
the velocities assigned to them; `none` when a division by zero is met. The two
objects are distinct (the caller passes objects of different owners). -/
def assignVelocities (X : MathExt) (aObject bObject : SpaceObject) :
    Option (SpaceObject × SpaceObject) :=
  let force := separationForce X aObject bObject
  let angle := separationAngle X aObject bObject
  let totalMass := aObject.mass + bObject.mass
  match massTerm aObject.mass force totalMass with
  | none => none
  | some ta =>
    match massTerm bObject.mass force totalMass with
    | none => none
    | some tb =>
      some ({ aObject with velocity := pushVelocity X aObject ta angle },
            { bObject with velocity := pushVelocity X bObject tb (mAddAngle angle 180) })

/-- The four distances from the location of an object to the sides of its box, taken
at motion.cpp:1072-1080 (`ah`, `av`, `ad`, `adir` for the first object). -/
structure BoxOffsets where
  toLeft : Int
  toTop : Int
  toRight : Int
  toBottom : Int
deriving DecidableEq, Repr

/-- The offsets of motion.cpp:1072-1080 for one object. -/
def boxOffsets (o : SpaceObject) : BoxOffsets :=
  ⟨o.location.h - o.absoluteBounds.left, o.location.v - o.absoluteBounds.top,
   o.absoluteBounds.right - o.location.h, o.absoluteBounds.bottom - o.location.v⟩

/-- The displacement of one object in one iteration of the separation loop,
motion.cpp:1090-1104 (and 1106-1120 for the second object). -/
def separationMove (o : SpaceObject) : SpaceObject :=
  let mh := o.motionFraction.h + o.velocity.h
  let mv := o.motionFraction.v + o.velocity.v
  let h :=
    if mh ≥ 0 then more_evil_fixed_to_long (mh + mFloatToFixed_half)
    else more_evil_fixed_to_long (mh - mFloatToFixed_half) + 1
  let v :=
    if mv ≥ 0 then more_evil_fixed_to_long (mv + mFloatToFixed_half)
    else more_evil_fixed_to_long (mv - mFloatToFixed_half) + 1
  { o with
    location := ⟨o.location.h - h, o.location.v - v⟩
    motionFraction := ⟨mh - mLongToFixed h, mv - mLongToFixed v⟩ }

/-- The box recomputed from the location, motion.cpp:1122-1125 (and 1127-1130). -/
def separationBounds (off : BoxOffsets) (o : SpaceObject) : SpaceObject :=
  { o with absoluteBounds :=
      ⟨o.location.h - off.toLeft, o.location.v - off.toTop,
       o.location.h + off.toRight, o.location.v + off.toBottom⟩ }

/-- How `CorrectPhysicalSpace` ends: it returns with the two objects as given, it
divides by zero, or its loop is still running when the iteration bound is used up. -/
inductive SepOutcome where
  | done (aObject bObject : SpaceObject)
  | divideByZero
  | unfinished
deriving DecidableEq

/-- The loop of motion.cpp:1085-1131. The first argument after the offsets bounds the
number of iterations. -/
def separationLoop (offA offB : BoxOffsets) : Nat → SpaceObject → SpaceObject → SepOutcome
  | 0, a, b =>
    if boundsOverlap a.absoluteBounds b.absoluteBounds then SepOutcome.unfinished
    else SepOutcome.done a b
  | fuel + 1, a, b =>
    if boundsOverlap a.absoluteBounds b.absoluteBounds then
      separationLoop offA offB fuel (separationBounds offA (separationMove a))
        (separationBounds offB (separationMove b))
    else SepOutcome.done a b

/-- `CorrectPhysicalSpace`, motion.cpp:1007-1135, on two distinct objects; `fuel`
bounds the iterations of its loop. -/
def CorrectPhysicalSpace (X : MathExt) (fuel : Nat) (aObject bObject : SpaceObject) :
    SepOutcome :=
  match assignVelocities X aObject bObject with
  | none => SepOutcome.divideByZero
  | some (a1, b1) =>
    if a1.velocity.h ≠ 0 ∨ a1.velocity.v ≠ 0 ∨ b1.velocity.h ≠ 0 ∨ b1.velocity.v ≠ 0 then
      separationLoop (boxOffsets a1) (boxOffsets b1) fuel a1 b1
    else SepOutcome.done a1 b1

/-! ## `scale_by` and `evil_scale_by` -/

/-- Modelled from the spec: `SCALE_SCALE.factor` (declared in `math/scale.hpp`, not
part of this tree), the power of two that `SHIFT_SCALE` is the exponent of. -/
def SCALE_SCALE_factor (SHIFT_SCALE : Nat) : Int := 2 ^ SHIFT_SCALE

/-- `scale_by`, scale.cpp:23, on the raw value of a `Fixed` and the factor of a
`Scale`: the product divided by `SCALE_SCALE.factor`, the division of a `Fixed` by an
integer being the truncating division of C++ on the raw value. -/
def scale_by (SHIFT_SCALE : Nat) (value factor : Int) : Int :=
  Int.tdiv (value * factor) (SCALE_SCALE_factor SHIFT_SCALE)

/-- `evil_scale_by`, scale.cpp:25 and 27: multiply, then shift right by `SHIFT_SCALE`
(declared in `math/scale.hpp`, passed in). -/
def evil_scale_by (SHIFT_SCALE : Nat) (value factor : Int) : Int :=
  (value * factor) >>> SHIFT_SCALE

/-! ## The life cycle of an object -/

/-- What the closing sweep takes from outside `motion.cpp`: `aObject->free()`
(`game/space-object.cpp`) as a function on the object, the mask `kIsCloaked`, and the
bit `1 << g.admiral.number()`. -/
structure SweepEnv where
  free : SpaceObject → SpaceObject
  kIsCloaked : Nat
  seen_by_player : Nat

/-- The state of the closing sweep: the object table and the handles on which `free()`
has been called so far, in order. -/
structure SweepState where
  objs : Objs
  freed : List Nat

/-- The update of `seenByPlayerFlags` in the closing sweep, motion.cpp:982-994. (The
reset of `tinySize` in the sprite, 990-993, concerns presentation only.) -/
def sweepSeen (K : Consts) (W : SweepEnv) (o : SpaceObject) : SpaceObject :=
  if hasAttr o (kConsiderDistanceAttributes K) && !hasAttr o K.kIsDestination then
    let seen :=
      if o.runTimeFlags &&& W.kIsCloaked ≠ 0 then 0
      else if o.runTimeFlags &&& K.kIsHidden = 0 then 0xffffffff
      else o.seenByPlayerFlags
    { o with seenByPlayerFlags := seen ||| o.myPlayerFlag }
  else o

/-- The update of the beam in the closing sweep, motion.cpp:995-997; an object flagged
as a beam without beam data is left as it is. -/
def sweepBeam (K : Consts) (o : SpaceObject) : SpaceObject :=
  if hasAttr o K.kIsBeam then
    match o.beam with
    | some _ => { o with beam := some ⟨o.location⟩ }
    | none => o
  else o

/-- The body of the closing sweep, motion.cpp:978-998, for the object `a`. -/
def sweepStep (K : Consts) (W : SweepEnv) (s : SweepState) (a : Nat) : SweepState :=
  if (s.objs a).active = K.kObjectToBeFreed then
    { objs := Function.update s.objs a (W.free (s.objs a)), freed := s.freed ++ [a] }
  else if (s.objs a).active ≠ 0 then
    { s with objs := Function.update s.objs a (sweepBeam K (sweepSeen K W (s.objs a))) }
  else s

/-- The closing sweep of `CollideSpaceObjects`, motion.cpp:975-999, over the handles
`all` of `SpaceObject::all()`. -/
def closingSweep (K : Consts) (W : SweepEnv) (objs : Objs) (all : List Nat) : SweepState :=
  all.foldl (sweepStep K W) ⟨objs, []⟩

/-- The `active` field holds one of the three states of an object: not in use (zero),
`kObjectInUse`, `kObjectToBeFreed`. -/
def validState (K : Consts) (o : SpaceObject) : Prop :=
  o.active = 0 ∨ o.active = K.kObjectInUse ∨ o.active = K.kObjectToBeFreed

/-- Between `o` and `o1` the state of the object has stayed what it was or has gone
from in use to `kObjectToBeFreed`, and it is still one of the three states. -/
def Deferred (K : Consts) (o o1 : SpaceObject) : Prop :=
  validState K o →
    validState K o1 ∧
      (o1.active = o.active ∨ (o.active = K.kObjectInUse ∧ o1.active = K.kObjectToBeFreed))

/-! ## What the radar bookkeeping of the rebuild has seen -/

/-- One evaluation of motion.cpp:613-641: the object, the `hugeDistance` computed for
it, and whether it passes the test of lines 631-633 (it is not the player's ship and,
in nearest-foe zoom, is not owned by the owner of the player's ship). -/
structure Observation where
  object : Nat
  distance : Int
  candidate : Bool
deriving DecidableEq, Repr

/-- The evaluation of motion.cpp:613-641 that the loop body of the rebuild makes for
the object `a` in the state `s`, if it makes one: the loop body is followed up to
line 612, and the distance is taken between the player's ship and `a` as they are
there. -/
def observe (K : Consts) (R : RebuildEnv) (s : RebuildState) (a : Nat) : List Observation :=
  if (s.objs a).active = 0 then []
  else if (expirePhase K R s.objs a).2 then []
  else if (periodicPhase R (expirePhase K R s.objs a).1 a).2 then []
  else
    match R.ship with
    | none => []
    | some player =>
      if ((periodicPhase R (expirePhase K R s.objs a).1 a).1 player).active ≠ 0
          ∧ hasAttr ((periodicPhase R (expirePhase K R s.objs a).1 a).1 a) K.kAppearOnRadar
            = true then
        [⟨a,
          distanceFromShip K ((periodicPhase R (expirePhase K R s.objs a).1 a).1 player)
            ((periodicPhase R (expirePhase K R s.objs a).1 a).1 a),
          decide (some a ≠ R.ship
            ∧ (R.nearestFoeZoom = false
              ∨ ((periodicPhase R (expirePhase K R s.objs a).1 a).1 a).owner
                ≠ ((periodicPhase R (expirePhase K R s.objs a).1 a).1 player).owner))⟩]
      else []

/-- The evaluations of motion.cpp:613-641 made by the rebuild loop over the objects
`order` from the state `s`, in the order of the loop. -/
def radarObservations (K : Consts) (R : RebuildEnv) : RebuildState → List Nat → List Observation
  | _, [] => []
  | s, a :: rest => observe K R s a ++ radarObservations K R (rebuildStep K R s a) rest

/-! ## Nearest-target bookkeeping of the far pass -/

/-- Between `o` and `o1` the nearest-target record has not got farther, and it has
stayed the same target unless it has got strictly nearer. -/
def closestKept (o o1 : SpaceObject) : Prop :=
  o1.closestDistance ≤ o.closestDistance ∧
    (o1.closestDistance = o.closestDistance → o1.closestObject = o.closestObject)

/-! ## Sample data for the separation resolver and the radar -/

/-- The integer square root of `n`, found by search. -/
def searchSqrt (n : Nat) : Nat :=
  (List.range (n + 1)).foldl (fun r k => if k * k ≤ n then k else r) 0

/-- Numeric helpers for evaluating `CorrectPhysicalSpace` on two objects one above the
other: a rotation table with the unit vectors of the angles 0 and 180 (scale 256),
and the integer square root. -/
def demoRot : MathExt where
  GetRotPoint := fun angle =>
    if angle = 0 then (0, 256) else if angle = 180 then (0, -256) else (0, 0)
  MyFixRatio := fun _ _ => 0
  AngleFromSlope := fun _ => 0
  lsqrt := fun x => (searchSqrt (Int.toNat x) : Nat)

/-- Two overlapping objects at rest, of mass 1 and maximum velocity 2.0, the second
five units below the first. -/
def demoRestA : SpaceObject :=
  { demoObject with
    location := ⟨1000, 1000⟩, absoluteBounds := ⟨995, 995, 1005, 1005⟩, mass := 1,
    owner := some 0 }

/-- The second object of the pair at rest. -/
def demoRestB : SpaceObject :=
  { demoObject with
    location := ⟨1000, 1005⟩, absoluteBounds := ⟨995, 1000, 1005, 1010⟩, mass := 1,
    owner := some 1 }

/-- Two overlapping objects of mass 1 that cannot move (maximum velocity 0). -/
def demoFixedA : SpaceObject := { demoRestA with maxVelocity := 0 }

/-- The second object of the pair that cannot move. -/
def demoFixedB : SpaceObject := { demoRestB with maxVelocity := 0 }

/-- Two objects of mass 0 in the same place with the same box, the first with a
maximum velocity of 4 raw units, the second with none. -/
def demoStuckA : SpaceObject :=
  { demoObject with
    location := ⟨1000, 1000⟩, absoluteBounds := ⟨995, 995, 1005, 1005⟩, mass := 0,
    maxVelocity := 4, owner := some 0 }

/-- The second object of the pair of mass 0. -/
def demoStuckB : SpaceObject :=
  { demoStuckA with maxVelocity := 0, owner := some 1 }

/-- A rebuild environment with the object 1 as the player's ship. -/
def demoRadarEnv : RebuildEnv :=
  { demoRebuildEnv with ship := some 1 }

/-- An object table in which only the player's ship (handle 1) is in use; it appears on
radar. -/
def demoRadarObjs : Objs := fun i =>
  if i = 1 then { demoShipA with attributes := 0x20000000 ||| 0x40000 }
  else { demoObject with active := 0 }

/-- Two objects of different owners that see each other, three units apart, with
friend strengths 5 and 7. -/
def demoStrengthObjs : Objs := fun i =>
  if i = 0 then
    { demoShipA with attributes := 0x9800 ||| 0x40000, localFriendStrength := 5,
                     myPlayerFlag := 1 }
  else if i = 1 then
    { demoShipB with attributes := 0x9800 ||| 0x40000, location := ⟨1000, 1003⟩,
                     localFriendStrength := 7, myPlayerFlag := 2 }
  else { demoObject with active := 0 }

/-- A grid in which every object has the far-grid coordinate `(0, 0)`. -/
def demoFarGrid : Grid := { staleGrid with distanceGrid := fun _ => ⟨0, 0⟩ }

/-- A sweep environment whose `free()` marks the object as not in use. -/
def demoSweep : SweepEnv where
  free := fun o => { o with active := 0 }
  kIsCloaked := 0x8
  seen_by_player := 1

/-- The drifting sample object with `kDoesBounce`, on the left edge of the world. -/
def demoBouncer : SpaceObject :=
  { demoDrifter with attributes := 0x40, location := ⟨1073610755, 1073741823⟩ }

/-- The segment from `s` to `e` crosses the box: its endpoints lie on opposite sides of
the box on one axis (one before the first column or row of the box, the other past the
last one) and both within the box on the other axis. -/
def segmentCrosses (bounds : Rect) (s e : Point) : Prop :=
  (((s.h < bounds.left ∧ e.h > bounds.right - 1) ∨ (e.h < bounds.left ∧ s.h > bounds.right - 1))
    ∧ bounds.top ≤ s.v ∧ s.v ≤ bounds.bottom - 1 ∧ bounds.top ≤ e.v ∧ e.v ≤ bounds.bottom - 1)
  ∨ (((s.v < bounds.top ∧ e.v > bounds.bottom - 1) ∨ (e.v < bounds.top ∧ s.v > bounds.bottom - 1))
    ∧ bounds.left ≤ s.h ∧ s.h ≤ bounds.right - 1 ∧ bounds.left ≤ e.h ∧ e.h ≤ bounds.right - 1)

instance (bounds : Rect) (s e : Point) : Decidable (segmentCrosses bounds s e) := by
  unfold segmentCrosses
  infer_instance

/-- The first ship with its box computed, and at handle 2 a beam of owner 1 from
`(1000, 900)` to `(1000, 1100)`, straight through the box of the ship. -/
def demoCrossObjs : Objs := fun i =>
  if i = 0 then { demoShipA with absoluteBounds := ⟨995, 995, 1005, 1005⟩ }
  else if i = 2 then { demoBeam with beam := some ⟨⟨1000, 1100⟩⟩ }
  else { demoObject with active := 0 }

/-- The first ship with its box computed, and at handle 2 a beam of owner 1 that is
marked for removal, with both end points inside the box of the ship. -/
def demoFreedObjs : Objs := fun i =>
  if i = 0 then { demoShipA with absoluteBounds := ⟨995, 995, 1005, 1005⟩ }
  else if i = 2 then
    { demoBeam with active := 2, location := ⟨1000, 1000⟩, beam := some ⟨⟨1001, 1001⟩⟩ }
  else { demoObject with active := 0 }

/-- Two objects 46340 units apart on both axes. -/
def demoFarA : SpaceObject := { demoObject with location := ⟨0, 0⟩ }

/-- The second of the two objects 46340 units apart on both axes. -/
def demoFarB : SpaceObject := { demoObject with location := ⟨46340, 46340⟩ }

/-- The locations of the two objects with which `CorrectPhysicalSpace` returns. -/
def SepOutcome.locations : SepOutcome → Option (Point × Point)
  | SepOutcome.done a b => some (a.location, b.location)
  | _ => none

/-- The four records of the radar bookkeeping: `g.closest`, `closestDist`,
`g.farthest`, `farthestDist`. -/
structure RadarRecord where
  closest : Option Nat
  closestDist : Int
  farthest : Option Nat
  farthestDist : Int
deriving DecidableEq

/-- The radar records of a rebuild state. -/
def radarRecord (s : RebuildState) : RadarRecord :=
  ⟨s.closest, s.closestDist, s.farthest, s.farthestDist⟩

/-- The update of the closest record by motion.cpp:630-637 for one evaluation. -/
def recordClosest (r : RadarRecord) (x : Observation) : RadarRecord :=
  if r.closestDist > x.distance ∧ x.candidate = true then
    { r with closestDist := x.distance, closest := some x.object }
  else r

/-- The update of the farthest record by motion.cpp:638-641 for one evaluation. -/
def recordFarthest (r : RadarRecord) (x : Observation) : RadarRecord :=
  if x.distance > r.farthestDist then
    { r with farthestDist := x.distance, farthest := some x.object }
  else r

/-- The update of the radar records by motion.cpp:630-641 for one evaluation. -/
def recordObservation (r : RadarRecord) (x : Observation) : RadarRecord :=
  recordFarthest (recordClosest r x) x

/-- An object table with the player's ship at handle 1 and two objects that appear on
radar, at handles 0 and 2, both three units away from it. -/
def demoRadarPair : Objs := fun i =>
  if i = 0 then
    { demoShipA with attributes := 0x20000000 ||| 0x40000, location := ⟨1000, 1003⟩,
                     owner := some 1 }
  else if i = 1 then { demoShipA with attributes := 0x20000000 ||| 0x40000 }
  else if i = 2 then
    { demoShipA with attributes := 0x20000000 ||| 0x40000, location := ⟨1003, 1000⟩,
                     owner := some 1 }
  else { demoObject with active := 0 }

/-! ## The thrust computation, in parts -/

/-- The goal delta `(fa, fb)` and the thrust `useThrust` of motion.cpp:191-222, for an
object whose `thrust` is not zero. -/
def thrustGoal (K : Consts) (X : MathExt) (o : SpaceObject) : Int × Int × Int :=
  if o.thrust > 0 then
    let r := X.GetRotPoint o.direction
    let s : Int × Int :=
      if o.presenceState = K.kWarpingPresence then
        (mMultiplyFixed r.1 o.presence_warping, mMultiplyFixed r.2 o.presence_warping)
      else if o.presenceState = K.kWarpOutPresence then
        (mMultiplyFixed r.1 o.presence_warp_out, mMultiplyFixed r.2 o.presence_warp_out)
      else
        (mMultiplyFixed o.maxVelocity r.1, mMultiplyFixed o.maxVelocity r.2)
    (s.1 - o.velocity.h, s.2 - o.velocity.v, o.thrust)
  else
    (-o.velocity.h, -o.velocity.v, -o.thrust)

/-- The per-axis thrust limits `(fh, fv)` of motion.cpp:224-245 for the goal delta
`(fa, fb)` and the thrust `useThrust`. -/
def thrustLimit (X : MathExt) (fa fb useThrust : Int) : Int × Int :=
  (mMultiplyFixed useThrust (X.GetRotPoint (thrustAngle X fa fb)).1,
   mMultiplyFixed useThrust (X.GetRotPoint (thrustAngle X fa fb)).2)

/-- An object braking (negative thrust) with the velocity `(1, -1000)`: the goal delta
is `(-1, 1000)`, almost straight along the `v` axis. -/
def demoBraking : SpaceObject :=
  { demoObject with thrust := -256, velocity := ⟨1, -1000⟩ }

/-- The sample object able to turn, with a direction far outside one turn and a turn
velocity of 1.5 degrees a unit. -/
def demoTurner : SpaceObject :=
  { demoObject with attributes := 0x1, direction := -1000, turnVelocity := 384 }

/-- An object with a sprite frame 10 by 6 centred at `(5, 3)` whose box has been
invalidated. -/
def demoSprite : SpaceObject :=
  { demoObject with location := ⟨1000, 1000⟩, sprite := some ⟨10, 6, ⟨5, 3⟩⟩,
                    absoluteBounds := ⟨0, 7, 0, 9⟩, attributes := 0x40000 }

/-- An object with the four fields `CorrectPhysicalSpace` writes (velocity,
motionFraction, location, absoluteBounds) blanked: two objects with the same image
differ in those fields at most. -/
def motionErased (o : SpaceObject) : SpaceObject :=
  { o with velocity := ⟨0, 0⟩, motionFraction := ⟨0, 0⟩, location := ⟨0, 0⟩,
           absoluteBounds := ⟨0, 0, 0, 0⟩ }

/-- The first object of the pair at rest as `CorrectPhysicalSpace` returns it. -/
def demoApartA : SpaceObject :=
  { demoRestA with
    velocity := ⟨0, 256⟩, location := ⟨1000, 997⟩, absoluteBounds := ⟨995, 992, 1005, 1002⟩ }

/-- The second object of the pair at rest as `CorrectPhysicalSpace` returns it. -/
def demoApartB : SpaceObject :=
  { demoRestB with
    velocity := ⟨0, -256⟩, location := ⟨1000, 1008⟩,
    absoluteBounds := ⟨995, 1003, 1005, 1013⟩ }

/-! ## The hand-over to `CorrectPhysicalSpace`, in parts -/

/-- The state of the pass when the pair body for `aObject = a` and `bObject = b`
reaches motion.cpp:864: the bounds of `b` are up to date, the pair is recorded as
examined and, unless the owners are equal (the `continue` of motion.cpp:777), the hit
stage of motion.cpp:779-862 has run. -/
def hitStage (K : Consts) (E : PassEnv) (s : PassState) (a b : Nat) : PassState :=
  let s1 : PassState :=
    { s with objs := withBounds E s.objs b, trace := s.trace ++ [Event.examined a b] }
  if (s1.objs a).owner = (s1.objs b).owner then s1
  else if ((s1.objs b).attributes ||| (s1.objs a).attributes) &&& K.kIsBeam = 0 then
    hitBoxes K E s1 a b
  else hitBeam K E s1 a b

/-- The calls of `CorrectPhysicalSpace` recorded in a trace, in order. -/
def correctEvents (trace : List Event) : List Event :=
  trace.filter fun e =>
    match e with
    | Event.correct _ _ => true
    | _ => false

/-! ## The clipping loop: outcodes and progress -/

/-- The two outcodes are those of the two end points. The loop of a beam that is not
being freed is entered in such a state (motion.cpp:809-810), and every iteration
recomputes the code of the end point it moves. -/
def codesCurrent (bounds : Rect) (c : ClipState) : Prop :=
  c.cs = mClipCode c.xs c.ys bounds ∧ c.ce = mClipCode c.xe c.ye bounds

instance (bounds : Rect) (c : ClipState) : Decidable (codesCurrent bounds c) := by
  unfold codesCurrent
  infer_instance

/-- The length of the segment still to be clipped, `|xe - xs| + |ye - ys|`. -/
def clipMeasure (c : ClipState) : Nat :=
  (c.xe - c.xs).natAbs + (c.ye - c.ys).natAbs

/-! ## `MoveSpaceObjects`: beams -/

/-- What the beam branch of `MoveSpaceObjects` takes from outside this tree: the four
values of `beamKindType` it names and the attribute mask `kIsSelfAnimated` (declared in
`data/space-object.hpp`), and the frame-counter update of a self-animated object
(motion.cpp:337-384), taken as a function on the object table. -/
structure BeamEnv where
  eStaticObjectToObjectKind : Int
  eStaticObjectToRelativeCoordKind : Int
  eBoltObjectToObjectKind : Int
  eBoltObjectToRelativeCoordKind : Int
  kIsSelfAnimated : Nat
  animate : Objs → Nat → Objs

/-- The fields of `frame.beam` that motion.cpp:385-458 reads or writes apart from
`lastGlobalLocation`. -/
structure BeamLinks where
  beamKind : Int
  toObject : Option Nat
  toObjectID : Int
  fromObject : Option Nat
  fromObjectID : Int
  toRelativeCoord : Point
  objectLocation : Point
  lastApparentLocation : Point
deriving DecidableEq

/-- What the beam branch works on: the object table, the field `id` of every object
and the links of the beam data of every object. -/
structure BeamTable where
  objs : Objs
  id : Nat → Int
  links : Nat → BeamLinks

/-- The test `(target->active) && (target->id == storedID)`, motion.cpp:397-398,
413-414 and 434-435. -/
def targetValid (t : BeamTable) (target : Nat) (storedID : Int) : Bool :=
  (t.objs target).active != 0 && t.id target == storedID

/-- The write `frame.beam->lastGlobalLocation = p`. -/
def setLastGlobalLocation (p : Point) (o : SpaceObject) : SpaceObject :=
  { o with beam := o.beam.map fun b => { b with lastGlobalLocation := p } }

/-- The write `anObject->active = kObjectToBeFreed` through the handle `a`. -/
def markBeam (K : Consts) (t : BeamTable) (a : Nat) : BeamTable :=
  { t with objs := modifyObject t.objs a (fun o => { o with active := K.kObjectToBeFreed }) }

/-- The to-target of an object-to-object beam, motion.cpp:393-408. -/
def anchorTo (K : Consts) (t : BeamTable) (a : Nat) : BeamTable :=
  match (t.links a).toObject with
  | none => t
  | some target =>
    if targetValid t target (t.links a).toObjectID then
      { t with
        objs := modifyObject t.objs a (fun o => { o with location := (t.objs target).location })
        links := (Function.update t.links a
          { t.links a with objectLocation := (t.objs target).location }) }
    else markBeam K t a

/-- The from-target of an object-to-object beam, motion.cpp:410-424. -/
def anchorFrom (K : Consts) (t : BeamTable) (a : Nat) : BeamTable :=
  match (t.links a).fromObject with
  | none => t
  | some target =>
    if targetValid t target (t.links a).fromObjectID then
      { t with
        objs := modifyObject t.objs a (setLastGlobalLocation (t.objs target).location)
        links := (Function.update t.links a
          { t.links a with lastApparentLocation := (t.objs target).location }) }
    else markBeam K t a

/-- The from-target of an object-to-relative-coordinate beam, motion.cpp:429-453. -/
def anchorRelative (K : Consts) (t : BeamTable) (a : Nat) : BeamTable :=
  match (t.links a).fromObject with
  | none => t
  | some target =>
    if targetValid t target (t.links a).fromObjectID then
      { t with
        objs := modifyObject t.objs a (fun o =>
          { setLastGlobalLocation (t.objs target).location o with
            location := ⟨(t.objs target).location.h + (t.links a).toRelativeCoord.h,
                         (t.objs target).location.v + (t.links a).toRelativeCoord.v⟩ })
        links := (Function.update t.links a
          { t.links a with
            lastApparentLocation := (t.objs target).location
            objectLocation := ⟨(t.objs target).location.h + (t.links a).toRelativeCoord.h,
                               (t.objs target).location.v + (t.links a).toRelativeCoord.v⟩ }) }
    else markBeam K t a

/-- The beam branch, motion.cpp:385-458, for the object `a`; `none` stands for the
exception thrown when the beam data is missing. -/
def beamPhase (K : Consts) (B : BeamEnv) (t : BeamTable) (a : Nat) : Option BeamTable :=
  match (t.objs a).beam with
  | none => none
  | some _ =>
    let t1 : BeamTable :=
      { t with links := (Function.update t.links a
          { t.links a with objectLocation := (t.objs a).location }) }
    if (t1.links a).beamKind = B.eStaticObjectToObjectKind
        ∨ (t1.links a).beamKind = B.eBoltObjectToObjectKind then
      some (anchorFrom K (anchorTo K t1 a) a)
    else if (t1.links a).beamKind = B.eStaticObjectToRelativeCoordKind
        ∨ (t1.links a).beamKind = B.eBoltObjectToRelativeCoordKind then
      some (anchorRelative K t1 a)
    else some t1

/-- The body of the object loop of `MoveSpaceObjects` for one sub-tick unit and the
object `a`, motion.cpp:163-459: motion and boundary policy, then the frame counter of
a self-animated object or the targets of a beam. (The update of `gGlobalCorner` for
the player ship, 293-297, writes no object.) -/
def moveUnit (K : Consts) (X : MathExt) (B : BeamEnv) (t : BeamTable) (a : Nat) :
    Option BeamTable :=
  if (t.objs a).active = K.kObjectInUse then
    let t1 : BeamTable :=
      { t with objs := modifyObject t.objs a (fun o => boundsPhase K (motionPhase K X o)) }
    if hasAttr (t1.objs a) B.kIsSelfAnimated then some { t1 with objs := B.animate t1.objs a }
    else if hasAttr (t1.objs a) K.kIsBeam then beamPhase K B t1 a
    else some t1
  else some t

/-- Sample values for the beam branch; the animation leaves the table as it is. -/
def demoBeamEnv : BeamEnv where
  eStaticObjectToObjectKind := 1
  eStaticObjectToRelativeCoordKind := 2
  eBoltObjectToObjectKind := 3
  eBoltObjectToRelativeCoordKind := 4
  kIsSelfAnimated := 0x80
  animate := fun objs _ => objs

/-- Sample links: a static object-to-object beam from the object 2 to the object 1. -/
def demoLinks : BeamLinks :=
  ⟨1, some 1, 71, some 2, 72, ⟨0, 0⟩, ⟨0, 0⟩, ⟨0, 0⟩⟩

/-- A table with a beam at handle 0, at rest in the middle of the world, and its two
targets: the object 1 at `(1073741900, 1073741800)` and the object 2 at
`(1073741700, 1073741600)`, with the ids 71 and 72 the beam has stored. -/
def demoBeamTable : BeamTable where
  objs := fun i =>
    if i = 0 then { demoObject with attributes := 0x20, maxVelocity := 0,
                                    beam := some ⟨⟨0, 0⟩⟩ }
    else if i = 1 then { demoObject with location := ⟨1073741900, 1073741800⟩ }
    else if i = 2 then { demoObject with location := ⟨1073741700, 1073741600⟩ }
    else { demoObject with active := 0 }
  id := fun i => 70 + i
  links := fun _ => demoLinks

/-- The same table with the beam outside the world at `(0, 0)` and without a
from-target: its to-target, the object 1, is in use and has the stored id. -/
def demoStrayBeamTable : BeamTable where
  objs := fun i =>
    if i = 0 then { demoObject with attributes := 0x20, maxVelocity := 0, location := ⟨0, 0⟩,
                                    beam := some ⟨⟨0, 0⟩⟩ }
    else demoBeamTable.objs i
  id := demoBeamTable.id
  links := fun _ => { demoLinks with fromObject := none }

/-- A target handle that is not null and fails the test of `targetValid`: the object
it names is not active or has another id than the stored one. -/
def targetLost (t : BeamTable) (target : Option Nat) (storedID : Int) : Bool :=
  match target with
  | none => false
  | some x => !targetValid t x storedID

/-! ## The pairs the near pass matches -/

/-- The full near-cell coordinates of a location: `location >> 7` on each axis. -/
def nearCoord (loc : Point) : Point :=
  ⟨loc.h >>> kCollisionUnitBitShift, loc.v >>> kCollisionUnitBitShift⟩

/-- The coordinates `(superx, supery)` the near pass expects of `bObject` for the
object `a` of the cell `i` under the adjacency entry `k`, motion.cpp:722-733. -/
def expectedSuper (g : Grid) (i : Int) (a k : Nat) : Point :=
  if k = 0 then g.collisionGrid a
  else ⟨(g.collisionGrid a).h + (g.unitsToCheck i k).superOffset.h,
        (g.collisionGrid a).v + (g.unitsToCheck i k).superOffset.v⟩

/-- The objects `b` of the list the loop over `bObject` runs through, for the object
`a` of the cell `i` under the adjacency entry `k`, whose stored `collisionGrid`
coordinates equal the expected ones (the second half of the test of motion.cpp:746-751);
none when the entry is skipped because an expected coordinate is negative
(motion.cpp:735-738). -/
def unitMatches (g : Grid) (fuel : Nat) (i : Int) (a k : Nat) : List Nat :=
  if (expectedSuper g i a k).h < 0 ∨ (expectedSuper g i a k).v < 0 then []
  else
    (unitCandidates g.nearObject g.nextNearObject g.unitsToCheck fuel i a k).filter
      fun b => decide (g.collisionGrid b = expectedSuper g i a k)

/-- The objects `b` matched for the object `a` of the cell `i`, over all adjacency
entries. -/
def objectMatches (g : Grid) (fuel : Nat) (i : Int) (a : Nat) : List Nat :=
  (List.range kUnitsToCheckNumber).flatMap (unitMatches g fuel i a)

/-- The pairs `(a, b)` matched for the objects of the cell `i`. -/
def cellMatches (g : Grid) (fuel : Nat) (i : Int) : List (Nat × Nat) :=
  (chainFrom g.nextNearObject fuel (g.nearObject i)).flatMap fun a =>
    (objectMatches g fuel i a).map (Prod.mk a)

/-- The pairs `(a, b)` the loops of the near pass reach with the grid-coordinate match
satisfied, in the order of the loops. -/
def pairMatches (g : Grid) (fuel : Nat) : List (Nat × Nat) :=
  (List.range kProximityGridDataLength.toNat).flatMap fun i => cellMatches g fuel i

/-- The number of times the loops of the near pass reach the unordered pair of `x`
and `y` with the grid-coordinate match satisfied. -/
def timesMatched (g : Grid) (fuel : Nat) (x y : Nat) : Nat :=
  (pairMatches g fuel).countP fun p => (p.1 == x && p.2 == y) || (p.1 == y && p.2 == x)

/-! ## `MoveSpaceObjects`: the whole body of the first loop -/

/-- The animation data that motion.cpp:337-384 reads and writes: the fields
`thisShape`, `frameDirection` and `frameSpeed` of `anObject->frame.animation`, and the
fields `frameSpeed`, `firstShape` and `lastShape` of `baseObject->frame.animation`,
which these lines only read. -/
structure Animation where
  thisShape : Int
  frameDirection : Int
  frameSpeed : Int
  baseFrameSpeed : Int
  firstShape : Int
  lastShape : Int
deriving DecidableEq

/-- The variables of the two loops of motion.cpp:345-382: `thisShape`, whether
`anObject->active = kObjectToBeFreed` has been executed, and the flag `i`. -/
structure AnimationLoop where
  thisShape : Int
  marked : Bool
  i : Bool
deriving DecidableEq

/-- What the first loop of `MoveSpaceObjects` takes from outside this tree besides
`Consts` and `BeamEnv`: the attribute mask `kAnimationCycle`; and the bound on the
iterations of a loop of the animation branch. -/
structure MoveEnv where
  kAnimationCycle : Nat
  animationFuel : Nat

/-- The state the first loop of `MoveSpaceObjects` works on: the object table, the
field `id` and the beam links of every object (as in `BeamTable`), the animation
data of every object, and whether the function has stopped short: the exception of
motion.cpp:456 has been thrown, or a loop of the animation branch was still running
when the iteration bound was used up. -/
structure MoveState where
  objs : Objs
  id : Nat → Int
  links : Nat → BeamLinks
  animation : Nat → Animation
  stopped : Bool

/-- The loop of motion.cpp:345-362, run when the frame counter has passed the last
shape going forward; `cycle` is `attributes & kAnimationCycle`. `none` when the loop is
still running after the number of iterations given. -/
def animateForward (cycle : Bool) (A : Animation) : Nat → AnimationLoop → Option AnimationLoop
  | fuel, s =>
    if s.thisShape > A.lastShape ∧ A.frameDirection > 0 ∧ s.i = true then
      match fuel with
      | 0 => none
      | fuel + 1 =>
        if cycle then
          animateForward cycle A fuel
            { s with thisShape := s.thisShape - ((A.lastShape - A.firstShape) + 1) }
        else animateForward cycle A fuel ⟨A.lastShape, true, false⟩
    else some s

/-- The loop of motion.cpp:364-382, run when the frame counter has passed the first
shape going backward. -/
def animateBackward (cycle : Bool) (A : Animation) : Nat → AnimationLoop → Option AnimationLoop
  | fuel, s =>
    if s.thisShape < A.firstShape ∧ A.frameDirection < 0 ∧ s.i = true then
      match fuel with
      | 0 => none
      | fuel + 1 =>
        if cycle then
          animateBackward cycle A fuel
            { s with thisShape := s.thisShape + ((A.lastShape - A.firstShape) + 1) }
        else animateBackward cycle A fuel ⟨A.lastShape, true, false⟩
    else some s

/-- The animation branch, motion.cpp:337-384, for the object `a`. -/
def animatePhase (K : Consts) (M : MoveEnv) (s : MoveState) (a : Nat) : MoveState :=
  if (s.animation a).baseFrameSpeed ≠ 0 then
    match animateForward (hasAttr (s.objs a) M.kAnimationCycle) (s.animation a) M.animationFuel
        ⟨(s.animation a).thisShape + (s.animation a).frameDirection * (s.animation a).frameSpeed,
         false, true⟩ with
    | none => { s with stopped := true }
    | some s1 =>
      match animateBackward (hasAttr (s.objs a) M.kAnimationCycle) (s.animation a)
          M.animationFuel s1 with
      | none => { s with stopped := true }
      | some s2 =>
        { s with
          animation := (Function.update s.animation a
            { s.animation a with thisShape := s2.thisShape })
          objs := (if s2.marked then
              modifyObject s.objs a (fun o => { o with active := K.kObjectToBeFreed })
            else s.objs) }
  else s

/-- The body of the first loop of `MoveSpaceObjects` for one sub-tick unit and the
object `a`, motion.cpp:163-459, in full: motion and boundary policy (165-333), then
the animation branch (337-384) or else the beam branch (385-458, `beamPhase`). Of
`BeamEnv` the beam kinds and the mask `kIsSelfAnimated` are used; the animation is the
code of `animatePhase`, not a function passed in. (The update of `gGlobalCorner` for
the player ship, 293-297, writes no object.) -/
def moveSpaceObject (K : Consts) (X : MathExt) (B : BeamEnv) (M : MoveEnv) (s : MoveState)
    (a : Nat) : MoveState :=
  if (s.objs a).active = K.kObjectInUse then
    if hasAttr (boundsPhase K (motionPhase K X (s.objs a))) B.kIsSelfAnimated then
      animatePhase K M
        { s with objs := (modifyObject s.objs a (fun o => boundsPhase K (motionPhase K X o))) } a
    else if hasAttr (boundsPhase K (motionPhase K X (s.objs a))) K.kIsBeam then
      match beamPhase K B
          ⟨modifyObject s.objs a (fun o => boundsPhase K (motionPhase K X o)), s.id, s.links⟩ a with
      | none =>
        { s with
          objs := (modifyObject s.objs a (fun o => boundsPhase K (motionPhase K X o)))
          stopped := true }
      | some t => { s with objs := t.objs, links := t.links }
    else { s with objs := (modifyObject s.objs a (fun o => boundsPhase K (motionPhase K X o))) }
  else s

/-- One pass of the first loop of `MoveSpaceObjects` over the objects `order` of the
list that starts at `g.root`, motion.cpp:162-460; nothing runs once the function has
stopped short. -/
def moveObjects (K : Consts) (X : MathExt) (B : BeamEnv) (M : MoveEnv) (order : List Nat)
    (s : MoveState) : MoveState :=
  order.foldl (fun s a => if s.stopped then s else moveSpaceObject K X B M s a) s

/-- The first loop of `MoveSpaceObjects`, motion.cpp:158-461: `unitsToDo` passes over
the objects (none when `unitsToDo` is zero or negative). -/
def moveUnits (K : Consts) (X : MathExt) (B : BeamEnv) (M : MoveEnv) (unitsToDo : Int)
    (order : List Nat) (s : MoveState) : MoveState :=
  (List.range unitsToDo.toNat).foldl (fun s _ => moveObjects K X B M order s) s

/-! ## `CorrectPhysicalSpace` in the near pass -/

/-- The call `CorrectPhysicalSpace(aObject, bObject)` of motion.cpp:881 on the object
table, for two distinct handles (the near pass calls it on objects of different
owners): the two objects are replaced by those the function returns. When the
function does not return (a division by zero, or its loop still running when the
iteration bound is used up) the pass does not go on; the table is then given as it
was. -/
def correctInTable (X : MathExt) (fuel : Nat) (objs : Objs) (a b : Nat) : Objs :=
  match CorrectPhysicalSpace X fuel (objs a) (objs b) with
  | SepOutcome.done a1 b1 => Function.update (Function.update objs a a1) b b1
  | _ => objs

/-- A pass environment whose `CorrectPhysicalSpace` is the function of motion.cpp. -/
def withResolver (E : PassEnv) (X : MathExt) (fuel : Nat) : PassEnv :=
  { E with CorrectPhysicalSpace := correctInTable X fuel }

/-! ## Sample data for the whole unit -/

/-- Sample values: the mask `kAnimationCycle` and a bound of 8 iterations. -/
def demoMoveEnv : MoveEnv where
  kAnimationCycle := 0x2000000
  animationFuel := 8

/-- An animation of the shapes 0 to 3 (scale 256) at shape 3, one shape a unit
forward. -/
def demoAnimation : Animation :=
  ⟨768, 1, 256, 256, 0, 768⟩

/-- A table with a bouncing beam at handle 0, in the middle of the world, and its
to-target, the object 1, one unit to the left of the world at
`(1073610754, 1073741823)`, in use and with the id the beam has stored. -/
def demoBouncingBeam : MoveState where
  objs := fun i =>
    if i = 0 then { demoObject with attributes := 0x20 ||| 0x40, maxVelocity := 0,
                                    beam := some ⟨⟨0, 0⟩⟩ }
    else if i = 1 then { demoObject with location := ⟨1073610754, 1073741823⟩ }
    else { demoObject with active := 0 }
  id := fun i => 70 + i
  links := fun _ => { demoLinks with fromObject := none }
  animation := fun _ => demoAnimation
  stopped := false

/-- A table with a self-animated object at handle 0 that bounces, drifts past the left
edge of the world and shows its last shape, without `kAnimationCycle`. -/
def demoAnimated : MoveState where
  objs := fun i =>
    if i = 0 then { demoBouncer with attributes := 0x40 ||| 0x80 }
    else { demoObject with active := 0 }
  id := fun i => 70 + i
  links := fun _ => demoLinks
  animation := fun _ => demoAnimation
  stopped := false

/-! ## What the far pass considers -/

/-- One evaluation of motion.cpp:942-947 (or, with the roles exchanged, 949-954): the
object `subject` considers the object `candidate` at the distance `distance`;
`accepted` tells whether the tests other than the comparison of the distances pass
(`subject` engages `candidate`, and `candidate` has `kPotentialTarget`). -/
structure Consideration where
  subject : Nat
  candidate : Nat
  distance : Int
  accepted : Bool
deriving DecidableEq

/-- The entries a loop writes to a log: those of each step, made in the state in which
the step starts, in the order of the steps. -/
def foldlLog {σ α β : Type} (f : σ → α → σ) (log : σ → α → List β) : List α → σ → List β
  | [], _ => []
  | x :: xs, s => log s x ++ foldlLog f log xs (f s x)

/-- The evaluations of motion.cpp:942-954 that the body of the loop over `bObject`
makes for `aObject = a` and `bObject = b` in the state `s`: `a` considers `b`, then
`b` considers `a`. -/
def farPairLog (K : Consts) (E : PassEnv) (g : Grid) (a : Nat) (superx supery : Int)
    (s : PassState) (b : Nat) : List Consideration :=
  if (s.objs b).owner ≠ (s.objs a).owner
      ∧ (g.distanceGrid b).h = superx ∧ (g.distanceGrid b).v = supery
      ∧ canSee K (s.objs b) = true ∧ canSee K (s.objs a) = true then
    let distance := pairDistance K (s.objs a) (s.objs b)
    let o1 := farSeen K distance s.objs a b
    let o2 := farClosest K E distance o1 a b
    [⟨a, b, distance, E.engages (o1 a) (o1 b) && hasAttr (o1 b) K.kPotentialTarget⟩,
     ⟨b, a, distance, E.engages (o2 b) (o2 a) && hasAttr (o2 a) K.kPotentialTarget⟩]
  else []

/-- The evaluations made by the body of the loop over `k` of the far pass. -/
def farUnitLog (K : Consts) (E : PassEnv) (g : Grid) (i : Int) (a : Nat)
    (st : PassState × Int) (k : Nat) : List Consideration :=
  if k = 0 then
    let superx := (g.distanceGrid a).h
    let supery := (g.distanceGrid a).v
    if superx < 0 ∨ supery < 0 then []
    else
      foldlLog (farPair K E g a k superx supery) (farPairLog K E g a superx supery)
        (chainFrom g.nextFarObject E.chainFuel (g.nextFarObject a)) st.1
  else
    let u := g.unitsToCheck i k
    let currentProximity := st.2 + u.adjacentUnit
    let superx := (g.distanceGrid a).h + u.superOffset.h
    let supery := (g.distanceGrid a).v + u.superOffset.v
    if superx < 0 ∨ supery < 0 then []
    else
      foldlLog (farPair K E g a k superx supery) (farPairLog K E g a superx supery)
        (chainFrom g.nextFarObject E.chainFuel (g.farObject currentProximity)) st.1

/-- The evaluations made by the body of the loop over `aObject` of the far pass. -/
def farObjectLog (K : Consts) (E : PassEnv) (g : Grid) (i : Int) (s : PassState) (a : Nat) :
    List Consideration :=
  foldlLog (farUnit K E g i a) (farUnitLog K E g i a) (List.range kUnitsToCheckNumber) (s, i)

/-- The evaluations made by the far pass for the cell `i`. -/
def farCellLog (K : Consts) (E : PassEnv) (g : Grid) (s : PassState) (i : Nat) :
    List Consideration :=
  foldlLog (farObjectStep K E g i) (farObjectLog K E g i)
    (chainFrom g.nextFarObject E.chainFuel (g.farObject i)) s

/-- The evaluations of motion.cpp:942-954 made by the far pass, in the order in which
it makes them. -/
def farPassLog (K : Consts) (E : PassEnv) (g : Grid) (objs : Objs) : List Consideration :=
  foldlLog (farCell K E g) (farCellLog K E g) (List.range kProximityGridDataLength.toNat)
    ⟨objs, [], false⟩

/-- The candidates the object `x` considers, in order. -/
def considerationsOf (x : Nat) (log : List Consideration) : List Consideration :=
  log.filter fun c => c.subject == x

/-- The nearest-target record of an object: `closestObject` and `closestDistance`. -/
def closestRecord (o : SpaceObject) : Option Nat × Int :=
  (o.closestObject, o.closestDistance)

/-- The update of the nearest-target record by one consideration, motion.cpp:943-946. -/
def consider (r : Option Nat × Int) (c : Consideration) : Option Nat × Int :=
  if c.distance < r.2 ∧ c.accepted = true then (some c.candidate, c.distance) else r

/-- The update of the nearest-target record of the object `x` by one consideration of
the log: considerations of other objects leave it as it is. -/
def considerAs (x : Nat) (r : Option Nat × Int) (c : Consideration) : Option Nat × Int :=
  if c.subject = x then consider r c else r

/-- A pass environment in which every object engages every other. -/
def demoEngageEnv : PassEnv := { demoEnv with engages := fun _ _ => true }

/-- An object of owner 0 at `(1000, 1000)` and two potential targets of owner 1, both
three units away from it, at `(1000, 1003)` and `(1003, 1000)`; all three can think. -/
def demoTargets : Objs := fun i =>
  if i = 0 then { demoShipA with attributes := 0x9800 ||| 0x4000002 ||| 0x40000 }
  else if i = 1 then
    { demoShipA with attributes := 0x9800 ||| 0x4000002 ||| 0x40000,
                     location := ⟨1000, 1003⟩, owner := some 1 }
  else if i = 2 then
    { demoShipA with attributes := 0x9800 ||| 0x4000002 ||| 0x40000,
                     location := ⟨1003, 1000⟩, owner := some 1 }
  else { demoObject with active := 0 }

/-- The grid the rebuild makes of the three sample targets. -/
def demoTargetGrid : Grid :=
  (rebuildGrid demoConsts demoRebuildEnv demoTargets (InitMotion staleGrid) [0, 1, 2]).grid

/-- The table of the three sample targets as the rebuild leaves it. -/
def demoTargetObjs : Objs :=
  (rebuildGrid demoConsts demoRebuildEnv demoTargets (InitMotion staleGrid) [0, 1, 2]).objs

/-! ## The capability test of the near pass -/

/-- The first half of the test of motion.cpp:746-751 on the pair `(aObject, bObject)`,
with the attributes of the table `objs`: between them the two objects have
`kCanCollide` and `kCanBeHit`. -/
def capable (K : Consts) (objs : Objs) (p : Nat × Nat) : Bool :=
  decide (¬ (((objs p.2).attributes ||| (objs p.1).attributes) &&& K.kCanCollide = 0
    ∨ ((objs p.2).attributes ||| (objs p.1).attributes) &&& K.kCanBeHit = 0))

/-! ## Lemmas on the rounding -/

theorem shiftRight_eight (x : Int) : x >>> (8 : Nat) = x / 256 := by
  rw [Int.shiftRight_eq_div_pow]; norm_num

theorem extractRounded_eq_floor (f : Int) : extractRounded f = (f + 128) / 256 := by
  unfold extractRounded more_evil_fixed_to_long mFloatToFixed_half
  simp only [shiftRight_eight]
  split <;> omega

theorem tdiv256_of_nonneg (x : Int) (h : 0 ≤ x) : Int.tdiv x 256 = x / 256 :=
  Int.tdiv_eq_ediv h (by decide)

theorem tdiv256_of_neg (x : Int) (h : x < 0) : Int.tdiv x 256 = -((-x) / 256) := by
  have := Int.neg_tdiv (-x) 256
  rw [neg_neg] at this
  rw [this, tdiv256_of_nonneg _ (by omega)]

/-- The reference rounding is a nearest integer: it is within one half of `f / 256`. -/
theorem roundHalfAwayFromZero_near (f : Int) : |256 * roundHalfAwayFromZero f - f| ≤ 128 := by
  unfold roundHalfAwayFromZero
  split
  · rw [tdiv256_of_nonneg _ (by omega), abs_le]
    constructor <;> omega
  · rw [tdiv256_of_neg _ (by omega), abs_le]
    constructor <;> omega

/-- On an exact half the reference rounding takes the neighbour farther from zero. -/
theorem roundHalfAwayFromZero_half (f : Int) (h : |256 * roundHalfAwayFromZero f - f| = 128) :
    |f| < |256 * roundHalfAwayFromZero f| := by
  unfold roundHalfAwayFromZero at h ⊢
  split at h
  · rename_i hf
    rw [if_pos hf]
    rw [tdiv256_of_nonneg _ (by omega)] at h ⊢
    rw [abs_lt]
    rcases abs_cases (256 * ((f + 128) / 256) - f) with ⟨h1, _⟩ | ⟨h1, _⟩ <;>
    rcases abs_cases (256 * ((f + 128) / 256)) with ⟨h2, _⟩ | ⟨h2, _⟩ <;>
    constructor <;> omega
  · rename_i hf
    rw [if_neg hf]
    rw [tdiv256_of_neg _ (by omega)] at h ⊢
    rw [abs_lt]
    rcases abs_cases (256 * -(-(f - 128) / 256) - f) with ⟨h1, _⟩ | ⟨h1, _⟩ <;>
    rcases abs_cases (256 * -(-(f - 128) / 256)) with ⟨h2, _⟩ | ⟨h2, _⟩ <;>
    constructor <;> omega

/-! ## Lemmas on the motion phases -/

@[simp] theorem turnPhase_location (K : Consts) (o : SpaceObject) :
    (turnPhase K o).location = o.location := by
  unfold turnPhase; split <;> rfl

@[simp] theorem turnPhase_motionFraction (K : Consts) (o : SpaceObject) :
    (turnPhase K o).motionFraction = o.motionFraction := by
  unfold turnPhase; split <;> rfl

@[simp] theorem thrustPhase_location (K : Consts) (X : MathExt) (o : SpaceObject) :
    (thrustPhase K X o).location = o.location := by
  unfold thrustPhase; split <;> rfl

@[simp] theorem thrustPhase_motionFraction (K : Consts) (X : MathExt) (o : SpaceObject) :
    (thrustPhase K X o).motionFraction = o.motionFraction := by
  unfold thrustPhase; split <;> rfl

@[simp] theorem integratePhase_velocity (o : SpaceObject) :
    (integratePhase o).velocity = o.velocity := rfl

@[simp] theorem integratePhase_active (o : SpaceObject) :
    (integratePhase o).active = o.active := rfl

@[simp] theorem integratePhase_attributes (o : SpaceObject) :
    (integratePhase o).attributes = o.attributes := rfl

theorem motionPhase_of_moving (K : Consts) (X : MathExt) (o : SpaceObject)
    (hmov : isMoving K o = true) :
    motionPhase K X o = integratePhase (thrustPhase K X (turnPhase K o)) := by
  unfold motionPhase; rw [if_pos hmov]

/-! ## Claims -/

/-- C1: drift-free integration. For an object that moves, after the motion block of one
sub-tick unit, with `h` (resp. `v`) the rounded displacement extracted from the
accumulated fraction, `location` has decreased by `h`, `motionFraction` is the old
fraction plus the post-thrust velocity minus `h << 8`, and the exact fixed-point
position `256 * location - motionFraction` has decreased by exactly the post-thrust
velocity, on both axes. -/
theorem C1_drift_free (K : Consts) (X : MathExt) (o : SpaceObject)
    (hmov : isMoving K o = true) :
    let o1 := motionPhase K X o
    let h := extractRounded (o.motionFraction.h + o1.velocity.h)
    let v := extractRounded (o.motionFraction.v + o1.velocity.v)
    o1.location.h = o.location.h - h ∧
    o1.location.v = o.location.v - v ∧
    o1.motionFraction.h = o.motionFraction.h + o1.velocity.h - mLongToFixed h ∧
    o1.motionFraction.v = o.motionFraction.v + o1.velocity.v - mLongToFixed v ∧
    256 * o1.location.h - o1.motionFraction.h
      = 256 * o.location.h - o.motionFraction.h - o1.velocity.h ∧
    256 * o1.location.v - o1.motionFraction.v
      = 256 * o.location.v - o.motionFraction.v - o1.velocity.v := by
  intro o1 h v
  have e : o1 = integratePhase (thrustPhase K X (turnPhase K o)) :=
    motionPhase_of_moving K X o hmov
  have hv : o1.velocity = (thrustPhase K X (turnPhase K o)).velocity := by rw [e]; rfl
  have hh : h = extractRounded (o.motionFraction.h + (thrustPhase K X (turnPhase K o)).velocity.h) := by
    show extractRounded (o.motionFraction.h + o1.velocity.h) = _
    rw [hv]
  have hvv : v = extractRounded (o.motionFraction.v + (thrustPhase K X (turnPhase K o)).velocity.v) := by
    show extractRounded (o.motionFraction.v + o1.velocity.v) = _
    rw [hv]
  have l1 : o1.location.h = o.location.h - h := by
    rw [hh, e]; simp [integratePhase]
  have l2 : o1.location.v = o.location.v - v := by
    rw [hvv, e]; simp [integratePhase]
  have m1 : o1.motionFraction.h = o.motionFraction.h + o1.velocity.h - mLongToFixed h := by
    rw [hh, hv, e]; simp [integratePhase]
  have m2 : o1.motionFraction.v = o.motionFraction.v + o1.velocity.v - mLongToFixed v := by
    rw [hvv, hv, e]; simp [integratePhase]
  refine ⟨l1, l2, m1, m2, ?_, ?_⟩
  · rw [l1, m1]; unfold mLongToFixed; ring
  · rw [l2, m2]; unfold mLongToFixed; ring

/-- Witness for C1 on the drifting sample object. -/
theorem C1_drift_free_witness :
    isMoving demoConsts demoDrifter = true ∧
    (motionPhase demoConsts demoExt demoDrifter).location = ⟨1073741822, 1073741824⟩ ∧
    (motionPhase demoConsts demoExt demoDrifter).motionFraction = ⟨0, -64⟩ ∧
    256 * (motionPhase demoConsts demoExt demoDrifter).location.h
        - (motionPhase demoConsts demoExt demoDrifter).motionFraction.h
      = 256 * demoDrifter.location.h - demoDrifter.motionFraction.h
        - (motionPhase demoConsts demoExt demoDrifter).velocity.h :=
  ⟨by decide, by decide, by decide,
    (C1_drift_free demoConsts demoExt demoDrifter (by decide)).2.2.2.2.1⟩

@[simp] theorem turnPhase_attributes (K : Consts) (o : SpaceObject) :
    (turnPhase K o).attributes = o.attributes := by
  unfold turnPhase; split <;> rfl

@[simp] theorem thrustPhase_attributes (K : Consts) (X : MathExt) (o : SpaceObject) :
    (thrustPhase K X o).attributes = o.attributes := by
  unfold thrustPhase; split <;> rfl

@[simp] theorem motionPhase_attributes (K : Consts) (X : MathExt) (o : SpaceObject) :
    (motionPhase K X o).attributes = o.attributes := by
  unfold motionPhase; split <;> simp

theorem hasAttr_congr (o o1 : SpaceObject) (m : Nat) (h : o1.attributes = o.attributes) :
    hasAttr o1 m = hasAttr o m := by
  unfold hasAttr; rw [h]

@[simp] theorem bounceH_motionFraction (K : Consts) (o : SpaceObject) :
    (bounceH K o).motionFraction = o.motionFraction := by
  unfold bounceH; split
  · rfl
  · split <;> rfl

@[simp] theorem bounceV_motionFraction (K : Consts) (o : SpaceObject) :
    (bounceV K o).motionFraction = o.motionFraction := by
  unfold bounceV; split
  · rfl
  · split <;> rfl

@[simp] theorem bounceH_location_v (K : Consts) (o : SpaceObject) :
    (bounceH K o).location.v = o.location.v := by
  unfold bounceH; split
  · rfl
  · split <;> rfl

@[simp] theorem bounceV_location_h (K : Consts) (o : SpaceObject) :
    (bounceV K o).location.h = o.location.h := by
  unfold bounceV; split
  · rfl
  · split <;> rfl

theorem bounceH_location_h_of_inside (K : Consts) (o : SpaceObject)
    (h1 : kThinkiverseTopLeft K ≤ o.location.h) (h2 : o.location.h ≤ kThinkiverseBottomRight K) :
    (bounceH K o).location.h = o.location.h := by
  unfold bounceH
  rw [if_neg (by omega), if_neg (by omega)]

theorem bounceV_location_v_of_inside (K : Consts) (o : SpaceObject)
    (h1 : kThinkiverseTopLeft K ≤ o.location.v) (h2 : o.location.v ≤ kThinkiverseBottomRight K) :
    (bounceV K o).location.v = o.location.v := by
  unfold bounceV
  rw [if_neg (by omega), if_neg (by omega)]

@[simp] theorem boundsPhase_motionFraction (K : Consts) (o : SpaceObject) :
    (boundsPhase K o).motionFraction = o.motionFraction := by
  unfold boundsPhase
  split
  · split <;> rfl
  · simp

/-- The boundary policy leaves the `h` coordinate alone unless the object bounces and
the coordinate is outside the range. -/
theorem boundsPhase_location_h (K : Consts) (o : SpaceObject)
    (hin : hasAttr o K.kDoesBounce = false ∨
      (kThinkiverseTopLeft K ≤ o.location.h ∧ o.location.h ≤ kThinkiverseBottomRight K)) :
    (boundsPhase K o).location.h = o.location.h := by
  unfold boundsPhase
  split
  · split <;> rfl
  · rename_i hb
    rcases hin with hb1 | ⟨h1, h2⟩
    · simp [hb1] at hb
    · rw [bounceV_location_h, bounceH_location_h_of_inside K o h1 h2]

/-- The boundary policy leaves the `v` coordinate alone unless the object bounces and
the coordinate is outside the range. -/
theorem boundsPhase_location_v (K : Consts) (o : SpaceObject)
    (hin : hasAttr o K.kDoesBounce = false ∨
      (kThinkiverseTopLeft K ≤ o.location.v ∧ o.location.v ≤ kThinkiverseBottomRight K)) :
    (boundsPhase K o).location.v = o.location.v := by
  unfold boundsPhase
  split
  · split <;> rfl
  · rename_i hb
    rcases hin with hb1 | ⟨h1, h2⟩
    · simp [hb1] at hb
    · rw [bounceV_location_v_of_inside K _ (by simpa using h1) (by simpa using h2),
        bounceH_location_v]

/-- C2, as stated, fails: the sample object drifts with velocity `256` (one unit) on the
`h` axis and an empty fraction, so the rounded part of fraction plus velocity is `1`
in any rounding, and after the step its position is one less, not one more. -/
theorem C2_counterexample :
    demoDrifter.active = demoConsts.kObjectInUse ∧
    isMoving demoConsts demoDrifter = true ∧
    demoDrifter.motionFraction.h + (motionPhase demoConsts demoExt demoDrifter).velocity.h = 256 ∧
    extractRounded 256 = 1 ∧
    (moveObject demoConsts demoExt demoDrifter).location.h = demoDrifter.location.h - 1 ∧
    (moveObject demoConsts demoExt demoDrifter).location.h ≠
      demoDrifter.location.h +
        extractRounded (demoDrifter.motionFraction.h
          + (motionPhase demoConsts demoExt demoDrifter).velocity.h) := by
  decide

/-- C2, amended: for every object in use that moves, after the loop body of one sub-tick
unit its position on each axis equals its previous position MINUS the rounded integer
part of (previous motionFraction + post-thrust velocity), on every axis on which the
boundary policy does not clamp (the object does not bounce, or the moved coordinate
is inside the thinkiverse range). -/
theorem C2_position_after_move (K : Consts) (X : MathExt) (o : SpaceObject)
    (hact : o.active = K.kObjectInUse) (hmov : isMoving K o = true) :
    let m := motionPhase K X o
    ((hasAttr o K.kDoesBounce = false ∨
        (kThinkiverseTopLeft K ≤ m.location.h ∧ m.location.h ≤ kThinkiverseBottomRight K)) →
      (moveObject K X o).location.h
        = o.location.h - extractRounded (o.motionFraction.h + m.velocity.h)) ∧
    ((hasAttr o K.kDoesBounce = false ∨
        (kThinkiverseTopLeft K ≤ m.location.v ∧ m.location.v ≤ kThinkiverseBottomRight K)) →
      (moveObject K X o).location.v
        = o.location.v - extractRounded (o.motionFraction.v + m.velocity.v)) := by
  intro m
  have hm : moveObject K X o = boundsPhase K m := by
    unfold moveObject; rw [if_pos hact]
  have hattr : hasAttr m K.kDoesBounce = hasAttr o K.kDoesBounce :=
    hasAttr_congr o m _ (motionPhase_attributes K X o)
  have c1 := C1_drift_free K X o hmov
  constructor
  · intro hin
    rw [hm, boundsPhase_location_h K m (by rw [hattr]; exact hin)]
    exact c1.1
  · intro hin
    rw [hm, boundsPhase_location_v K m (by rw [hattr]; exact hin)]
    exact c1.2.1

/-- Witness for C2 on the drifting sample object, which does not bounce. -/
theorem C2_position_after_move_witness :
    demoDrifter.active = demoConsts.kObjectInUse ∧
    isMoving demoConsts demoDrifter = true ∧
    hasAttr demoDrifter demoConsts.kDoesBounce = false ∧
    (moveObject demoConsts demoExt demoDrifter).location.h
      = demoDrifter.location.h - extractRounded (demoDrifter.motionFraction.h
          + (motionPhase demoConsts demoExt demoDrifter).velocity.h) ∧
    (moveObject demoConsts demoExt demoDrifter).location.v
      = demoDrifter.location.v - extractRounded (demoDrifter.motionFraction.v
          + (motionPhase demoConsts demoExt demoDrifter).velocity.v) :=
  ⟨by decide, by decide, by decide,
    (C2_position_after_move demoConsts demoExt demoDrifter (by decide) (by decide)).1
      (Or.inl (by decide)),
    (C2_position_after_move demoConsts demoExt demoDrifter (by decide) (by decide)).2
      (Or.inl (by decide))⟩

/-- The remainder left by the extraction lies in `[-128, 128)`. -/
theorem remainder_bounds (f : Int) :
    -128 ≤ f - mLongToFixed (extractRounded f) ∧ f - mLongToFixed (extractRounded f) < 128 := by
  rw [extractRounded_eq_floor]; unfold mLongToFixed
  constructor <;> omega

/-- C3: for every object in use that moves, every velocity and every starting fraction,
after the loop body of one sub-tick unit the remainder kept in `motionFraction.h` and
`motionFraction.v` is strictly less than one unit in magnitude (raw value below 256). -/
theorem C3_remainder_lt_one (K : Consts) (X : MathExt) (o : SpaceObject)
    (hact : o.active = K.kObjectInUse) (hmov : isMoving K o = true) :
    |(moveObject K X o).motionFraction.h| < 256 ∧
    |(moveObject K X o).motionFraction.v| < 256 := by
  have hm : moveObject K X o = boundsPhase K (motionPhase K X o) := by
    unfold moveObject; rw [if_pos hact]
  have c1 := C1_drift_free K X o hmov
  rw [hm, boundsPhase_motionFraction]
  have bh := remainder_bounds (o.motionFraction.h + (motionPhase K X o).velocity.h)
  have bv := remainder_bounds (o.motionFraction.v + (motionPhase K X o).velocity.v)
  rw [c1.2.2.1, c1.2.2.2.1, abs_lt, abs_lt]
  constructor <;> constructor <;> omega

/-- Witness for C3 on the drifting sample object. -/
theorem C3_remainder_lt_one_witness :
    demoDrifter.active = demoConsts.kObjectInUse ∧
    isMoving demoConsts demoDrifter = true ∧
    (moveObject demoConsts demoExt demoDrifter).motionFraction = ⟨0, -64⟩ ∧
    |(moveObject demoConsts demoExt demoDrifter).motionFraction.h| < 256 ∧
    |(moveObject demoConsts demoExt demoDrifter).motionFraction.v| < 256 :=
  ⟨by decide, by decide, by decide,
    C3_remainder_lt_one demoConsts demoExt demoDrifter (by decide) (by decide)⟩

/-- C4, as stated, fails on a negative exact half: for `f = -128` (that is `-0.5`) the
code extracts `0`, while rounding halves away from zero gives `-1`. -/
theorem C4_counterexample :
    extractRounded (-128) = 0 ∧ roundHalfAwayFromZero (-128) = -1 ∧
    extractRounded (-128) ≠ roundHalfAwayFromZero (-128) := by
  decide

/-- C4, amended: the amount extracted from an accumulated fraction `f` (displacement or
turn) is `floor ((f + 128) / 256)`: `f / 256` rounded to the nearest integer with
halves rounded toward plus infinity. It equals the half-away-from-zero rounding for
every `f` except the negative exact halves (`f < 0` and `f % 256 = 128`), where it is
one greater. -/
theorem C4_rounding (f : Int) :
    extractRounded f = (f + 128) / 256 ∧
    |256 * extractRounded f - f| ≤ 128 ∧
    (f % 256 = 128 → 256 * extractRounded f = f + 128) ∧
    (¬ (f < 0 ∧ f % 256 = 128) → extractRounded f = roundHalfAwayFromZero f) ∧
    ((f < 0 ∧ f % 256 = 128) → extractRounded f = roundHalfAwayFromZero f + 1) := by
  have e := extractRounded_eq_floor f
  refine ⟨e, ?_, ?_, ?_, ?_⟩
  · rw [e, abs_le]; constructor <;> omega
  · intro h; rw [e]; omega
  · intro h
    rw [e]; unfold roundHalfAwayFromZero
    split
    · rw [tdiv256_of_nonneg _ (by omega)]
    · rw [tdiv256_of_neg _ (by omega)]; omega
  · intro h
    rw [e]; unfold roundHalfAwayFromZero
    rw [if_neg (by omega), tdiv256_of_neg _ (by omega)]; omega

/-- Witness for C4 at a positive half, a negative half and a negative non-half. -/
theorem C4_rounding_witness :
    (extractRounded 128 = 1 ∧ roundHalfAwayFromZero 128 = 1) ∧
    (extractRounded (-384) = -1 ∧ roundHalfAwayFromZero (-384) = -2) ∧
    extractRounded (-129) = roundHalfAwayFromZero (-129) ∧
    extractRounded (-384) = roundHalfAwayFromZero (-384) + 1 :=
  ⟨by decide, by decide, (C4_rounding (-129)).2.2.2.1 (by decide),
    (C4_rounding (-384)).2.2.2.2 (by decide)⟩


/-! ## Lemmas on bit masks -/

theorem or_eq_zero_left (a b : Nat) (h : a ||| b = 0) : a = 0 := by
  apply Nat.eq_of_testBit_eq
  intro i
  have h1 := congrArg (fun n => Nat.testBit n i) h
  simp only [Nat.testBit_or, Nat.zero_testBit, Bool.or_eq_false_iff] at h1
  simp [h1.1]

theorem or_eq_zero_right (a b : Nat) (h : a ||| b = 0) : b = 0 := by
  apply Nat.eq_of_testBit_eq
  intro i
  have h1 := congrArg (fun n => Nat.testBit n i) h
  simp only [Nat.testBit_or, Nat.zero_testBit, Bool.or_eq_false_iff] at h1
  simp [h1.2]

theorem or_ne_zero_of_and_ne_zero (a b : Nat) (h : a &&& b ≠ 0) : a ||| b ≠ 0 := by
  intro h0
  apply h
  rw [or_eq_zero_left a b h0]
  exact Nat.zero_and b

theorem and_eq_zero_of_or_and_left (x y m : Nat) (h : (x ||| y) &&& m = 0) : x &&& m = 0 := by
  apply Nat.eq_of_testBit_eq
  intro i
  have h1 := congrArg (fun n => Nat.testBit n i) h
  simp only [Nat.testBit_and, Nat.testBit_or, Nat.zero_testBit] at h1 ⊢
  cases hx : x.testBit i <;> cases hm : m.testBit i <;> simp_all

theorem and_eq_zero_of_or_and_right (x y m : Nat) (h : (x ||| y) &&& m = 0) : y &&& m = 0 := by
  apply Nat.eq_of_testBit_eq
  intro i
  have h1 := congrArg (fun n => Nat.testBit n i) h
  simp only [Nat.testBit_and, Nat.testBit_or, Nat.zero_testBit] at h1 ⊢
  cases hy : y.testBit i <;> cases hm : m.testBit i <;> simp_all

/-! ## Beam clipping -/

/-- When the two outcodes share a bit the loop leaves at its first test with
`beamHit` false, whatever the iteration bound. -/
theorem clipLoop_shared (bounds : Rect) (fuel : Nat) (c : ClipState) (beamHit : Bool)
    (h : c.cs &&& c.ce ≠ 0) : clipLoop bounds fuel c beamHit = ClipOutcome.miss := by
  have h1 : c.cs ||| c.ce ≠ 0 := or_ne_zero_of_and_ne_zero _ _ h
  unfold clipLoop
  rw [if_neg h1, if_pos h]

theorem beamClip_shared (K : Consts) (fuel : Nat) (sObject : SpaceObject) (p : Point)
    (bounds : Rect)
    (h : mClipCode sObject.location.h sObject.location.v bounds &&& mClipCode p.h p.v bounds ≠ 0) :
    beamClip K fuel sObject p bounds = ClipOutcome.miss := by
  unfold beamClip
  split
  · exact clipLoop_shared _ _ _ _ (show (1 : Nat) &&& 1 ≠ 0 by decide)
  · exact clipLoop_shared _ _ _ _ h

/-- C10: beam clipping rejects a segment that is entirely outside the target box on one
side. For every target box and every beam segment (from the location of the beam to
its `lastGlobalLocation`) whose two endpoint outcodes share a set bit, the clipping
ends with no hit, for every iteration bound and without running the loop body, and
the pair step for the beam leaves the state as it was: `HitObject` is not invoked. -/
theorem C10_beam_outside_rejected (K : Consts) (E : PassEnv) (s1 : PassState) (a b : Nat)
    (beam : Beam)
    (hbeam : (s1.objs (if hasAttr (s1.objs b) K.kIsBeam then b else a)).beam = some beam)
    (hshare :
      mClipCode (s1.objs (if hasAttr (s1.objs b) K.kIsBeam then b else a)).location.h
          (s1.objs (if hasAttr (s1.objs b) K.kIsBeam then b else a)).location.v
          (s1.objs (if hasAttr (s1.objs b) K.kIsBeam then a else b)).absoluteBounds
        &&& mClipCode beam.lastGlobalLocation.h beam.lastGlobalLocation.v
          (s1.objs (if hasAttr (s1.objs b) K.kIsBeam then a else b)).absoluteBounds ≠ 0) :
    (∀ fuel, beamClip K fuel (s1.objs (if hasAttr (s1.objs b) K.kIsBeam then b else a))
        beam.lastGlobalLocation
        (s1.objs (if hasAttr (s1.objs b) K.kIsBeam then a else b)).absoluteBounds
      = ClipOutcome.miss) ∧
    hitBeam K E s1 a b = s1 := by
  constructor
  · intro fuel
    exact beamClip_shared K fuel _ _ _ hshare
  · unfold hitBeam
    simp only [hbeam]
    rw [beamClip_shared K E.clipFuel _ _ _ hshare]

/-! ## The pair body of the near pass -/

@[simp] theorem computeBounds_attributes (n : Nat) (o : SpaceObject) :
    (computeBounds n o).attributes = o.attributes := by
  unfold computeBounds
  split
  · split <;> rfl
  · rfl

@[simp] theorem computeBounds_owner (n : Nat) (o : SpaceObject) :
    (computeBounds n o).owner = o.owner := by
  unfold computeBounds
  split
  · split <;> rfl
  · rfl

@[simp] theorem withBounds_attributes (E : PassEnv) (objs : Objs) (b i : Nat) :
    (withBounds E objs b i).attributes = (objs i).attributes := by
  unfold withBounds
  by_cases h : i = b
  · subst h; simp
  · simp [Function.update_noteq h]

@[simp] theorem withBounds_owner (E : PassEnv) (objs : Objs) (b i : Nat) :
    (withBounds E objs b i).owner = (objs i).owner := by
  unfold withBounds
  by_cases h : i = b
  · subst h; simp
  · simp [Function.update_noteq h]

theorem withBounds_same (E : PassEnv) (objs : Objs) (b : Nat) :
    withBounds E objs b b = computeBounds E.SHIFT_SCALE (objs b) := by
  unfold withBounds; simp

theorem withBounds_other (E : PassEnv) (objs : Objs) (b i : Nat) (h : i ≠ b) :
    withBounds E objs b i = objs i := by
  unfold withBounds; simp [Function.update_noteq h]

theorem hasAttr_withBounds (E : PassEnv) (objs : Objs) (b i m : Nat) :
    hasAttr (withBounds E objs b i) m = hasAttr (objs i) m :=
  hasAttr_congr _ _ _ (withBounds_attributes E objs b i)

theorem hitFirst_trace (K : Consts) (E : PassEnv) (s1 : PassState) (a b : Nat) :
    (hitFirst K E s1 a b).trace = s1.trace ++
      (if hasAttr (s1.objs a) K.kCanBeHit && hasAttr (s1.objs b) K.kCanCollide
        then [Event.hit a b] else []) := by
  unfold hitFirst; split <;> simp

theorem hitFirst_objs (K : Consts) (E : PassEnv) (s1 : PassState) (a b : Nat) :
    (hitFirst K E s1 a b).objs =
      (if hasAttr (s1.objs a) K.kCanBeHit && hasAttr (s1.objs b) K.kCanCollide
        then E.HitObject s1.objs a b else s1.objs) := by
  unfold hitFirst; split <;> rfl

@[simp] theorem hitFirst_aborted (K : Consts) (E : PassEnv) (s1 : PassState) (a b : Nat) :
    (hitFirst K E s1 a b).aborted = s1.aborted := by
  unfold hitFirst; split <;> rfl

theorem hitSecond_trace (K : Consts) (E : PassEnv) (s2 : PassState) (a b : Nat) :
    (hitSecond K E s2 a b).trace = s2.trace ++
      (if hasAttr (s2.objs b) K.kCanBeHit && hasAttr (s2.objs a) K.kCanCollide
        then [Event.hit b a] else []) := by
  unfold hitSecond; split <;> simp

@[simp] theorem hitSecond_aborted (K : Consts) (E : PassEnv) (s2 : PassState) (a b : Nat) :
    (hitSecond K E s2 a b).aborted = s2.aborted := by
  unfold hitSecond; split <;> rfl

@[simp] theorem hitBoxes_aborted (K : Consts) (E : PassEnv) (s1 : PassState) (a b : Nat) :
    (hitBoxes K E s1 a b).aborted = s1.aborted := by
  unfold hitBoxes
  split
  · simp
  · rfl

theorem mem_hitEvents (trace : List Event) (T S : Nat) :
    Event.hit T S ∈ hitEvents trace ↔ Event.hit T S ∈ trace := by
  unfold hitEvents
  simp [List.mem_filter]

theorem hitEvents_append (l1 l2 : List Event) :
    hitEvents (l1 ++ l2) = hitEvents l1 ++ hitEvents l2 := by
  unfold hitEvents; exact List.filter_append _ _

@[simp] theorem hitEvents_examined (a b : Nat) : hitEvents [Event.examined a b] = [] := rfl

@[simp] theorem hitEvents_correct (a b : Nat) : hitEvents [Event.correct a b] = [] := rfl

@[simp] theorem hitEvents_nil : hitEvents [] = [] := rfl

@[simp] theorem hitEvents_hit (c : Prop) [Decidable c] (T S : Nat) :
    hitEvents (if c then [Event.hit T S] else []) = if c then [Event.hit T S] else [] := by
  split <;> rfl

/-- The hand-over to the separation resolver adds no `HitObject` call. -/
theorem separate_hitEvents (K : Consts) (E : PassEnv) (s2 : PassState) (a b : Nat) :
    hitEvents (separate K E s2 a b).trace = hitEvents s2.trace := by
  unfold separate
  split
  · rfl
  · split
    · simp [hitEvents_append]
    · rfl

/-- The `HitObject` calls of the pair body for two non-beam objects, started from an
empty trace. -/
theorem nearPair_hitEvents (K : Consts) (E : PassEnv) (g : Grid) (a b : Nat)
    (superx supery : Int) (objs : Objs)
    (hnb : ((objs b).attributes ||| (objs a).attributes) &&& K.kIsBeam = 0) :
    hitEvents (nearPair K E g a superx supery ⟨objs, [], false⟩ b).trace =
      if (((objs b).attributes ||| (objs a).attributes) &&& K.kCanCollide = 0
          ∨ ((objs b).attributes ||| (objs a).attributes) &&& K.kCanBeHit = 0
          ∨ (g.collisionGrid b).h ≠ superx ∨ (g.collisionGrid b).v ≠ supery)
        ∨ (objs a).owner = (objs b).owner
        ∨ boundsOverlap (withBounds E objs b b).absoluteBounds
            (withBounds E objs b a).absoluteBounds = false
      then []
      else
        (if hasAttr (objs a) K.kCanBeHit && hasAttr (objs b) K.kCanCollide
          then [Event.hit a b] else []) ++
        (if hasAttr (afterFirstHit K E objs a b b) K.kCanBeHit
            && hasAttr (afterFirstHit K E objs a b a) K.kCanCollide
          then [Event.hit b a] else []) := by
  unfold nearPair
  simp only [Bool.false_eq_true, if_false]
  by_cases hf : ((objs b).attributes ||| (objs a).attributes) &&& K.kCanCollide = 0
      ∨ ((objs b).attributes ||| (objs a).attributes) &&& K.kCanBeHit = 0
      ∨ (g.collisionGrid b).h ≠ superx ∨ (g.collisionGrid b).v ≠ supery
  · rw [if_pos hf, if_pos (Or.inl hf)]; rfl
  · rw [if_neg hf]
    unfold collidePair
    simp only [List.nil_append, withBounds_owner, withBounds_attributes]
    by_cases ho : (objs a).owner = (objs b).owner
    · rw [if_pos ho, if_pos (Or.inr (Or.inl ho))]; rfl
    · rw [if_neg ho, if_pos hnb]
      simp only [hitBoxes_aborted, Bool.false_eq_true, if_false]
      rw [separate_hitEvents]
      unfold hitBoxes
      dsimp only
      by_cases hov : boundsOverlap (withBounds E objs b b).absoluteBounds
          (withBounds E objs b a).absoluteBounds = true
      · have hov1 : ¬ (boundsOverlap (withBounds E objs b b).absoluteBounds
          (withBounds E objs b a).absoluteBounds = false) := by rw [hov]; decide
        have hcond : ¬ ((((objs b).attributes ||| (objs a).attributes) &&& K.kCanCollide = 0
          ∨ ((objs b).attributes ||| (objs a).attributes) &&& K.kCanBeHit = 0
          ∨ (g.collisionGrid b).h ≠ superx ∨ (g.collisionGrid b).v ≠ supery)
          ∨ (objs a).owner = (objs b).owner
          ∨ boundsOverlap (withBounds E objs b b).absoluteBounds
              (withBounds E objs b a).absoluteBounds = false) := by
          rintro (h | h | h)
          · exact hf h
          · exact ho h
          · exact hov1 h
        rw [if_neg hcond, if_pos hov, hitSecond_trace, hitFirst_trace, hitFirst_objs]
        unfold afterFirstHit
        dsimp only
        simp only [hitEvents_append, hitEvents_examined, hitEvents_hit, List.nil_append,
          hasAttr_withBounds]
      · have hov1 : boundsOverlap (withBounds E objs b b).absoluteBounds
          (withBounds E objs b a).absoluteBounds = false := by
          cases h : boundsOverlap (withBounds E objs b b).absoluteBounds
            (withBounds E objs b a).absoluteBounds
          · rfl
          · exact absurd h hov
        rw [if_pos (Or.inr (Or.inr hov1)), if_neg hov]
        rfl
theorem hasAttr_false_of_and_eq_zero (o : SpaceObject) (m : Nat) (h : o.attributes &&& m = 0) :
    hasAttr o m = false := by
  unfold hasAttr; simp [h]

/-- C5: in the near-grid pass a notification `HitObject(T, S)` between two non-beam
objects is dispatched only if, when the pair `(a, b)` is examined, the two objects
have different owners and their `absoluteBounds` overlap (the bounds of `b` brought
up to date first), and `T` has `kCanBeHit` and `S` has `kCanCollide` when the
notification is decided: in the table the pair was entered with for `HitObject(a, b)`,
in the table left by that first notification for `HitObject(b, a)`. -/
theorem C5_hit_only_if (K : Consts) (E : PassEnv) (g : Grid) (a b : Nat)
    (superx supery : Int) (objs : Objs) (T S : Nat)
    (hnb : ((objs b).attributes ||| (objs a).attributes) &&& K.kIsBeam = 0)
    (hhit : Event.hit T S ∈ (nearPair K E g a superx supery ⟨objs, [], false⟩ b).trace) :
    (objs a).owner ≠ (objs b).owner ∧
    boundsOverlap (withBounds E objs b b).absoluteBounds
      (withBounds E objs b a).absoluteBounds = true ∧
    ((T = a ∧ S = b ∧ hasAttr (objs a) K.kCanBeHit = true ∧ hasAttr (objs b) K.kCanCollide = true)
      ∨ (T = b ∧ S = a ∧ hasAttr (afterFirstHit K E objs a b b) K.kCanBeHit = true
          ∧ hasAttr (afterFirstHit K E objs a b a) K.kCanCollide = true)) := by
  rw [← mem_hitEvents, nearPair_hitEvents K E g a b superx supery objs hnb] at hhit
  split at hhit
  · simp at hhit
  · rename_i hcond
    have ho : (objs a).owner ≠ (objs b).owner := fun h => hcond (Or.inr (Or.inl h))
    have hov : boundsOverlap (withBounds E objs b b).absoluteBounds
        (withBounds E objs b a).absoluteBounds = true := by
      cases h : boundsOverlap (withBounds E objs b b).absoluteBounds
        (withBounds E objs b a).absoluteBounds
      · exact absurd (Or.inr (Or.inr h)) hcond
      · rfl
    refine ⟨ho, hov, ?_⟩
    rw [List.mem_append] at hhit
    rcases hhit with h | h
    · left
      split at h
      · rename_i c1
        simp only [Bool.and_eq_true] at c1
        simp only [List.mem_singleton, Event.hit.injEq] at h
        exact ⟨h.1, h.2, c1.1, c1.2⟩
      · simp at h
    · right
      split at h
      · rename_i c2
        simp only [Bool.and_eq_true] at c2
        simp only [List.mem_singleton, Event.hit.injEq] at h
        exact ⟨h.1, h.2, c2.1, c2.2⟩
      · simp at h

/-- Witness for C5 on the scenario of the specification: the second ship examined
against the first. -/
theorem C5_hit_only_if_witness :
    Event.hit 1 0 ∈ (nearPair demoConsts demoEnv staleGrid 1 9 9 ⟨demoObjsA, [], false⟩ 0).trace ∧
    (demoObjsA 1).owner ≠ (demoObjsA 0).owner ∧
    boundsOverlap (withBounds demoEnv demoObjsA 0 0).absoluteBounds
      (withBounds demoEnv demoObjsA 0 1).absoluteBounds = true :=
  ⟨by decide,
   (C5_hit_only_if demoConsts demoEnv staleGrid 1 0 9 9 demoObjsA 1 0 (by decide) (by decide)).1,
   (C5_hit_only_if demoConsts demoEnv staleGrid 1 0 9 9 demoObjsA 1 0 (by decide) (by decide)).2.1⟩
theorem hasAttr_eq_of_attributes (o o1 : SpaceObject) (m : Nat)
    (h : o1.attributes = o.attributes) : hasAttr o1 m = hasAttr o m :=
  hasAttr_congr o o1 m h

/-- When `HitObject` leaves attributes alone, the table after the first notification
has the attributes of the table before. -/
theorem hasAttr_afterFirstHit (K : Consts) (E : PassEnv) (objs : Objs) (a b i m : Nat)
    (hattr : ∀ (o : Objs) (t s j : Nat), (E.HitObject o t s j).attributes = (o j).attributes) :
    hasAttr (afterFirstHit K E objs a b i) m = hasAttr (objs i) m := by
  unfold afterFirstHit
  split
  · rw [hasAttr_congr _ _ m (hattr _ a b i), hasAttr_withBounds]
  · rw [hasAttr_withBounds]

/-- C6: for a pair of non-beam objects `a`, `b` that the near-grid pass examines (the
grid coordinate of `b` is the one expected), with different owners and overlapping
`absoluteBounds`, and a hit callback that does not change attributes: the calls of
`HitObject` made for the pair are, in this order, `HitObject(a, b)` once if `a` has
`kCanBeHit` and `b` has `kCanCollide` (and not otherwise), then `HitObject(b, a)`
once if `b` has `kCanBeHit` and `a` has `kCanCollide` (and not otherwise). -/
theorem C6_one_hit_per_direction (K : Consts) (E : PassEnv) (g : Grid) (a b : Nat)
    (superx supery : Int) (objs : Objs)
    (hmatch : (g.collisionGrid b).h = superx ∧ (g.collisionGrid b).v = supery)
    (hnb : ((objs b).attributes ||| (objs a).attributes) &&& K.kIsBeam = 0)
    (hown : (objs a).owner ≠ (objs b).owner)
    (hov : boundsOverlap (computeBounds E.SHIFT_SCALE (objs b)).absoluteBounds
      (objs a).absoluteBounds = true)
    (hattr : ∀ (o : Objs) (t s j : Nat), (E.HitObject o t s j).attributes = (o j).attributes) :
    hitEvents (nearPair K E g a superx supery ⟨objs, [], false⟩ b).trace =
      (if hasAttr (objs a) K.kCanBeHit && hasAttr (objs b) K.kCanCollide
        then [Event.hit a b] else []) ++
      (if hasAttr (objs b) K.kCanBeHit && hasAttr (objs a) K.kCanCollide
        then [Event.hit b a] else []) := by
  have hab : a ≠ b := fun h => hown (by rw [h])
  have hov1 : boundsOverlap (withBounds E objs b b).absoluteBounds
      (withBounds E objs b a).absoluteBounds = true := by
    rw [withBounds_same, withBounds_other E objs b a hab]; exact hov
  rw [nearPair_hitEvents K E g a b superx supery objs hnb]
  simp only [hasAttr_afterFirstHit K E objs a b _ _ hattr]
  split
  · rename_i hcond
    rcases hcond with (h | h | h | h) | h | h
    · have ha := hasAttr_false_of_and_eq_zero _ _ (and_eq_zero_of_or_and_right _ _ _ h)
      have hb := hasAttr_false_of_and_eq_zero _ _ (and_eq_zero_of_or_and_left _ _ _ h)
      simp [ha, hb]
    · have ha := hasAttr_false_of_and_eq_zero _ _ (and_eq_zero_of_or_and_right _ _ _ h)
      have hb := hasAttr_false_of_and_eq_zero _ _ (and_eq_zero_of_or_and_left _ _ _ h)
      simp [ha, hb]
    · exact absurd hmatch.1 h
    · exact absurd hmatch.2 h
    · exact absurd h hown
    · rw [hov1] at h; exact absurd h (by decide)
  · rfl

/-- Witness for C6 on the scenario of the specification: one notification each way,
the second ship (examined as `a`) hit first. -/
theorem C6_one_hit_per_direction_witness :
    hitEvents (nearPair demoConsts demoEnv staleGrid 1 9 9 ⟨demoObjsA, [], false⟩ 0).trace
      = [Event.hit 1 0, Event.hit 0 1] :=
  C6_one_hit_per_direction demoConsts demoEnv staleGrid 1 0 9 9 demoObjsA
    (by decide) (by decide) (by decide) (by decide) (fun _ _ _ _ => rfl)
/-- Witness for C10: the sample beam runs from `(1000, 900)` to `(1000, 950)`, both
endpoints above the box `[995, 1005) x [995, 1005)` of the first ship, so both
outcodes are 2 and the pair step changes nothing. -/
theorem C10_beam_outside_rejected_witness :
    (demoObjsB 0).absoluteBounds = ⟨995, 995, 1005, 1005⟩ ∧
    mClipCode 1000 900 ⟨995, 995, 1005, 1005⟩ = 2 ∧
    mClipCode 1000 950 ⟨995, 995, 1005, 1005⟩ = 2 ∧
    hitBeam demoConsts demoEnv ⟨demoObjsB, [], false⟩ 0 2 = ⟨demoObjsB, [], false⟩ :=
  ⟨by decide, by decide, by decide,
    (C10_beam_outside_rejected demoConsts demoEnv ⟨demoObjsB, [], false⟩ 0 2 ⟨⟨1000, 950⟩⟩
      (by decide) (by decide)).2⟩

/-! ## Bucket chains -/

theorem isChain_cons (next : Nat → Option Nat) (a : Nat) (l : List Nat) :
    isChain next (some a) (a :: l) ↔ isChain next (next a) l := by
  simp [isChain]

theorem chainFrom_eq_of_isChain (next : Nat → Option Nat) :
    ∀ (l : List Nat) (start : Option Nat) (fuel : Nat),
      isChain next start l → l.length ≤ fuel → chainFrom next fuel start = l := by
  intro l
  induction l with
  | nil =>
    intro start fuel h _
    cases start with
    | none => cases fuel <;> rfl
    | some a => simp [isChain] at h
  | cons x l ih =>
    intro start fuel h hl
    cases start with
    | none => simp [isChain] at h
    | some a =>
      obtain ⟨hax, hrest⟩ := h
      cases fuel with
      | zero => simp at hl
      | succ n =>
        simp only [chainFrom]
        rw [ih (next a) n hrest (by simpa using hl), hax]

theorem isChain_update (next : Nat → Option Nat) (a : Nat) (v : Option Nat) :
    ∀ (l : List Nat) (start : Option Nat),
      isChain next start l → a ∉ l → isChain (Function.update next a v) start l := by
  intro l
  induction l with
  | nil =>
    intro start h _
    cases start with
    | none => trivial
    | some b => simp [isChain] at h
  | cons x l ih =>
    intro start h hmem
    cases start with
    | none => simp [isChain] at h
    | some b =>
      obtain ⟨hbx, hrest⟩ := h
      have hxa : x ≠ a := fun h => hmem (by simp [h])
      have hba : b ≠ a := by rw [hbx]; exact hxa
      refine ⟨hbx, ?_⟩
      rw [Function.update_noteq hba]
      exact ih _ hrest (fun h => hmem (List.mem_cons_of_mem _ h))

/-- In a chain, what follows an element is the chain from its link. -/
theorem isChain_tail (next : Nat → Option Nat) :
    ∀ (l1 : List Nat) (a : Nat) (l2 : List Nat) (start : Option Nat),
      isChain next start (l1 ++ a :: l2) → isChain next (next a) l2 := by
  intro l1
  induction l1 with
  | nil =>
    intro a l2 start h
    cases start with
    | none => simp [isChain] at h
    | some b =>
      obtain ⟨hba, hrest⟩ := h
      rw [← hba]; exact hrest
  | cons x l1 ih =>
    intro a l2 start h
    cases start with
    | none => simp [isChain] at h
    | some b =>
      obtain ⟨_, hrest⟩ := h
      exact ih a l2 _ hrest

theorem modifyObject_same (objs : Objs) (i : Nat) (f : SpaceObject → SpaceObject) :
    modifyObject objs i f i = f (objs i) := by
  unfold modifyObject; simp

theorem modifyObject_other (objs : Objs) (i j : Nat) (f : SpaceObject → SpaceObject)
    (h : j ≠ i) : modifyObject objs i f j = objs j := by
  unfold modifyObject; simp [Function.update_noteq h]

/-! ## The rebuild loop -/

/-- The three ways expiry ends: nothing to do, the age counted down without expiry
(the object keeps its active state), or the expire action run and the active state
tested afterwards. -/
theorem expirePhase_cases (K : Consts) (R : RebuildEnv) (objs : Objs) (a : Nat) :
    expirePhase K R objs a = (objs, false) ∨
    (∃ objs1, expirePhase K R objs a = (objs1, false) ∧ (objs1 a).active = (objs a).active) ∨
    (∃ objs3, expirePhase K R objs a = (objs3, decide ((objs3 a).active = 0))) := by
  unfold expirePhase
  split
  · dsimp only
    split
    · right; right; exact ⟨_, rfl⟩
    · right; left; exact ⟨_, rfl, by rw [modifyObject_same]⟩
  · left; rfl

theorem expirePhase_active (K : Consts) (R : RebuildEnv) (objs : Objs) (a : Nat)
    (hact : (objs a).active ≠ 0) (hgo : (expirePhase K R objs a).2 = false) :
    ((expirePhase K R objs a).1 a).active ≠ 0 := by
  rcases expirePhase_cases K R objs a with h | ⟨o1, h, h1⟩ | ⟨o3, h⟩
  · rw [h]; exact hact
  · rw [h]; dsimp only; rw [h1]; exact hact
  · rw [h] at hgo ⊢
    simpa using hgo

theorem periodicPhase_cases (R : RebuildEnv) (objs : Objs) (a : Nat) :
    periodicPhase R objs a = (objs, false) ∨
    (∃ objs1, periodicPhase R objs a = (objs1, false) ∧ (objs1 a).active = (objs a).active) ∨
    (∃ objs3, periodicPhase R objs a = (objs3, decide ((objs3 a).active = 0))) := by
  unfold periodicPhase
  split
  · dsimp only
    split
    · right; right; exact ⟨_, rfl⟩
    · right; left; exact ⟨_, rfl, by rw [modifyObject_same]⟩
  · left; rfl

theorem periodicPhase_active (R : RebuildEnv) (objs : Objs) (a : Nat)
    (hact : (objs a).active ≠ 0) (hgo : (periodicPhase R objs a).2 = false) :
    ((periodicPhase R objs a).1 a).active ≠ 0 := by
  rcases periodicPhase_cases R objs a with h | ⟨o1, h, h1⟩ | ⟨o3, h⟩
  · rw [h]; exact hact
  · rw [h]; dsimp only; rw [h1]; exact hact
  · rw [h] at hgo ⊢
    simpa using hgo

@[simp] theorem radarPhase_grid (K : Consts) (R : RebuildEnv) (s : RebuildState) (a : Nat) :
    (radarPhase K R s a).grid = s.grid := by
  unfold radarPhase
  split
  · rfl
  · split
    · split
      · dsimp only
        split <;> split <;> try split
        all_goals rfl
      · rfl
    · rfl

@[simp] theorem radarPhase_inserted (K : Consts) (R : RebuildEnv) (s : RebuildState) (a : Nat) :
    (radarPhase K R s a).inserted = s.inserted := by
  unfold radarPhase
  split
  · rfl
  · split
    · split
      · dsimp only
        split <;> split <;> try split
        all_goals rfl
      · rfl
    · rfl

theorem radarPhase_objs (K : Consts) (R : RebuildEnv) (s : RebuildState) (a : Nat) :
    (radarPhase K R s a).objs = s.objs ∨
    ∃ d, (radarPhase K R s a).objs =
      modifyObject s.objs a fun o => { o with distanceFromPlayer := d } := by
  unfold radarPhase
  cases R.ship with
  | none => left; rfl
  | some player =>
    dsimp only
    split
    · split
      · right
        refine ⟨distanceFromShip K (s.objs player) (s.objs a), ?_⟩
        split <;> split <;> try split
        all_goals rfl
      · left; rfl
    · left; rfl

theorem radarPhase_active (K : Consts) (R : RebuildEnv) (s : RebuildState) (a i : Nat) :
    ((radarPhase K R s a).objs i).active = (s.objs i).active := by
  rcases radarPhase_objs K R s a with h | ⟨d, h⟩
  · rw [h]
  · rw [h]
    by_cases hi : i = a
    · subst hi; rw [modifyObject_same]
    · rw [modifyObject_other _ _ _ _ hi]
theorem nearBucket_append (ins : List Insertion) (a : Nat) (o : SpaceObject) (c : Int) :
    nearBucket (ins ++ [⟨a, o⟩]) c =
      if nearCellIndex o.location = c then a :: nearBucket ins c else nearBucket ins c := by
  unfold nearBucket
  rw [List.filter_append]
  by_cases h : nearCellIndex o.location = c
  · simp [h]
  · simp [h]

theorem farBucket_append (ins : List Insertion) (a : Nat) (o : SpaceObject) (c : Int) :
    farBucket (ins ++ [⟨a, o⟩]) c =
      if farCellIndex o.location = c then a :: farBucket ins c else farBucket ins c := by
  unfold farBucket
  rw [List.filter_append]
  by_cases h : farCellIndex o.location = c
  · simp [h]
  · simp [h]

theorem mem_nearBucket (ins : List Insertion) (c : Int) (x : Nat) :
    x ∈ nearBucket ins c ↔
      ∃ e ∈ ins, nearCellIndex e.snapshot.location = c ∧ e.object = x := by
  unfold nearBucket
  simp [List.mem_filter, and_assoc]

theorem mem_farBucket (ins : List Insertion) (c : Int) (x : Nat) :
    x ∈ farBucket ins c ↔
      ∃ e ∈ ins, farCellIndex e.snapshot.location = c ∧ e.object = x := by
  unfold farBucket
  simp [List.mem_filter, and_assoc]

theorem RebuildInv.congr (K : Consts) (s1 s2 : RebuildState) (done : List Nat)
    (hg : s2.grid = s1.grid) (hi : s2.inserted = s1.inserted) (h : RebuildInv K s1 done) :
    RebuildInv K s2 done := by
  unfold RebuildInv at h ⊢
  rw [hg, hi]; exact h

theorem RebuildInv.extend (K : Consts) (s : RebuildState) (done : List Nat) (a : Nat)
    (h : RebuildInv K s done) : RebuildInv K s (done ++ [a]) := by
  unfold RebuildInv at h ⊢
  exact ⟨h.1.trans (List.sublist_append_left _ _), h.2⟩

theorem insertInGrid_inv (K : Consts) (s : RebuildState) (done : List Nat) (a : Nat)
    (h : RebuildInv K s done) (ha : a ∉ done) (hact : (s.objs a).active ≠ 0) :
    RebuildInv K (insertInGrid K s a) (done ++ [a]) := by
  unfold insertInGrid
  dsimp only
  split
  · rename_i helig
    obtain ⟨hsub, hnear, hfar, hsnap, hcoord⟩ := h
    have hnotin : ∀ e ∈ s.inserted, e.object ≠ a := by
      intro e he hea
      apply ha
      rw [← hea]
      exact hsub.subset (List.mem_map_of_mem _ he)
    refine ⟨?_, ?_, ?_, ?_, ?_⟩
    · dsimp only
      rw [List.map_append]
      exact List.Sublist.append hsub (List.Sublist.refl _)
    · intro c hc0 hc1
      dsimp only
      rw [nearBucket_append]
      have hold : a ∉ nearBucket s.inserted c := by
        intro hm
        obtain ⟨e, he, _, hea⟩ := (mem_nearBucket _ _ _).1 hm
        exact hnotin e he hea
      by_cases hcell : nearCellIndex (s.objs a).location = c
      · rw [if_pos hcell, hcell, Function.update_same, isChain_cons, Function.update_same]
        exact isChain_update _ _ _ _ _ (hnear c hc0 hc1) hold
      · rw [if_neg hcell, Function.update_noteq (Ne.symm hcell)]
        exact isChain_update _ _ _ _ _ (hnear c hc0 hc1) hold
    · intro c hc0 hc1
      dsimp only
      rw [farBucket_append]
      have hold : a ∉ farBucket s.inserted c := by
        intro hm
        obtain ⟨e, he, _, hea⟩ := (mem_farBucket _ _ _).1 hm
        exact hnotin e he hea
      by_cases hcell : farCellIndex (s.objs a).location = c
      · rw [if_pos hcell, hcell, Function.update_same, isChain_cons, Function.update_same]
        exact isChain_update _ _ _ _ _ (hfar c hc0 hc1) hold
      · rw [if_neg hcell, Function.update_noteq (Ne.symm hcell)]
        exact isChain_update _ _ _ _ _ (hfar c hc0 hc1) hold
    · intro e he
      dsimp only at he
      rcases List.mem_append.1 he with h1 | h1
      · exact hsnap e h1
      · rw [List.mem_singleton] at h1
        rw [h1]
        exact ⟨hact, helig⟩
    · intro e he
      dsimp only at he ⊢
      rcases List.mem_append.1 he with h1 | h1
      · rw [Function.update_noteq (hnotin e h1), Function.update_noteq (hnotin e h1)]
        exact hcoord e h1
      · rw [List.mem_singleton] at h1
        rw [h1]
        dsimp only
        rw [Function.update_same, Function.update_same]
        exact ⟨rfl, rfl⟩
  · exact RebuildInv.extend K s done a h

theorem rebuildStep_inv (K : Consts) (R : RebuildEnv) (s : RebuildState) (done : List Nat)
    (a : Nat) (h : RebuildInv K s done) (ha : a ∉ done) :
    RebuildInv K (rebuildStep K R s a) (done ++ [a]) := by
  unfold rebuildStep
  split
  · apply RebuildInv.extend
    cases R.ship with
    | none => exact h
    | some player =>
      dsimp only
      split
      · exact RebuildInv.congr K s _ done rfl rfl h
      · exact h
  · rename_i hact
    dsimp only
    split
    · exact RebuildInv.extend K _ done a (RebuildInv.congr K s _ done rfl rfl h)
    · rename_i hgo1
      split
      · exact RebuildInv.extend K _ done a (RebuildInv.congr K s _ done rfl rfl h)
      · rename_i hgo2
        have hgo1' : (expirePhase K R s.objs a).2 = false := by
          cases hx : (expirePhase K R s.objs a).2
          · rfl
          · exact absurd hx hgo1
        have hgo2' : (periodicPhase R (expirePhase K R s.objs a).1 a).2 = false := by
          cases hx : (periodicPhase R (expirePhase K R s.objs a).1 a).2
          · rfl
          · exact absurd hx hgo2
        have hact1 := expirePhase_active K R s.objs a hact hgo1'
        have hact2 := periodicPhase_active R _ a hact1 hgo2'
        apply insertInGrid_inv K _ done a
        · exact RebuildInv.congr K s _ done (by simp) (by simp) h
        · exact ha
        · rw [radarPhase_active]; exact hact2

theorem rebuildStart_inv (K : Consts) (objs : Objs) (g : Grid) :
    RebuildInv K (rebuildStart objs g) [] := by
  refine ⟨List.Sublist.refl _, ?_, ?_, ?_, ?_⟩
  · intro c hc0 hc1
    show isChain _ ((resetGrid g).nearObject c) []
    unfold resetGrid
    dsimp only
    rw [if_pos ⟨hc0, hc1⟩]
    trivial
  · intro c hc0 hc1
    show isChain _ ((resetGrid g).farObject c) []
    unfold resetGrid
    dsimp only
    rw [if_pos ⟨hc0, hc1⟩]
    trivial
  · intro e he; simp [rebuildStart] at he
  · intro e he; simp [rebuildStart] at he

theorem foldl_rebuildStep_inv (K : Consts) (R : RebuildEnv) :
    ∀ (rest done : List Nat) (s : RebuildState),
      RebuildInv K s done → (done ++ rest).Nodup →
      RebuildInv K (rest.foldl (rebuildStep K R) s) (done ++ rest) := by
  intro rest
  induction rest with
  | nil => intro done s h _; simpa using h
  | cons a rest ih =>
    intro done s h hnd
    have ha : a ∉ done := by
      intro hmem
      have := List.nodup_append.1 hnd
      exact this.2.2 hmem (List.mem_cons_self _ _)
    have h1 := rebuildStep_inv K R s done a h ha
    have h2 := ih (done ++ [a]) (rebuildStep K R s a) h1 (by simpa using hnd)
    simpa using h2

/-- The invariant holds of the rebuilt grid, for every previous grid. -/
theorem rebuildGrid_inv (K : Consts) (R : RebuildEnv) (objs : Objs) (g : Grid)
    (order : List Nat) (hnd : order.Nodup) :
    RebuildInv K (rebuildGrid K R objs g order) order := by
  have := foldl_rebuildStep_inv K R order [] (rebuildStart objs g)
    (rebuildStart_inv K objs g) (by simpa using hnd)
  simpa [rebuildGrid] using this
/-! ## The rebuild does not read the grid -/

theorem radarPhase_withGrid (K : Consts) (R : RebuildEnv) (s : RebuildState) (g : Grid)
    (a : Nat) : radarPhase K R (withGrid s g) a = withGrid (radarPhase K R s a) g := by
  unfold radarPhase withGrid
  cases R.ship with
  | none => rfl
  | some player =>
    dsimp only
    split
    · split
      · split <;> split <;> try split
        all_goals rfl
      · rfl
    · rfl

theorem insertInGrid_withGrid (K : Consts) (s : RebuildState) (g : Grid) (a : Nat) :
    ∃ g2, insertInGrid K (withGrid s g) a = withGrid (insertInGrid K s a) g2 := by
  unfold insertInGrid withGrid
  dsimp only
  split
  · exact ⟨_, rfl⟩
  · exact ⟨g, rfl⟩

theorem rebuildStep_withGrid (K : Consts) (R : RebuildEnv) (s : RebuildState) (g : Grid)
    (a : Nat) : ∃ g2, rebuildStep K R (withGrid s g) a = withGrid (rebuildStep K R s a) g2 := by
  unfold rebuildStep
  have hobjs : (withGrid s g).objs = s.objs := rfl
  rw [hobjs]
  split
  · cases R.ship with
    | none => exact ⟨g, rfl⟩
    | some player =>
      dsimp only
      split
      · exact ⟨g, rfl⟩
      · exact ⟨g, rfl⟩
  · dsimp only
    split
    · exact ⟨g, rfl⟩
    · split
      · exact ⟨g, rfl⟩
      · have e1 : ({ withGrid s g with objs := (periodicPhase R (expirePhase K R s.objs a).1 a).1 }
            : RebuildState) =
            withGrid { s with objs := (periodicPhase R (expirePhase K R s.objs a).1 a).1 } g := rfl
        rw [e1, radarPhase_withGrid]
        exact insertInGrid_withGrid K _ g a

theorem foldl_rebuildStep_withGrid (K : Consts) (R : RebuildEnv) :
    ∀ (order : List Nat) (s : RebuildState) (g : Grid),
      ∃ g2, order.foldl (rebuildStep K R) (withGrid s g)
        = withGrid (order.foldl (rebuildStep K R) s) g2 := by
  intro order
  induction order with
  | nil => intro s g; exact ⟨g, rfl⟩
  | cons a rest ih =>
    intro s g
    obtain ⟨g1, h1⟩ := rebuildStep_withGrid K R s g a
    obtain ⟨g2, h2⟩ := ih (rebuildStep K R s a) g1
    exact ⟨g2, by simp only [List.foldl_cons]; rw [h1, h2]⟩

/-- Two rebuilds from the same object table and different previous grids perform the
same insertions and leave the same object table. -/
theorem rebuildGrid_prior (K : Consts) (R : RebuildEnv) (objs : Objs) (g g1 : Grid)
    (order : List Nat) :
    (rebuildGrid K R objs g1 order).inserted = (rebuildGrid K R objs g order).inserted ∧
    (rebuildGrid K R objs g1 order).objs = (rebuildGrid K R objs g order).objs := by
  have e : rebuildStart objs g1 = withGrid (rebuildStart objs g) (resetGrid g1) := rfl
  obtain ⟨g2, h⟩ := foldl_rebuildStep_withGrid K R order (rebuildStart objs g) (resetGrid g1)
  unfold rebuildGrid
  rw [e, h]
  exact ⟨rfl, rfl⟩

theorem inserted_nodup (K : Consts) (s : RebuildState) (done : List Nat)
    (h : RebuildInv K s done) (hnd : done.Nodup) :
    (s.inserted.map fun e => e.object).Nodup :=
  h.1.nodup hnd

theorem nearBucket_sublist (ins : List Insertion) (c : Int) :
    (nearBucket ins c).Sublist (ins.map fun e => e.object).reverse := by
  unfold nearBucket
  rw [List.reverse_sublist]
  exact List.Sublist.map _ (List.filter_sublist _)

theorem farBucket_sublist (ins : List Insertion) (c : Int) :
    (farBucket ins c).Sublist (ins.map fun e => e.object).reverse := by
  unfold farBucket
  rw [List.reverse_sublist]
  exact List.Sublist.map _ (List.filter_sublist _)

theorem nearBucket_length_le (K : Consts) (s : RebuildState) (done : List Nat)
    (h : RebuildInv K s done) (c : Int) : (nearBucket s.inserted c).length ≤ done.length := by
  have h1 := (nearBucket_sublist s.inserted c).length_le
  have h2 := h.1.length_le
  simp only [List.length_reverse] at h1
  omega

theorem farBucket_length_le (K : Consts) (s : RebuildState) (done : List Nat)
    (h : RebuildInv K s done) (c : Int) : (farBucket s.inserted c).length ≤ done.length := by
  have h1 := (farBucket_sublist s.inserted c).length_le
  have h2 := h.1.length_le
  simp only [List.length_reverse] at h1
  omega

/-- The near list of a cell of the rebuilt grid, followed with a bound not below the
length of the active list, is the bucket of the insertions into that cell. -/
theorem rebuilt_near_chain (K : Consts) (R : RebuildEnv) (objs : Objs) (g : Grid)
    (order : List Nat) (hnd : order.Nodup) (fuel : Nat) (hfuel : order.length ≤ fuel)
    (c : Int) (hc0 : 0 ≤ c) (hc1 : c < kProximityGridDataLength) :
    chainFrom (rebuildGrid K R objs g order).grid.nextNearObject fuel
        ((rebuildGrid K R objs g order).grid.nearObject c)
      = nearBucket (rebuildGrid K R objs g order).inserted c := by
  have hinv := rebuildGrid_inv K R objs g order hnd
  exact chainFrom_eq_of_isChain _ _ _ _ (hinv.2.1 c hc0 hc1)
    (le_trans (nearBucket_length_le K _ order hinv c) hfuel)

theorem rebuilt_far_chain (K : Consts) (R : RebuildEnv) (objs : Objs) (g : Grid)
    (order : List Nat) (hnd : order.Nodup) (fuel : Nat) (hfuel : order.length ≤ fuel)
    (c : Int) (hc0 : 0 ≤ c) (hc1 : c < kProximityGridDataLength) :
    chainFrom (rebuildGrid K R objs g order).grid.nextFarObject fuel
        ((rebuildGrid K R objs g order).grid.farObject c)
      = farBucket (rebuildGrid K R objs g order).inserted c := by
  have hinv := rebuildGrid_inv K R objs g order hnd
  exact chainFrom_eq_of_isChain _ _ _ _ (hinv.2.2.1 c hc0 hc1)
    (le_trans (farBucket_length_le K _ order hinv c) hfuel)

/-- C9: the grid rebuild is independent of the previous grid contents. For every prior
state `g` of heads and links (and any other prior state `g1`), every cell `c` and every
bound `fuel` not below the length of the active list: the near (resp. far) list of
`c` after the rebuild is exactly the bucket of the insertions of this rebuild whose
location maps to `c`, newest first; the handles inserted are a sublist of the active
list, so each occurs once and the bucket is in reverse active-list order; each was
active and had an attribute of `kConsiderDistanceAttributes` when inserted; and the
lists do not depend on the prior grid. -/
theorem C9_rebuild_fresh (K : Consts) (R : RebuildEnv) (objs : Objs) (g g1 : Grid)
    (order : List Nat) (hnd : order.Nodup) (fuel : Nat) (hfuel : order.length ≤ fuel)
    (c : Int) (hc0 : 0 ≤ c) (hc1 : c < kProximityGridDataLength) :
    chainFrom (rebuildGrid K R objs g order).grid.nextNearObject fuel
        ((rebuildGrid K R objs g order).grid.nearObject c)
      = nearBucket (rebuildGrid K R objs g order).inserted c ∧
    chainFrom (rebuildGrid K R objs g order).grid.nextFarObject fuel
        ((rebuildGrid K R objs g order).grid.farObject c)
      = farBucket (rebuildGrid K R objs g order).inserted c ∧
    ((rebuildGrid K R objs g order).inserted.map fun e => e.object).Sublist order ∧
    (nearBucket (rebuildGrid K R objs g order).inserted c).Nodup ∧
    (farBucket (rebuildGrid K R objs g order).inserted c).Nodup ∧
    (∀ e ∈ (rebuildGrid K R objs g order).inserted,
      e.snapshot.active ≠ 0 ∧ hasAttr e.snapshot (kConsiderDistanceAttributes K) = true) ∧
    chainFrom (rebuildGrid K R objs g1 order).grid.nextNearObject fuel
        ((rebuildGrid K R objs g1 order).grid.nearObject c)
      = chainFrom (rebuildGrid K R objs g order).grid.nextNearObject fuel
        ((rebuildGrid K R objs g order).grid.nearObject c) ∧
    chainFrom (rebuildGrid K R objs g1 order).grid.nextFarObject fuel
        ((rebuildGrid K R objs g1 order).grid.farObject c)
      = chainFrom (rebuildGrid K R objs g order).grid.nextFarObject fuel
        ((rebuildGrid K R objs g order).grid.farObject c) := by
  have hinv := rebuildGrid_inv K R objs g order hnd
  have hn := rebuilt_near_chain K R objs g order hnd fuel hfuel c hc0 hc1
  have hf := rebuilt_far_chain K R objs g order hnd fuel hfuel c hc0 hc1
  have hn1 := rebuilt_near_chain K R objs g1 order hnd fuel hfuel c hc0 hc1
  have hf1 := rebuilt_far_chain K R objs g1 order hnd fuel hfuel c hc0 hc1
  have hins := (rebuildGrid_prior K R objs g g1 order).1
  have hnodup := inserted_nodup K _ order hinv hnd
  refine ⟨hn, hf, hinv.1, ?_, ?_, hinv.2.2.2.1, ?_, ?_⟩
  · exact (nearBucket_sublist _ c).nodup (List.nodup_reverse.2 hnodup)
  · exact (farBucket_sublist _ c).nodup (List.nodup_reverse.2 hnodup)
  · rw [hn1, hn, hins]
  · rw [hf1, hf, hins]
/-! ## The cell index is inside the grid -/

theorem ldiff_fifteen (m : Nat) : Nat.ldiff 15 m = 15 - m % 16 := by
  have h1 : Nat.ldiff 15 m = 15 ^^^ (m % 16) := by
    apply Nat.eq_of_testBit_eq
    intro i
    rw [Nat.testBit_ldiff, Nat.testBit_xor]
    have h15 : Nat.testBit 15 i = decide (i < 4) := Nat.testBit_two_pow_sub_one 4 i
    have hm : Nat.testBit (m % 16) i = (decide (i < 4) && Nat.testBit m i) :=
      Nat.testBit_mod_two_pow m 4 i
    rw [h15, hm]
    by_cases hi : i < 4 <;> cases Nat.testBit m i <;> simp [hi]
  have h2 : ∀ r, r < 16 → 15 ^^^ r = 15 - r := by decide
  rw [h1, h2 _ (Nat.mod_lt _ (by decide))]

theorem land_fifteen (x : Int) : Int.land x 15 = x % 16 := by
  cases x with
  | ofNat m =>
    show ((m &&& 15 : Nat) : Int) = (m : Int) % 16
    have := Nat.and_pow_two_sub_one_eq_mod m 4
    norm_num at this
    rw [this]
    omega
  | negSucc m =>
    show ((Nat.ldiff 15 m : Nat) : Int) = Int.negSucc m % 16
    rw [ldiff_fifteen, Int.negSucc_eq]
    omega

theorem cellIndex_range (x y : Int) :
    0 ≤ shiftLeft (Int.land y kProximityUnitAndModulo) kProximityWidthMultiply
          + Int.land x kProximityUnitAndModulo ∧
    shiftLeft (Int.land y kProximityUnitAndModulo) kProximityWidthMultiply
          + Int.land x kProximityUnitAndModulo < kProximityGridDataLength := by
  have e15 : kProximityUnitAndModulo = 15 := by decide
  have e256 : kProximityGridDataLength = 256 := by decide
  rw [e15, e256, land_fifteen, land_fifteen]
  unfold shiftLeft kProximityWidthMultiply
  norm_num
  constructor <;> omega

theorem nearCellIndex_range (loc : Point) :
    0 ≤ nearCellIndex loc ∧ nearCellIndex loc < kProximityGridDataLength :=
  cellIndex_range _ _

theorem farCellIndex_range (loc : Point) :
    0 ≤ farCellIndex loc ∧ farCellIndex loc < kProximityGridDataLength :=
  cellIndex_range _ _
/-! ## Each inserted object is in one bucket -/

theorem count_map_filter_object (p : Insertion → Bool) :
    ∀ (ins : List Insertion), (ins.map fun e => e.object).Nodup →
      ∀ e ∈ ins, List.count e.object ((ins.filter p).map fun e => e.object)
        = if p e = true then 1 else 0 := by
  intro ins
  induction ins with
  | nil => intro _ e he; simp at he
  | cons x rest ih =>
    intro hnd e he
    rw [List.map_cons, List.nodup_cons] at hnd
    obtain ⟨hx, hrest⟩ := hnd
    have hsub : ∀ y, y ∈ (rest.filter p).map (fun e => e.object) →
        y ∈ rest.map fun e => e.object := by
      intro y hy
      exact (List.Sublist.map _ (List.filter_sublist _)).subset hy
    rcases List.mem_cons.1 he with h | h
    · subst h
      have h0 : List.count e.object ((rest.filter p).map fun e => e.object) = 0 :=
        List.count_eq_zero.2 (fun hm => hx (hsub _ hm))
      by_cases hp : p e = true
      · rw [List.filter_cons_of_pos hp, List.map_cons, List.count_cons_self, h0, if_pos hp]
      · rw [List.filter_cons_of_neg hp, h0, if_neg hp]
    · have hne : x.object ≠ e.object := by
        intro heq
        apply hx
        rw [heq]
        exact List.mem_map_of_mem _ h
      by_cases hp : p x = true
      · rw [List.filter_cons_of_pos hp, List.map_cons, List.count_cons_of_ne hne.symm]
        exact ih hrest e h
      · rw [List.filter_cons_of_neg hp]
        exact ih hrest e h

theorem count_nearBucket (ins : List Insertion) (hnd : (ins.map fun e => e.object).Nodup)
    (e : Insertion) (he : e ∈ ins) (c : Int) :
    List.count e.object (nearBucket ins c)
      = if nearCellIndex e.snapshot.location = c then 1 else 0 := by
  unfold nearBucket
  rw [List.count_reverse, count_map_filter_object _ ins hnd e he]
  simp

theorem count_farBucket (ins : List Insertion) (hnd : (ins.map fun e => e.object).Nodup)
    (e : Insertion) (he : e ∈ ins) (c : Int) :
    List.count e.object (farBucket ins c)
      = if farCellIndex e.snapshot.location = c then 1 else 0 := by
  unfold farBucket
  rw [List.count_reverse, count_map_filter_object _ ins hnd e he]
  simp

/-- Witness for C9 on the sample table, rebuilt over a grid full of stale entries and
over a freshly initialised one: the near list of cell 119 is the beam, the second
ship, the first ship. -/
theorem C9_rebuild_fresh_witness :
    chainFrom (rebuildGrid demoConsts demoRebuildEnv demoObjs staleGrid [0, 1, 2, 3]).grid.nextNearObject
        4 ((rebuildGrid demoConsts demoRebuildEnv demoObjs staleGrid [0, 1, 2, 3]).grid.nearObject 119)
      = [2, 1, 0] ∧
    chainFrom (rebuildGrid demoConsts demoRebuildEnv demoObjs (InitMotion staleGrid)
          [0, 1, 2, 3]).grid.nextNearObject
        4 ((rebuildGrid demoConsts demoRebuildEnv demoObjs (InitMotion staleGrid)
          [0, 1, 2, 3]).grid.nearObject 119)
      = chainFrom (rebuildGrid demoConsts demoRebuildEnv demoObjs staleGrid [0, 1, 2, 3]).grid.nextNearObject
        4 ((rebuildGrid demoConsts demoRebuildEnv demoObjs staleGrid [0, 1, 2, 3]).grid.nearObject 119) :=
  ⟨by decide,
   (C9_rebuild_fresh demoConsts demoRebuildEnv demoObjs staleGrid (InitMotion staleGrid)
      [0, 1, 2, 3] (by decide) 4 (by decide) 119 (by decide) (by decide)).2.2.2.2.2.2.1⟩

/-! ## The pairs examined by a pass are among the candidates -/

theorem examinedPairs_append (l1 l2 : List Event) :
    examinedPairs (l1 ++ l2) = examinedPairs l1 ++ examinedPairs l2 := by
  unfold examinedPairs; exact List.filterMap_append _ _ _

@[simp] theorem examinedPairs_examined (a b : Nat) :
    examinedPairs [Event.examined a b] = [(a, b)] := rfl

@[simp] theorem examinedPairs_hit (a b : Nat) : examinedPairs [Event.hit a b] = [] := rfl

@[simp] theorem examinedPairs_correct (a b : Nat) : examinedPairs [Event.correct a b] = [] := rfl

@[simp] theorem examinedPairs_nil : examinedPairs [] = [] := rfl

theorem hitFirst_examined (K : Consts) (E : PassEnv) (s : PassState) (a b : Nat) :
    examinedPairs (hitFirst K E s a b).trace = examinedPairs s.trace := by
  rw [hitFirst_trace, examinedPairs_append]
  split <;> simp

theorem hitSecond_examined (K : Consts) (E : PassEnv) (s : PassState) (a b : Nat) :
    examinedPairs (hitSecond K E s a b).trace = examinedPairs s.trace := by
  rw [hitSecond_trace, examinedPairs_append]
  split <;> simp

theorem hitBoxes_examined (K : Consts) (E : PassEnv) (s : PassState) (a b : Nat) :
    examinedPairs (hitBoxes K E s a b).trace = examinedPairs s.trace := by
  unfold hitBoxes
  split
  · rw [hitSecond_examined, hitFirst_examined]
  · rfl

theorem hitBeam_examined (K : Consts) (E : PassEnv) (s : PassState) (a b : Nat) :
    examinedPairs (hitBeam K E s a b).trace = examinedPairs s.trace := by
  unfold hitBeam
  dsimp only
  split
  · rfl
  · split
    · simp [examinedPairs_append]
    · rfl
    · rfl

theorem separate_examined (K : Consts) (E : PassEnv) (s : PassState) (a b : Nat) :
    examinedPairs (separate K E s a b).trace = examinedPairs s.trace := by
  unfold separate
  split
  · rfl
  · split
    · simp [examinedPairs_append]
    · rfl

theorem collidePair_examined (K : Consts) (E : PassEnv) (s : PassState) (a b : Nat) :
    examinedPairs (collidePair K E s a b).trace = examinedPairs s.trace ++ [(a, b)] := by
  have key : ∀ s2 : PassState, examinedPairs s2.trace = examinedPairs s.trace ++ [(a, b)] →
      examinedPairs (if s2.aborted then s2 else separate K E s2 a b).trace
        = examinedPairs s.trace ++ [(a, b)] := by
    intro s2 h
    split
    · exact h
    · rw [separate_examined]; exact h
  unfold collidePair
  dsimp only
  split
  · simp [examinedPairs_append]
  · apply key
    split
    · rw [hitBoxes_examined]; simp [examinedPairs_append]
    · rw [hitBeam_examined]; simp [examinedPairs_append]

theorem nearPair_examined (K : Consts) (E : PassEnv) (g : Grid) (a : Nat) (superx supery : Int)
    (s : PassState) (b : Nat) :
    ∃ l, l.Sublist [(a, b)] ∧
      examinedPairs (nearPair K E g a superx supery s b).trace = examinedPairs s.trace ++ l := by
  unfold nearPair
  split
  · exact ⟨[], List.nil_sublist _, by simp⟩
  · split
    · exact ⟨[], List.nil_sublist _, by simp⟩
    · exact ⟨[(a, b)], List.Sublist.refl _, collidePair_examined K E s a b⟩

theorem farPair_examined (K : Consts) (E : PassEnv) (g : Grid) (a k : Nat) (superx supery : Int)
    (s : PassState) (b : Nat) :
    ∃ l, l.Sublist [(a, b)] ∧
      examinedPairs (farPair K E g a k superx supery s b).trace = examinedPairs s.trace ++ l := by
  unfold farPair
  split
  · exact ⟨[(a, b)], List.Sublist.refl _, by simp [examinedPairs_append]⟩
  · split
    · split
      · exact ⟨[(a, b)], List.Sublist.refl _, by simp [examinedPairs_append]⟩
      · exact ⟨[(a, b)], List.Sublist.refl _, by simp [examinedPairs_append]⟩
    · exact ⟨[], List.nil_sublist _, by simp⟩

/-- A loop whose body appends, to the pairs examined, a sublist of the candidates of
the element it handles appends a sublist of all the candidates. -/
theorem foldl_examined {α : Type} (f : PassState → α → PassState) (cand : α → List (Nat × Nat))
    (h : ∀ s x, ∃ l, l.Sublist (cand x) ∧
      examinedPairs (f s x).trace = examinedPairs s.trace ++ l) :
    ∀ (xs : List α) (s : PassState), ∃ l, l.Sublist (xs.flatMap cand) ∧
      examinedPairs (xs.foldl f s).trace = examinedPairs s.trace ++ l := by
  intro xs
  induction xs with
  | nil => intro s; exact ⟨[], List.nil_sublist _, by simp⟩
  | cons x rest ih =>
    intro s
    obtain ⟨l1, hl1, e1⟩ := h s x
    obtain ⟨l2, hl2, e2⟩ := ih (f s x)
    refine ⟨l1 ++ l2, ?_, ?_⟩
    · rw [List.flatMap_cons]
      exact List.Sublist.append hl1 hl2
    · rw [List.foldl_cons, e2, e1, List.append_assoc]

theorem flatMap_singleton_pair (a : Nat) (l : List Nat) :
    (l.flatMap fun b => [(a, b)]) = l.map (Prod.mk a) := by
  induction l with
  | nil => rfl
  | cons x rest ih => rw [List.flatMap_cons, ih]; rfl

theorem nearPairs_examined (K : Consts) (E : PassEnv) (g : Grid) (a : Nat) (superx supery : Int)
    (bs : List Nat) (s : PassState) :
    ∃ l, l.Sublist (bs.map (Prod.mk a)) ∧
      examinedPairs (bs.foldl (nearPair K E g a superx supery) s).trace
        = examinedPairs s.trace ++ l := by
  have := foldl_examined (nearPair K E g a superx supery) (fun b => [(a, b)])
    (nearPair_examined K E g a superx supery) bs s
  rw [flatMap_singleton_pair] at this
  exact this

theorem farPairs_examined (K : Consts) (E : PassEnv) (g : Grid) (a k : Nat) (superx supery : Int)
    (bs : List Nat) (s : PassState) :
    ∃ l, l.Sublist (bs.map (Prod.mk a)) ∧
      examinedPairs (bs.foldl (farPair K E g a k superx supery) s).trace
        = examinedPairs s.trace ++ l := by
  have := foldl_examined (farPair K E g a k superx supery) (fun b => [(a, b)])
    (farPair_examined K E g a k superx supery) bs s
  rw [flatMap_singleton_pair] at this
  exact this

theorem cellAfter_pred_succ (table : Int → Nat → adjacentUnitType) (i : Int) (k : Nat)
    (hk : k ≠ 0) :
    cellAfter table i (k - 1) + (table i k).adjacentUnit = cellAfter table i k := by
  cases k with
  | zero => exact absurd rfl hk
  | succ n => rfl

theorem nearUnit_examined (K : Consts) (E : PassEnv) (g : Grid) (i : Int) (a : Nat)
    (st : PassState × Int) (k : Nat)
    (hinv : st.1.aborted = true ∨ st.2 = cellAfter g.unitsToCheck i (k - 1)) :
    ∃ l, l.Sublist
        ((unitCandidates g.nearObject g.nextNearObject g.unitsToCheck E.chainFuel i a k).map
          (Prod.mk a)) ∧
      examinedPairs (nearUnit K E g i a st k).1.trace = examinedPairs st.1.trace ++ l ∧
      ((nearUnit K E g i a st k).1.aborted = true ∨
        (nearUnit K E g i a st k).2 = cellAfter g.unitsToCheck i k) := by
  unfold nearUnit
  split
  · rename_i hab
    exact ⟨[], List.nil_sublist _, by simp, Or.inl hab⟩
  · rename_i hab
    have hcur : st.2 = cellAfter g.unitsToCheck i (k - 1) := by
      rcases hinv with h | h
      · exact absurd h hab
      · exact h
    split
    · rename_i hk
      subst hk
      dsimp only
      split
      · exact ⟨[], List.nil_sublist _, by simp, Or.inr hcur⟩
      · obtain ⟨l, hl, he⟩ := nearPairs_examined K E g a (g.collisionGrid a).h
          (g.collisionGrid a).v
          (chainFrom g.nextNearObject E.chainFuel (g.nextNearObject a)) st.1
        refine ⟨l, ?_, he, Or.inr hcur⟩
        unfold unitCandidates
        rw [if_pos rfl]
        exact hl
    · rename_i hk
      dsimp only
      have hcell : st.2 + (g.unitsToCheck i k).adjacentUnit = cellAfter g.unitsToCheck i k := by
        rw [hcur]; exact cellAfter_pred_succ _ _ _ hk
      split
      · exact ⟨[], List.nil_sublist _, by simp, Or.inl rfl⟩
      · split
        · exact ⟨[], List.nil_sublist _, by simp, Or.inr hcell⟩
        · obtain ⟨l, hl, he⟩ := nearPairs_examined K E g a
            ((g.collisionGrid a).h + (g.unitsToCheck i k).superOffset.h)
            ((g.collisionGrid a).v + (g.unitsToCheck i k).superOffset.v)
            (chainFrom g.nextNearObject E.chainFuel
              (g.nearObject (st.2 + (g.unitsToCheck i k).adjacentUnit))) st.1
          refine ⟨l, ?_, he, Or.inr hcell⟩
          unfold unitCandidates
          rw [if_neg hk, ← hcell]
          exact hl

theorem farUnit_examined (K : Consts) (E : PassEnv) (g : Grid) (i : Int) (a : Nat)
    (st : PassState × Int) (k : Nat)
    (hcur : st.2 = cellAfter g.unitsToCheck i (k - 1)) :
    ∃ l, l.Sublist
        ((unitCandidates g.farObject g.nextFarObject g.unitsToCheck E.chainFuel i a k).map
          (Prod.mk a)) ∧
      examinedPairs (farUnit K E g i a st k).1.trace = examinedPairs st.1.trace ++ l ∧
      (farUnit K E g i a st k).2 = cellAfter g.unitsToCheck i k := by
  unfold farUnit
  split
  · rename_i hk
    subst hk
    dsimp only
    split
    · exact ⟨[], List.nil_sublist _, by simp, hcur⟩
    · obtain ⟨l, hl, he⟩ := farPairs_examined K E g a 0 (g.distanceGrid a).h
        (g.distanceGrid a).v
        (chainFrom g.nextFarObject E.chainFuel (g.nextFarObject a)) st.1
      refine ⟨l, ?_, he, hcur⟩
      unfold unitCandidates
      rw [if_pos rfl]
      exact hl
  · rename_i hk
    dsimp only
    have hcell : st.2 + (g.unitsToCheck i k).adjacentUnit = cellAfter g.unitsToCheck i k := by
      rw [hcur]; exact cellAfter_pred_succ _ _ _ hk
    split
    · exact ⟨[], List.nil_sublist _, by simp, hcell⟩
    · obtain ⟨l, hl, he⟩ := farPairs_examined K E g a k
        ((g.distanceGrid a).h + (g.unitsToCheck i k).superOffset.h)
        ((g.distanceGrid a).v + (g.unitsToCheck i k).superOffset.v)
        (chainFrom g.nextFarObject E.chainFuel
          (g.farObject (st.2 + (g.unitsToCheck i k).adjacentUnit))) st.1
      refine ⟨l, ?_, he, hcell⟩
      unfold unitCandidates
      rw [if_neg hk, ← hcell]
      exact hl

theorem nearUnits_examined (K : Consts) (E : PassEnv) (g : Grid) (i : Int) (a : Nat) :
    ∀ (n k0 : Nat) (st : PassState × Int),
      (st.1.aborted = true ∨ st.2 = cellAfter g.unitsToCheck i (k0 - 1)) →
      ∃ l, l.Sublist
          (((List.range' k0 n).flatMap
            (unitCandidates g.nearObject g.nextNearObject g.unitsToCheck E.chainFuel i a)).map
            (Prod.mk a)) ∧
        examinedPairs ((List.range' k0 n).foldl (nearUnit K E g i a) st).1.trace
          = examinedPairs st.1.trace ++ l := by
  intro n
  induction n with
  | zero => intro k0 st _; exact ⟨[], List.nil_sublist _, by simp⟩
  | succ n ih =>
    intro k0 st hinv
    obtain ⟨l1, hl1, e1, hinv1⟩ := nearUnit_examined K E g i a st k0 hinv
    obtain ⟨l2, hl2, e2⟩ := ih (k0 + 1) (nearUnit K E g i a st k0) (by simpa using hinv1)
    refine ⟨l1 ++ l2, ?_, ?_⟩
    · rw [List.range'_succ, List.flatMap_cons, List.map_append]
      exact List.Sublist.append hl1 hl2
    · rw [List.range'_succ, List.foldl_cons, e2, e1, List.append_assoc]

theorem farUnits_examined (K : Consts) (E : PassEnv) (g : Grid) (i : Int) (a : Nat) :
    ∀ (n k0 : Nat) (st : PassState × Int),
      st.2 = cellAfter g.unitsToCheck i (k0 - 1) →
      ∃ l, l.Sublist
          (((List.range' k0 n).flatMap
            (unitCandidates g.farObject g.nextFarObject g.unitsToCheck E.chainFuel i a)).map
            (Prod.mk a)) ∧
        examinedPairs ((List.range' k0 n).foldl (farUnit K E g i a) st).1.trace
          = examinedPairs st.1.trace ++ l := by
  intro n
  induction n with
  | zero => intro k0 st _; exact ⟨[], List.nil_sublist _, by simp⟩
  | succ n ih =>
    intro k0 st hinv
    obtain ⟨l1, hl1, e1, hinv1⟩ := farUnit_examined K E g i a st k0 hinv
    obtain ⟨l2, hl2, e2⟩ := ih (k0 + 1) (farUnit K E g i a st k0) (by simpa using hinv1)
    refine ⟨l1 ++ l2, ?_, ?_⟩
    · rw [List.range'_succ, List.flatMap_cons, List.map_append]
      exact List.Sublist.append hl1 hl2
    · rw [List.range'_succ, List.foldl_cons, e2, e1, List.append_assoc]

theorem nearObjectStep_examined (K : Consts) (E : PassEnv) (g : Grid) (i : Int)
    (s : PassState) (a : Nat) :
    ∃ l, l.Sublist
        ((objectCandidates g.nearObject g.nextNearObject g.unitsToCheck E.chainFuel i a).map
          (Prod.mk a)) ∧
      examinedPairs (nearObjectStep K E g i s a).trace = examinedPairs s.trace ++ l := by
  unfold nearObjectStep
  split
  · exact ⟨[], List.nil_sublist _, by simp⟩
  · dsimp only
    have := nearUnits_examined K E g i a kUnitsToCheckNumber 0
      ({ s with objs := Function.update s.objs a (computeBounds E.SHIFT_SCALE (s.objs a)) }, i)
      (Or.inr rfl)
    rw [← List.range_eq_range'] at this
    exact this

theorem farObjectStep_examined (K : Consts) (E : PassEnv) (g : Grid) (i : Int)
    (s : PassState) (a : Nat) :
    ∃ l, l.Sublist
        ((objectCandidates g.farObject g.nextFarObject g.unitsToCheck E.chainFuel i a).map
          (Prod.mk a)) ∧
      examinedPairs (farObjectStep K E g i s a).trace = examinedPairs s.trace ++ l := by
  unfold farObjectStep
  have := farUnits_examined K E g i a kUnitsToCheckNumber 0 (s, i) rfl
  rw [← List.range_eq_range'] at this
  exact this

/-- The pairs the near pass examines form a sublist of the candidate pairs of the near
lists. -/
theorem nearPass_examined (K : Consts) (E : PassEnv) (g : Grid) (objs : Objs) :
    (examinedPairs (nearPass K E g objs).trace).Sublist
      (pairCandidates g.nearObject g.nextNearObject g.unitsToCheck E.chainFuel) := by
  have hcell : ∀ (s : PassState) (i : Nat), ∃ l,
      l.Sublist (cellCandidates g.nearObject g.nextNearObject g.unitsToCheck E.chainFuel i) ∧
      examinedPairs (nearCell K E g s i).trace = examinedPairs s.trace ++ l := by
    intro s i
    exact foldl_examined (nearObjectStep K E g i) _ (nearObjectStep_examined K E g i) _ s
  obtain ⟨l, hl, he⟩ := foldl_examined (nearCell K E g) _ hcell
    (List.range kProximityGridDataLength.toNat) ⟨objs, [], false⟩
  unfold nearPass
  rw [he]
  simpa [pairCandidates] using hl

/-- The pairs the far pass examines form a sublist of the candidate pairs of the far
lists. -/
theorem farPass_examined (K : Consts) (E : PassEnv) (g : Grid) (objs : Objs) :
    (examinedPairs (farPass K E g objs).trace).Sublist
      (pairCandidates g.farObject g.nextFarObject g.unitsToCheck E.chainFuel) := by
  have hcell : ∀ (s : PassState) (i : Nat), ∃ l,
      l.Sublist (cellCandidates g.farObject g.nextFarObject g.unitsToCheck E.chainFuel i) ∧
      examinedPairs (farCell K E g s i).trace = examinedPairs s.trace ++ l := by
    intro s i
    exact foldl_examined (farObjectStep K E g i) _ (farObjectStep_examined K E g i) _ s
  obtain ⟨l, hl, he⟩ := foldl_examined (farCell K E g) _ hcell
    (List.range kProximityGridDataLength.toNat) ⟨objs, [], false⟩
  unfold farPass
  rw [he]
  simpa [pairCandidates] using hl

/-! ## No unordered pair is a candidate twice -/

theorem mem_objectCandidates (head : Int → Option Nat) (next : Nat → Option Nat)
    (table : Int → Nat → adjacentUnitType) (fuel : Nat) (i : Int) (a y : Nat) :
    y ∈ objectCandidates head next table fuel i a ↔
      y ∈ chainFrom next fuel (next a) ∨
      ∃ k ∈ [1, 2, 3, 4], y ∈ chainFrom next fuel (head (cellAfter table i k)) := by
  unfold objectCandidates
  have h5 : List.range kUnitsToCheckNumber = [0, 1, 2, 3, 4] := by decide
  rw [h5]
  simp [unitCandidates]

theorem mem_cellCandidates (head : Int → Option Nat) (next : Nat → Option Nat)
    (table : Int → Nat → adjacentUnitType) (fuel : Nat) (i : Int) (p : Nat × Nat) :
    p ∈ cellCandidates head next table fuel i ↔
      p.1 ∈ chainFrom next fuel (head i) ∧ p.2 ∈ objectCandidates head next table fuel i p.1 := by
  unfold cellCandidates
  rw [List.mem_flatMap]
  constructor
  · rintro ⟨a, ha, hp⟩
    rw [List.mem_map] at hp
    obtain ⟨y, hy, rfl⟩ := hp
    exact ⟨ha, hy⟩
  · rintro ⟨h1, h2⟩
    exact ⟨p.1, h1, List.mem_map.2 ⟨p.2, h2, rfl⟩⟩

/-- What follows an object in the list of its cell is part of that list. -/
theorem tail_subset (head : Int → Option Nat) (next : Nat → Option Nat) (fuel : Nat)
    (hB : BucketsOK head next fuel) (c : Int) (hc0 : 0 ≤ c)
    (hc1 : c < kProximityGridDataLength) (a : Nat) (ha : a ∈ chainFrom next fuel (head c))
    (y : Nat) (hy : y ∈ chainFrom next fuel (next a)) : y ∈ chainFrom next fuel (head c) := by
  obtain ⟨l1, l2, hl⟩ := List.append_of_mem ha
  rw [hB.2.2 c hc0 hc1 l1 a l2 hl] at hy
  rw [hl]
  exact List.mem_append_right _ (List.mem_cons_of_mem _ hy)

/-- The cell whose list an adjacency entry of the cell `i` runs through. -/
theorem unitCandidates_cell (head : Int → Option Nat) (next : Nat → Option Nat)
    (table : Int → Nat → adjacentUnitType) (fuel : Nat)
    (hB : BucketsOK head next fuel) (hT : AdjacencyOK table)
    (i : Int) (hi0 : 0 ≤ i) (hi1 : i < kProximityGridDataLength)
    (a : Nat) (ha : a ∈ chainFrom next fuel (head i)) (k : Nat) (hk : k < 5) :
    ∃ c : Int, 0 ≤ c ∧ c < kProximityGridDataLength ∧
      (k = 0 → c = i) ∧ (k ≠ 0 → c = cellAfter table i k) ∧
      (unitCandidates head next table fuel i a k).Nodup ∧
      ∀ y ∈ unitCandidates head next table fuel i a k, y ∈ chainFrom next fuel (head c) := by
  by_cases hk0 : k = 0
  · subst hk0
    refine ⟨i, hi0, hi1, fun _ => rfl, fun h => absurd rfl h, ?_, ?_⟩
    · unfold unitCandidates
      rw [if_pos rfl]
      obtain ⟨l1, l2, hl⟩ := List.append_of_mem ha
      rw [hB.2.2 i hi0 hi1 l1 a l2 hl]
      have hnd := hB.1 i hi0 hi1
      rw [hl] at hnd
      exact ((List.nodup_append.1 hnd).2.1).of_cons
    · intro y hy
      unfold unitCandidates at hy
      rw [if_pos rfl] at hy
      exact tail_subset head next fuel hB i hi0 hi1 a ha y hy
  · have hmem : k ∈ [1, 2, 3, 4] := by
      have : k = 1 ∨ k = 2 ∨ k = 3 ∨ k = 4 := by omega
      rcases this with h | h | h | h <;> simp [h]
    obtain ⟨h0, h1, _, _, _⟩ := hT i hi0 hi1 k hmem
    refine ⟨cellAfter table i k, h0, h1, fun h => absurd h hk0, fun _ => rfl, ?_, ?_⟩
    · unfold unitCandidates
      rw [if_neg hk0]
      exact hB.1 _ h0 h1
    · intro y hy
      unfold unitCandidates at hy
      rw [if_neg hk0] at hy
      exact hy

theorem objectCandidates_nodup (head : Int → Option Nat) (next : Nat → Option Nat)
    (table : Int → Nat → adjacentUnitType) (fuel : Nat)
    (hB : BucketsOK head next fuel) (hT : AdjacencyOK table)
    (i : Int) (hi0 : 0 ≤ i) (hi1 : i < kProximityGridDataLength)
    (a : Nat) (ha : a ∈ chainFrom next fuel (head i)) :
    (objectCandidates head next table fuel i a).Nodup := by
  unfold objectCandidates
  rw [List.nodup_flatMap]
  have h5 : kUnitsToCheckNumber = 5 := rfl
  constructor
  · intro k hk
    rw [List.mem_range, h5] at hk
    obtain ⟨c, _, _, _, _, hnd, _⟩ :=
      unitCandidates_cell head next table fuel hB hT i hi0 hi1 a ha k hk
    exact hnd
  · apply List.Nodup.pairwise_of_forall_ne (List.nodup_range _)
    intro k hk k1 hk1 hne
    rw [List.mem_range, h5] at hk hk1
    obtain ⟨c, hc0, hc1, hcz, hcn, _, hsub⟩ :=
      unitCandidates_cell head next table fuel hB hT i hi0 hi1 a ha k hk
    obtain ⟨d, hd0, hd1, hdz, hdn, _, hsub1⟩ :=
      unitCandidates_cell head next table fuel hB hT i hi0 hi1 a ha k1 hk1
    show List.Disjoint _ _
    intro y hy hy1
    have hcd : c = d := hB.2.1 c d hc0 hc1 hd0 hd1 y (hsub y hy) (hsub1 y hy1)
    have mem4 : ∀ j, j < 5 → j ≠ 0 → j ∈ [1, 2, 3, 4] := by
      intro j hj hj0
      have : j = 1 ∨ j = 2 ∨ j = 3 ∨ j = 4 := by omega
      rcases this with h | h | h | h <;> simp [h]
    by_cases hk0 : k = 0
    · have hk10 : k1 ≠ 0 := fun h => hne (by rw [hk0, h])
      have e1 := hcz hk0
      have e2 := hdn hk10
      have := (hT i hi0 hi1 k1 (mem4 k1 hk1 hk10)).2.2.1
      apply this
      rw [← e2, ← hcd, e1]
    · by_cases hk10 : k1 = 0
      · have e1 := hcn hk0
        have e2 := hdz hk10
        have := (hT i hi0 hi1 k (mem4 k hk hk0)).2.2.1
        apply this
        rw [← e1, hcd, e2]
      · have e1 := hcn hk0
        have e2 := hdn hk10
        have := (hT i hi0 hi1 k1 (mem4 k1 hk1 hk10)).2.2.2.1 k (mem4 k hk hk0) hne
        apply this
        rw [← e1, ← e2, hcd]

theorem not_samePair_of_ne (a y y1 : Nat) (h : y ≠ y1) : ¬ samePair (a, y) (a, y1) := by
  unfold samePair
  rintro (⟨_, h2⟩ | ⟨h1, h2⟩)
  · exact h h2
  · dsimp only at h1 h2
    exact h (by rw [h2, h1])

/-- An object `y` met for an object `a` of the cell `i` is in the list of `i` (after
`a`) or in the list of one of the four cells the adjacency entries lead to. -/
theorem objectCandidates_cases (head : Int → Option Nat) (next : Nat → Option Nat)
    (table : Int → Nat → adjacentUnitType) (fuel : Nat)
    (hB : BucketsOK head next fuel)
    (i : Int) (hi0 : 0 ≤ i) (hi1 : i < kProximityGridDataLength)
    (a : Nat) (ha : a ∈ chainFrom next fuel (head i)) (y : Nat)
    (hy : y ∈ objectCandidates head next table fuel i a) :
    (y ∈ chainFrom next fuel (next a) ∧ y ∈ chainFrom next fuel (head i)) ∨
    ∃ k ∈ [1, 2, 3, 4], y ∈ chainFrom next fuel (head (cellAfter table i k)) := by
  rcases (mem_objectCandidates head next table fuel i a y).1 hy with h | h
  · exact Or.inl ⟨h, tail_subset head next fuel hB i hi0 hi1 a ha y h⟩
  · exact Or.inr h

theorem cellCandidates_pairwise (head : Int → Option Nat) (next : Nat → Option Nat)
    (table : Int → Nat → adjacentUnitType) (fuel : Nat)
    (hB : BucketsOK head next fuel) (hT : AdjacencyOK table)
    (i : Int) (hi0 : 0 ≤ i) (hi1 : i < kProximityGridDataLength) :
    (cellCandidates head next table fuel i).Pairwise fun p q => ¬ samePair p q := by
  unfold cellCandidates
  rw [List.pairwise_flatMap]
  constructor
  · intro a ha
    rw [List.pairwise_map]
    exact (objectCandidates_nodup head next table fuel hB hT i hi0 hi1 a ha).imp
      (fun h => not_samePair_of_ne a _ _ h)
  · have hnd := hB.1 i hi0 hi1
    have key : ∀ (suf pre : List Nat), chainFrom next fuel (head i) = pre ++ suf →
        suf.Pairwise fun a a1 =>
          ∀ x ∈ (objectCandidates head next table fuel i a).map (Prod.mk a),
          ∀ y ∈ (objectCandidates head next table fuel i a1).map (Prod.mk a1),
            ¬ samePair x y := by
      intro suf
      induction suf with
      | nil => intro _ _; exact List.Pairwise.nil
      | cons a rest ih =>
        intro pre hpre
        rw [List.pairwise_cons]
        constructor
        · intro a1 ha1 x hx y hy hsame
          rw [List.mem_map] at hx hy
          obtain ⟨u, hu, rfl⟩ := hx
          obtain ⟨v, hv, rfl⟩ := hy
          have hnd1 : (pre ++ a :: rest).Nodup := hpre ▸ hnd
          have harest : a ∉ rest := (List.nodup_cons.1 (List.nodup_append.1 hnd1).2.1).1
          have hamem : a ∈ chainFrom next fuel (head i) := by rw [hpre]; simp
          have ha1mem : a1 ∈ chainFrom next fuel (head i) := by
            rw [hpre]; exact List.mem_append_right _ (List.mem_cons_of_mem _ ha1)
          rcases hsame with ⟨h1, _⟩ | ⟨h1, _⟩
          · dsimp only at h1
            exact harest (h1 ▸ ha1)
          · dsimp only at h1
            -- `a = v` and `v` is met for `a1`
            rcases objectCandidates_cases head next table fuel hB i hi0 hi1 a1 ha1mem v hv
              with ⟨htail, _⟩ | ⟨k, hk, hcell⟩
            · obtain ⟨m1, m2, hm⟩ := List.append_of_mem ha1
              have hdec : chainFrom next fuel (head i) = (pre ++ a :: m1) ++ a1 :: m2 := by
                rw [hpre, hm]; simp
              rw [hB.2.2 i hi0 hi1 _ a1 m2 hdec] at htail
              apply harest
              rw [hm, h1]
              exact List.mem_append_right _ (List.mem_cons_of_mem _ htail)
            · obtain ⟨h0, h1', hne, _, _⟩ := hT i hi0 hi1 k hk
              apply hne
              exact (hB.2.1 i _ hi0 hi1 h0 h1' v (h1 ▸ hamem) hcell).symm
        · exact ih (pre ++ [a]) (by rw [hpre]; simp)
    exact key _ [] rfl

theorem pairCandidates_pairwise (head : Int → Option Nat) (next : Nat → Option Nat)
    (table : Int → Nat → adjacentUnitType) (fuel : Nat)
    (hB : BucketsOK head next fuel) (hT : AdjacencyOK table) :
    (pairCandidates head next table fuel).Pairwise fun p q => ¬ samePair p q := by
  unfold pairCandidates
  have h256 : kProximityGridDataLength.toNat = 256 := by decide
  have hrange : ∀ i : Nat, i ∈ List.range kProximityGridDataLength.toNat →
      (0 : Int) ≤ (i : Int) ∧ (i : Int) < kProximityGridDataLength := by
    intro i hi
    rw [List.mem_range, h256] at hi
    have e : kProximityGridDataLength = 256 := by decide
    rw [e]
    constructor <;> omega
  rw [List.pairwise_flatMap]
  constructor
  · intro i hi
    exact cellCandidates_pairwise head next table fuel hB hT i (hrange i hi).1 (hrange i hi).2
  · apply List.Nodup.pairwise_of_forall_ne (List.nodup_range _)
    intro i hi j hj hne x hx y hy hsame
    obtain ⟨hi0, hi1⟩ := hrange i hi
    obtain ⟨hj0, hj1⟩ := hrange j hj
    have hij : (i : Int) ≠ (j : Int) := fun h => hne (by exact_mod_cast h)
    rw [mem_cellCandidates] at hx hy
    obtain ⟨hxa, hxb⟩ := hx
    obtain ⟨hya, hyb⟩ := hy
    rcases hsame with ⟨h1, _⟩ | ⟨h1, h2⟩
    · exact hij (hB.2.1 i j hi0 hi1 hj0 hj1 x.1 hxa (h1 ▸ hya))
    · -- `x.2 = y.1` is in the list of `j`, `y.2 = x.1` is in the list of `i`
      rcases objectCandidates_cases head next table fuel hB i hi0 hi1 x.1 hxa x.2 hxb
        with ⟨_, hin⟩ | ⟨k, hk, hcell⟩
      · exact hij (hB.2.1 i j hi0 hi1 hj0 hj1 x.2 hin (h2 ▸ hya))
      · obtain ⟨hk0, hk1, _, _, hback⟩ := hT i hi0 hi1 k hk
        have hcj : cellAfter table i k = (j : Int) :=
          hB.2.1 _ j hk0 hk1 hj0 hj1 x.2 hcell (h2 ▸ hya)
        rcases objectCandidates_cases head next table fuel hB j hj0 hj1 y.1 hya y.2 hyb
          with ⟨_, hin⟩ | ⟨k1, hk1m, hcell1⟩
        · exact hij (hB.2.1 i j hi0 hi1 hj0 hj1 x.1 hxa (h1 ▸ hin))
        · obtain ⟨hl0, hl1, _, _, _⟩ := hT j hj0 hj1 k1 hk1m
          have hci : cellAfter table j k1 = (i : Int) :=
            hB.2.1 _ i hl0 hl1 hi0 hi1 y.2 hcell1 (h1 ▸ hxa)
          apply hback k1 hk1m
          rw [hcj, hci]

/-- In a list without two entries for one unordered pair, an unordered pair is counted
at most once. -/
theorem countP_samePair_le_one (x y : Nat) :
    ∀ l : List (Nat × Nat), (l.Pairwise fun p q => ¬ samePair p q) →
      l.countP (fun p => (p.1 == x && p.2 == y) || (p.1 == y && p.2 == x)) ≤ 1 := by
  intro l
  induction l with
  | nil => intro _; simp
  | cons p rest ih =>
    intro h
    rw [List.pairwise_cons] at h
    obtain ⟨hp, hrest⟩ := h
    by_cases hm : ((p.1 == x && p.2 == y) || (p.1 == y && p.2 == x)) = true
    · have h0 : rest.countP (fun p => (p.1 == x && p.2 == y) || (p.1 == y && p.2 == x)) = 0 := by
        rw [List.countP_eq_zero]
        intro q hq hqm
        apply hp q hq
        simp only [Bool.or_eq_true, Bool.and_eq_true, beq_iff_eq] at hm hqm
        unfold samePair
        rcases hm with ⟨a1, a2⟩ | ⟨a1, a2⟩ <;> rcases hqm with ⟨b1, b2⟩ | ⟨b1, b2⟩
        · left; exact ⟨by rw [a1, b1], by rw [a2, b2]⟩
        · right; exact ⟨by rw [a1, b2], by rw [a2, b1]⟩
        · right; exact ⟨by rw [a1, b2], by rw [a2, b1]⟩
        · left; exact ⟨by rw [a1, b1], by rw [a2, b2]⟩
      rw [List.countP_cons, h0]
      split <;> omega
    · have := ih hrest
      rw [List.countP_cons]
      rw [if_neg hm]
      omega

theorem timesExamined_le_one (trace : List Event) (cands : List (Nat × Nat))
    (hsub : (examinedPairs trace).Sublist cands)
    (hpw : cands.Pairwise fun p q => ¬ samePair p q) (x y : Nat) :
    timesExamined trace x y ≤ 1 := by
  unfold timesExamined
  exact countP_samePair_le_one x y _ (hpw.sublist hsub)

/-! ## The rebuilt grid and the table of `InitMotion` meet the needs of the traversal -/

theorem rebuilt_near_buckets (K : Consts) (R : RebuildEnv) (objs : Objs) (g : Grid)
    (order : List Nat) (hnd : order.Nodup) (fuel : Nat) (hfuel : order.length ≤ fuel) :
    BucketsOK (rebuildGrid K R objs g order).grid.nearObject
      (rebuildGrid K R objs g order).grid.nextNearObject fuel := by
  have hinv := rebuildGrid_inv K R objs g order hnd
  have hnodup := inserted_nodup K _ order hinv hnd
  refine ⟨?_, ?_, ?_⟩
  · intro c hc0 hc1
    rw [rebuilt_near_chain K R objs g order hnd fuel hfuel c hc0 hc1]
    exact (nearBucket_sublist _ c).nodup (List.nodup_reverse.2 hnodup)
  · intro c c1 hc0 hc1 hd0 hd1 x hx hx1
    rw [rebuilt_near_chain K R objs g order hnd fuel hfuel c hc0 hc1] at hx
    rw [rebuilt_near_chain K R objs g order hnd fuel hfuel c1 hd0 hd1] at hx1
    obtain ⟨e, he, _, hex⟩ := (mem_nearBucket _ _ _).1 hx
    have h1 := count_nearBucket _ hnodup e he c
    have h2 := count_nearBucket _ hnodup e he c1
    rw [hex] at h1 h2
    have p1 : 0 < List.count x (nearBucket (rebuildGrid K R objs g order).inserted c) :=
      List.count_pos_iff.2 hx
    have p2 : 0 < List.count x (nearBucket (rebuildGrid K R objs g order).inserted c1) :=
      List.count_pos_iff.2 hx1
    by_cases e1 : nearCellIndex e.snapshot.location = c
    · by_cases e2 : nearCellIndex e.snapshot.location = c1
      · rw [← e1, ← e2]
      · rw [if_neg e2] at h2; omega
    · rw [if_neg e1] at h1; omega
  · intro c hc0 hc1 l1 a l2 hl
    rw [rebuilt_near_chain K R objs g order hnd fuel hfuel c hc0 hc1] at hl
    have hch := hinv.2.1 c hc0 hc1
    rw [hl] at hch
    have hlen := nearBucket_length_le K _ order hinv c
    rw [hl] at hlen
    simp only [List.length_append, List.length_cons] at hlen
    exact chainFrom_eq_of_isChain _ _ _ _ (isChain_tail _ l1 a l2 _ hch) (by omega)

theorem rebuilt_far_buckets (K : Consts) (R : RebuildEnv) (objs : Objs) (g : Grid)
    (order : List Nat) (hnd : order.Nodup) (fuel : Nat) (hfuel : order.length ≤ fuel) :
    BucketsOK (rebuildGrid K R objs g order).grid.farObject
      (rebuildGrid K R objs g order).grid.nextFarObject fuel := by
  have hinv := rebuildGrid_inv K R objs g order hnd
  have hnodup := inserted_nodup K _ order hinv hnd
  refine ⟨?_, ?_, ?_⟩
  · intro c hc0 hc1
    rw [rebuilt_far_chain K R objs g order hnd fuel hfuel c hc0 hc1]
    exact (farBucket_sublist _ c).nodup (List.nodup_reverse.2 hnodup)
  · intro c c1 hc0 hc1 hd0 hd1 x hx hx1
    rw [rebuilt_far_chain K R objs g order hnd fuel hfuel c hc0 hc1] at hx
    rw [rebuilt_far_chain K R objs g order hnd fuel hfuel c1 hd0 hd1] at hx1
    obtain ⟨e, he, _, hex⟩ := (mem_farBucket _ _ _).1 hx
    have h1 := count_farBucket _ hnodup e he c
    have h2 := count_farBucket _ hnodup e he c1
    rw [hex] at h1 h2
    have p1 : 0 < List.count x (farBucket (rebuildGrid K R objs g order).inserted c) :=
      List.count_pos_iff.2 hx
    have p2 : 0 < List.count x (farBucket (rebuildGrid K R objs g order).inserted c1) :=
      List.count_pos_iff.2 hx1
    by_cases e1 : farCellIndex e.snapshot.location = c
    · by_cases e2 : farCellIndex e.snapshot.location = c1
      · rw [← e1, ← e2]
      · rw [if_neg e2] at h2; omega
    · rw [if_neg e1] at h1; omega
  · intro c hc0 hc1 l1 a l2 hl
    rw [rebuilt_far_chain K R objs g order hnd fuel hfuel c hc0 hc1] at hl
    have hch := hinv.2.2.1 c hc0 hc1
    rw [hl] at hch
    have hlen := farBucket_length_le K _ order hinv c
    rw [hl] at hlen
    simp only [List.length_append, List.length_cons] at hlen
    exact chainFrom_eq_of_isChain _ _ _ _ (isChain_tail _ l1 a l2 _ hch) (by omega)

/-- The rebuild leaves the adjacency table alone. -/
theorem rebuildGrid_unitsToCheck (K : Consts) (R : RebuildEnv) (objs : Objs) (g : Grid)
    (order : List Nat) :
    (rebuildGrid K R objs g order).grid.unitsToCheck = g.unitsToCheck := by
  have hstep : ∀ (s : RebuildState) (a : Nat),
      (rebuildStep K R s a).grid.unitsToCheck = s.grid.unitsToCheck := by
    intro s a
    unfold rebuildStep
    split
    · cases R.ship with
      | none => rfl
      | some player =>
        dsimp only
        split <;> rfl
    · dsimp only
      split
      · rfl
      · split
        · rfl
        · unfold insertInGrid
          dsimp only
          split
          · dsimp only; rw [radarPhase_grid]
          · rw [radarPhase_grid]
  have hfold : ∀ (l : List Nat) (s : RebuildState),
      (l.foldl (rebuildStep K R) s).grid.unitsToCheck = s.grid.unitsToCheck := by
    intro l
    induction l with
    | nil => intro s; rfl
    | cons a rest ih => intro s; rw [List.foldl_cons, ih, hstep]
  unfold rebuildGrid
  rw [hfold]
  rfl

theorem take_cAdjacentUnits :
    cAdjacentUnits.take kUnitsToCheckNumber = [⟨0, 0⟩, ⟨1, 0⟩, ⟨-1, 1⟩, ⟨0, 1⟩, ⟨1, 1⟩] := rfl

/-- The index of the cell with column `ux` and row `uy`, as `InitMotion` writes it. -/
theorem shiftLeft_four (u : Int) : shiftLeft u kProximityWidthMultiply = u * 16 := by
  unfold shiftLeft kProximityWidthMultiply; norm_num

/-- The five entries `InitMotion` computes for the cell of column `x` and row `y`. -/
theorem initUnitsToCheck_entries (x y : Int) :
    initUnitsToCheck x y (cAdjacentUnits.take kUnitsToCheckNumber) 0 =
      [⟨(wrapUnit y).1 * 16 + (wrapUnit x).1, ⟨(wrapUnit x).2, (wrapUnit y).2⟩⟩,
       ⟨((wrapUnit y).1 * 16 + (wrapUnit (x + 1)).1) - ((wrapUnit y).1 * 16 + (wrapUnit x).1),
          ⟨(wrapUnit (x + 1)).2, (wrapUnit y).2⟩⟩,
       ⟨((wrapUnit (y + 1)).1 * 16 + (wrapUnit (x + -1)).1)
            - ((wrapUnit y).1 * 16 + (wrapUnit (x + 1)).1),
          ⟨(wrapUnit (x + -1)).2, (wrapUnit (y + 1)).2⟩⟩,
       ⟨((wrapUnit (y + 1)).1 * 16 + (wrapUnit x).1)
            - ((wrapUnit (y + 1)).1 * 16 + (wrapUnit (x + -1)).1),
          ⟨(wrapUnit x).2, (wrapUnit (y + 1)).2⟩⟩,
       ⟨((wrapUnit (y + 1)).1 * 16 + (wrapUnit (x + 1)).1)
            - ((wrapUnit (y + 1)).1 * 16 + (wrapUnit x).1),
          ⟨(wrapUnit (x + 1)).2, (wrapUnit (y + 1)).2⟩⟩] := by
  rw [take_cAdjacentUnits]
  simp only [initUnitsToCheck, shiftLeft_four, add_zero, sub_zero, zero_add]
  refine congrArg₂ _ rfl (congrArg₂ _ ?_ (congrArg₂ _ ?_ (congrArg₂ _ ?_ (congrArg₂ _ ?_ rfl))))
  all_goals
    first
      | rfl
      | (congr 1; ring)

theorem wrapUnit_spec (u : Int) (h0 : -16 ≤ u) (h1 : u < 32) :
    (wrapUnit u).1 = u % 16 ∧ u = (wrapUnit u).1 + 16 * (wrapUnit u).2 ∧
    -1 ≤ (wrapUnit u).2 ∧ (wrapUnit u).2 ≤ 1 := by
  unfold wrapUnit kProximitySuperSize
  split
  · dsimp only; refine ⟨?_, ?_, ?_, ?_⟩ <;> omega
  · split
    · dsimp only; refine ⟨?_, ?_, ?_, ?_⟩ <;> omega
    · dsimp only; refine ⟨?_, ?_, ?_, ?_⟩ <;> omega

/-- Inside the grid, the entry `k` of the cell `i` in the table of `InitMotion` is the
`k`-th entry computed from the column `i % 16` and the row `i / 16`. -/
theorem InitMotion_entry (g : Grid) (i : Int) (hi0 : 0 ≤ i) (hi1 : i < kProximityGridDataLength)
    (k : Nat) :
    (InitMotion g).unitsToCheck i k =
      (initUnitsToCheck (i % 16) (i / 16) (cAdjacentUnits.take kUnitsToCheckNumber) 0).getD k
        (g.unitsToCheck i k) := by
  unfold InitMotion
  dsimp only
  rw [if_pos ⟨hi0, hi1⟩]
  rfl

/-- The cell reached after the adjacency entries `1 .. k` of the table of `InitMotion`
is the toroidally wrapped neighbour of the cell. -/
theorem cellAfter_InitMotion (g : Grid) (i : Int) (hi0 : 0 ≤ i)
    (hi1 : i < kProximityGridDataLength) :
    cellAfter (InitMotion g).unitsToCheck i 1 = (i / 16 + 0) % 16 * 16 + (i % 16 + 1) % 16 ∧
    cellAfter (InitMotion g).unitsToCheck i 2 = (i / 16 + 1) % 16 * 16 + (i % 16 + -1) % 16 ∧
    cellAfter (InitMotion g).unitsToCheck i 3 = (i / 16 + 1) % 16 * 16 + (i % 16 + 0) % 16 ∧
    cellAfter (InitMotion g).unitsToCheck i 4 = (i / 16 + 1) % 16 * 16 + (i % 16 + 1) % 16 := by
  have e256 : kProximityGridDataLength = 256 := by decide
  have hi1' : i < 256 := by rw [e256] at hi1; exact hi1
  have wx := wrapUnit_spec (i % 16) (by omega) (by omega)
  have wy := wrapUnit_spec (i / 16) (by omega) (by omega)
  have wx1 := wrapUnit_spec (i % 16 + 1) (by omega) (by omega)
  have wxm := wrapUnit_spec (i % 16 + -1) (by omega) (by omega)
  have wy1 := wrapUnit_spec (i / 16 + 1) (by omega) (by omega)
  simp only [cellAfter, InitMotion_entry g i hi0 hi1, initUnitsToCheck_entries,
    List.getD_cons_succ, List.getD_cons_zero]
  refine ⟨?_, ?_, ?_, ?_⟩ <;> omega

theorem mem_one_to_four (k : Nat) (hk : k ∈ [1, 2, 3, 4]) : k = 1 ∨ k = 2 ∨ k = 3 ∨ k = 4 := by
  simpa using hk

theorem initMotion_adjacencyOK (g : Grid) : AdjacencyOK (InitMotion g).unitsToCheck := by
  intro i hi0 hi1 k hk
  have e256 : kProximityGridDataLength = 256 := by decide
  have hi1' : i < 256 := by rw [e256] at hi1; exact hi1
  obtain ⟨c1, c2, c3, c4⟩ := cellAfter_InitMotion g i hi0 hi1
  have key : ∀ c : Int, 0 ≤ c → c < 256 → c ≠ i →
      ((c / 16 + 0) % 16 * 16 + (c % 16 + 1) % 16 ≠ i) →
      ((c / 16 + 1) % 16 * 16 + (c % 16 + -1) % 16 ≠ i) →
      ((c / 16 + 1) % 16 * 16 + (c % 16 + 0) % 16 ≠ i) →
      ((c / 16 + 1) % 16 * 16 + (c % 16 + 1) % 16 ≠ i) →
      0 ≤ c ∧ c < kProximityGridDataLength ∧ c ≠ i ∧
      ∀ k1 ∈ [1, 2, 3, 4], cellAfter (InitMotion g).unitsToCheck c k1 ≠ i := by
    intro c hc0 hc1 hne b1 b2 b3 b4
    obtain ⟨d1, d2, d3, d4⟩ := cellAfter_InitMotion g c hc0 (by rw [e256]; exact hc1)
    refine ⟨hc0, by rw [e256]; exact hc1, hne, ?_⟩
    intro k1 hk1
    rcases mem_one_to_four k1 hk1 with h | h | h | h <;> subst h
    · rw [d1]; exact b1
    · rw [d2]; exact b2
    · rw [d3]; exact b3
    · rw [d4]; exact b4
  have dist : ∀ k1 ∈ [1, 2, 3, 4], ∀ k2 ∈ [1, 2, 3, 4], k1 ≠ k2 →
      cellAfter (InitMotion g).unitsToCheck i k1 ≠ cellAfter (InitMotion g).unitsToCheck i k2 := by
    intro k1 hk1 k2 hk2 hne
    rcases mem_one_to_four k1 hk1 with h | h | h | h <;>
    rcases mem_one_to_four k2 hk2 with h' | h' | h' | h' <;> subst h <;> subst h' <;>
    first
      | exact absurd rfl hne
      | (simp only [c1, c2, c3, c4]; omega)
  rcases mem_one_to_four k hk with h | h | h | h <;> subst h
  · obtain ⟨a, b, c, d⟩ := key (cellAfter (InitMotion g).unitsToCheck i 1) (by rw [c1]; omega) (by rw [c1]; omega) (by rw [c1]; omega)
      (by rw [c1]; omega) (by rw [c1]; omega) (by rw [c1]; omega) (by rw [c1]; omega)
    exact ⟨a, b, c, fun k1 hk1 hne => dist k1 hk1 1 hk hne, d⟩
  · obtain ⟨a, b, c, d⟩ := key (cellAfter (InitMotion g).unitsToCheck i 2) (by rw [c2]; omega) (by rw [c2]; omega) (by rw [c2]; omega)
      (by rw [c2]; omega) (by rw [c2]; omega) (by rw [c2]; omega) (by rw [c2]; omega)
    exact ⟨a, b, c, fun k1 hk1 hne => dist k1 hk1 2 hk hne, d⟩
  · obtain ⟨a, b, c, d⟩ := key (cellAfter (InitMotion g).unitsToCheck i 3) (by rw [c3]; omega) (by rw [c3]; omega) (by rw [c3]; omega)
      (by rw [c3]; omega) (by rw [c3]; omega) (by rw [c3]; omega) (by rw [c3]; omega)
    exact ⟨a, b, c, fun k1 hk1 hne => dist k1 hk1 3 hk hne, d⟩
  · obtain ⟨a, b, c, d⟩ := key (cellAfter (InitMotion g).unitsToCheck i 4) (by rw [c4]; omega) (by rw [c4]; omega) (by rw [c4]; omega)
      (by rw [c4]; omega) (by rw [c4]; omega) (by rw [c4]; omega) (by rw [c4]; omega)
    exact ⟨a, b, c, fun k1 hk1 hne => dist k1 hk1 4 hk hne, d⟩

/-- C7: in one near-grid traversal of `CollideSpaceObjects`, and likewise in one
far-grid traversal, over the grid as the rebuild leaves it (adjacency table from
`InitMotion`, active list without repetition, bucket lists followed to their end), the
part of the pair body that follows the grid-coordinate match is entered at most once
for the unordered pair of any two objects `x` and `y` (distinct or not): not from
both sides, and not under two adjacency entries. -/
theorem C7_pair_at_most_once (K : Consts) (R : RebuildEnv) (E : PassEnv) (objs objs1 : Objs)
    (g g0 : Grid) (order : List Nat)
    (hinit : g.unitsToCheck = (InitMotion g0).unitsToCheck)
    (hnd : order.Nodup) (hfuel : order.length ≤ E.chainFuel)
    (x y : Nat) :
    timesExamined
      (nearPass K E (rebuildGrid K R objs g order).grid (rebuildGrid K R objs g order).objs).trace
      x y ≤ 1 ∧
    timesExamined (farPass K E (rebuildGrid K R objs g order).grid objs1).trace x y ≤ 1 := by
  have htab : AdjacencyOK (rebuildGrid K R objs g order).grid.unitsToCheck := by
    rw [rebuildGrid_unitsToCheck, hinit]
    exact initMotion_adjacencyOK g0
  constructor
  · exact timesExamined_le_one _ _ (nearPass_examined K E _ _)
      (pairCandidates_pairwise _ _ _ _
        (rebuilt_near_buckets K R objs g order hnd E.chainFuel hfuel) htab) x y
  · exact timesExamined_le_one _ _ (farPass_examined K E _ _)
      (pairCandidates_pairwise _ _ _ _
        (rebuilt_far_buckets K R objs g order hnd E.chainFuel hfuel) htab) x y


set_option maxRecDepth 1000000 in
/-- Witness for C7 on the sample table, rebuilt over a freshly initialised grid: the
two ships are examined as a pair exactly once in the near pass. -/
theorem C7_pair_at_most_once_witness :
    timesExamined
      (nearPass demoConsts demoEnv
        (rebuildGrid demoConsts demoRebuildEnv demoObjs (InitMotion staleGrid) [0, 1, 2, 3]).grid
        (rebuildGrid demoConsts demoRebuildEnv demoObjs (InitMotion staleGrid) [0, 1, 2, 3]).objs).trace
      0 1 = 1 ∧
    timesExamined
      (nearPass demoConsts demoEnv
        (rebuildGrid demoConsts demoRebuildEnv demoObjs (InitMotion staleGrid) [0, 1, 2, 3]).grid
        (rebuildGrid demoConsts demoRebuildEnv demoObjs (InitMotion staleGrid) [0, 1, 2, 3]).objs).trace
      0 1 ≤ 1 :=
  ⟨by decide,
   (C7_pair_at_most_once demoConsts demoRebuildEnv demoEnv demoObjs demoObjs
      (InitMotion staleGrid) staleGrid [0, 1, 2, 3] rfl (by decide) (by decide) 0 1).1⟩


/-! ## The adjacency table and the cell indices -/

theorem cAdjacentUnits_getD :
    cAdjacentUnits.getD 1 ⟨0, 0⟩ = ⟨1, 0⟩ ∧ cAdjacentUnits.getD 2 ⟨0, 0⟩ = ⟨-1, 1⟩ ∧
    cAdjacentUnits.getD 3 ⟨0, 0⟩ = ⟨0, 1⟩ ∧ cAdjacentUnits.getD 4 ⟨0, 0⟩ = ⟨1, 1⟩ :=
  ⟨rfl, rfl, rfl, rfl⟩

/-- The super offsets of the entries `1 .. 4` of a cell in the table of `InitMotion`. -/
theorem superOffset_InitMotion (g : Grid) (i : Int) (hi0 : 0 ≤ i)
    (hi1 : i < kProximityGridDataLength) :
    ((InitMotion g).unitsToCheck i 1).superOffset
      = ⟨(wrapUnit (i % 16 + 1)).2, (wrapUnit (i / 16)).2⟩ ∧
    ((InitMotion g).unitsToCheck i 2).superOffset
      = ⟨(wrapUnit (i % 16 + -1)).2, (wrapUnit (i / 16 + 1)).2⟩ ∧
    ((InitMotion g).unitsToCheck i 3).superOffset
      = ⟨(wrapUnit (i % 16)).2, (wrapUnit (i / 16 + 1)).2⟩ ∧
    ((InitMotion g).unitsToCheck i 4).superOffset
      = ⟨(wrapUnit (i % 16 + 1)).2, (wrapUnit (i / 16 + 1)).2⟩ := by
  simp [InitMotion_entry g i hi0 hi1, initUnitsToCheck_entries]

/-- An entry of the table is the difference of the cells reached after and before it. -/
theorem adjacentUnit_eq_sub (table : Int → Nat → adjacentUnitType) (i : Int) (k : Nat) :
    (table i (k + 1)).adjacentUnit = cellAfter table i (k + 1) - cellAfter table i k := by
  show _ = cellAfter table i k + (table i (k + 1)).adjacentUnit - cellAfter table i k
  ring

/-- C27: after `InitMotion`, for the cell of column `x` and row `y` (both in `0 .. 15`,
index `y * 16 + x`) and every adjacency entry `k` in `1 .. 4` with offset
`(dx, dy) = cAdjacentUnits[k]`: the index of the cell plus the sum of
`adjacentUnit[1 .. k]` is the index `((y + dy) mod 16) * 16 + ((x + dx) mod 16)` of the
toroidally wrapped neighbour, which lies in `[0, 256)`, and `superOffset[k] = (sx, sy)`
has `sx` and `sy` in `{-1, 0, 1}` with `x + dx = ((x + dx) mod 16) + 16 * sx` and
`y + dy = ((y + dy) mod 16) + 16 * sy`. -/
theorem C27_adjacency_table (g : Grid) (x y : Int) (hx0 : 0 ≤ x) (hx1 : x < 16)
    (hy0 : 0 ≤ y) (hy1 : y < 16) (k : Nat) (hk1 : 1 ≤ k) (hk4 : k ≤ 4) :
    cellAfter (InitMotion g).unitsToCheck (y * 16 + x) k
      = ((y + (cAdjacentUnits.getD k ⟨0, 0⟩).v) % 16) * 16
        + (x + (cAdjacentUnits.getD k ⟨0, 0⟩).h) % 16 ∧
    0 ≤ cellAfter (InitMotion g).unitsToCheck (y * 16 + x) k ∧
    cellAfter (InitMotion g).unitsToCheck (y * 16 + x) k < 256 ∧
    -1 ≤ ((InitMotion g).unitsToCheck (y * 16 + x) k).superOffset.h ∧
    ((InitMotion g).unitsToCheck (y * 16 + x) k).superOffset.h ≤ 1 ∧
    -1 ≤ ((InitMotion g).unitsToCheck (y * 16 + x) k).superOffset.v ∧
    ((InitMotion g).unitsToCheck (y * 16 + x) k).superOffset.v ≤ 1 ∧
    x + (cAdjacentUnits.getD k ⟨0, 0⟩).h
      = (x + (cAdjacentUnits.getD k ⟨0, 0⟩).h) % 16
        + 16 * ((InitMotion g).unitsToCheck (y * 16 + x) k).superOffset.h ∧
    y + (cAdjacentUnits.getD k ⟨0, 0⟩).v
      = (y + (cAdjacentUnits.getD k ⟨0, 0⟩).v) % 16
        + 16 * ((InitMotion g).unitsToCheck (y * 16 + x) k).superOffset.v := by
  have e256 : kProximityGridDataLength = 256 := by decide
  have h0 : 0 ≤ y * 16 + x := by omega
  have h1 : y * 16 + x < kProximityGridDataLength := by rw [e256]; omega
  have hi : (y * 16 + x) % 16 = x := by omega
  have hj : (y * 16 + x) / 16 = y := by omega
  obtain ⟨c1, c2, c3, c4⟩ := cellAfter_InitMotion g (y * 16 + x) h0 h1
  obtain ⟨s1, s2, s3, s4⟩ := superOffset_InitMotion g (y * 16 + x) h0 h1
  obtain ⟨a1, a2, a3, a4⟩ := cAdjacentUnits_getD
  rw [hi, hj] at c1 c2 c3 c4 s1 s2 s3 s4
  have wx := wrapUnit_spec x (by omega) (by omega)
  have wy := wrapUnit_spec y (by omega) (by omega)
  have wx1 := wrapUnit_spec (x + 1) (by omega) (by omega)
  have wxm := wrapUnit_spec (x + -1) (by omega) (by omega)
  have wy1 := wrapUnit_spec (y + 1) (by omega) (by omega)
  have hk : k = 1 ∨ k = 2 ∨ k = 3 ∨ k = 4 := by omega
  rcases hk with h | h | h | h <;> subst h
  · rw [c1, s1, a1]; clear c1 c2 c3 c4 s1 s2 s3 s4
    dsimp only; refine ⟨?_, ?_, ?_, ?_, ?_, ?_, ?_, ?_, ?_⟩ <;> omega
  · rw [c2, s2, a2]; clear c1 c2 c3 c4 s1 s2 s3 s4
    dsimp only; refine ⟨?_, ?_, ?_, ?_, ?_, ?_, ?_, ?_, ?_⟩ <;> omega
  · rw [c3, s3, a3]; clear c1 c2 c3 c4 s1 s2 s3 s4
    dsimp only; refine ⟨?_, ?_, ?_, ?_, ?_, ?_, ?_, ?_, ?_⟩ <;> omega
  · rw [c4, s4, a4]; clear c1 c2 c3 c4 s1 s2 s3 s4
    dsimp only; refine ⟨?_, ?_, ?_, ?_, ?_, ?_, ?_, ?_, ?_⟩ <;> omega

/-- Witness for C27: the cell of column 15 and row 15 and its entry 4, the neighbour
across the corner of the grid. -/
theorem C27_adjacency_table_witness :
    cellAfter (InitMotion staleGrid).unitsToCheck (15 * 16 + 15) 4
      = ((15 + (cAdjacentUnits.getD 4 ⟨0, 0⟩).v) % 16) * 16
        + (15 + (cAdjacentUnits.getD 4 ⟨0, 0⟩).h) % 16 :=
  (C27_adjacency_table staleGrid 15 15 (by decide) (by decide) (by decide) (by decide) 4
    (by decide) (by decide)).1

/-- C28: in the table built by `InitMotion`, every `adjacentUnit[k]` with `k` in
`1 .. 4` of every cell of the grid has magnitude at most 256, so the test of
motion.cpp:728, which raises the exception about adjacent proximity units, fails for
it: the exception needs a table that `InitMotion` did not produce. -/
theorem C28_adjacent_unit_bounded (g : Grid) (i : Int) (hi0 : 0 ≤ i)
    (hi1 : i < kProximityGridDataLength) (k : Nat) (hk1 : 1 ≤ k) (hk4 : k ≤ 4) :
    -256 ≤ ((InitMotion g).unitsToCheck i k).adjacentUnit ∧
    ((InitMotion g).unitsToCheck i k).adjacentUnit ≤ 256 ∧
    ¬ (((InitMotion g).unitsToCheck i k).adjacentUnit > 256
        ∨ ((InitMotion g).unitsToCheck i k).adjacentUnit < -256) := by
  have e256 : kProximityGridDataLength = 256 := by decide
  have hi1' : i < 256 := by rw [e256] at hi1; exact hi1
  obtain ⟨c1, c2, c3, c4⟩ := cellAfter_InitMotion g i hi0 hi1
  have c0 : cellAfter (InitMotion g).unitsToCheck i 0 = i := rfl
  have hk : k = 1 ∨ k = 2 ∨ k = 3 ∨ k = 4 := by omega
  rcases hk with h | h | h | h <;> subst h
  · rw [adjacentUnit_eq_sub, c1, c0]; clear c1 c2 c3 c4 c0; omega
  · rw [adjacentUnit_eq_sub, c2, c1]; clear c1 c2 c3 c4 c0; omega
  · rw [adjacentUnit_eq_sub, c3, c2]; clear c1 c2 c3 c4 c0; omega
  · rw [adjacentUnit_eq_sub, c4, c3]; clear c1 c2 c3 c4 c0; omega

/-- Witness for C28: the entry 2 of the cell 0 steps from the cell 1 to the cell 31. -/
theorem C28_adjacent_unit_bounded_witness :
    -256 ≤ ((InitMotion staleGrid).unitsToCheck 0 2).adjacentUnit ∧
    ((InitMotion staleGrid).unitsToCheck 0 2).adjacentUnit ≤ 256 ∧
    ¬ (((InitMotion staleGrid).unitsToCheck 0 2).adjacentUnit > 256
        ∨ ((InitMotion staleGrid).unitsToCheck 0 2).adjacentUnit < -256) :=
  C28_adjacent_unit_bounded staleGrid 0 (by decide) (by decide) 2 (by decide) (by decide)

theorem shiftRight_shiftRight (x : Int) (m n : Nat) : (x >>> m) >>> n = x >>> (m + n) := by
  rw [Int.shiftRight_add]

theorem shiftRight_eq_ediv (x : Int) (n : Nat) : x >>> n = x / 2 ^ n := by
  rw [Int.shiftRight_eq_div_pow]
  norm_cast

theorem shiftRight_zero_eq (x : Int) : x >>> (0 : Nat) = x := by
  rw [shiftRight_eq_ediv]
  simp

/-- C29: for every location `(h, v)` the near cell index used at insertion is
`(((v >> 7) & 15) << 4) + ((h >> 7) & 15)` and the far cell index is
`(((v >> 11) & 15) << 4) + ((h >> 11) & 15)`; both lie in `[0, 256)`, for negative
coordinates too. -/
theorem C29_cell_index_in_grid (loc : Point) :
    nearCellIndex loc
      = shiftLeft (Int.land (loc.v >>> (7 : Nat)) 15) 4 + Int.land (loc.h >>> (7 : Nat)) 15 ∧
    farCellIndex loc
      = shiftLeft (Int.land (loc.v >>> (11 : Nat)) 15) 4 + Int.land (loc.h >>> (11 : Nat)) 15 ∧
    0 ≤ nearCellIndex loc ∧ nearCellIndex loc < 256 ∧
    0 ≤ farCellIndex loc ∧ farCellIndex loc < 256 := by
  have e256 : kProximityGridDataLength = 256 := by decide
  have hn := nearCellIndex_range loc
  have hf := farCellIndex_range loc
  rw [e256] at hn hf
  refine ⟨rfl, ?_, hn.1, hn.2, hf.1, hf.2⟩
  unfold farCellIndex collisionGridOf
  simp only [shiftRight_shiftRight]
  rfl

/-- C30: for every location, the stored `collisionGrid` coordinate of a component `c`
is `c >> 11`, the far cell column and row are `collisionGrid & 15`, the stored
`distanceGrid` coordinate is `collisionGrid >> 4`, and these are what one computes
from the world coordinate, `(c >> 11) & 15` and `c >> 15`; moreover
`16 * collisionGrid + (near cell column or row) = c >> 7`. -/
theorem C30_far_grid_rehash (loc : Point) :
    collisionGridOf loc = ⟨loc.h >>> (11 : Nat), loc.v >>> (11 : Nat)⟩ ∧
    farCellIndex loc
      = shiftLeft (Int.land (collisionGridOf loc).v 15) 4 + Int.land (collisionGridOf loc).h 15 ∧
    distanceGridOf loc
      = ⟨(collisionGridOf loc).h >>> (4 : Nat), (collisionGridOf loc).v >>> (4 : Nat)⟩ ∧
    Int.land (collisionGridOf loc).h 15 = Int.land (loc.h >>> (11 : Nat)) 15 ∧
    Int.land (collisionGridOf loc).v 15 = Int.land (loc.v >>> (11 : Nat)) 15 ∧
    distanceGridOf loc = ⟨loc.h >>> (15 : Nat), loc.v >>> (15 : Nat)⟩ ∧
    16 * (collisionGridOf loc).h + Int.land (loc.h >>> (7 : Nat)) 15 = loc.h >>> (7 : Nat) ∧
    16 * (collisionGridOf loc).v + Int.land (loc.v >>> (7 : Nat)) 15 = loc.v >>> (7 : Nat) := by
  have hc : collisionGridOf loc = ⟨loc.h >>> (11 : Nat), loc.v >>> (11 : Nat)⟩ := by
    unfold collisionGridOf
    simp only [shiftRight_shiftRight]
    rfl
  have key : ∀ x : Int, 16 * ((x >>> (7 : Nat)) >>> (4 : Nat)) + Int.land (x >>> (7 : Nat)) 15
      = x >>> (7 : Nat) := by
    intro x
    rw [land_fifteen, shiftRight_eq_ediv (x >>> (7 : Nat)) 4]
    norm_num
    omega
  refine ⟨hc, ?_, ?_, ?_, ?_, ?_, ?_, ?_⟩
  · unfold farCellIndex
    simp only [kDistanceUnitExtraShift, shiftRight_zero_eq]
    rfl
  · unfold distanceGridOf
    simp only [kDistanceUnitExtraShift, shiftRight_zero_eq]
    rfl
  · rw [hc]
  · rw [hc]
  · unfold distanceGridOf
    rw [hc]
    simp only [shiftRight_shiftRight]
    rfl
  · exact key loc.h
  · exact key loc.v

/-! ## `scale_by` against `evil_scale_by` -/

/-- Truncating against flooring division by a positive number. -/
theorem tdiv_eq_ediv_add (a d : Int) (hd : 0 < d) :
    Int.tdiv a d = a / d + (if a < 0 ∧ a % d ≠ 0 then 1 else 0) := by
  by_cases ha : 0 ≤ a
  · rw [Int.tdiv_eq_ediv ha (le_of_lt hd), if_neg (by omega)]
    simp
  · have hneg : a < 0 := by omega
    have h1 : Int.tdiv a d = -((-a) / d) := by
      rw [← Int.tdiv_eq_ediv (by omega) (le_of_lt hd), Int.neg_tdiv, neg_neg]
    rw [h1]
    have e1 := Int.emod_add_ediv a d
    have e2 := Int.emod_add_ediv (-a) d
    have b1 := Int.emod_nonneg a (ne_of_gt hd)
    have b2 := Int.emod_lt_of_pos a hd
    have b3 := Int.emod_nonneg (-a) (ne_of_gt hd)
    have b4 := Int.emod_lt_of_pos (-a) hd
    by_cases hz : a % d = 0
    · rw [if_neg (by tauto)]
      have : d * (a / d + (-a) / d) = -((-a) % d) := by linarith
      have hq : a / d + (-a) / d = 0 := by
        by_contra hne
        rcases lt_or_gt_of_ne hne with hlt | hgt
        · have : d * (a / d + -a / d) ≤ d * (-1) := by
            apply mul_le_mul_of_nonneg_left _ (le_of_lt hd); omega
          nlinarith
        · have : d * 1 ≤ d * (a / d + -a / d) := by
            apply mul_le_mul_of_nonneg_left _ (le_of_lt hd); omega
          nlinarith
      omega
    · rw [if_pos ⟨hneg, hz⟩]
      have : d * (a / d + (-a) / d + 1) = d - (a % d) - ((-a) % d) := by linarith
      have hq : a / d + (-a) / d + 1 = 0 := by
        by_contra hne
        rcases lt_or_gt_of_ne hne with hlt | hgt
        · have : d * (a / d + -a / d + 1) ≤ d * (-1) := by
            apply mul_le_mul_of_nonneg_left _ (le_of_lt hd); omega
          have : 0 < a % d := by omega
          nlinarith
        · have : d * 1 ≤ d * (a / d + -a / d + 1) := by
            apply mul_le_mul_of_nonneg_left _ (le_of_lt hd); omega
          have : 0 < a % d := by omega
          nlinarith
      omega

/-- C26, as stated, fails: with `SHIFT_SCALE = 12`, the value `-1` and the factor `1`,
`scale_by` truncates `-1 / 4096` to `0` while `evil_scale_by` shifts `-1` to `-1`. -/
theorem C26_counterexample :
    scale_by 12 (-1) 1 = 0 ∧ evil_scale_by 12 (-1) 1 = -1 := by
  decide

/-- C26, amended: `scale_by` and `evil_scale_by` return the same result whenever the
product of value and factor is non-negative or a multiple of `SCALE_SCALE`; when the
product is negative and not a multiple, `scale_by` (which truncates toward zero) is one
more than `evil_scale_by` (which rounds down). -/
theorem C26_scale_by_vs_evil (SHIFT_SCALE : Nat) (value factor : Int) :
    scale_by SHIFT_SCALE value factor
      = evil_scale_by SHIFT_SCALE value factor
        + (if value * factor < 0 ∧ (value * factor) % SCALE_SCALE_factor SHIFT_SCALE ≠ 0
            then 1 else 0) := by
  unfold scale_by evil_scale_by SCALE_SCALE_factor
  rw [shiftRight_eq_ediv]
  exact tdiv_eq_ediv_add _ _ (by positivity)

/-! ## The boundary policy -/

@[simp] theorem turnPhase_active (K : Consts) (o : SpaceObject) :
    (turnPhase K o).active = o.active := by
  unfold turnPhase; split <;> rfl

@[simp] theorem thrustPhase_active (K : Consts) (X : MathExt) (o : SpaceObject) :
    (thrustPhase K X o).active = o.active := by
  unfold thrustPhase; split <;> rfl

@[simp] theorem motionPhase_active (K : Consts) (X : MathExt) (o : SpaceObject) :
    (motionPhase K X o).active = o.active := by
  unfold motionPhase; split <;> simp

theorem thinkiverse_ordered (K : Consts) : kThinkiverseTopLeft K ≤ kThinkiverseBottomRight K := by
  unfold kThinkiverseTopLeft kThinkiverseBottomRight; omega

/-- C23: for an object in use without `kDoesBounce` (and neither self-animated nor a
beam, so that lines 165-333 are all that one sub-tick unit of `MoveSpaceObjects` does
to it), the unit sets `active` to `kObjectToBeFreed` if and only if, after the move,
`location.h` or `location.v` lies outside
`[kThinkiverseTopLeft, kThinkiverseBottomRight]`; location and velocity are those the
move has left. -/
theorem C23_leaving_object_removed (K : Consts) (X : MathExt) (o : SpaceObject)
    (htags : K.kObjectInUse ≠ K.kObjectToBeFreed)
    (hact : o.active = K.kObjectInUse) (hnb : hasAttr o K.kDoesBounce = false) :
    ((moveObject K X o).active = K.kObjectToBeFreed ↔
      ((motionPhase K X o).location.h < kThinkiverseTopLeft K ∨
       (motionPhase K X o).location.h > kThinkiverseBottomRight K ∨
       (motionPhase K X o).location.v < kThinkiverseTopLeft K ∨
       (motionPhase K X o).location.v > kThinkiverseBottomRight K)) ∧
    (moveObject K X o).location = (motionPhase K X o).location ∧
    (moveObject K X o).velocity = (motionPhase K X o).velocity := by
  have hnb1 : hasAttr (motionPhase K X o) K.kDoesBounce = false := by
    rw [hasAttr_congr _ _ _ (motionPhase_attributes K X o)]; exact hnb
  have hm : (motionPhase K X o).active = K.kObjectInUse := by
    rw [motionPhase_active]; exact hact
  unfold moveObject
  rw [if_pos hact]
  unfold boundsPhase
  simp only [hnb1, Bool.not_false, if_true]
  split
  · rename_i hout
    refine ⟨⟨fun _ => ?_, fun _ => rfl⟩, rfl, rfl⟩
    tauto
  · rename_i hin
    refine ⟨⟨fun h => ?_, fun h => ?_⟩, rfl, rfl⟩
    · exact absurd (hm.symm.trans h) htags
    · exact absurd (by tauto) hin

/-- Witness for C23: the sample object, in use and not bouncing, stays inside the
world and stays in use. -/
theorem C23_leaving_object_removed_witness :
    ((moveObject demoConsts demoExt demoDrifter).active = demoConsts.kObjectToBeFreed ↔
      ((motionPhase demoConsts demoExt demoDrifter).location.h < kThinkiverseTopLeft demoConsts ∨
       (motionPhase demoConsts demoExt demoDrifter).location.h
          > kThinkiverseBottomRight demoConsts ∨
       (motionPhase demoConsts demoExt demoDrifter).location.v < kThinkiverseTopLeft demoConsts ∨
       (motionPhase demoConsts demoExt demoDrifter).location.v
          > kThinkiverseBottomRight demoConsts)) ∧
    (moveObject demoConsts demoExt demoDrifter).active = 1 :=
  ⟨(C23_leaving_object_removed demoConsts demoExt demoDrifter (by decide) (by decide)
      (by decide)).1, by decide⟩

/-- The boundary check on a bouncing object: for an object in use with `kDoesBounce`,
after lines 165-333 of one sub-tick unit both coordinates lie within
`[kThinkiverseTopLeft, kThinkiverseBottomRight]`; on each axis, a moved coordinate
below the range is set to `kThinkiverseTopLeft` and one above it to
`kThinkiverseBottomRight`, with the velocity of that axis negated, and a coordinate
inside the range is kept with its velocity; the object stays in use. -/
theorem moveObject_bounce (K : Consts) (X : MathExt) (o : SpaceObject)
    (hact : o.active = K.kObjectInUse) (hb : hasAttr o K.kDoesBounce = true) :
    (kThinkiverseTopLeft K ≤ (moveObject K X o).location.h ∧
      (moveObject K X o).location.h ≤ kThinkiverseBottomRight K ∧
      kThinkiverseTopLeft K ≤ (moveObject K X o).location.v ∧
      (moveObject K X o).location.v ≤ kThinkiverseBottomRight K) ∧
    ((motionPhase K X o).location.h < kThinkiverseTopLeft K →
      (moveObject K X o).location.h = kThinkiverseTopLeft K ∧
      (moveObject K X o).velocity.h = -(motionPhase K X o).velocity.h) ∧
    ((motionPhase K X o).location.h > kThinkiverseBottomRight K →
      (moveObject K X o).location.h = kThinkiverseBottomRight K ∧
      (moveObject K X o).velocity.h = -(motionPhase K X o).velocity.h) ∧
    (kThinkiverseTopLeft K ≤ (motionPhase K X o).location.h →
      (motionPhase K X o).location.h ≤ kThinkiverseBottomRight K →
      (moveObject K X o).location.h = (motionPhase K X o).location.h ∧
      (moveObject K X o).velocity.h = (motionPhase K X o).velocity.h) ∧
    ((motionPhase K X o).location.v < kThinkiverseTopLeft K →
      (moveObject K X o).location.v = kThinkiverseTopLeft K ∧
      (moveObject K X o).velocity.v = -(motionPhase K X o).velocity.v) ∧
    ((motionPhase K X o).location.v > kThinkiverseBottomRight K →
      (moveObject K X o).location.v = kThinkiverseBottomRight K ∧
      (moveObject K X o).velocity.v = -(motionPhase K X o).velocity.v) ∧
    (kThinkiverseTopLeft K ≤ (motionPhase K X o).location.v →
      (motionPhase K X o).location.v ≤ kThinkiverseBottomRight K →
      (moveObject K X o).location.v = (motionPhase K X o).location.v ∧
      (moveObject K X o).velocity.v = (motionPhase K X o).velocity.v) ∧
    (moveObject K X o).active = K.kObjectInUse := by
  have hb1 : hasAttr (motionPhase K X o) K.kDoesBounce = true := by
    rw [hasAttr_congr _ _ _ (motionPhase_attributes K X o)]; exact hb
  have hm : (motionPhase K X o).active = K.kObjectInUse := by
    rw [motionPhase_active]; exact hact
  have hord := thinkiverse_ordered K
  unfold moveObject
  rw [if_pos hact]
  unfold boundsPhase
  simp only [hb1, Bool.not_true, Bool.false_eq_true, if_false]
  generalize motionPhase K X o = m at hm ⊢
  unfold bounceV bounceH
  split_ifs <;> (try dsimp only at *) <;>
    refine ⟨⟨?_, ?_, ?_, ?_⟩, ?_, ?_, ?_, ?_, ?_, ?_, hm⟩ <;>
    omega

/-! ## A crossing beam -/

theorem tdiv_between_core (y p d : Int) (hd : 0 < d) (hp0 : 0 ≤ p) (hp1 : p ≤ d) (hy : 0 ≤ y) :
    0 ≤ Int.tdiv (y * p) d ∧ Int.tdiv (y * p) d ≤ y := by
  have h0 : 0 ≤ y * p := mul_nonneg hy hp0
  rw [Int.tdiv_eq_ediv h0 (le_of_lt hd)]
  constructor
  · exact Int.ediv_nonneg h0 (le_of_lt hd)
  · have h1 : y * p ≤ y * d := mul_le_mul_of_nonneg_left hp1 hy
    calc y * p / d ≤ y * d / d := Int.ediv_le_ediv hd h1
      _ = y := Int.mul_ediv_cancel y (ne_of_gt hd)

theorem tdiv_between_posd (y p d : Int) (hd : 0 < d) (hp0 : 0 ≤ p) (hp1 : p ≤ d) :
    (0 ≤ y → 0 ≤ Int.tdiv (y * p) d ∧ Int.tdiv (y * p) d ≤ y) ∧
    (y ≤ 0 → y ≤ Int.tdiv (y * p) d ∧ Int.tdiv (y * p) d ≤ 0) := by
  constructor
  · exact tdiv_between_core y p d hd hp0 hp1
  · intro hy
    have h := tdiv_between_core (-y) p d hd hp0 hp1 (by omega)
    rw [neg_mul, Int.neg_tdiv] at h
    omega

/-- The quotient `(y * p) / d` of C++ lies between `0` and `y` when `p / d` lies
between 0 and 1. -/
theorem tdiv_between (y p d : Int)
    (h : (0 < d ∧ 0 ≤ p ∧ p ≤ d) ∨ (d < 0 ∧ d ≤ p ∧ p ≤ 0)) :
    (0 ≤ y → 0 ≤ Int.tdiv (y * p) d ∧ Int.tdiv (y * p) d ≤ y) ∧
    (y ≤ 0 → y ≤ Int.tdiv (y * p) d ∧ Int.tdiv (y * p) d ≤ 0) := by
  rcases h with ⟨hd, hp0, hp1⟩ | ⟨hd, hp0, hp1⟩
  · exact tdiv_between_posd y p d hd hp0 hp1
  · have h := tdiv_between_posd y (-p) (-d) (by omega) (by omega) (by omega)
    rw [mul_neg, Int.neg_tdiv, Int.tdiv_neg, neg_neg] at h
    exact h

/-- The quotient `(y * p) / d` of C++ lies between `-y` and `0` when `p / d` lies
between -1 and 0. -/
theorem tdiv_between_neg (y p d : Int)
    (h : (0 < d ∧ -d ≤ p ∧ p ≤ 0) ∨ (d < 0 ∧ 0 ≤ p ∧ p ≤ -d)) :
    (0 ≤ y → -y ≤ Int.tdiv (y * p) d ∧ Int.tdiv (y * p) d ≤ 0) ∧
    (y ≤ 0 → 0 ≤ Int.tdiv (y * p) d ∧ Int.tdiv (y * p) d ≤ -y) := by
  have h1 := tdiv_between y (-p) d (by omega)
  rw [mul_neg, Int.neg_tdiv] at h1
  constructor
  · intro hy; have := h1.1 hy; omega
  · intro hy; have := h1.2 hy; omega

theorem mClipCode_inside (x y : Int) (bounds : Rect)
    (h1 : bounds.left ≤ x) (h2 : x ≤ bounds.right - 1) (h3 : bounds.top ≤ y)
    (h4 : y ≤ bounds.bottom - 1) : mClipCode x y bounds = 0 := by
  unfold mClipCode
  rw [if_neg (by omega), if_neg (by omega), if_neg (by omega), if_neg (by omega)]
  rfl

theorem mClipCode_left (x y : Int) (bounds : Rect)
    (h1 : x < bounds.left) (h2 : bounds.left < bounds.right) (h3 : bounds.top ≤ y)
    (h4 : y ≤ bounds.bottom - 1) : mClipCode x y bounds = 8 := by
  unfold mClipCode
  rw [if_pos h1, if_neg (by omega), if_neg (by omega), if_neg (by omega)]
  rfl

theorem mClipCode_right (x y : Int) (bounds : Rect)
    (h1 : x > bounds.right - 1) (h2 : bounds.left < bounds.right) (h3 : bounds.top ≤ y)
    (h4 : y ≤ bounds.bottom - 1) : mClipCode x y bounds = 4 := by
  unfold mClipCode
  rw [if_neg (by omega), if_pos h1, if_neg (by omega), if_neg (by omega)]
  rfl

theorem mClipCode_top (x y : Int) (bounds : Rect)
    (h1 : y < bounds.top) (h2 : bounds.top < bounds.bottom) (h3 : bounds.left ≤ x)
    (h4 : x ≤ bounds.right - 1) : mClipCode x y bounds = 2 := by
  unfold mClipCode
  rw [if_neg (by omega), if_neg (by omega), if_pos h1, if_neg (by omega)]
  rfl

theorem mClipCode_bottom (x y : Int) (bounds : Rect)
    (h1 : y > bounds.bottom - 1) (h2 : bounds.top < bounds.bottom) (h3 : bounds.left ≤ x)
    (h4 : x ≤ bounds.right - 1) : mClipCode x y bounds = 1 := by
  unfold mClipCode
  rw [if_neg (by omega), if_neg (by omega), if_neg (by omega), if_pos h1]
  rfl

/-- The loop is left with a hit once both outcodes are zero. -/
theorem clipLoop_done (bounds : Rect) (fuel : Nat) (xs ys xe ye : Int) :
    clipLoop bounds fuel ⟨xs, ys, xe, ye, 0, 0⟩ true = ClipOutcome.hit := by
  unfold clipLoop
  simp

/-- One iteration of the loop that runs the body. -/
theorem clipLoop_step (bounds : Rect) (fuel : Nat) (xs ys xe ye : Int) (cs ce : Nat)
    (c1 : ClipState) (beamHit : Bool)
    (h1 : cs ||| ce ≠ 0) (h2 : cs &&& ce = 0)
    (h3 : clipIteration bounds ⟨xs, ys, xe, ye, cs, ce⟩ = some c1) :
    clipLoop bounds (fuel + 1) ⟨xs, ys, xe, ye, cs, ce⟩ beamHit
      = clipLoop bounds fuel c1 beamHit := by
  rw [clipLoop]
  simp only [h1, h2, if_false, ne_eq, not_true_eq_false, h3]

theorem clip_bits :
    (8 : Nat) &&& 8 = 8 ∧ (4 : Nat) &&& 8 = 0 ∧ (4 : Nat) &&& 4 = 4 ∧ (2 : Nat) &&& 8 = 0 ∧
    (2 : Nat) &&& 4 = 0 ∧ (2 : Nat) &&& 2 = 2 ∧ (1 : Nat) &&& 8 = 0 ∧ (1 : Nat) &&& 4 = 0 ∧
    (1 : Nat) &&& 2 = 0 ∧ (1 : Nat) &&& 1 = 1 := by decide

theorem clipIteration_s8 (bounds : Rect) (xs ys xe ye : Int) (ce : Nat) (hd : xe - xs ≠ 0) :
    clipIteration bounds ⟨xs, ys, xe, ye, 8, ce⟩
      = some ⟨bounds.left, ys + Int.tdiv ((ye - ys) * (bounds.left - xs)) (xe - xs), xe, ye,
          mClipCode bounds.left (ys + Int.tdiv ((ye - ys) * (bounds.left - xs)) (xe - xs)) bounds,
          ce⟩ := by
  unfold clipIteration
  simp [hd, clip_bits]

theorem clipIteration_s4 (bounds : Rect) (xs ys xe ye : Int) (ce : Nat) (hd : xe - xs ≠ 0) :
    clipIteration bounds ⟨xs, ys, xe, ye, 4, ce⟩
      = some ⟨bounds.right - 1,
          ys + Int.tdiv ((ye - ys) * (bounds.right - 1 - xs)) (xe - xs), xe, ye,
          mClipCode (bounds.right - 1)
            (ys + Int.tdiv ((ye - ys) * (bounds.right - 1 - xs)) (xe - xs)) bounds,
          ce⟩ := by
  unfold clipIteration
  simp [hd, clip_bits]

theorem clipIteration_s2 (bounds : Rect) (xs ys xe ye : Int) (ce : Nat) (hd : ye - ys ≠ 0) :
    clipIteration bounds ⟨xs, ys, xe, ye, 2, ce⟩
      = some ⟨xs + Int.tdiv ((xe - xs) * (bounds.top - ys)) (ye - ys), bounds.top, xe, ye,
          mClipCode (xs + Int.tdiv ((xe - xs) * (bounds.top - ys)) (ye - ys)) bounds.top bounds,
          ce⟩ := by
  unfold clipIteration
  simp [hd, clip_bits]

theorem clipIteration_s1 (bounds : Rect) (xs ys xe ye : Int) (ce : Nat) (hd : ye - ys ≠ 0) :
    clipIteration bounds ⟨xs, ys, xe, ye, 1, ce⟩
      = some ⟨xs + Int.tdiv ((xe - xs) * (bounds.bottom - 1 - ys)) (ye - ys), bounds.bottom - 1,
          xe, ye,
          mClipCode (xs + Int.tdiv ((xe - xs) * (bounds.bottom - 1 - ys)) (ye - ys))
            (bounds.bottom - 1) bounds,
          ce⟩ := by
  unfold clipIteration
  simp [hd, clip_bits]

theorem clipIteration_e8 (bounds : Rect) (xs ys xe ye : Int) (hd : xe - xs ≠ 0) :
    clipIteration bounds ⟨xs, ys, xe, ye, 0, 8⟩
      = some ⟨xs, ys, bounds.left, ye + Int.tdiv ((ye - ys) * (bounds.left - xe)) (xe - xs), 0,
          mClipCode bounds.left (ye + Int.tdiv ((ye - ys) * (bounds.left - xe)) (xe - xs))
            bounds⟩ := by
  unfold clipIteration
  simp [hd, clip_bits]

theorem clipIteration_e4 (bounds : Rect) (xs ys xe ye : Int) (hd : xe - xs ≠ 0) :
    clipIteration bounds ⟨xs, ys, xe, ye, 0, 4⟩
      = some ⟨xs, ys, bounds.right - 1,
          ye + Int.tdiv ((ye - ys) * (bounds.right - 1 - xe)) (xe - xs), 0,
          mClipCode (bounds.right - 1)
            (ye + Int.tdiv ((ye - ys) * (bounds.right - 1 - xe)) (xe - xs)) bounds⟩ := by
  unfold clipIteration
  simp [hd, clip_bits]

theorem clipIteration_e2 (bounds : Rect) (xs ys xe ye : Int) (hd : ye - ys ≠ 0) :
    clipIteration bounds ⟨xs, ys, xe, ye, 0, 2⟩
      = some ⟨xs, ys, xe + Int.tdiv ((xe - xs) * (bounds.top - ye)) (ye - ys), bounds.top, 0,
          mClipCode (xe + Int.tdiv ((xe - xs) * (bounds.top - ye)) (ye - ys)) bounds.top
            bounds⟩ := by
  unfold clipIteration
  simp [hd, clip_bits]

theorem clipIteration_e1 (bounds : Rect) (xs ys xe ye : Int) (hd : ye - ys ≠ 0) :
    clipIteration bounds ⟨xs, ys, xe, ye, 0, 1⟩
      = some ⟨xs, ys, xe + Int.tdiv ((xe - xs) * (bounds.bottom - 1 - ye)) (ye - ys),
          bounds.bottom - 1, 0,
          mClipCode (xe + Int.tdiv ((xe - xs) * (bounds.bottom - 1 - ye)) (ye - ys))
            (bounds.bottom - 1) bounds⟩ := by
  unfold clipIteration
  simp [hd, clip_bits]

/-- A segment that crosses the box is clipped to the box in two iterations. -/
theorem clipLoop_crossing (bounds : Rect) (fuel : Nat) (xs ys xe ye : Int)
    (hw : bounds.left < bounds.right) (hh : bounds.top < bounds.bottom)
    (hc : segmentCrosses bounds ⟨xs, ys⟩ ⟨xe, ye⟩) :
    clipLoop bounds (fuel + 2)
      ⟨xs, ys, xe, ye, mClipCode xs ys bounds, mClipCode xe ye bounds⟩ true
      = ClipOutcome.hit := by
  unfold segmentCrosses at hc
  dsimp only at hc
  rcases hc with ⟨hx, h3, h4, h5, h6⟩ | ⟨hy, h3, h4, h5, h6⟩
  · rcases hx with ⟨h1, h2⟩ | ⟨h1, h2⟩
    · rw [mClipCode_left xs ys bounds h1 hw h3 h4, mClipCode_right xe ye bounds h2 hw h5 h6]
      have t := tdiv_between (ye - ys) (bounds.left - xs) (xe - xs)
        (Or.inl ⟨by omega, by omega, by omega⟩)
      rw [clipLoop_step bounds (fuel + 1) xs ys xe ye 8 4 _ true (by decide) (by decide)
        (clipIteration_s8 bounds xs ys xe ye 4 (by omega))]
      rw [mClipCode_inside _ _ bounds (le_refl _) (by omega) (by omega) (by omega)]
      have t2 := tdiv_between_neg
        (ye - (ys + Int.tdiv ((ye - ys) * (bounds.left - xs)) (xe - xs)))
        (bounds.right - 1 - xe) (xe - bounds.left) (Or.inl ⟨by omega, by omega, by omega⟩)
      rw [clipLoop_step bounds fuel _ _ xe ye 0 4 _ true (by decide) (by decide)
        (clipIteration_e4 bounds _ _ xe ye (by omega))]
      rw [mClipCode_inside _ _ bounds (by omega) (le_refl _) (by omega) (by omega)]
      exact clipLoop_done bounds fuel _ _ _ _
    · rw [mClipCode_right xs ys bounds h2 hw h3 h4, mClipCode_left xe ye bounds h1 hw h5 h6]
      have t := tdiv_between (ye - ys) (bounds.right - 1 - xs) (xe - xs)
        (Or.inr ⟨by omega, by omega, by omega⟩)
      rw [clipLoop_step bounds (fuel + 1) xs ys xe ye 4 8 _ true (by decide) (by decide)
        (clipIteration_s4 bounds xs ys xe ye 8 (by omega))]
      rw [mClipCode_inside _ _ bounds (by omega) (le_refl _) (by omega) (by omega)]
      have t2 := tdiv_between_neg
        (ye - (ys + Int.tdiv ((ye - ys) * (bounds.right - 1 - xs)) (xe - xs)))
        (bounds.left - xe) (xe - (bounds.right - 1)) (Or.inr ⟨by omega, by omega, by omega⟩)
      rw [clipLoop_step bounds fuel _ _ xe ye 0 8 _ true (by decide) (by decide)
        (clipIteration_e8 bounds _ _ xe ye (by omega))]
      rw [mClipCode_inside _ _ bounds (le_refl _) (by omega) (by omega) (by omega)]
      exact clipLoop_done bounds fuel _ _ _ _
  · rcases hy with ⟨h1, h2⟩ | ⟨h1, h2⟩
    · rw [mClipCode_top xs ys bounds h1 hh h3 h4, mClipCode_bottom xe ye bounds h2 hh h5 h6]
      have t := tdiv_between (xe - xs) (bounds.top - ys) (ye - ys)
        (Or.inl ⟨by omega, by omega, by omega⟩)
      rw [clipLoop_step bounds (fuel + 1) xs ys xe ye 2 1 _ true (by decide) (by decide)
        (clipIteration_s2 bounds xs ys xe ye 1 (by omega))]
      rw [mClipCode_inside _ _ bounds (by omega) (by omega) (le_refl _) (by omega)]
      have t2 := tdiv_between_neg
        (xe - (xs + Int.tdiv ((xe - xs) * (bounds.top - ys)) (ye - ys)))
        (bounds.bottom - 1 - ye) (ye - bounds.top) (Or.inl ⟨by omega, by omega, by omega⟩)
      rw [clipLoop_step bounds fuel _ _ xe ye 0 1 _ true (by decide) (by decide)
        (clipIteration_e1 bounds _ _ xe ye (by omega))]
      rw [mClipCode_inside _ _ bounds (by omega) (by omega) (by omega) (le_refl _)]
      exact clipLoop_done bounds fuel _ _ _ _
    · rw [mClipCode_bottom xs ys bounds h2 hh h3 h4, mClipCode_top xe ye bounds h1 hh h5 h6]
      have t := tdiv_between (xe - xs) (bounds.bottom - 1 - ys) (ye - ys)
        (Or.inr ⟨by omega, by omega, by omega⟩)
      rw [clipLoop_step bounds (fuel + 1) xs ys xe ye 1 2 _ true (by decide) (by decide)
        (clipIteration_s1 bounds xs ys xe ye 2 (by omega))]
      rw [mClipCode_inside _ _ bounds (by omega) (by omega) (by omega) (le_refl _)]
      have t2 := tdiv_between_neg
        (xe - (xs + Int.tdiv ((xe - xs) * (bounds.bottom - 1 - ys)) (ye - ys)))
        (bounds.top - ye) (ye - (bounds.bottom - 1)) (Or.inr ⟨by omega, by omega, by omega⟩)
      rw [clipLoop_step bounds fuel _ _ xe ye 0 2 _ true (by decide) (by decide)
        (clipIteration_e2 bounds _ _ xe ye (by omega))]
      rw [mClipCode_inside _ _ bounds (by omega) (by omega) (le_refl _) (by omega)]
      exact clipLoop_done bounds fuel _ _ _ _

/-- C11: a beam segment crossing the target box produces a hit. For every box with
`left < right` and `top < bottom` and every beam that is not marked for removal, if the
end points of the segment (the location of the beam and its `lastGlobalLocation`) lie
on opposite sides of the box on one axis and both within the box on the other axis,
the clipping loop ends, after two iterations, with both outcodes zero, and the pair
step for the beam invokes `HitObject(target, beam)`. -/
theorem C11_crossing_beam_hits (K : Consts) (E : PassEnv) (s1 : PassState) (a b : Nat)
    (beam : Beam)
    (hbeam : (s1.objs (if hasAttr (s1.objs b) K.kIsBeam then b else a)).beam = some beam)
    (hlive : (s1.objs (if hasAttr (s1.objs b) K.kIsBeam then b else a)).active
      ≠ K.kObjectToBeFreed)
    (hw : (s1.objs (if hasAttr (s1.objs b) K.kIsBeam then a else b)).absoluteBounds.left
      < (s1.objs (if hasAttr (s1.objs b) K.kIsBeam then a else b)).absoluteBounds.right)
    (hh : (s1.objs (if hasAttr (s1.objs b) K.kIsBeam then a else b)).absoluteBounds.top
      < (s1.objs (if hasAttr (s1.objs b) K.kIsBeam then a else b)).absoluteBounds.bottom)
    (hc : segmentCrosses
      (s1.objs (if hasAttr (s1.objs b) K.kIsBeam then a else b)).absoluteBounds
      (s1.objs (if hasAttr (s1.objs b) K.kIsBeam then b else a)).location
      beam.lastGlobalLocation)
    (hfuel : 2 ≤ E.clipFuel) :
    (∀ fuel, 2 ≤ fuel →
      beamClip K fuel (s1.objs (if hasAttr (s1.objs b) K.kIsBeam then b else a))
        beam.lastGlobalLocation
        (s1.objs (if hasAttr (s1.objs b) K.kIsBeam then a else b)).absoluteBounds
      = ClipOutcome.hit) ∧
    hitBeam K E s1 a b =
      { s1 with
        objs := E.HitObject s1.objs (if hasAttr (s1.objs b) K.kIsBeam then a else b)
          (if hasAttr (s1.objs b) K.kIsBeam then b else a)
        trace := s1.trace ++ [Event.hit (if hasAttr (s1.objs b) K.kIsBeam then a else b)
          (if hasAttr (s1.objs b) K.kIsBeam then b else a)] } := by
  have key : ∀ fuel, 2 ≤ fuel →
      beamClip K fuel (s1.objs (if hasAttr (s1.objs b) K.kIsBeam then b else a))
        beam.lastGlobalLocation
        (s1.objs (if hasAttr (s1.objs b) K.kIsBeam then a else b)).absoluteBounds
      = ClipOutcome.hit := by
    intro fuel hf
    obtain ⟨n, rfl⟩ : ∃ n, fuel = n + 2 := ⟨fuel - 2, by omega⟩
    unfold beamClip
    dsimp only
    rw [if_neg hlive]
    exact clipLoop_crossing _ n _ _ _ _ hw hh hc
  refine ⟨key, ?_⟩
  unfold hitBeam
  simp only [hbeam]
  rw [key E.clipFuel hfuel]

/-- Witness for C11: the sample beam through the box of the first ship. -/
theorem C11_crossing_beam_hits_witness :
    beamClip demoConsts 8 (demoCrossObjs 2) ⟨1000, 1100⟩ (demoCrossObjs 0).absoluteBounds
      = ClipOutcome.hit :=
  (C11_crossing_beam_hits demoConsts demoEnv ⟨demoCrossObjs, [], false⟩ 0 2 ⟨⟨1000, 1100⟩⟩
    (by decide) (by decide) (by decide) (by decide) (by decide) (by decide)).1 8 (by decide)

/-- C12: a beam whose own `active` state is `kObjectToBeFreed` never registers a hit:
for every target box and every pair of end points the clipping ends with no hit, for
every iteration bound, and the pair step for the beam leaves the object table and the
record of calls as they were. -/
theorem C12_freed_beam_never_hits (K : Consts) (E : PassEnv) (s1 : PassState) (a b : Nat)
    (hfreed : (s1.objs (if hasAttr (s1.objs b) K.kIsBeam then b else a)).active
      = K.kObjectToBeFreed) :
    (∀ (fuel : Nat) (p : Point) (bounds : Rect),
      beamClip K fuel (s1.objs (if hasAttr (s1.objs b) K.kIsBeam then b else a)) p bounds
        = ClipOutcome.miss) ∧
    (hitBeam K E s1 a b).objs = s1.objs ∧ (hitBeam K E s1 a b).trace = s1.trace := by
  have key : ∀ (fuel : Nat) (p : Point) (bounds : Rect),
      beamClip K fuel (s1.objs (if hasAttr (s1.objs b) K.kIsBeam then b else a)) p bounds
        = ClipOutcome.miss := by
    intro fuel p bounds
    unfold beamClip
    dsimp only
    rw [if_pos hfreed]
    exact clipLoop_shared _ _ _ _ (show (1 : Nat) &&& 1 ≠ 0 by decide)
  refine ⟨key, ?_⟩
  unfold hitBeam
  dsimp only
  cases hb : (s1.objs (if hasAttr (s1.objs b) K.kIsBeam then b else a)).beam with
  | none => exact ⟨rfl, rfl⟩
  | some beam =>
    dsimp only
    rw [key]
    exact ⟨rfl, rfl⟩

/-- Witness for C12: the sample beam marked for removal, with both end points inside
the box of the first ship, does not hit it. -/
theorem C12_freed_beam_never_hits_witness :
    mClipCode 1000 1000 (demoFreedObjs 0).absoluteBounds = 0 ∧
    mClipCode 1001 1001 (demoFreedObjs 0).absoluteBounds = 0 ∧
    (hitBeam demoConsts demoEnv ⟨demoFreedObjs, [], false⟩ 0 2).trace = [] :=
  ⟨by decide, by decide,
   (C12_freed_beam_never_hits demoConsts demoEnv ⟨demoFreedObjs, [], false⟩ 0 2
      (by decide)).2.2⟩

/-! ## The distance of a pair in the far pass -/

theorem emod_le_self_of_nonneg (a b : Int) (ha : 0 ≤ a) (hb : 0 < b) : a % b ≤ a := by
  have h1 := Int.emod_add_ediv a b
  have h2 : 0 ≤ a / b := Int.ediv_nonneg ha (le_of_lt hb)
  have h3 : 0 ≤ b * (a / b) := mul_nonneg (le_of_lt hb) h2
  omega

/-- C18, as stated, fails: with the threshold 46340 and two objects 46340 units apart
on both axes, neither delta exceeds the threshold, and the computed value
`46340 * 46340 + 46340 * 46340 = 4294791200` is above the sentinel `2147395600`. -/
theorem C18_counterexample :
    pairDistance demoConsts demoFarA demoFarB = 4294791200 ∧
    demoConsts.kMaximumRelevantDistanceSquared = 2147395600 ∧
    demoConsts.kMaximumRelevantDistanceSquared
      = demoConsts.kMaximumRelevantDistance * demoConsts.kMaximumRelevantDistance := by
  decide

/-- C18, amended: the pair distance of the far pass saturates per axis only. With
`kMaximumRelevantDistanceSquared` the square of `kMaximumRelevantDistance`, the
computed value is the sentinel when either axis delta exceeds the threshold, and in
every case it lies between zero and twice the sentinel. -/
theorem C18_distance_bounded (K : Consts) (a b : SpaceObject)
    (hsq : K.kMaximumRelevantDistanceSquared
      = K.kMaximumRelevantDistance * K.kMaximumRelevantDistance) :
    0 ≤ pairDistance K a b ∧
    pairDistance K a b ≤ 2 * K.kMaximumRelevantDistanceSquared ∧
    ((|b.location.h - a.location.h| > K.kMaximumRelevantDistance
        ∨ |b.location.v - a.location.v| > K.kMaximumRelevantDistance) →
      pairDistance K a b = K.kMaximumRelevantDistanceSquared) := by
  have hs0 : 0 ≤ K.kMaximumRelevantDistanceSquared := by rw [hsq]; exact mul_self_nonneg _
  unfold pairDistance
  dsimp only
  split
  · exact ⟨hs0, by omega, fun _ => rfl⟩
  · rename_i hin
    have h1 : |b.location.h - a.location.h| ≤ K.kMaximumRelevantDistance := by
      by_contra hc; exact hin (Or.inl (by omega))
    have h2 : |b.location.v - a.location.v| ≤ K.kMaximumRelevantDistance := by
      by_contra hc; exact hin (Or.inr (by omega))
    have n1 := abs_nonneg (b.location.h - a.location.h)
    have n2 := abs_nonneg (b.location.v - a.location.v)
    have q1 : |b.location.h - a.location.h| * |b.location.h - a.location.h|
        ≤ K.kMaximumRelevantDistance * K.kMaximumRelevantDistance :=
      mul_le_mul h1 h1 n1 (le_trans n1 h1)
    have q2 : |b.location.v - a.location.v| * |b.location.v - a.location.v|
        ≤ K.kMaximumRelevantDistance * K.kMaximumRelevantDistance :=
      mul_le_mul h2 h2 n2 (le_trans n2 h2)
    have p1 := mul_nonneg n1 n1
    have p2 := mul_nonneg n2 n2
    have hle := emod_le_self_of_nonneg
      (|b.location.v - a.location.v| * |b.location.v - a.location.v|
        + |b.location.h - a.location.h| * |b.location.h - a.location.h|) (2 ^ 32)
      (by omega) (by norm_num)
    refine ⟨Int.emod_nonneg _ (by norm_num), ?_, fun h => absurd h hin⟩
    rw [hsq]
    omega

/-- Witness for C18 on the two objects 46340 units apart on both axes. -/
theorem C18_distance_bounded_witness :
    pairDistance demoConsts demoFarA demoFarB
      ≤ 2 * demoConsts.kMaximumRelevantDistanceSquared :=
  (C18_distance_bounded demoConsts demoFarA demoFarB (by decide)).2.1

/-- C19: with the threshold `kMaximumRelevantDistance = 46340`, the pair distance of
the far pass never wraps around in 32-bit unsigned arithmetic: when both axis deltas
are at most the threshold, the stored value is the exact integer `dh * dh + dv * dv`,
which is below `2 ^ 32`; when either delta exceeds the threshold the value is the
sentinel and no product is formed. -/
theorem C19_distance_never_wraps (K : Consts) (a b : SpaceObject)
    (hmax : K.kMaximumRelevantDistance = 46340) :
    ((|b.location.h - a.location.h| ≤ 46340 ∧ |b.location.v - a.location.v| ≤ 46340) →
      pairDistance K a b
          = |b.location.v - a.location.v| * |b.location.v - a.location.v|
            + |b.location.h - a.location.h| * |b.location.h - a.location.h| ∧
      |b.location.v - a.location.v| * |b.location.v - a.location.v|
            + |b.location.h - a.location.h| * |b.location.h - a.location.h| < 2 ^ 32) ∧
    ((|b.location.h - a.location.h| > 46340 ∨ |b.location.v - a.location.v| > 46340) →
      pairDistance K a b = K.kMaximumRelevantDistanceSquared) := by
  unfold pairDistance
  dsimp only
  rw [hmax]
  constructor
  · rintro ⟨h1, h2⟩
    rw [if_neg (by omega)]
    have n1 := abs_nonneg (b.location.h - a.location.h)
    have n2 := abs_nonneg (b.location.v - a.location.v)
    have q1 : |b.location.h - a.location.h| * |b.location.h - a.location.h|
        ≤ 46340 * 46340 := mul_le_mul h1 h1 n1 (by norm_num)
    have q2 : |b.location.v - a.location.v| * |b.location.v - a.location.v|
        ≤ 46340 * 46340 := mul_le_mul h2 h2 n2 (by norm_num)
    have p1 := mul_nonneg n1 n1
    have p2 := mul_nonneg n2 n2
    have hlt : |b.location.v - a.location.v| * |b.location.v - a.location.v|
            + |b.location.h - a.location.h| * |b.location.h - a.location.h| < 2 ^ 32 := by
      norm_num at q1 q2 ⊢
      omega
    exact ⟨Int.emod_eq_of_lt (by omega) hlt, hlt⟩
  · intro h
    rw [if_pos h]

/-- Witness for C19 on the two objects 46340 units apart on both axes. -/
theorem C19_distance_never_wraps_witness :
    pairDistance demoConsts demoFarA demoFarB
      = |demoFarB.location.v - demoFarA.location.v| * |demoFarB.location.v - demoFarA.location.v|
        + |demoFarB.location.h - demoFarA.location.h|
          * |demoFarB.location.h - demoFarA.location.h| :=
  ((C19_distance_never_wraps demoConsts demoFarA demoFarB rfl).1
    ⟨by decide, by decide⟩).1

/-! ## The pair body of the far pass -/

/-- A write through a handle that leaves a field alone leaves it alone in the table. -/
theorem modifyObject_field {α : Type} (P : SpaceObject → α) (objs : Objs) (i j : Nat)
    (f : SpaceObject → SpaceObject) (hf : ∀ o, P (f o) = P o) :
    P (modifyObject objs i f j) = P (objs j) := by
  by_cases h : j = i
  · subst h; rw [modifyObject_same, hf]
  · rw [modifyObject_other _ _ _ _ h]

theorem and_or_self_left (x y : Nat) : x &&& (x ||| y) = x := by
  apply Nat.eq_of_testBit_eq
  intro i
  rw [Nat.testBit_and, Nat.testBit_or]
  cases x.testBit i <;> simp

theorem farClosest_field {α : Type} (P : SpaceObject → α) (K : Consts) (E : PassEnv) (d : Int)
    (objs : Objs) (x y i : Nat)
    (hP : ∀ (o : SpaceObject) (c : Int) (t : Option Nat),
      P { o with closestDistance := c, closestObject := t } = P o) :
    P (farClosest K E d objs x y i) = P (objs i) := by
  unfold farClosest
  split
  · split
    · exact modifyObject_field P _ _ _ _ (fun o => hP o _ _)
    · rfl
  · rfl

theorem farStrengthFoe_field {α : Type} (P : SpaceObject → α) (objs : Objs) (a b i : Nat)
    (hP : ∀ (o : SpaceObject) (c t : Int),
      P { o with localFoeStrength := c } = P o ∧ P { o with localFriendStrength := t } = P o) :
    P (farStrengthFoe objs a b i) = P (objs i) := by
  unfold farStrengthFoe
  rw [modifyObject_field P _ _ _ _ (fun o => (hP o 0 _).2),
    modifyObject_field P _ _ _ _ (fun o => (hP o _ 0).1)]

theorem farStrengthFriend_field {α : Type} (P : SpaceObject → α) (objs : Objs) (a b i : Nat)
    (hP : ∀ (o : SpaceObject) (c t : Int),
      P { o with localFoeStrength := c } = P o ∧ P { o with localFriendStrength := t } = P o) :
    P (farStrengthFriend objs a b i) = P (objs i) := by
  unfold farStrengthFriend
  rw [modifyObject_field P _ _ _ _ (fun o => (hP o 0 _).2),
    modifyObject_field P _ _ _ _ (fun o => (hP o _ 0).1)]

theorem farSeen_field {α : Type} (P : SpaceObject → α) (K : Consts) (d : Int)
    (objs : Objs) (a b i : Nat)
    (hP : ∀ (o : SpaceObject) (c t : Nat),
      P { o with seenByPlayerFlags := c } = P o ∧ P { o with runTimeFlags := t } = P o) :
    P (farSeen K d objs a b i) = P (objs i) := by
  unfold farSeen
  dsimp only
  split
  · split
    · split
      · rw [modifyObject_field P _ _ _ _ (fun o => (hP o 0 _).2),
          modifyObject_field P _ _ _ _ (fun o => (hP o 0 _).2),
          modifyObject_field P _ _ _ _ (fun o => (hP o _ 0).1),
          modifyObject_field P _ _ _ _ (fun o => (hP o _ 0).1)]
      · rw [modifyObject_field P _ _ _ _ (fun o => (hP o 0 _).2),
          modifyObject_field P _ _ _ _ (fun o => (hP o _ 0).1),
          modifyObject_field P _ _ _ _ (fun o => (hP o _ 0).1)]
    · split
      · rw [modifyObject_field P _ _ _ _ (fun o => (hP o 0 _).2),
          modifyObject_field P _ _ _ _ (fun o => (hP o _ 0).1),
          modifyObject_field P _ _ _ _ (fun o => (hP o _ 0).1)]
      · rw [modifyObject_field P _ _ _ _ (fun o => (hP o _ 0).1),
          modifyObject_field P _ _ _ _ (fun o => (hP o _ 0).1)]
  · rfl

/-- The visibility flags after the update of motion.cpp:929-940, for two different
objects within range. -/
theorem farSeen_seen (K : Consts) (d : Int) (objs : Objs) (a b : Nat) (hab : a ≠ b)
    (hd : d < K.kMaximumRelevantDistanceSquared) :
    (farSeen K d objs a b a).seenByPlayerFlags
      = (objs a).seenByPlayerFlags ||| (objs b).myPlayerFlag ∧
    (farSeen K d objs a b b).seenByPlayerFlags
      = (objs b).seenByPlayerFlags ||| (objs a).myPlayerFlag ∧
    ∀ i, i ≠ a → i ≠ b →
      (farSeen K d objs a b i).seenByPlayerFlags = (objs i).seenByPlayerFlags := by
  have hba : b ≠ a := fun h => hab h.symm
  have key : ∀ i, (farSeen K d objs a b i).seenByPlayerFlags
      = (modifyObject
          (modifyObject objs a fun A =>
            { A with seenByPlayerFlags := A.seenByPlayerFlags ||| (objs b).myPlayerFlag })
          b (fun B =>
            { B with seenByPlayerFlags := B.seenByPlayerFlags
                ||| ((modifyObject objs a fun A =>
                  { A with seenByPlayerFlags := A.seenByPlayerFlags ||| (objs b).myPlayerFlag })
                    a).myPlayerFlag }) i).seenByPlayerFlags := by
    intro i
    unfold farSeen
    dsimp only
    rw [if_pos hd]
    split
    · split
      · rw [modifyObject_field (fun o => o.seenByPlayerFlags) _ _ _
            (fun A => { A with runTimeFlags := A.runTimeFlags ||| K.kIsHidden }) (fun o => rfl),
          modifyObject_field (fun o => o.seenByPlayerFlags) _ _ _
            (fun A => { A with runTimeFlags := A.runTimeFlags ||| K.kIsHidden }) (fun o => rfl)]
      · rw [modifyObject_field (fun o => o.seenByPlayerFlags) _ _ _
            (fun A => { A with runTimeFlags := A.runTimeFlags ||| K.kIsHidden }) (fun o => rfl)]
    · split
      · rw [modifyObject_field (fun o => o.seenByPlayerFlags) _ _ _
            (fun A => { A with runTimeFlags := A.runTimeFlags ||| K.kIsHidden }) (fun o => rfl)]
      · rfl
  refine ⟨?_, ?_, ?_⟩
  · rw [key, modifyObject_other _ _ _ _ hab, modifyObject_same]
  · rw [key, modifyObject_same, modifyObject_other _ _ _ _ hba, modifyObject_same]
  · intro i hia hib
    rw [key, modifyObject_other _ _ _ _ hib, modifyObject_other _ _ _ _ hia]

theorem farSeen_far (K : Consts) (d : Int) (objs : Objs) (a b : Nat)
    (hd : ¬ d < K.kMaximumRelevantDistanceSquared) : farSeen K d objs a b = objs := by
  unfold farSeen
  rw [if_neg hd]

/-- The table after the pair body of the far pass for a pair of different owners whose
objects see each other (motion.cpp:911-958). -/
theorem farPair_visible (K : Consts) (E : PassEnv) (g : Grid) (a k : Nat) (superx supery : Int)
    (s : PassState) (b : Nat)
    (hown : (s.objs b).owner ≠ (s.objs a).owner)
    (hgrid : (g.distanceGrid b).h = superx ∧ (g.distanceGrid b).v = supery)
    (hsee : canSee K (s.objs b) = true ∧ canSee K (s.objs a) = true) :
    (farPair K E g a k superx supery s b).objs
      = farStrengthFoe
          (farClosest K E (pairDistance K (s.objs a) (s.objs b))
            (farClosest K E (pairDistance K (s.objs a) (s.objs b))
              (farSeen K (pairDistance K (s.objs a) (s.objs b)) s.objs a b) a b) b a) a b := by
  unfold farPair
  rw [if_pos ⟨hown, hgrid.1, hgrid.2, hsee.1, hsee.2⟩]

/-- C20: for every pair `(A, B)` that the far pass processes as candidates of different
owners that see each other, `B.myPlayerFlag` is OR-ed into `A.seenByPlayerFlags` and
`A.myPlayerFlag` into `B.seenByPlayerFlags` when the computed distance is below
`kMaximumRelevantDistanceSquared`, and when it is not, neither flag word changes; in
both cases no bit of any object's `seenByPlayerFlags` is cleared. -/
theorem C20_mutual_visibility (K : Consts) (E : PassEnv) (g : Grid) (a k : Nat)
    (superx supery : Int) (s : PassState) (b : Nat)
    (hown : (s.objs b).owner ≠ (s.objs a).owner)
    (hgrid : (g.distanceGrid b).h = superx ∧ (g.distanceGrid b).v = supery)
    (hsee : canSee K (s.objs b) = true ∧ canSee K (s.objs a) = true) :
    (pairDistance K (s.objs a) (s.objs b) < K.kMaximumRelevantDistanceSquared →
      ((farPair K E g a k superx supery s b).objs a).seenByPlayerFlags
        = (s.objs a).seenByPlayerFlags ||| (s.objs b).myPlayerFlag ∧
      ((farPair K E g a k superx supery s b).objs b).seenByPlayerFlags
        = (s.objs b).seenByPlayerFlags ||| (s.objs a).myPlayerFlag) ∧
    (¬ pairDistance K (s.objs a) (s.objs b) < K.kMaximumRelevantDistanceSquared →
      ((farPair K E g a k superx supery s b).objs a).seenByPlayerFlags
        = (s.objs a).seenByPlayerFlags ∧
      ((farPair K E g a k superx supery s b).objs b).seenByPlayerFlags
        = (s.objs b).seenByPlayerFlags) ∧
    (∀ i, (s.objs i).seenByPlayerFlags
        &&& ((farPair K E g a k superx supery s b).objs i).seenByPlayerFlags
      = (s.objs i).seenByPlayerFlags) := by
  have hab : a ≠ b := by
    intro h; apply hown; rw [h]
  have hobjs := farPair_visible K E g a k superx supery s b hown hgrid hsee
  have hseen : ∀ i, ((farPair K E g a k superx supery s b).objs i).seenByPlayerFlags
      = (farSeen K (pairDistance K (s.objs a) (s.objs b)) s.objs a b i).seenByPlayerFlags := by
    intro i
    rw [hobjs,
      farStrengthFoe_field (fun o => o.seenByPlayerFlags) _ _ _ _ (fun _ _ _ => ⟨rfl, rfl⟩),
      farClosest_field (fun o => o.seenByPlayerFlags) _ _ _ _ _ _ _ (fun _ _ _ => rfl),
      farClosest_field (fun o => o.seenByPlayerFlags) _ _ _ _ _ _ _ (fun _ _ _ => rfl)]
  refine ⟨fun hd => ?_, fun hd => ?_, fun i => ?_⟩
  · obtain ⟨h1, h2, _⟩ := farSeen_seen K _ s.objs a b hab hd
    rw [hseen, hseen, h1, h2]
    exact ⟨rfl, rfl⟩
  · rw [hseen, hseen, farSeen_far K _ s.objs a b hd]
    exact ⟨rfl, rfl⟩
  · rw [hseen]
    by_cases hd : pairDistance K (s.objs a) (s.objs b) < K.kMaximumRelevantDistanceSquared
    · obtain ⟨h1, h2, h3⟩ := farSeen_seen K _ s.objs a b hab hd
      by_cases hia : i = a
      · subst hia; rw [h1, and_or_self_left]
      · by_cases hib : i = b
        · subst hib; rw [h2, and_or_self_left]
        · rw [h3 i hia hib, Nat.and_self]
    · rw [farSeen_far K _ s.objs a b hd, Nat.and_self]

/-- Witness for C20 on the two sample objects three units apart. -/
theorem C20_mutual_visibility_witness :
    ((farPair demoConsts demoEnv demoFarGrid 0 0 0 0 ⟨demoStrengthObjs, [], false⟩ 1).objs
        0).seenByPlayerFlags
      = (demoStrengthObjs 0).seenByPlayerFlags ||| (demoStrengthObjs 1).myPlayerFlag ∧
    ((farPair demoConsts demoEnv demoFarGrid 0 0 0 0 ⟨demoStrengthObjs, [], false⟩ 1).objs
        1).seenByPlayerFlags
      = (demoStrengthObjs 1).seenByPlayerFlags ||| (demoStrengthObjs 0).myPlayerFlag :=
  (C20_mutual_visibility demoConsts demoEnv demoFarGrid 0 0 0 0 ⟨demoStrengthObjs, [], false⟩ 1
    (by decide) (by decide) (by decide)).1 (by decide)

/-! ## Local strength in the far pass -/

theorem farStrengthFoe_other (objs : Objs) (a b i : Nat) (h : i ≠ b) :
    farStrengthFoe objs a b i = objs i := by
  unfold farStrengthFoe
  rw [modifyObject_other _ _ _ _ h, modifyObject_other _ _ _ _ h]

theorem farStrengthFriend_other (objs : Objs) (a b i : Nat) (h : i ≠ b) :
    farStrengthFriend objs a b i = objs i := by
  unfold farStrengthFriend
  rw [modifyObject_other _ _ _ _ h, modifyObject_other _ _ _ _ h]

theorem farStrengthFoe_target (objs : Objs) (a b : Nat) (hab : a ≠ b) :
    (farStrengthFoe objs a b b).localFoeStrength
      = (objs b).localFoeStrength + (objs a).localFriendStrength ∧
    (farStrengthFoe objs a b b).localFriendStrength
      = (objs b).localFriendStrength + (objs a).localFoeStrength := by
  unfold farStrengthFoe
  rw [modifyObject_same, modifyObject_same, modifyObject_other _ _ _ _ hab]
  exact ⟨rfl, rfl⟩

theorem farStrengthFriend_target (objs : Objs) (a b : Nat) (hab : a ≠ b) :
    (farStrengthFriend objs a b b).localFoeStrength
      = (objs b).localFoeStrength + (objs a).localFoeStrength ∧
    (farStrengthFriend objs a b b).localFriendStrength
      = (objs b).localFriendStrength + (objs a).localFriendStrength := by
  unfold farStrengthFriend
  rw [modifyObject_same, modifyObject_same, modifyObject_other _ _ _ _ hab]
  exact ⟨rfl, rfl⟩

/-- The strengths are not touched by the visibility and nearest-target updates. -/
theorem farVisible_strength (K : Consts) (E : PassEnv) (d : Int) (objs : Objs) (a b i : Nat) :
    (farClosest K E d (farClosest K E d (farSeen K d objs a b) a b) b a i).localFoeStrength
      = (objs i).localFoeStrength ∧
    (farClosest K E d (farClosest K E d (farSeen K d objs a b) a b) b a i).localFriendStrength
      = (objs i).localFriendStrength := by
  constructor
  · rw [farClosest_field (fun o => o.localFoeStrength) _ _ _ _ _ _ _ (fun _ _ _ => rfl),
      farClosest_field (fun o => o.localFoeStrength) _ _ _ _ _ _ _ (fun _ _ _ => rfl),
      farSeen_field (fun o => o.localFoeStrength) _ _ _ _ _ _ (fun _ _ _ => ⟨rfl, rfl⟩)]
  · rw [farClosest_field (fun o => o.localFriendStrength) _ _ _ _ _ _ _ (fun _ _ _ => rfl),
      farClosest_field (fun o => o.localFriendStrength) _ _ _ _ _ _ _ (fun _ _ _ => rfl),
      farSeen_field (fun o => o.localFriendStrength) _ _ _ _ _ _ (fun _ _ _ => ⟨rfl, rfl⟩)]

/-- C21, as stated, fails: the two sample objects of different owners, with friend
totals 5 and 7 and foe totals 0, are processed as the pair `(0, 1)`; the friend total
of the first is added to the foe total of the second, and the foe total of the first
stays 0: the friend total of the second is not added to it. -/
theorem C21_counterexample :
    (demoStrengthObjs 0).localFriendStrength = 5 ∧
    (demoStrengthObjs 1).localFriendStrength = 7 ∧
    ((farPair demoConsts demoEnv demoFarGrid 0 0 0 0 ⟨demoStrengthObjs, [], false⟩ 1).objs
        1).localFoeStrength = 5 ∧
    ((farPair demoConsts demoEnv demoFarGrid 0 0 0 0 ⟨demoStrengthObjs, [], false⟩ 1).objs
        0).localFoeStrength = 0 := by
  decide

/-- C21, amended: local strength accumulation in the far pass goes one way. When a pair
`(A, B)` is processed (`A` the object of the outer loop, `B` the candidate met for
it), only the totals of `B` change: for different owners (objects that see each other,
or any objects under the entry 0) the friend total of `A` is added to the foe total of
`B` and the foe total of `A` to the friend total of `B`; for objects of one owner
under the entry 0 the foe total of `A` is added to the foe total of `B` and the friend
total of `A` to the friend total of `B`. The totals of `A` are left as they were. -/
theorem C21_strength_one_way (K : Consts) (E : PassEnv) (g : Grid) (a k : Nat)
    (superx supery : Int) (s : PassState) (b : Nat) (hab : a ≠ b) :
    (((farPair K E g a k superx supery s b).objs a).localFriendStrength
        = (s.objs a).localFriendStrength ∧
      ((farPair K E g a k superx supery s b).objs a).localFoeStrength
        = (s.objs a).localFoeStrength) ∧
    ((g.distanceGrid b).h = superx ∧ (g.distanceGrid b).v = supery →
      (s.objs b).owner ≠ (s.objs a).owner →
      (canSee K (s.objs b) = true ∧ canSee K (s.objs a) = true) ∨ k = 0 →
      ((farPair K E g a k superx supery s b).objs b).localFoeStrength
        = (s.objs b).localFoeStrength + (s.objs a).localFriendStrength ∧
      ((farPair K E g a k superx supery s b).objs b).localFriendStrength
        = (s.objs b).localFriendStrength + (s.objs a).localFoeStrength) ∧
    ((g.distanceGrid b).h = superx ∧ (g.distanceGrid b).v = supery →
      (s.objs b).owner = (s.objs a).owner → k = 0 →
      ((farPair K E g a k superx supery s b).objs b).localFoeStrength
        = (s.objs b).localFoeStrength + (s.objs a).localFoeStrength ∧
      ((farPair K E g a k superx supery s b).objs b).localFriendStrength
        = (s.objs b).localFriendStrength + (s.objs a).localFriendStrength) := by
  have hs := farVisible_strength K E (pairDistance K (s.objs a) (s.objs b)) s.objs a b
  refine ⟨?_, ?_, ?_⟩
  · unfold farPair
    split
    · dsimp only
      rw [farStrengthFoe_other _ _ _ _ hab]
      exact ⟨(hs a).2, (hs a).1⟩
    · split
      · split
        · dsimp only; rw [farStrengthFoe_other _ _ _ _ hab]; exact ⟨rfl, rfl⟩
        · dsimp only; rw [farStrengthFriend_other _ _ _ _ hab]; exact ⟨rfl, rfl⟩
      · exact ⟨rfl, rfl⟩
  · intro hgrid hown hk
    unfold farPair
    split
    · dsimp only
      obtain ⟨t1, t2⟩ := farStrengthFoe_target
        (farClosest K E (pairDistance K (s.objs a) (s.objs b))
          (farClosest K E (pairDistance K (s.objs a) (s.objs b))
            (farSeen K (pairDistance K (s.objs a) (s.objs b)) s.objs a b) a b) b a) a b hab
      rw [t1, t2, (hs a).1, (hs a).2, (hs b).1, (hs b).2]
      exact ⟨rfl, rfl⟩
    · rename_i hnot
      have hk0 : k = 0 := by
        rcases hk with hsee | hk0
        · exact absurd ⟨hown, hgrid.1, hgrid.2, hsee.1, hsee.2⟩ hnot
        · exact hk0
      rw [if_pos ⟨hgrid.1, hgrid.2, hk0⟩, if_pos (fun h => hown h.symm)]
      exact farStrengthFoe_target s.objs a b hab
  · intro hgrid hown hk0
    unfold farPair
    rw [if_neg (fun h => h.1 hown), if_pos ⟨hgrid.1, hgrid.2, hk0⟩,
      if_neg (fun h => h hown.symm)]
    exact farStrengthFriend_target s.objs a b hab

/-- Witness for C21 on the two sample objects: the friend total 5 of the first is added
to the foe total of the second. -/
theorem C21_strength_one_way_witness :
    ((farPair demoConsts demoEnv demoFarGrid 0 0 0 0 ⟨demoStrengthObjs, [], false⟩ 1).objs
        0).localFoeStrength = (demoStrengthObjs 0).localFoeStrength ∧
    ((farPair demoConsts demoEnv demoFarGrid 0 0 0 0 ⟨demoStrengthObjs, [], false⟩ 1).objs
        1).localFoeStrength
      = (demoStrengthObjs 1).localFoeStrength + (demoStrengthObjs 0).localFriendStrength :=
  ⟨(C21_strength_one_way demoConsts demoEnv demoFarGrid 0 0 0 0
      ⟨demoStrengthObjs, [], false⟩ 1 (by decide)).1.2,
   ((C21_strength_one_way demoConsts demoEnv demoFarGrid 0 0 0 0
      ⟨demoStrengthObjs, [], false⟩ 1 (by decide)).2.1 (by decide) (by decide)
      (Or.inl (by decide))).1⟩

/-! ## Nearest-target selection in the far pass -/

theorem closestKept_refl (o : SpaceObject) : closestKept o o := ⟨le_refl _, fun _ => rfl⟩

theorem closestKept_trans (o o1 o2 : SpaceObject) (h1 : closestKept o o1)
    (h2 : closestKept o1 o2) : closestKept o o2 := by
  obtain ⟨a1, b1⟩ := h1
  obtain ⟨a2, b2⟩ := h2
  refine ⟨le_trans a2 a1, fun h => ?_⟩
  have e1 : o1.closestDistance = o.closestDistance := le_antisymm a1 (by omega)
  have e2 : o2.closestDistance = o1.closestDistance := by omega
  rw [b2 e2, b1 e1]

theorem closestKept_of_fields (o o1 : SpaceObject)
    (h1 : o1.closestDistance = o.closestDistance) (h2 : o1.closestObject = o.closestObject) :
    closestKept o o1 := ⟨le_of_eq h1, fun _ => h2⟩

/-- A fold keeps the nearest-target records when each of its steps does. -/
theorem foldl_closestKept {σ α : Type} (proj : σ → Objs) (f : σ → α → σ)
    (h : ∀ s a i, closestKept (proj s i) (proj (f s a) i)) :
    ∀ (l : List α) (s : σ) (i : Nat), closestKept (proj s i) (proj (l.foldl f s) i) := by
  intro l
  induction l with
  | nil => intro s i; exact closestKept_refl _
  | cons a rest ih =>
    intro s i
    rw [List.foldl_cons]
    exact closestKept_trans _ _ _ (h s a i) (ih (f s a) i)

theorem farClosest_kept (K : Consts) (E : PassEnv) (d : Int) (objs : Objs) (x y i : Nat) :
    closestKept (objs i) (farClosest K E d objs x y i) := by
  unfold farClosest
  split
  · split
    · rename_i hlt
      by_cases hi : i = x
      · subst hi
        rw [modifyObject_same]
        exact ⟨le_of_lt hlt.1, fun h => absurd h (ne_of_lt hlt.1)⟩
      · rw [modifyObject_other _ _ _ _ hi]
        exact closestKept_refl _
    · exact closestKept_refl _
  · exact closestKept_refl _

/-- The record of `x` changes only for a candidate strictly nearer than the record. -/
theorem farClosest_replaced (K : Consts) (E : PassEnv) (d : Int) (objs : Objs) (x y : Nat)
    (h : (farClosest K E d objs x y x).closestObject ≠ (objs x).closestObject) :
    d < (objs x).closestDistance ∧ (farClosest K E d objs x y x).closestDistance = d ∧
    (farClosest K E d objs x y x).closestObject = some y := by
  unfold farClosest at h ⊢
  split
  · split
    · rename_i hlt
      rw [modifyObject_same]
      exact ⟨hlt.1, rfl, rfl⟩
    · rename_i h1 h2
      rw [if_pos h1, if_neg h2] at h
      exact absurd rfl h
  · rename_i h1
    rw [if_neg h1] at h
    exact absurd rfl h

theorem farSeen_kept (K : Consts) (d : Int) (objs : Objs) (a b i : Nat) :
    closestKept (objs i) (farSeen K d objs a b i) :=
  closestKept_of_fields _ _
    (farSeen_field (fun o => o.closestDistance) _ _ _ _ _ _ (fun _ _ _ => ⟨rfl, rfl⟩))
    (farSeen_field (fun o => o.closestObject) _ _ _ _ _ _ (fun _ _ _ => ⟨rfl, rfl⟩))

theorem farStrengthFoe_kept (objs : Objs) (a b i : Nat) :
    closestKept (objs i) (farStrengthFoe objs a b i) :=
  closestKept_of_fields _ _
    (farStrengthFoe_field (fun o => o.closestDistance) _ _ _ _ (fun _ _ _ => ⟨rfl, rfl⟩))
    (farStrengthFoe_field (fun o => o.closestObject) _ _ _ _ (fun _ _ _ => ⟨rfl, rfl⟩))

theorem farStrengthFriend_kept (objs : Objs) (a b i : Nat) :
    closestKept (objs i) (farStrengthFriend objs a b i) :=
  closestKept_of_fields _ _
    (farStrengthFriend_field (fun o => o.closestDistance) _ _ _ _ (fun _ _ _ => ⟨rfl, rfl⟩))
    (farStrengthFriend_field (fun o => o.closestObject) _ _ _ _ (fun _ _ _ => ⟨rfl, rfl⟩))

theorem farPair_kept (K : Consts) (E : PassEnv) (g : Grid) (a k : Nat) (superx supery : Int)
    (s : PassState) (b i : Nat) :
    closestKept (s.objs i) ((farPair K E g a k superx supery s b).objs i) := by
  unfold farPair
  split
  · dsimp only
    exact closestKept_trans _ _ _ (farSeen_kept K _ s.objs a b i)
      (closestKept_trans _ _ _ (farClosest_kept K E _ _ a b i)
        (closestKept_trans _ _ _ (farClosest_kept K E _ _ b a i)
          (farStrengthFoe_kept _ a b i)))
  · split
    · split
      · exact farStrengthFoe_kept _ a b i
      · exact farStrengthFriend_kept _ a b i
    · exact closestKept_refl _

theorem farUnit_kept (K : Consts) (E : PassEnv) (g : Grid) (c : Int) (a : Nat)
    (st : PassState × Int) (k i : Nat) :
    closestKept (st.1.objs i) ((farUnit K E g c a st k).1.objs i) := by
  unfold farUnit
  split
  · dsimp only
    split
    · exact closestKept_refl _
    · exact foldl_closestKept (fun s : PassState => s.objs) _
        (fun s b i => farPair_kept K E g a k _ _ s b i) _ _ _
  · dsimp only
    split
    · exact closestKept_refl _
    · exact foldl_closestKept (fun s : PassState => s.objs) _
        (fun s b i => farPair_kept K E g a k _ _ s b i) _ _ _

theorem farObjectStep_kept (K : Consts) (E : PassEnv) (g : Grid) (c : Int) (s : PassState)
    (a i : Nat) : closestKept (s.objs i) ((farObjectStep K E g c s a).objs i) := by
  unfold farObjectStep
  exact foldl_closestKept (fun st : PassState × Int => st.1.objs) _
    (fun st k i => farUnit_kept K E g c a st k i) _ (s, c) i

theorem farCell_kept (K : Consts) (E : PassEnv) (g : Grid) (s : PassState) (c i : Nat) :
    closestKept (s.objs i) ((farCell K E g s c).objs i) := by
  unfold farCell
  exact foldl_closestKept (fun s : PassState => s.objs) _
    (fun s a i => farObjectStep_kept K E g c s a i) _ s i

/-- The nearest-target record only gets nearer. The record
`closestObject`/`closestDistance` of an object is replaced only by a candidate whose
distance is strictly smaller than the current `closestDistance`; hence, over any
stretch of the far pass (any list of cells from any state, and the whole pass),
`closestDistance` never increases, and an object whose `closestDistance` is the same
at the end as at the start has the same `closestObject`. -/
theorem farPass_closest_kept (K : Consts) (E : PassEnv) (g : Grid) :
    (∀ (d : Int) (objs : Objs) (x y : Nat),
      (farClosest K E d objs x y x).closestObject ≠ (objs x).closestObject →
        d < (objs x).closestDistance ∧ (farClosest K E d objs x y x).closestDistance = d) ∧
    (∀ (cells : List Nat) (s : PassState) (i : Nat),
      ((cells.foldl (farCell K E g) s).objs i).closestDistance ≤ (s.objs i).closestDistance ∧
      (((cells.foldl (farCell K E g) s).objs i).closestDistance = (s.objs i).closestDistance →
        ((cells.foldl (farCell K E g) s).objs i).closestObject = (s.objs i).closestObject)) ∧
    (∀ (objs : Objs) (i : Nat),
      ((farPass K E g objs).objs i).closestDistance ≤ (objs i).closestDistance ∧
      (((farPass K E g objs).objs i).closestDistance = (objs i).closestDistance →
        ((farPass K E g objs).objs i).closestObject = (objs i).closestObject)) := by
  have hfold : ∀ (cells : List Nat) (s : PassState) (i : Nat),
      closestKept (s.objs i) ((cells.foldl (farCell K E g) s).objs i) :=
    foldl_closestKept (fun s : PassState => s.objs) _ (fun s c i => farCell_kept K E g s c i)
  refine ⟨fun d objs x y h => ?_, fun cells s i => hfold cells s i, fun objs i => ?_⟩
  · obtain ⟨h1, h2, _⟩ := farClosest_replaced K E d objs x y h
    exact ⟨h1, h2⟩
  · exact hfold _ ⟨objs, [], false⟩ i

/-! ## `CorrectPhysicalSpace` -/

theorem massTerm_ne_none (mass force totalMass : Int) : massTerm mass force totalMass ≠ none := by
  unfold massTerm
  split
  · simp
  · rename_i h
    unfold mDivideFixed
    rw [if_neg h]
    simp

theorem massTerm_eq (mass force totalMass : Int) :
    massTerm mass force totalMass
      = some (if totalMass = 0 then -1
          else Int.tdiv (mMultiplyFixed mass force * 256) totalMass) := by
  unfold massTerm
  split
  · rfl
  · rename_i h
    unfold mDivideFixed
    rw [if_neg h]

/-- The velocities `CorrectPhysicalSpace` assigns, written out. -/
theorem assignVelocities_eq (X : MathExt) (a b : SpaceObject) :
    assignVelocities X a b
      = some
        ({ a with velocity :=
            (pushVelocity X a
              (if a.mass + b.mass = 0 then -1
                else Int.tdiv (mMultiplyFixed a.mass (separationForce X a b) * 256)
                  (a.mass + b.mass))
              (separationAngle X a b)) },
         { b with velocity :=
            (pushVelocity X b
              (if a.mass + b.mass = 0 then -1
                else Int.tdiv (mMultiplyFixed b.mass (separationForce X a b) * 256)
                  (a.mass + b.mass))
              (mAddAngle (separationAngle X a b) 180)) }) := by
  unfold assignVelocities
  simp only [massTerm_eq]

theorem separationLoop_ne_divideByZero (oa ob : BoxOffsets) (fuel : Nat) :
    ∀ a b : SpaceObject, separationLoop oa ob fuel a b ≠ SepOutcome.divideByZero := by
  induction fuel with
  | zero => intro a b; unfold separationLoop; split <;> simp
  | succ n ih =>
    intro a b
    unfold separationLoop
    split
    · exact ih _ _
    · simp

theorem CorrectPhysicalSpace_of_assign (X : MathExt) (fuel : Nat) (a b a1 b1 : SpaceObject)
    (h : assignVelocities X a b = some (a1, b1)) :
    CorrectPhysicalSpace X fuel a b
      = if a1.velocity.h ≠ 0 ∨ a1.velocity.v ≠ 0 ∨ b1.velocity.h ≠ 0 ∨ b1.velocity.v ≠ 0 then
          separationLoop (boxOffsets a1) (boxOffsets b1) fuel a1 b1
        else SepOutcome.done a1 b1 := by
  unfold CorrectPhysicalSpace
  rw [h]

/-- C16: in `CorrectPhysicalSpace`, when the two base masses sum to zero no division is
performed and the mass-weighted speed term of each object is the sentinel `-1` (before
half its own `maxVelocity` is added); when the sum is not zero the term is
`mass * force` (a fixed-point product) divided by the total mass (a fixed-point
quotient). The divisor of `mDivideFixed` is never zero: neither the velocity
assignment nor the whole function ends in a division by zero. -/
theorem C16_no_division_by_zero (X : MathExt) (fuel : Nat) (a b : SpaceObject) :
    (∀ mass force : Int, massTerm mass force 0 = some (-1)) ∧
    (∀ mass force totalMass : Int, totalMass ≠ 0 →
      massTerm mass force totalMass
        = some (Int.tdiv (mMultiplyFixed mass force * 256) totalMass) ∧
      mDivideFixed (mMultiplyFixed mass force) totalMass
        = some (Int.tdiv (mMultiplyFixed mass force * 256) totalMass)) ∧
    assignVelocities X a b ≠ none ∧
    CorrectPhysicalSpace X fuel a b ≠ SepOutcome.divideByZero := by
  refine ⟨fun mass force => rfl, fun mass force totalMass h => ?_, ?_, ?_⟩
  · rw [massTerm_eq, if_neg h]
    unfold mDivideFixed
    rw [if_neg h]
    exact ⟨rfl, rfl⟩
  · rw [assignVelocities_eq]; simp
  · obtain ⟨p, hp⟩ : ∃ p, assignVelocities X a b = some p := ⟨_, assignVelocities_eq X a b⟩
    rw [CorrectPhysicalSpace_of_assign X fuel a b p.1 p.2 hp]
    split
    · exact separationLoop_ne_divideByZero _ _ _ _ _
    · simp

/-- C13, as stated, fails: the two sample objects overlap and are at rest on entry, with
mass 1 and maximum velocity 2.0; the resolver assigns them the velocities `(0, 1.0)`
and `(0, -1.0)` (half the maximum velocity along the bearing), runs its loop three
times and returns with both locations changed. -/
theorem C13_counterexample :
    boundsOverlap demoRestA.absoluteBounds demoRestB.absoluteBounds = true ∧
    demoRestA.velocity = ⟨0, 0⟩ ∧ demoRestB.velocity = ⟨0, 0⟩ ∧
    demoRestA.location = ⟨1000, 1000⟩ ∧ demoRestB.location = ⟨1000, 1005⟩ ∧
    (CorrectPhysicalSpace demoRot 5 demoRestA demoRestB).locations
      = some (⟨1000, 997⟩, ⟨1000, 1008⟩) := by
  decide

/-- C13, amended: when the velocities that `CorrectPhysicalSpace` assigns to the two
objects are both `(0, 0)`, it performs no iteration of its separation loop: it returns,
whatever the iteration bound, with the two objects as assigned, and their locations,
`motionFraction`s and `absoluteBounds` are those on entry. -/
theorem C13_zero_velocity_no_iteration (X : MathExt) (fuel : Nat) (a b a1 b1 : SpaceObject)
    (h : assignVelocities X a b = some (a1, b1))
    (ha : a1.velocity = ⟨0, 0⟩) (hb : b1.velocity = ⟨0, 0⟩) :
    CorrectPhysicalSpace X fuel a b = SepOutcome.done a1 b1 ∧
    a1.location = a.location ∧ a1.motionFraction = a.motionFraction ∧
    a1.absoluteBounds = a.absoluteBounds ∧
    b1.location = b.location ∧ b1.motionFraction = b.motionFraction ∧
    b1.absoluteBounds = b.absoluteBounds := by
  have e := assignVelocities_eq X a b
  rw [h] at e
  have e1 := congrArg Prod.fst (Option.some.inj e)
  have e2 := congrArg Prod.snd (Option.some.inj e)
  dsimp only at e1 e2
  refine ⟨?_, ?_, ?_, ?_, ?_, ?_, ?_⟩
  · rw [CorrectPhysicalSpace_of_assign X fuel a b a1 b1 h, ha, hb]
    simp
  all_goals first | (rw [e1]) | (rw [e2])

/-- Witness for C13: the two sample objects that cannot move are assigned the velocity
zero and are returned as they are. -/
theorem C13_zero_velocity_no_iteration_witness :
    CorrectPhysicalSpace demoRot 0 demoFixedA demoFixedB
      = SepOutcome.done demoFixedA demoFixedB :=
  (C13_zero_velocity_no_iteration demoRot 0 demoFixedA demoFixedB demoFixedA demoFixedB
    (by decide) (by decide) (by decide)).1

theorem boundsOverlap_self (r : Rect) (h1 : r.left ≤ r.right) (h2 : r.top ≤ r.bottom) :
    boundsOverlap r r = true := by
  unfold boundsOverlap
  simp
  omega

/-- Two objects that move together and share one box never come apart: the loop uses
up every iteration bound. -/
theorem separationLoop_stuck (off : BoxOffsets) (hw : 0 ≤ off.toLeft + off.toRight)
    (hh : 0 ≤ off.toTop + off.toBottom) (fuel : Nat) :
    ∀ a b : SpaceObject, a.location = b.location → a.motionFraction = b.motionFraction →
      a.velocity = b.velocity → a.absoluteBounds = b.absoluteBounds →
      a.absoluteBounds.left ≤ a.absoluteBounds.right →
      a.absoluteBounds.top ≤ a.absoluteBounds.bottom →
      separationLoop off off fuel a b = SepOutcome.unfinished := by
  induction fuel with
  | zero =>
    intro a b _ _ _ hb h1 h2
    unfold separationLoop
    rw [← hb, boundsOverlap_self _ h1 h2]
    rfl
  | succ n ih =>
    intro a b hl hm hv hb h1 h2
    unfold separationLoop
    rw [← hb, boundsOverlap_self _ h1 h2]
    simp only [if_true]
    have hloc : (separationMove a).location = (separationMove b).location := by
      unfold separationMove; dsimp only; rw [hl, hm, hv]
    have hmf : (separationMove a).motionFraction = (separationMove b).motionFraction := by
      unfold separationMove; dsimp only; rw [hm, hv]
    apply ih
    · exact hloc
    · exact hmf
    · exact hv
    · show (⟨_, _, _, _⟩ : Rect) = ⟨_, _, _, _⟩
      rw [hloc]
    · show (separationMove a).location.h - off.toLeft ≤ (separationMove a).location.h + off.toRight
      omega
    · show (separationMove a).location.v - off.toTop ≤ (separationMove a).location.v + off.toBottom
      omega

/-- C14 fails on the code: `CorrectPhysicalSpace` does not end on the two sample
objects of mass 0 that share one place and one box, the first with a maximum velocity
of 4 raw units and the second with none. The sentinel `-1` plus half the maximum
velocity gives the speed terms `1` and `-1`; along the bearings 0 and 180 both objects
get the velocity `(0, 1)`, which is not zero, so the loop is entered; from then on the
two objects move together, their boxes coincide at every iteration, and the loop uses
up every iteration bound. -/
theorem C14_resolver_does_not_end :
    boundsOverlap demoStuckA.absoluteBounds demoStuckB.absoluteBounds = true ∧
    ∀ fuel : Nat, CorrectPhysicalSpace demoRot fuel demoStuckA demoStuckB
      = SepOutcome.unfinished := by
  refine ⟨by decide, fun fuel => ?_⟩
  have h : assignVelocities demoRot demoStuckA demoStuckB
      = some ({ demoStuckA with velocity := ⟨0, 1⟩ }, { demoStuckB with velocity := ⟨0, 1⟩ }) := by
    decide
  rw [CorrectPhysicalSpace_of_assign demoRot fuel _ _ _ _ h, if_pos (by decide)]
  have ho : boxOffsets { demoStuckB with velocity := ⟨0, 1⟩ }
      = boxOffsets { demoStuckA with velocity := ⟨0, 1⟩ } := by decide
  rw [ho]
  exact separationLoop_stuck _ (by decide) (by decide) fuel _ _ (by decide) (by decide)
    (by decide) (by decide) (by decide) (by decide)

/-! ## The separation step and the integration step -/

@[simp] theorem turnPhase_velocity (K : Consts) (o : SpaceObject) :
    (turnPhase K o).velocity = o.velocity := by
  unfold turnPhase; split <;> rfl

@[simp] theorem turnPhase_thrust (K : Consts) (o : SpaceObject) :
    (turnPhase K o).thrust = o.thrust := by
  unfold turnPhase; split <;> rfl

theorem thrustPhase_of_no_thrust (K : Consts) (X : MathExt) (o : SpaceObject)
    (h : o.thrust = 0) : thrustPhase K X o = o := by
  unfold thrustPhase
  rw [if_neg (by simpa using h)]

/-- C15: one iteration of the separation loop of `CorrectPhysicalSpace` changes the
location and the `motionFraction` of each object by the same function of location,
`motionFraction` and velocity as the integration step of `MoveSpaceObjects`
(motion.cpp:274-289) does, and so as one sub-tick unit does for a moving object that
does not thrust: the velocity is added to the fraction, the sum is rounded by
`extractRounded`, the rounded amount is subtracted from the location and its fixed
form from the fraction. -/
theorem C15_same_step_as_integrator (K : Consts) (X : MathExt) (off : BoxOffsets)
    (o : SpaceObject) (hthrust : o.thrust = 0) (hmov : isMoving K o = true) :
    (separationMove o).location = (integratePhase o).location ∧
    (separationMove o).motionFraction = (integratePhase o).motionFraction ∧
    (separationBounds off (separationMove o)).location = (motionPhase K X o).location ∧
    (separationBounds off (separationMove o)).motionFraction
      = (motionPhase K X o).motionFraction ∧
    (separationMove o).location
      = ⟨o.location.h - extractRounded (o.motionFraction.h + o.velocity.h),
         o.location.v - extractRounded (o.motionFraction.v + o.velocity.v)⟩ ∧
    (separationMove o).motionFraction
      = ⟨o.motionFraction.h + o.velocity.h
          - mLongToFixed (extractRounded (o.motionFraction.h + o.velocity.h)),
         o.motionFraction.v + o.velocity.v
          - mLongToFixed (extractRounded (o.motionFraction.v + o.velocity.v))⟩ := by
  have hm : motionPhase K X o = integratePhase (turnPhase K o) := by
    rw [motionPhase_of_moving K X o hmov,
      thrustPhase_of_no_thrust K X _ (by rw [turnPhase_thrust]; exact hthrust)]
  refine ⟨rfl, rfl, ?_, ?_, rfl, rfl⟩
  · rw [hm]
    show (separationMove o).location = _
    unfold separationMove integratePhase
    simp [extractRounded]
  · rw [hm]
    show (separationMove o).motionFraction = _
    unfold separationMove integratePhase
    simp [extractRounded]

/-- Witness for C15 on the drifting sample object. -/
theorem C15_same_step_as_integrator_witness :
    (separationBounds ⟨5, 5, 5, 5⟩ (separationMove demoDrifter)).location
      = (motionPhase demoConsts demoExt demoDrifter).location ∧
    (separationBounds ⟨5, 5, 5, 5⟩ (separationMove demoDrifter)).motionFraction
      = (motionPhase demoConsts demoExt demoDrifter).motionFraction :=
  ⟨(C15_same_step_as_integrator demoConsts demoExt ⟨5, 5, 5, 5⟩ demoDrifter rfl
      (by decide)).2.2.1,
   (C15_same_step_as_integrator demoConsts demoExt ⟨5, 5, 5, 5⟩ demoDrifter rfl
      (by decide)).2.2.2.1⟩

/-! ## Nearest and farthest object from the player -/

theorem insertInGrid_record (K : Consts) (s : RebuildState) (a : Nat) :
    radarRecord (insertInGrid K s a) = radarRecord s := by
  unfold insertInGrid
  dsimp only
  split <;> rfl

theorem radarPhase_record (K : Consts) (R : RebuildEnv) (s : RebuildState) (a : Nat) :
    radarRecord (radarPhase K R s a) =
      match R.ship with
      | none => radarRecord s
      | some player =>
        if (s.objs player).active ≠ 0 ∧ hasAttr (s.objs a) K.kAppearOnRadar = true then
          recordObservation (radarRecord s)
            ⟨a, distanceFromShip K (s.objs player) (s.objs a),
              decide (some a ≠ R.ship
                ∧ (R.nearestFoeZoom = false ∨ (s.objs a).owner ≠ (s.objs player).owner))⟩
        else radarRecord s := by
  unfold radarPhase
  cases hship : R.ship with
  | none => rfl
  | some player =>
    dsimp only
    by_cases hact : (s.objs player).active ≠ 0
    · by_cases hattr : hasAttr (s.objs a) K.kAppearOnRadar = true
      · rw [if_pos hact, if_pos hattr, if_pos (And.intro hact hattr)]
        have ho1 : (modifyObject s.objs a (fun o =>
            { o with distanceFromPlayer := distanceFromShip K (s.objs player) (s.objs a) })
            a).owner = (s.objs a).owner :=
          modifyObject_field (fun o => o.owner) _ _ _ _ (fun _ => rfl)
        have ho2 : (modifyObject s.objs a (fun o =>
            { o with distanceFromPlayer := distanceFromShip K (s.objs player) (s.objs a) })
            player).owner = (s.objs player).owner :=
          modifyObject_field (fun o => o.owner) _ _ _ _ (fun _ => rfl)
        rw [ho1, ho2]
        generalize distanceFromShip K (s.objs player) (s.objs a) = d
        unfold recordObservation recordClosest recordFarthest radarRecord
        dsimp only
        simp only [decide_eq_true_eq]
        by_cases h1 : s.closestDist > d
        · by_cases h2 : some a ≠ some player
              ∧ (R.nearestFoeZoom = false ∨ (s.objs a).owner ≠ (s.objs player).owner)
          · rw [if_pos h1, if_pos h2, if_pos (And.intro h1 h2)]
            dsimp only
            by_cases h3 : d > s.farthestDist
            · rw [if_pos h3, if_pos h3]
            · rw [if_neg h3, if_neg h3]
          · rw [if_pos h1, if_neg h2, if_neg (not_and_of_not_right _ h2)]
            dsimp only
            by_cases h3 : d > s.farthestDist
            · rw [if_pos h3, if_pos h3]
            · rw [if_neg h3, if_neg h3]
        · rw [if_neg h1, if_neg (not_and_of_not_left _ h1)]
          dsimp only
          by_cases h3 : d > s.farthestDist
          · rw [if_pos h3, if_pos h3]
          · rw [if_neg h3, if_neg h3]
      · rw [if_pos hact, if_neg hattr, if_neg (fun h => hattr h.2)]
    · rw [if_neg hact, if_neg (fun h => hact h.1)]

/-- The radar records after the loop body of the rebuild for one object: those before,
updated by the evaluation the body has made, if it has made one. -/
theorem rebuildStep_record (K : Consts) (R : RebuildEnv) (s : RebuildState) (a : Nat) :
    radarRecord (rebuildStep K R s a)
      = (observe K R s a).foldl recordObservation (radarRecord s) := by
  unfold rebuildStep observe
  by_cases h0 : (s.objs a).active = 0
  · rw [if_pos h0, if_pos h0]
    cases R.ship with
    | none => rfl
    | some player => dsimp only; split <;> rfl
  · rw [if_neg h0, if_neg h0]
    dsimp only
    by_cases h1 : (expirePhase K R s.objs a).2 = true
    · rw [if_pos h1, if_pos h1]; rfl
    · rw [if_neg h1, if_neg h1]
      by_cases h2 : (periodicPhase R (expirePhase K R s.objs a).1 a).2 = true
      · rw [if_pos h2, if_pos h2]; rfl
      · rw [if_neg h2, if_neg h2, insertInGrid_record, radarPhase_record]
        cases R.ship with
        | none => rfl
        | some player =>
          dsimp only
          split <;> rfl

theorem radarObservations_record (K : Consts) (R : RebuildEnv) (order : List Nat) :
    ∀ s : RebuildState,
      radarRecord (order.foldl (rebuildStep K R) s)
        = (radarObservations K R s order).foldl recordObservation (radarRecord s) := by
  induction order with
  | nil => intro s; rfl
  | cons a rest ih =>
    intro s
    rw [List.foldl_cons, ih, radarObservations, List.foldl_append, rebuildStep_record]

theorem recordObservation_closest (r : RadarRecord) (x : Observation) :
    (recordObservation r x).closest = (recordClosest r x).closest ∧
    (recordObservation r x).closestDist = (recordClosest r x).closestDist := by
  unfold recordObservation recordFarthest
  split <;> exact ⟨rfl, rfl⟩

theorem recordClosest_farthest (r : RadarRecord) (x : Observation) :
    (recordClosest r x).farthest = r.farthest ∧
    (recordClosest r x).farthestDist = r.farthestDist := by
  unfold recordClosest
  split <;> exact ⟨rfl, rfl⟩

theorem recordClosest_pos (r : RadarRecord) (x : Observation)
    (h : r.closestDist > x.distance) (hc : x.candidate = true) :
    (recordClosest r x).closest = some x.object ∧
    (recordClosest r x).closestDist = x.distance := by
  unfold recordClosest
  rw [if_pos (And.intro h hc)]
  exact ⟨rfl, rfl⟩

theorem recordClosest_neg (r : RadarRecord) (x : Observation)
    (h : ¬ (r.closestDist > x.distance ∧ x.candidate = true)) : recordClosest r x = r := by
  unfold recordClosest
  rw [if_neg h]

theorem recordObservation_farthest_pos (r : RadarRecord) (x : Observation)
    (h : x.distance > r.farthestDist) :
    (recordObservation r x).farthest = some x.object ∧
    (recordObservation r x).farthestDist = x.distance := by
  unfold recordObservation recordFarthest
  rw [if_pos (by rw [(recordClosest_farthest r x).2]; exact h)]
  exact ⟨rfl, rfl⟩

theorem recordObservation_farthest_neg (r : RadarRecord) (x : Observation)
    (h : ¬ x.distance > r.farthestDist) :
    (recordObservation r x).farthest = r.farthest ∧
    (recordObservation r x).farthestDist = r.farthestDist := by
  unfold recordObservation recordFarthest
  rw [if_neg (by rw [(recordClosest_farthest r x).2]; exact h)]
  exact recordClosest_farthest r x

/-- Evaluations that are not nearer than the record leave the closest record alone. -/
theorem foldl_record_closest_kept (l : List Observation) :
    ∀ r : RadarRecord, (∀ q ∈ l, q.candidate = true → r.closestDist ≤ q.distance) →
      (l.foldl recordObservation r).closest = r.closest ∧
      (l.foldl recordObservation r).closestDist = r.closestDist := by
  induction l with
  | nil => intro r _; exact ⟨rfl, rfl⟩
  | cons x rest ih =>
    intro r h
    rw [List.foldl_cons]
    have hx : recordClosest r x = r := by
      apply recordClosest_neg
      intro hc
      have := h x (List.mem_cons_self _ _) hc.2
      omega
    obtain ⟨e1, e2⟩ := recordObservation_closest r x
    rw [hx] at e1 e2
    obtain ⟨i1, i2⟩ := ih (recordObservation r x)
      (fun q hq hc => by rw [e2]; exact h q (List.mem_cons_of_mem _ hq) hc)
    exact ⟨i1.trans e1, i2.trans e2⟩

/-- Evaluations that are not farther than the record leave the farthest record alone. -/
theorem foldl_record_farthest_kept (l : List Observation) :
    ∀ r : RadarRecord, (∀ q ∈ l, q.distance ≤ r.farthestDist) →
      (l.foldl recordObservation r).farthest = r.farthest ∧
      (l.foldl recordObservation r).farthestDist = r.farthestDist := by
  induction l with
  | nil => intro r _; exact ⟨rfl, rfl⟩
  | cons x rest ih =>
    intro r h
    rw [List.foldl_cons]
    have hx := h x (List.mem_cons_self _ _)
    obtain ⟨e1, e2⟩ := recordObservation_farthest_neg r x (by omega)
    obtain ⟨i1, i2⟩ := ih (recordObservation r x)
      (fun q hq => by rw [e2]; exact h q (List.mem_cons_of_mem _ hq))
    exact ⟨i1.trans e1, i2.trans e2⟩

/-- The first evaluation at the least distance among the candidates sets the closest
record. -/
theorem foldl_record_closest (pre : List Observation) (o : Observation) (post : List Observation)
    (hcand : o.candidate = true)
    (hpost : ∀ q ∈ post, q.candidate = true → o.distance ≤ q.distance) :
    ∀ r : RadarRecord, o.distance < r.closestDist →
      (∀ p ∈ pre, p.candidate = true → o.distance < p.distance) →
      ((pre ++ o :: post).foldl recordObservation r).closest = some o.object := by
  induction pre with
  | nil =>
    intro r hr _
    rw [List.nil_append, List.foldl_cons]
    obtain ⟨c1, c2⟩ := recordObservation_closest r o
    obtain ⟨p1, p2⟩ := recordClosest_pos r o hr hcand
    rw [p1] at c1
    rw [p2] at c2
    obtain ⟨i1, _⟩ := foldl_record_closest_kept post (recordObservation r o)
      (fun q hq hc => by rw [c2]; exact hpost q hq hc)
    exact i1.trans c1
  | cons x rest ih =>
    intro r hr hpre
    rw [List.cons_append, List.foldl_cons]
    apply ih
    · rw [(recordObservation_closest r x).2]
      by_cases hc : r.closestDist > x.distance ∧ x.candidate = true
      · rw [(recordClosest_pos r x hc.1 hc.2).2]
        exact hpre x (List.mem_cons_self _ _) hc.2
      · rw [recordClosest_neg r x hc]
        exact hr
    · exact fun p hp hc => hpre p (List.mem_cons_of_mem _ hp) hc

/-- The first evaluation at the greatest distance sets the farthest record, when that
distance is above the record at the start. -/
theorem foldl_record_farthest (pre : List Observation) (o : Observation) (post : List Observation)
    (hpost : ∀ q ∈ post, q.distance ≤ o.distance) :
    ∀ r : RadarRecord, r.farthestDist < o.distance →
      (∀ p ∈ pre, p.distance < o.distance) →
      ((pre ++ o :: post).foldl recordObservation r).farthest = some o.object := by
  induction pre with
  | nil =>
    intro r hr _
    rw [List.nil_append, List.foldl_cons]
    obtain ⟨e1, e2⟩ := recordObservation_farthest_pos r o hr
    obtain ⟨i1, _⟩ := foldl_record_farthest_kept post (recordObservation r o)
      (fun q hq => by rw [e2]; exact hpost q hq)
    exact i1.trans e1
  | cons x rest ih =>
    intro r hr hpre
    rw [List.cons_append, List.foldl_cons]
    apply ih
    · by_cases hc : x.distance > r.farthestDist
      · rw [(recordObservation_farthest_pos r x hc).2]
        exact hpre x (List.mem_cons_self _ _)
      · rw [(recordObservation_farthest_neg r x hc).2]
        exact hr
    · exact fun p hp => hpre p (List.mem_cons_of_mem _ hp)

set_option maxRecDepth 100000 in
/-- C22, as stated, fails for the farthest object: in the sample table only the
player's ship (handle 1) is in use and appears on radar, so the greatest distance, 0,
is attained by the ship; `g.farthest` keeps the handle 0 it was initialised to, because
a distance has to exceed the initial `farthestDist = 0` to be recorded. -/
theorem C22_counterexample :
    radarObservations demoConsts demoRadarEnv (rebuildStart demoRadarObjs staleGrid) [1]
      = [⟨1, 0, false⟩] ∧
    (rebuildGrid demoConsts demoRadarEnv demoRadarObjs staleGrid [1]).farthest = some 0 := by
  decide

/-- C22, amended: nearest and farthest selection is first-seen-wins. Let the
evaluations of motion.cpp:613-641 made by the rebuild loop (one for each object of the
active list that reaches them while the player's ship is active and that appears on
radar) be `pre`, then `o`, then `post`. If `o` is a candidate (not the player's ship
and, in nearest-foe zoom, not owned by the owner of the player's ship) whose distance
is below the initial `closestDist`, strictly below that of every candidate before it
and not above that of any candidate after it, then `g.closest` is the object of `o`.
If the distance of `o` is greater than zero, strictly above every distance before it
and not below any distance after it, then `g.farthest` is the object of `o`. (When no
distance is greater than zero `g.farthest` keeps the handle 0.) -/
theorem C22_first_seen_wins (K : Consts) (R : RebuildEnv) (objs : Objs) (g : Grid)
    (order : List Nat) (pre : List Observation) (o : Observation) (post : List Observation)
    (hlog : radarObservations K R (rebuildStart objs g) order = pre ++ o :: post) :
    (o.candidate = true → o.distance < 0x7fffffffffffffff →
      (∀ p ∈ pre, p.candidate = true → o.distance < p.distance) →
      (∀ q ∈ post, q.candidate = true → o.distance ≤ q.distance) →
      (rebuildGrid K R objs g order).closest = some o.object) ∧
    (0 < o.distance →
      (∀ p ∈ pre, p.distance < o.distance) →
      (∀ q ∈ post, q.distance ≤ o.distance) →
      (rebuildGrid K R objs g order).farthest = some o.object) := by
  have hrec := radarObservations_record K R order (rebuildStart objs g)
  rw [hlog] at hrec
  have hc : (rebuildGrid K R objs g order).closest
      = ((pre ++ o :: post).foldl recordObservation (radarRecord (rebuildStart objs g))).closest := by
    rw [← hrec]; rfl
  have hf : (rebuildGrid K R objs g order).farthest
      = ((pre ++ o :: post).foldl recordObservation (radarRecord (rebuildStart objs g))).farthest := by
    rw [← hrec]; rfl
  constructor
  · intro hcand hlt hpre hpost
    rw [hc]
    exact foldl_record_closest pre o post hcand hpost _ hlt hpre
  · intro hpos hpre hpost
    rw [hf]
    exact foldl_record_farthest pre o post hpost _ hpos hpre

set_option maxRecDepth 100000 in
/-- Witness for C22: of the two sample objects three units away from the player's ship,
the one met first in the active list is recorded as the closest. -/
theorem C22_first_seen_wins_witness :
    radarObservations demoConsts demoRadarEnv (rebuildStart demoRadarPair staleGrid) [0, 1, 2]
      = [] ++ ⟨0, 9, true⟩ :: [⟨1, 0, false⟩, ⟨2, 9, true⟩] ∧
    (rebuildGrid demoConsts demoRadarEnv demoRadarPair staleGrid [0, 1, 2]).closest = some 0 :=
  ⟨by decide,
   (C22_first_seen_wins demoConsts demoRadarEnv demoRadarPair staleGrid [0, 1, 2] []
      ⟨0, 9, true⟩ [⟨1, 0, false⟩, ⟨2, 9, true⟩] (by decide)).1 rfl (by decide) (by decide)
      (by decide)⟩

/-! ## Deferred destruction -/

theorem Deferred.refl (K : Consts) (o : SpaceObject) : Deferred K o o :=
  fun h => ⟨h, Or.inl rfl⟩

theorem Deferred.trans (K : Consts) (o o1 o2 : SpaceObject) (h1 : Deferred K o o1)
    (h2 : Deferred K o1 o2) : Deferred K o o2 := by
  intro hv
  obtain ⟨v1, c1⟩ := h1 hv
  obtain ⟨v2, c2⟩ := h2 v1
  refine ⟨v2, ?_⟩
  rcases c1 with c1 | ⟨c1, d1⟩
  · rcases c2 with c2 | ⟨c2, d2⟩
    · left; rw [c2, c1]
    · right; exact ⟨by rw [← c1]; exact c2, d2⟩
  · rcases c2 with c2 | ⟨c2, d2⟩
    · right; exact ⟨c1, by rw [c2]; exact d1⟩
    · right; exact ⟨c1, d2⟩

theorem Deferred.of_active (K : Consts) (o o1 : SpaceObject) (h : o1.active = o.active) :
    Deferred K o o1 := by
  intro hv
  refine ⟨?_, Or.inl h⟩
  unfold validState at hv ⊢
  rw [h]; exact hv

/-- Marking an object that is in use or already marked. -/
theorem Deferred.of_marked (K : Consts) (o o1 : SpaceObject) (h0 : o.active ≠ 0)
    (h : o1.active = K.kObjectToBeFreed) : Deferred K o o1 := by
  intro hv
  refine ⟨Or.inr (Or.inr h), ?_⟩
  rcases hv with hv | hv | hv
  · exact absurd hv h0
  · right; exact ⟨hv, h⟩
  · left; rw [h, hv]

/-- A fold relates the tables before and after it object by object when each of its
steps does, for a relation that is reflexive and transitive. -/
theorem foldl_related {σ α : Type} (Rel : SpaceObject → SpaceObject → Prop)
    (hrefl : ∀ o, Rel o o) (htrans : ∀ o o1 o2, Rel o o1 → Rel o1 o2 → Rel o o2)
    (proj : σ → Objs) (f : σ → α → σ)
    (h : ∀ s a i, Rel (proj s i) (proj (f s a) i)) :
    ∀ (l : List α) (s : σ) (i : Nat), Rel (proj s i) (proj (l.foldl f s) i) := by
  intro l
  induction l with
  | nil => intro s i; exact hrefl _
  | cons a rest ih =>
    intro s i
    rw [List.foldl_cons]
    exact htrans _ _ _ (h s a i) (ih (f s a) i)

/-! ### `MoveSpaceObjects` -/

@[simp] theorem bounceH_active (K : Consts) (o : SpaceObject) :
    (bounceH K o).active = o.active := by
  unfold bounceH; split
  · rfl
  · split <;> rfl

@[simp] theorem bounceV_active (K : Consts) (o : SpaceObject) :
    (bounceV K o).active = o.active := by
  unfold bounceV; split
  · rfl
  · split <;> rfl

theorem boundsPhase_active (K : Consts) (o : SpaceObject) :
    (boundsPhase K o).active = o.active ∨ (boundsPhase K o).active = K.kObjectToBeFreed := by
  unfold boundsPhase
  split
  · split
    · right; rfl
    · left; rfl
  · left; simp

/-! ### The rebuild -/

theorem expirePhase_deferred (K : Consts) (R : RebuildEnv)
    (hexp : ∀ t a i, Deferred K (t i) (R.execExpire t a i))
    (objs : Objs) (a : Nat) (h0 : (objs a).active ≠ 0) (i : Nat) :
    Deferred K (objs i) ((expirePhase K R objs a).1 i) := by
  unfold expirePhase
  split
  · dsimp only
    split
    · dsimp only
      refine Deferred.trans K _ _ _ ?_ (hexp _ a i)
      split
      · by_cases hi : i = a
        · subst hi
          rw [modifyObject_same]
          exact Deferred.of_marked K _ _ h0 rfl
        · rw [modifyObject_other _ _ _ _ hi, modifyObject_other _ _ _ _ hi]
          exact Deferred.refl K _
      · exact Deferred.of_active K _ _
          (modifyObject_field (fun o => o.active) _ _ _ _ (fun _ => rfl))
    · exact Deferred.of_active K _ _
        (modifyObject_field (fun o => o.active) _ _ _ _ (fun _ => rfl))
  · exact Deferred.refl K _

theorem periodicPhase_deferred (K : Consts) (R : RebuildEnv)
    (hact : ∀ t a i, Deferred K (t i) (R.execActivate t a i))
    (objs : Objs) (a i : Nat) :
    Deferred K (objs i) ((periodicPhase R objs a).1 i) := by
  unfold periodicPhase
  split
  · dsimp only
    split
    · dsimp only
      refine Deferred.trans K _ _ _ ?_
        (Deferred.of_active K _ _
          (modifyObject_field (fun o => o.active) _ _ _ _ (fun _ => rfl)))
      refine Deferred.trans K _ _ _ ?_ (hact _ a i)
      exact Deferred.of_active K _ _
        (modifyObject_field (fun o => o.active) _ _ _ _ (fun _ => rfl))
    · exact Deferred.of_active K _ _
        (modifyObject_field (fun o => o.active) _ _ _ _ (fun _ => rfl))
  · exact Deferred.refl K _

theorem insertInGrid_active (K : Consts) (s : RebuildState) (a i : Nat) :
    ((insertInGrid K s a).objs i).active = (s.objs i).active := by
  unfold insertInGrid
  dsimp only
  split
  · dsimp only
    by_cases hi : i = a
    · subst hi; rw [Function.update_same]
    · rw [Function.update_noteq hi]
  · rfl

theorem rebuildStep_deferred (K : Consts) (R : RebuildEnv)
    (hexp : ∀ t a i, Deferred K (t i) (R.execExpire t a i))
    (hact : ∀ t a i, Deferred K (t i) (R.execActivate t a i))
    (s : RebuildState) (a i : Nat) :
    Deferred K (s.objs i) ((rebuildStep K R s a).objs i) := by
  unfold rebuildStep
  split
  · cases R.ship with
    | none => exact Deferred.refl K _
    | some player =>
      dsimp only
      split
      · exact Deferred.of_active K _ _
          (modifyObject_field (fun o => o.active) _ _ _ _ (fun _ => rfl))
      · exact Deferred.refl K _
  · rename_i h0
    dsimp only
    have d1 := expirePhase_deferred K R hexp s.objs a h0 i
    have d2 := periodicPhase_deferred K R hact (expirePhase K R s.objs a).1 a i
    split
    · exact d1
    · split
      · exact Deferred.trans K _ _ _ d1 d2
      · refine Deferred.trans K _ _ _ (Deferred.trans K _ _ _ d1 d2) ?_
        apply Deferred.of_active
        rw [insertInGrid_active, radarPhase_active]

/-! ### The near pass -/

@[simp] theorem computeBounds_active (n : Nat) (o : SpaceObject) :
    (computeBounds n o).active = o.active := by
  unfold computeBounds
  split
  · split <;> rfl
  · rfl

theorem withBounds_active (E : PassEnv) (objs : Objs) (b i : Nat) :
    (withBounds E objs b i).active = (objs i).active := by
  unfold withBounds
  by_cases h : i = b
  · subst h; simp
  · simp [Function.update_noteq h]

theorem hitBoxes_deferred (K : Consts) (E : PassEnv)
    (hhit : ∀ t a b i, Deferred K (t i) (E.HitObject t a b i))
    (s1 : PassState) (a b i : Nat) :
    Deferred K (s1.objs i) ((hitBoxes K E s1 a b).objs i) := by
  have h1 : Deferred K (s1.objs i) ((hitFirst K E s1 a b).objs i) := by
    unfold hitFirst
    split
    · exact hhit _ _ _ _
    · exact Deferred.refl K _
  have h2 : Deferred K ((hitFirst K E s1 a b).objs i)
      ((hitSecond K E (hitFirst K E s1 a b) a b).objs i) := by
    unfold hitSecond
    split
    · exact hhit _ _ _ _
    · exact Deferred.refl K _
  unfold hitBoxes
  split
  · exact Deferred.trans K _ _ _ h1 h2
  · exact Deferred.refl K _

theorem hitBeam_deferred (K : Consts) (E : PassEnv)
    (hhit : ∀ t a b i, Deferred K (t i) (E.HitObject t a b i))
    (s1 : PassState) (a b i : Nat) :
    Deferred K (s1.objs i) ((hitBeam K E s1 a b).objs i) := by
  unfold hitBeam
  dsimp only
  split
  · exact Deferred.refl K _
  · split
    · exact hhit _ _ _ _
    · exact Deferred.refl K _
    · exact Deferred.refl K _

theorem separate_deferred (K : Consts) (E : PassEnv)
    (hsep : ∀ t a b i, Deferred K (t i) (E.CorrectPhysicalSpace t a b i))
    (s2 : PassState) (a b i : Nat) :
    Deferred K (s2.objs i) ((separate K E s2 a b).objs i) := by
  unfold separate
  split
  · exact Deferred.refl K _
  · split
    · exact hsep _ _ _ _
    · exact Deferred.refl K _

theorem collidePair_deferred (K : Consts) (E : PassEnv)
    (hhit : ∀ t a b i, Deferred K (t i) (E.HitObject t a b i))
    (hsep : ∀ t a b i, Deferred K (t i) (E.CorrectPhysicalSpace t a b i))
    (s : PassState) (a b i : Nat) :
    Deferred K (s.objs i) ((collidePair K E s a b).objs i) := by
  have h0 : Deferred K (s.objs i) (withBounds E s.objs b i) :=
    Deferred.of_active K _ _ (withBounds_active E s.objs b i)
  have hb := hitBoxes_deferred K E hhit
    ⟨withBounds E s.objs b, s.trace ++ [Event.examined a b], s.aborted⟩ a b i
  have hm := hitBeam_deferred K E hhit
    ⟨withBounds E s.objs b, s.trace ++ [Event.examined a b], s.aborted⟩ a b i
  have hsb := separate_deferred K E hsep
    (hitBoxes K E ⟨withBounds E s.objs b, s.trace ++ [Event.examined a b], s.aborted⟩ a b) a b i
  have hsm := separate_deferred K E hsep
    (hitBeam K E ⟨withBounds E s.objs b, s.trace ++ [Event.examined a b], s.aborted⟩ a b) a b i
  unfold collidePair
  dsimp only
  split_ifs <;> first
    | exact h0
    | exact Deferred.trans K _ _ _ h0 hb
    | exact Deferred.trans K _ _ _ h0 hm
    | exact Deferred.trans K _ _ _ h0 (Deferred.trans K _ _ _ hb hsb)
    | exact Deferred.trans K _ _ _ h0 (Deferred.trans K _ _ _ hm hsm)

theorem nearPair_deferred (K : Consts) (E : PassEnv)
    (hhit : ∀ t a b i, Deferred K (t i) (E.HitObject t a b i))
    (hsep : ∀ t a b i, Deferred K (t i) (E.CorrectPhysicalSpace t a b i))
    (g : Grid) (a : Nat) (superx supery : Int) (s : PassState) (b i : Nat) :
    Deferred K (s.objs i) ((nearPair K E g a superx supery s b).objs i) := by
  unfold nearPair
  split
  · exact Deferred.refl K _
  · split
    · exact Deferred.refl K _
    · exact collidePair_deferred K E hhit hsep s a b i

theorem nearUnit_deferred (K : Consts) (E : PassEnv)
    (hhit : ∀ t a b i, Deferred K (t i) (E.HitObject t a b i))
    (hsep : ∀ t a b i, Deferred K (t i) (E.CorrectPhysicalSpace t a b i))
    (g : Grid) (c : Int) (a : Nat) (st : PassState × Int) (k i : Nat) :
    Deferred K (st.1.objs i) ((nearUnit K E g c a st k).1.objs i) := by
  have hfold : ∀ (sx sy : Int) (l : List Nat) (s : PassState),
      Deferred K (s.objs i) ((l.foldl (nearPair K E g a sx sy) s).objs i) :=
    fun sx sy l s => foldl_related (Deferred K) (Deferred.refl K) (Deferred.trans K)
      (fun s : PassState => s.objs) _
      (fun s b i => nearPair_deferred K E hhit hsep g a sx sy s b i) l s i
  unfold nearUnit
  split
  · exact Deferred.refl K _
  · split
    · dsimp only
      split
      · exact Deferred.refl K _
      · exact hfold _ _ _ _
    · dsimp only
      split
      · exact Deferred.refl K _
      · split
        · exact Deferred.refl K _
        · exact hfold _ _ _ _

theorem nearObjectStep_deferred (K : Consts) (E : PassEnv)
    (hhit : ∀ t a b i, Deferred K (t i) (E.HitObject t a b i))
    (hsep : ∀ t a b i, Deferred K (t i) (E.CorrectPhysicalSpace t a b i))
    (g : Grid) (c : Int) (s : PassState) (a i : Nat) :
    Deferred K (s.objs i) ((nearObjectStep K E g c s a).objs i) := by
  unfold nearObjectStep
  split
  · exact Deferred.refl K _
  · dsimp only
    refine Deferred.trans K _ (Function.update s.objs a (computeBounds E.SHIFT_SCALE (s.objs a)) i)
      _ ?_ ?_
    · apply Deferred.of_active
      by_cases h : i = a
      · subst h; simp
      · simp [Function.update_noteq h]
    · exact foldl_related (Deferred K) (Deferred.refl K) (Deferred.trans K)
        (fun st : PassState × Int => st.1.objs) _
        (fun st k i => nearUnit_deferred K E hhit hsep g c a st k i) _
        (⟨Function.update s.objs a (computeBounds E.SHIFT_SCALE (s.objs a)), s.trace,
          s.aborted⟩, c) i

theorem nearPass_deferred (K : Consts) (E : PassEnv)
    (hhit : ∀ t a b i, Deferred K (t i) (E.HitObject t a b i))
    (hsep : ∀ t a b i, Deferred K (t i) (E.CorrectPhysicalSpace t a b i))
    (g : Grid) (objs : Objs) (i : Nat) :
    Deferred K (objs i) ((nearPass K E g objs).objs i) := by
  unfold nearPass
  refine foldl_related (Deferred K) (Deferred.refl K) (Deferred.trans K)
    (fun s : PassState => s.objs) _ (fun s c i => ?_) _ ⟨objs, [], false⟩ i
  unfold nearCell
  exact foldl_related (Deferred K) (Deferred.refl K) (Deferred.trans K)
    (fun s : PassState => s.objs) _
    (fun s a i => nearObjectStep_deferred K E hhit hsep g c s a i) _ s i

/-! ### The far pass -/

theorem farPair_active (K : Consts) (E : PassEnv) (g : Grid) (a k : Nat) (superx supery : Int)
    (s : PassState) (b i : Nat) :
    ((farPair K E g a k superx supery s b).objs i).active = (s.objs i).active := by
  unfold farPair
  split
  · dsimp only
    rw [farStrengthFoe_field (fun o => o.active) _ _ _ _ (fun _ _ _ => ⟨rfl, rfl⟩),
      farClosest_field (fun o => o.active) _ _ _ _ _ _ _ (fun _ _ _ => rfl),
      farClosest_field (fun o => o.active) _ _ _ _ _ _ _ (fun _ _ _ => rfl),
      farSeen_field (fun o => o.active) _ _ _ _ _ _ (fun _ _ _ => ⟨rfl, rfl⟩)]
  · split
    · split
      · exact farStrengthFoe_field (fun o => o.active) _ _ _ _ (fun _ _ _ => ⟨rfl, rfl⟩)
      · exact farStrengthFriend_field (fun o => o.active) _ _ _ _ (fun _ _ _ => ⟨rfl, rfl⟩)
    · rfl

theorem farPass_active (K : Consts) (E : PassEnv) (g : Grid) (objs : Objs) (i : Nat) :
    ((farPass K E g objs).objs i).active = (objs i).active := by
  have hrefl : ∀ o : SpaceObject, o.active = o.active := fun _ => rfl
  have htrans : ∀ o o1 o2 : SpaceObject, o1.active = o.active → o2.active = o1.active →
      o2.active = o.active := fun _ _ _ h1 h2 => h2.trans h1
  have hunit : ∀ (c : Int) (a : Nat) (st : PassState × Int) (k i : Nat),
      ((farUnit K E g c a st k).1.objs i).active = (st.1.objs i).active := by
    intro c a st k i
    have hfold : ∀ (sx sy : Int) (l : List Nat) (s : PassState),
        ((l.foldl (farPair K E g a k sx sy) s).objs i).active = (s.objs i).active :=
      fun sx sy l s => foldl_related (fun o o1 => o1.active = o.active) hrefl htrans
        (fun s : PassState => s.objs) _
        (fun s b i => farPair_active K E g a k sx sy s b i) l s i
    unfold farUnit
    split
    · dsimp only
      split
      · rfl
      · exact hfold _ _ _ _
    · dsimp only
      split
      · rfl
      · exact hfold _ _ _ _
  unfold farPass
  refine foldl_related (fun o o1 => o1.active = o.active) hrefl htrans
    (fun s : PassState => s.objs) _ (fun s c i => ?_) _ ⟨objs, [], false⟩ i
  unfold farCell
  refine foldl_related (fun o o1 => o1.active = o.active) hrefl htrans
    (fun s : PassState => s.objs) _ (fun s a i => ?_) _ s i
  unfold farObjectStep
  exact foldl_related (fun o o1 => o1.active = o.active) hrefl htrans
    (fun st : PassState × Int => st.1.objs) _ (fun st k i => hunit c a st k i) _ (s, (c : Int)) i

/-! ### The closing sweep -/

theorem sweepStep_other (K : Consts) (W : SweepEnv) (s : SweepState) (a i : Nat) (h : i ≠ a) :
    (sweepStep K W s a).objs i = s.objs i := by
  unfold sweepStep
  split
  · exact Function.update_noteq h _ _
  · split
    · exact Function.update_noteq h _ _
    · rfl

theorem sweepStep_freed (K : Consts) (W : SweepEnv) (s : SweepState) (a : Nat) :
    (sweepStep K W s a).freed
      = s.freed ++ (if (s.objs a).active = K.kObjectToBeFreed then [a] else []) := by
  unfold sweepStep
  split
  · rfl
  · split <;> simp

/-- The closing sweep calls `free()` on the objects marked when their turn comes; an
object keeps the state it had at the start until its turn. -/
theorem foldl_sweepStep_freed (K : Consts) (W : SweepEnv) (all : List Nat) :
    ∀ s : SweepState, all.Nodup →
      (all.foldl (sweepStep K W) s).freed
        = s.freed ++ all.filter (fun a => decide ((s.objs a).active = K.kObjectToBeFreed)) := by
  induction all with
  | nil => intro s _; simp
  | cons a rest ih =>
    intro s hnd
    rw [List.foldl_cons, ih _ (List.nodup_cons.mp hnd).2, sweepStep_freed, List.filter_cons]
    have hrest : rest.filter (fun x => decide (((sweepStep K W s a).objs x).active = K.kObjectToBeFreed))
        = rest.filter (fun x => decide ((s.objs x).active = K.kObjectToBeFreed)) := by
      apply List.filter_congr
      intro x hx
      have hne : x ≠ a := fun h => (List.nodup_cons.mp hnd).1 (h ▸ hx)
      rw [sweepStep_other K W s a x hne]
    rw [hrest]
    by_cases h : (s.objs a).active = K.kObjectToBeFreed
    · simp [h]
    · simp [h]



/-! ## The direction after a unit -/

theorem subtractTurns_spec (n : Nat) : ∀ d : Int, d < 360 * ((n : Int) + 1) →
    subtractTurns n d = if d < 0 then d else d % 360 := by
  induction n with
  | zero =>
    intro d h
    unfold subtractTurns
    split_ifs <;> omega
  | succ k ih =>
    intro d h
    unfold subtractTurns
    unfold ROT_POS
    by_cases c : d ≥ 360
    · rw [if_pos c, ih (d - 360) (by push_cast at h; omega)]
      split_ifs <;> omega
    · rw [if_neg c]
      split_ifs <;> omega

theorem addTurns_spec (m : Nat) : ∀ d : Int, -d ≤ 360 * (m : Int) → d < 360 →
    addTurns m d = d % 360 := by
  induction m with
  | zero =>
    intro d h1 h2
    unfold addTurns
    omega
  | succ k ih =>
    intro d h1 h2
    unfold addTurns
    unfold ROT_POS
    by_cases c : d < 0
    · rw [if_pos c, ih (d + 360) (by push_cast at h1; omega) (by omega)]
      omega
    · rw [if_neg c]
      omega

theorem wrapDirection_eq_emod (d : Int) : wrapDirection d = d % 360 := by
  unfold wrapDirection
  dsimp only
  rw [subtractTurns_spec d.toNat d (by omega)]
  by_cases c : d < 0
  · rw [if_pos c]
    exact addTurns_spec _ d (by omega) (by omega)
  · rw [if_neg c, addTurns_spec _ (d % 360) (by omega) (by omega)]
    omega

theorem thrustPhase_direction (K : Consts) (X : MathExt) (o : SpaceObject) :
    (thrustPhase K X o).direction = o.direction := by
  unfold thrustPhase
  split <;> rfl

theorem bounceH_direction (K : Consts) (o : SpaceObject) :
    (bounceH K o).direction = o.direction := by
  unfold bounceH
  split_ifs <;> rfl

theorem bounceV_direction (K : Consts) (o : SpaceObject) :
    (bounceV K o).direction = o.direction := by
  unfold bounceV
  split_ifs <;> rfl

theorem boundsPhase_direction (K : Consts) (o : SpaceObject) :
    (boundsPhase K o).direction = o.direction := by
  unfold boundsPhase
  split_ifs
  · rfl
  · rfl
  · rw [bounceV_direction, bounceH_direction]

theorem moveObject_direction (K : Consts) (X : MathExt) (o : SpaceObject)
    (hactive : o.active = K.kObjectInUse) (hturn : hasAttr o K.kCanTurn = true) :
    (moveObject K X o).direction
      = wrapDirection (o.direction + extractRounded (o.turnFraction + o.turnVelocity)) := by
  have hm : isMoving K o = true := by
    unfold isMoving
    rw [hturn, Bool.or_true]
  unfold moveObject
  rw [if_pos hactive, boundsPhase_direction]
  unfold motionPhase
  rw [if_pos hm]
  have e : (integratePhase (thrustPhase K X (turnPhase K o))).direction
      = (thrustPhase K X (turnPhase K o)).direction := rfl
  rw [e, thrustPhase_direction]
  unfold turnPhase
  rw [if_pos hturn]

/-- C31: for every object in use with `kCanTurn`, whatever its starting direction,
turn velocity and turn fraction, one sub-tick unit of `MoveSpaceObjects` leaves
`direction` equal to the old direction plus the rounded turn amount, reduced modulo
360, hence in `[0, 360)`; and the two wrap loops end: with `d` the direction after the
addition, the first loop allowed any number `n >= d` of iterations stops at a value
below `ROT_POS`, and the second loop allowed any number of iterations at least the
negation of that value stops at `d mod 360`, where neither loop condition holds. -/
theorem C31_direction_wrapped (K : Consts) (X : MathExt) (o : SpaceObject)
    (hactive : o.active = K.kObjectInUse) (hturn : hasAttr o K.kCanTurn = true) :
    (moveObject K X o).direction
      = (o.direction + extractRounded (o.turnFraction + o.turnVelocity)) % 360 ∧
    0 ≤ (moveObject K X o).direction ∧ (moveObject K X o).direction < ROT_POS ∧
    (∀ n : Nat, n ≥ (o.direction + extractRounded (o.turnFraction + o.turnVelocity)).toNat →
      subtractTurns n (o.direction + extractRounded (o.turnFraction + o.turnVelocity))
        < ROT_POS ∧
      ∀ m : Nat,
        m ≥ (-(subtractTurns n
                (o.direction + extractRounded (o.turnFraction + o.turnVelocity)))).toNat →
        addTurns m (subtractTurns n
            (o.direction + extractRounded (o.turnFraction + o.turnVelocity)))
          = (moveObject K X o).direction) := by
  rw [moveObject_direction K X o hactive hturn, wrapDirection_eq_emod]
  unfold ROT_POS
  refine ⟨rfl, by omega, by omega, fun n hn => ?_⟩
  generalize o.direction + extractRounded (o.turnFraction + o.turnVelocity) = d at hn ⊢
  rw [subtractTurns_spec n d (by omega)]
  by_cases c : d < 0
  · rw [if_pos c]
    exact ⟨by omega, fun m hm => addTurns_spec m d (by omega) (by omega)⟩
  · rw [if_neg c]
    refine ⟨by omega, fun m hm => ?_⟩
    rw [addTurns_spec m (d % 360) (by omega) (by omega)]
    omega

/-- Witness for C31: the sample object starts at direction -1000 and turns by 1.5
degrees, rounded to 2: it ends at `(-998) mod 360 = 82`. -/
theorem C31_direction_wrapped_witness :
    (moveObject demoConsts demoExt demoTurner).direction = 82 ∧
    (moveObject demoConsts demoExt demoTurner).direction
      = (demoTurner.direction
          + extractRounded (demoTurner.turnFraction + demoTurner.turnVelocity)) % 360 :=
  ⟨by decide, (C31_direction_wrapped demoConsts demoExt demoTurner (by decide) (by decide)).1⟩

/-! ## The thrust clamp -/

theorem thrustPhase_velocity_clamped (K : Consts) (X : MathExt) (o : SpaceObject)
    (hthrust : o.thrust ≠ 0) :
    (thrustPhase K X o).velocity
      = ⟨o.velocity.h + clampThrust (thrustGoal K X o).1
            (thrustLimit X (thrustGoal K X o).1 (thrustGoal K X o).2.1
              (thrustGoal K X o).2.2).1,
         o.velocity.v + clampThrust (thrustGoal K X o).2.1
            (thrustLimit X (thrustGoal K X o).1 (thrustGoal K X o).2.1
              (thrustGoal K X o).2.2).2⟩ := by
  unfold thrustPhase
  rw [if_pos hthrust]
  rfl

theorem clampThrust_spec (d m : Int) :
    (0 ≤ m → clampThrust d m = min d m) ∧
    (m < 0 → clampThrust d m = max d m) ∧
    (|d| ≤ |m| → clampThrust d m = d) ∧
    ((0 ≤ d ∧ 0 ≤ m) ∨ (d ≤ 0 ∧ m < 0) → |clampThrust d m| ≤ |m|) := by
  unfold clampThrust
  refine ⟨fun h => ?_, fun h => ?_, fun h => ?_, fun h => ?_⟩
  · rw [if_neg (by omega)]
    split_ifs <;> omega
  · rw [if_pos h]
    split_ifs <;> omega
  · rw [abs_le] at h
    rcases abs_cases m with ⟨e, _⟩ | ⟨e, _⟩ <;> split_ifs <;> omega
  · rw [abs_le]
    rcases abs_cases m with ⟨e, _⟩ | ⟨e, _⟩ <;> split_ifs <;> omega

/-- C32, counterexample: the sample object brakes (thrust -256) with the velocity
`(1, -1000)`. The goal delta is `(-1, 1000)`, its angle is 0, so the per-axis limits
are `(0, 256)`; the `h` component added to the velocity is the whole goal `-1`, of
magnitude 1, although the limit on that axis is 0. -/
theorem C32_counterexample :
    thrustGoal demoConsts demoRot demoBraking = (-1, 1000, 256) ∧
    thrustLimit demoRot (-1) 1000 256 = (0, 256) ∧
    (thrustPhase demoConsts demoRot demoBraking).velocity.h - demoBraking.velocity.h = -1 ∧
    ¬ |(thrustPhase demoConsts demoRot demoBraking).velocity.h - demoBraking.velocity.h|
        ≤ |(thrustLimit demoRot (-1) 1000 256).1| := by
  decide

/-- C32, amended: for an object whose thrust is not zero, with `(d_h, d_v)` the goal
delta and `(m_h, m_v)` the per-axis thrust limits computed in `MoveSpaceObjects`, the
velocity after the thrust block is the old one plus, on each axis independently, the
clamped component `c`: `c = min(d, m)` when `m >= 0` and `c = max(d, m)` when `m < 0`;
`c = d` whenever `|d| <= |m|`; and `|c| <= |m|` whenever `d` and `m` point the same way
(`d >= 0` and `m >= 0`, or `d <= 0` and `m < 0`). -/
theorem C32_thrust_clamp (K : Consts) (X : MathExt) (o : SpaceObject)
    (hthrust : o.thrust ≠ 0) :
    ∃ dh dv mh mv ch cv : Int,
      (dh, dv) = ((thrustGoal K X o).1, (thrustGoal K X o).2.1) ∧
      (mh, mv) = thrustLimit X dh dv (thrustGoal K X o).2.2 ∧
      (thrustPhase K X o).velocity = ⟨o.velocity.h + ch, o.velocity.v + cv⟩ ∧
      (0 ≤ mh → ch = min dh mh) ∧ (mh < 0 → ch = max dh mh) ∧
      (|dh| ≤ |mh| → ch = dh) ∧
      ((0 ≤ dh ∧ 0 ≤ mh) ∨ (dh ≤ 0 ∧ mh < 0) → |ch| ≤ |mh|) ∧
      (0 ≤ mv → cv = min dv mv) ∧ (mv < 0 → cv = max dv mv) ∧
      (|dv| ≤ |mv| → cv = dv) ∧
      ((0 ≤ dv ∧ 0 ≤ mv) ∨ (dv ≤ 0 ∧ mv < 0) → |cv| ≤ |mv|) := by
  refine ⟨(thrustGoal K X o).1, (thrustGoal K X o).2.1,
    (thrustLimit X (thrustGoal K X o).1 (thrustGoal K X o).2.1 (thrustGoal K X o).2.2).1,
    (thrustLimit X (thrustGoal K X o).1 (thrustGoal K X o).2.1 (thrustGoal K X o).2.2).2,
    clampThrust (thrustGoal K X o).1
      (thrustLimit X (thrustGoal K X o).1 (thrustGoal K X o).2.1 (thrustGoal K X o).2.2).1,
    clampThrust (thrustGoal K X o).2.1
      (thrustLimit X (thrustGoal K X o).1 (thrustGoal K X o).2.1 (thrustGoal K X o).2.2).2,
    rfl, rfl, thrustPhase_velocity_clamped K X o hthrust, ?_⟩
  have a := clampThrust_spec (thrustGoal K X o).1
    (thrustLimit X (thrustGoal K X o).1 (thrustGoal K X o).2.1 (thrustGoal K X o).2.2).1
  have b := clampThrust_spec (thrustGoal K X o).2.1
    (thrustLimit X (thrustGoal K X o).1 (thrustGoal K X o).2.1 (thrustGoal K X o).2.2).2
  exact ⟨a.1, a.2.1, a.2.2.1, a.2.2.2, b.1, b.2.1, b.2.2.1, b.2.2.2⟩

/-- Witness for C32: the braking sample object; on the `v` axis the goal 1000 is
clamped to the limit 256. -/
theorem C32_thrust_clamp_witness :
    (thrustPhase demoConsts demoRot demoBraking).velocity = ⟨0, -744⟩ ∧
    ∃ dh dv mh mv ch cv : Int,
      (dh, dv) = ((thrustGoal demoConsts demoRot demoBraking).1,
                  (thrustGoal demoConsts demoRot demoBraking).2.1) ∧
      (mh, mv) = thrustLimit demoRot dh dv (thrustGoal demoConsts demoRot demoBraking).2.2 ∧
      (thrustPhase demoConsts demoRot demoBraking).velocity
        = ⟨demoBraking.velocity.h + ch, demoBraking.velocity.v + cv⟩ ∧
      (0 ≤ mh → ch = min dh mh) ∧ (mh < 0 → ch = max dh mh) ∧
      (|dh| ≤ |mh| → ch = dh) ∧
      ((0 ≤ dh ∧ 0 ≤ mh) ∨ (dh ≤ 0 ∧ mh < 0) → |ch| ≤ |mh|) ∧
      (0 ≤ mv → cv = min dv mv) ∧ (mv < 0 → cv = max dv mv) ∧
      (|dv| ≤ |mv| → cv = dv) ∧
      ((0 ≤ dv ∧ 0 ≤ mv) ∨ (dv ≤ 0 ∧ mv < 0) → |cv| ≤ |mv|) :=
  ⟨by decide, C32_thrust_clamp demoConsts demoRot demoBraking (by decide)⟩

/-! ## Beams and their targets -/

theorem anchorTo_eq (K : Consts) (t : BeamTable) (a : Nat) :
    ((t.links a).toObject = none → anchorTo K t a = t) ∧
    (∀ target : Nat, (t.links a).toObject = some target →
      (targetValid t target (t.links a).toObjectID = true →
        anchorTo K t a
          = { t with
              objs := modifyObject t.objs a
                (fun o => { o with location := (t.objs target).location })
              links := (Function.update t.links a
                { t.links a with objectLocation := (t.objs target).location }) }) ∧
      (targetValid t target (t.links a).toObjectID = false →
        anchorTo K t a = markBeam K t a)) := by
  refine ⟨fun h => ?_, fun target h => ⟨fun hv => ?_, fun hv => ?_⟩⟩
  · unfold anchorTo
    rw [h]
  · unfold anchorTo
    rw [h]
    dsimp only
    rw [if_pos hv]
  · unfold anchorTo
    rw [h]
    dsimp only
    rw [if_neg (by rw [hv]; simp)]

theorem anchorFrom_eq (K : Consts) (t : BeamTable) (a : Nat) :
    ((t.links a).fromObject = none → anchorFrom K t a = t) ∧
    (∀ target : Nat, (t.links a).fromObject = some target →
      (targetValid t target (t.links a).fromObjectID = true →
        anchorFrom K t a
          = { t with
              objs := modifyObject t.objs a (setLastGlobalLocation (t.objs target).location)
              links := (Function.update t.links a
                { t.links a with lastApparentLocation := (t.objs target).location }) }) ∧
      (targetValid t target (t.links a).fromObjectID = false →
        anchorFrom K t a = markBeam K t a)) := by
  refine ⟨fun h => ?_, fun target h => ⟨fun hv => ?_, fun hv => ?_⟩⟩
  · unfold anchorFrom
    rw [h]
  · unfold anchorFrom
    rw [h]
    dsimp only
    rw [if_pos hv]
  · unfold anchorFrom
    rw [h]
    dsimp only
    rw [if_neg (by rw [hv]; simp)]

/-- What the to-target step leaves alone and what it writes. -/
theorem anchorTo_props (K : Consts) (t : BeamTable) (a : Nat) :
    (anchorTo K t a).id = t.id ∧
    (∀ i : Nat, i ≠ a → (anchorTo K t a).objs i = t.objs i) ∧
    ((anchorTo K t a).links a).fromObject = (t.links a).fromObject ∧
    ((anchorTo K t a).links a).fromObjectID = (t.links a).fromObjectID ∧
    ((anchorTo K t a).objs a).beam = (t.objs a).beam ∧
    ((anchorTo K t a).objs a).active
      = (if targetLost t (t.links a).toObject (t.links a).toObjectID = true
          then K.kObjectToBeFreed else (t.objs a).active) ∧
    (∀ target : Nat, (t.links a).toObject = some target →
      targetValid t target (t.links a).toObjectID = true →
      ((anchorTo K t a).objs a).location = (t.objs target).location) := by
  have e := anchorTo_eq K t a
  rcases hto : (t.links a).toObject with _ | target
  · rw [e.1 hto]
    refine ⟨rfl, fun _ _ => rfl, rfl, rfl, rfl, ?_, fun x hx => ?_⟩
    · simp [targetLost]
    · exact absurd hx (by simp)
  · by_cases hv : targetValid t target (t.links a).toObjectID = true
    · rw [(e.2 target hto).1 hv]
      refine ⟨rfl, fun i hi => ?_, ?_, ?_, ?_, ?_, fun x hx hxv => ?_⟩
      · dsimp only; rw [modifyObject_other _ _ _ _ hi]
      · dsimp only; rw [Function.update_same]
      · dsimp only; rw [Function.update_same]
      · dsimp only; rw [modifyObject_same]
      · dsimp only; rw [modifyObject_same]; simp [targetLost, hv]
      · have hx2 : target = x := Option.some.inj hx
        subst hx2
        dsimp only
        rw [modifyObject_same]
    · have hv2 : targetValid t target (t.links a).toObjectID = false := by
        simpa using hv
      rw [(e.2 target hto).2 hv2]
      unfold markBeam
      refine ⟨rfl, fun i hi => ?_, rfl, rfl, ?_, ?_, fun x hx hxv => ?_⟩
      · dsimp only; rw [modifyObject_other _ _ _ _ hi]
      · dsimp only; rw [modifyObject_same]
      · dsimp only; rw [modifyObject_same]; simp [targetLost, hv2]
      · have hx2 : target = x := Option.some.inj hx
        subst hx2
        rw [hv2] at hxv
        exact absurd hxv (by simp)

/-- What the from-target step leaves alone and what it writes. -/
theorem anchorFrom_props (K : Consts) (t : BeamTable) (a : Nat) :
    (anchorFrom K t a).id = t.id ∧
    (∀ i : Nat, i ≠ a → (anchorFrom K t a).objs i = t.objs i) ∧
    ((anchorFrom K t a).objs a).location = (t.objs a).location ∧
    ((anchorFrom K t a).objs a).active
      = (if targetLost t (t.links a).fromObject (t.links a).fromObjectID = true
          then K.kObjectToBeFreed else (t.objs a).active) ∧
    (∀ target : Nat, (t.links a).fromObject = some target →
      targetValid t target (t.links a).fromObjectID = true →
      ((anchorFrom K t a).objs a).beam
        = (t.objs a).beam.map
            (fun b => { b with lastGlobalLocation := (t.objs target).location })) := by
  have e := anchorFrom_eq K t a
  rcases hto : (t.links a).fromObject with _ | target
  · rw [e.1 hto]
    refine ⟨rfl, fun _ _ => rfl, rfl, ?_, fun x hx => ?_⟩
    · simp [targetLost]
    · exact absurd hx (by simp)
  · by_cases hv : targetValid t target (t.links a).fromObjectID = true
    · rw [(e.2 target hto).1 hv]
      refine ⟨rfl, fun i hi => ?_, ?_, ?_, fun x hx hxv => ?_⟩
      · dsimp only; rw [modifyObject_other _ _ _ _ hi]
      · dsimp only; rw [modifyObject_same]; rfl
      · dsimp only; rw [modifyObject_same]; simp [targetLost, hv, setLastGlobalLocation]
      · have hx2 : target = x := Option.some.inj hx
        subst hx2
        dsimp only
        rw [modifyObject_same]
        rfl
    · have hv2 : targetValid t target (t.links a).fromObjectID = false := by
        simpa using hv
      rw [(e.2 target hto).2 hv2]
      unfold markBeam
      refine ⟨rfl, fun i hi => ?_, ?_, ?_, fun x hx hxv => ?_⟩
      · dsimp only; rw [modifyObject_other _ _ _ _ hi]
      · dsimp only; rw [modifyObject_same]
      · dsimp only; rw [modifyObject_same]; simp [targetLost, hv2]
      · have hx2 : target = x := Option.some.inj hx
        subst hx2
        rw [hv2] at hxv
        exact absurd hxv (by simp)

theorem targetValid_congr (t u : BeamTable) (x : Nat) (sid : Int) (hid : u.id = t.id)
    (hact : (u.objs x).active = 0 ↔ (t.objs x).active = 0) :
    targetValid u x sid = targetValid t x sid := by
  unfold targetValid
  rw [hid]
  have e : ((u.objs x).active != 0) = ((t.objs x).active != 0) := by
    rw [Bool.eq_iff_iff]
    simp only [bne_iff_ne, ne_eq]
    exact not_congr hact
  rw [e]

theorem targetLost_congr (t u : BeamTable) (target : Option Nat) (sid : Int)
    (hid : u.id = t.id)
    (hact : ∀ x : Nat, (u.objs x).active = 0 ↔ (t.objs x).active = 0) :
    targetLost u target sid = targetLost t target sid := by
  unfold targetLost
  cases target with
  | none => rfl
  | some x => dsimp only; rw [targetValid_congr t u x sid hid (hact x)]

/-- A write to the object `a` that leaves it active (or inactive) as it was changes
the activity of no object of the table. -/
theorem active_zero_iff (t u : BeamTable) (a : Nat)
    (hother : ∀ i : Nat, i ≠ a → u.objs i = t.objs i)
    (hu : (u.objs a).active ≠ 0) (ht : (t.objs a).active ≠ 0) :
    ∀ x : Nat, (u.objs x).active = 0 ↔ (t.objs x).active = 0 := by
  intro x
  by_cases h : x = a
  · subst h
    exact ⟨fun h1 => absurd h1 hu, fun h1 => absurd h1 ht⟩
  · rw [hother x h]

theorem moved_fields (K : Consts) (X : MathExt) (o : SpaceObject) :
    (boundsPhase K (motionPhase K X o)).attributes = o.attributes ∧
    (boundsPhase K (motionPhase K X o)).beam = o.beam ∧
    ((boundsPhase K (motionPhase K X o)).active = o.active
      ∨ (boundsPhase K (motionPhase K X o)).active = K.kObjectToBeFreed) := by
  have m : (motionPhase K X o).attributes = o.attributes ∧ (motionPhase K X o).beam = o.beam ∧
      (motionPhase K X o).active = o.active := by
    unfold motionPhase
    split
    · have t1 : (turnPhase K o).attributes = o.attributes ∧ (turnPhase K o).beam = o.beam ∧
          (turnPhase K o).active = o.active := by
        unfold turnPhase
        split <;> exact ⟨rfl, rfl, rfl⟩
      have t2 : ∀ p : SpaceObject, (thrustPhase K X p).attributes = p.attributes ∧
          (thrustPhase K X p).beam = p.beam ∧ (thrustPhase K X p).active = p.active := by
        intro p
        unfold thrustPhase
        split <;> exact ⟨rfl, rfl, rfl⟩
      have t3 := t2 (turnPhase K o)
      exact ⟨t3.1.trans t1.1, t3.2.1.trans t1.2.1, t3.2.2.trans t1.2.2⟩
    · exact ⟨rfl, rfl, rfl⟩
  have b : ∀ p : SpaceObject, (boundsPhase K p).attributes = p.attributes ∧
      (boundsPhase K p).beam = p.beam ∧
      ((boundsPhase K p).active = p.active ∨ (boundsPhase K p).active = K.kObjectToBeFreed) := by
    intro p
    unfold boundsPhase bounceV bounceH
    split_ifs <;> first | exact ⟨rfl, rfl, Or.inl rfl⟩ | exact ⟨rfl, rfl, Or.inr rfl⟩
  have b1 := b (motionPhase K X o)
  refine ⟨b1.1.trans m.1, b1.2.1.trans m.2.1, ?_⟩
  rcases b1.2.2 with h | h
  · exact Or.inl (h.trans m.2.2)
  · exact Or.inr h

/-- The beam branch on an object-to-object beam with beam data. -/
theorem beamPhase_objectToObject (K : Consts) (B : BeamEnv) (u : BeamTable) (a : Nat) (b : Beam)
    (hfreed : K.kObjectToBeFreed ≠ 0) (hnz : (u.objs a).active ≠ 0)
    (hdata : (u.objs a).beam = some b)
    (hkind : (u.links a).beamKind = B.eStaticObjectToObjectKind
      ∨ (u.links a).beamKind = B.eBoltObjectToObjectKind) :
    ∃ r : BeamTable, beamPhase K B u a = some r ∧
      (∀ i : Nat, i ≠ a → r.objs i = u.objs i) ∧
      (r.objs a).active
        = (if targetLost u (u.links a).toObject (u.links a).toObjectID = true
              ∨ targetLost u (u.links a).fromObject (u.links a).fromObjectID = true
            then K.kObjectToBeFreed else (u.objs a).active) ∧
      (∀ target : Nat, (u.links a).toObject = some target →
        targetValid u target (u.links a).toObjectID = true →
        (r.objs a).location = (r.objs target).location) ∧
      (∀ target : Nat, (u.links a).fromObject = some target →
        targetValid u target (u.links a).fromObjectID = true →
        (r.objs a).beam.map Beam.lastGlobalLocation = some (r.objs target).location) := by
  obtain ⟨u1, hu1⟩ : ∃ u1 : BeamTable, u1 = { u with links := (Function.update u.links a
      { u.links a with objectLocation := (u.objs a).location }) } := ⟨_, rfl⟩
  have l1 : (u1.links a).beamKind = (u.links a).beamKind ∧
      (u1.links a).toObject = (u.links a).toObject ∧
      (u1.links a).toObjectID = (u.links a).toObjectID ∧
      (u1.links a).fromObject = (u.links a).fromObject ∧
      (u1.links a).fromObjectID = (u.links a).fromObjectID := by
    rw [hu1]
    dsimp only
    rw [Function.update_same]
    exact ⟨rfl, rfl, rfl, rfl, rfl⟩
  have o1 : u1.objs = u.objs := by rw [hu1]
  have i1 : u1.id = u.id := by rw [hu1]
  have hb : beamPhase K B u a = some (anchorFrom K (anchorTo K u1 a) a) := by
    have hk : ((Function.update u.links a
          { u.links a with objectLocation := (u.objs a).location }) a).beamKind
          = B.eStaticObjectToObjectKind
        ∨ ((Function.update u.links a
          { u.links a with objectLocation := (u.objs a).location }) a).beamKind
          = B.eBoltObjectToObjectKind := by
      rw [Function.update_same]
      exact hkind
    unfold beamPhase
    rw [hdata]
    dsimp only
    rw [if_pos hk, hu1]
  obtain ⟨p1, p2, p3, p4, p5, p6, p7⟩ := anchorTo_props K u1 a
  obtain ⟨q1, q2, q3, q4, q5⟩ := anchorFrom_props K (anchorTo K u1 a) a
  rw [l1.2.1, l1.2.2.1, o1] at p6
  rw [l1.2.1, l1.2.2.1, o1] at p7
  rw [l1.2.2.2.1] at p3
  rw [l1.2.2.2.2] at p4
  rw [o1] at p2 p5
  rw [p3, p4] at q4 q5
  have v1 : ∀ (x : Nat) (sid : Int), targetValid u1 x sid = targetValid u x sid :=
    fun x sid => targetValid_congr u u1 x sid i1 (by rw [o1])
  have w1 : ∀ (x : Option Nat) (sid : Int), targetLost u1 x sid = targetLost u x sid :=
    fun x sid => targetLost_congr u u1 x sid i1 (fun y => by rw [o1])
  rw [w1] at p6
  have a2 : ((anchorTo K u1 a).objs a).active ≠ 0 := by
    rw [p6]
    split
    · exact hfreed
    · exact hnz
  have z2 := active_zero_iff u (anchorTo K u1 a) a p2 a2 hnz
  have v2 : ∀ (x : Nat) (sid : Int),
      targetValid (anchorTo K u1 a) x sid = targetValid u x sid :=
    fun x sid => targetValid_congr u _ x sid (p1.trans i1) (z2 x)
  have w2 : ∀ (x : Option Nat) (sid : Int),
      targetLost (anchorTo K u1 a) x sid = targetLost u x sid :=
    fun x sid => targetLost_congr u _ x sid (p1.trans i1) z2
  rw [w2] at q4
  refine ⟨_, hb, fun i hi => (q2 i hi).trans (p2 i hi), ?_, fun target ht hv => ?_,
    fun target ht hv => ?_⟩
  · rw [q4, p6]
    by_cases c1 : targetLost u (u.links a).fromObject (u.links a).fromObjectID = true
    · rw [if_pos c1, if_pos (Or.inr c1)]
    · rw [if_neg c1]
      by_cases c2 : targetLost u (u.links a).toObject (u.links a).toObjectID = true
      · rw [if_pos c2, if_pos (Or.inl c2)]
      · rw [if_neg c2, if_neg (by tauto)]
  · rw [q3, p7 target ht (by rw [v1]; exact hv)]
    by_cases c : target = a
    · rw [c, q3, p7 target ht (by rw [v1]; exact hv), c]
    · rw [q2 target c, p2 target c]
  · rw [q5 target ht (by rw [v2]; exact hv), p5, hdata]
    by_cases c : target = a
    · rw [c, q3]
      rfl
    · rw [q2 target c]
      rfl

/-- C33, counterexample: the sample beam lies outside the world at `(0, 0)` and does
not bounce; its to-target, the object 1, is in use and has the stored id, and it has
no from-target. One unit marks the beam `kObjectToBeFreed` all the same (the boundary
policy of the unit does), while moving it to the location of its target. -/
theorem C33_counterexample :
    (demoStrayBeamTable.objs 0).active = demoConsts.kObjectInUse ∧
    (demoStrayBeamTable.links 0).beamKind = demoBeamEnv.eStaticObjectToObjectKind ∧
    (demoStrayBeamTable.links 0).toObject = some 1 ∧
    targetValid demoStrayBeamTable 1 (demoStrayBeamTable.links 0).toObjectID = true ∧
    (demoStrayBeamTable.links 0).fromObject = none ∧
    (moveUnit demoConsts demoExt demoBeamEnv demoStrayBeamTable 0).map
        (fun r => ((r.objs 0).active, (r.objs 0).location))
      = some (demoConsts.kObjectToBeFreed, ⟨1073741900, 1073741800⟩) := by
  decide

/-- C33, amended: for an object-to-object beam (static or bolt) in use, not
self-animated, with beam data present, one sub-tick unit of `MoveSpaceObjects` returns
(it does not throw) and marks the beam `kObjectToBeFreed` if and only if the boundary
policy of that unit has marked it (it does not bounce and its location after the
motion step lies outside the world), or its non-null `toObject` or its non-null
`fromObject` is inactive or has an id different from the stored `toObjectID` /
`fromObjectID`; no other object is written; when the to-target is valid the location
of the beam becomes the location of the target, and when the from-target is valid
`lastGlobalLocation` becomes the location of the from-target. The state tags
`kObjectInUse` and `kObjectToBeFreed` are distinct and not zero. -/
theorem C33_beam_anchoring (K : Consts) (X : MathExt) (B : BeamEnv) (t : BeamTable) (a : Nat)
    (b : Beam)
    (htags : K.kObjectInUse ≠ 0 ∧ K.kObjectToBeFreed ≠ 0 ∧ K.kObjectInUse ≠ K.kObjectToBeFreed)
    (hactive : (t.objs a).active = K.kObjectInUse)
    (hplain : hasAttr (t.objs a) B.kIsSelfAnimated = false)
    (hbeam : hasAttr (t.objs a) K.kIsBeam = true)
    (hdata : (t.objs a).beam = some b)
    (hkind : (t.links a).beamKind = B.eStaticObjectToObjectKind
      ∨ (t.links a).beamKind = B.eBoltObjectToObjectKind) :
    ∃ r : BeamTable, moveUnit K X B t a = some r ∧
      ((r.objs a).active = K.kObjectToBeFreed ↔
        ((moveObject K X (t.objs a)).active = K.kObjectToBeFreed
          ∨ targetLost t (t.links a).toObject (t.links a).toObjectID = true
          ∨ targetLost t (t.links a).fromObject (t.links a).fromObjectID = true)) ∧
      (∀ i : Nat, i ≠ a → r.objs i = t.objs i) ∧
      (∀ target : Nat, (t.links a).toObject = some target →
        targetValid t target (t.links a).toObjectID = true →
        (r.objs a).location = (r.objs target).location) ∧
      (∀ target : Nat, (t.links a).fromObject = some target →
        targetValid t target (t.links a).fromObjectID = true →
        (r.objs a).beam.map Beam.lastGlobalLocation = some (r.objs target).location) := by
  obtain ⟨m1, m2, m3⟩ := moved_fields K X (t.objs a)
  obtain ⟨u, hu⟩ : ∃ u : BeamTable, u = { t with objs := (modifyObject t.objs a
      (fun o => boundsPhase K (motionPhase K X o))) } := ⟨_, rfl⟩
  have ua : u.objs a = boundsPhase K (motionPhase K X (t.objs a)) := by
    rw [hu]
    dsimp only
    rw [modifyObject_same]
  have uo : ∀ i : Nat, i ≠ a → u.objs i = t.objs i := by
    intro i hi
    rw [hu]
    dsimp only
    rw [modifyObject_other _ _ _ _ hi]
  have ui : u.id = t.id := by rw [hu]
  have ul : u.links = t.links := by rw [hu]
  have hmove : moveObject K X (t.objs a) = u.objs a := by
    unfold moveObject
    rw [if_pos hactive, ua]
  have hunit : moveUnit K X B t a = beamPhase K B u a := by
    have h1 : hasAttr (u.objs a) B.kIsSelfAnimated = false := by
      rw [hasAttr_congr (t.objs a) (u.objs a) _ (by rw [ua]; exact m1)]
      exact hplain
    have h2 : hasAttr (u.objs a) K.kIsBeam = true := by
      rw [hasAttr_congr (t.objs a) (u.objs a) _ (by rw [ua]; exact m1)]
      exact hbeam
    subst hu
    unfold moveUnit
    rw [if_pos hactive]
    dsimp only at h1 h2 ⊢
    rw [h1, h2]
    simp
  have unz : (u.objs a).active ≠ 0 := by
    rw [ua]
    rcases m3 with h | h
    · rw [h, hactive]; exact htags.1
    · rw [h]; exact htags.2.1
  have tnz : (t.objs a).active ≠ 0 := by
    rw [hactive]; exact htags.1
  have z := active_zero_iff t u a uo unz tnz
  have v : ∀ (x : Nat) (sid : Int), targetValid u x sid = targetValid t x sid :=
    fun x sid => targetValid_congr t u x sid ui (z x)
  have w : ∀ (x : Option Nat) (sid : Int), targetLost u x sid = targetLost t x sid :=
    fun x sid => targetLost_congr t u x sid ui z
  obtain ⟨r, hr, r1, r2, r3, r4⟩ := beamPhase_objectToObject K B u a b htags.2.1 unz
    (by rw [ua, m2]; exact hdata) (by rw [ul]; exact hkind)
  rw [ul, w, w] at r2
  rw [ul] at r3 r4
  refine ⟨r, hunit.trans hr, ?_, fun i hi => (r1 i hi).trans (uo i hi),
    fun target ht hv => r3 target ht (by rw [v]; exact hv),
    fun target ht hv => r4 target ht (by rw [v]; exact hv)⟩
  rw [r2, hmove]
  by_cases c : targetLost t (t.links a).toObject (t.links a).toObjectID = true
      ∨ targetLost t (t.links a).fromObject (t.links a).fromObjectID = true
  · rw [if_pos c]
    exact ⟨fun _ => Or.inr c, fun _ => rfl⟩
  · rw [if_neg c]
    constructor
    · exact fun h => Or.inl h
    · intro h
      rcases h with h | h
      · exact h
      · exact absurd h c

/-- Witness for C33: the sample beam in the middle of the world with two valid
targets is not marked, moves to the object 1 and takes the location of the object 2
as `lastGlobalLocation`. -/
theorem C33_beam_anchoring_witness :
    (moveUnit demoConsts demoExt demoBeamEnv demoBeamTable 0).map
        (fun r => ((r.objs 0).active, (r.objs 0).location, (r.objs 0).beam))
      = some (1, ⟨1073741900, 1073741800⟩, some ⟨⟨1073741700, 1073741600⟩⟩) ∧
    ∃ r : BeamTable, moveUnit demoConsts demoExt demoBeamEnv demoBeamTable 0 = some r ∧
      ((r.objs 0).active = demoConsts.kObjectToBeFreed ↔
        ((moveObject demoConsts demoExt (demoBeamTable.objs 0)).active
            = demoConsts.kObjectToBeFreed
          ∨ targetLost demoBeamTable (demoBeamTable.links 0).toObject
              (demoBeamTable.links 0).toObjectID = true
          ∨ targetLost demoBeamTable (demoBeamTable.links 0).fromObject
              (demoBeamTable.links 0).fromObjectID = true)) ∧
      (∀ i : Nat, i ≠ 0 → r.objs i = demoBeamTable.objs i) ∧
      (∀ target : Nat, (demoBeamTable.links 0).toObject = some target →
        targetValid demoBeamTable target (demoBeamTable.links 0).toObjectID = true →
        (r.objs 0).location = (r.objs target).location) ∧
      (∀ target : Nat, (demoBeamTable.links 0).fromObject = some target →
        targetValid demoBeamTable target (demoBeamTable.links 0).fromObjectID = true →
        (r.objs 0).beam.map Beam.lastGlobalLocation = some (r.objs target).location) :=
  ⟨by decide,
   C33_beam_anchoring demoConsts demoExt demoBeamEnv demoBeamTable 0 ⟨⟨0, 0⟩⟩
     (by decide) (by decide) (by decide) (by decide) (by decide) (by decide)⟩

/-! ## The hand-over to `CorrectPhysicalSpace` -/

theorem and_two_pow_ne_zero (x n : Nat) : x &&& 2 ^ n ≠ 0 ↔ x.testBit n = true := by
  rw [Nat.and_two_pow]
  cases x.testBit n <;> simp

theorem both_have_bit (x y n : Nat) :
    (x &&& y) &&& 2 ^ n ≠ 0 ↔ (x &&& 2 ^ n ≠ 0 ∧ y &&& 2 ^ n ≠ 0) := by
  rw [and_two_pow_ne_zero, and_two_pow_ne_zero, and_two_pow_ne_zero, Nat.testBit_and,
    Bool.and_eq_true]

theorem hasAttr_iff (o : SpaceObject) (m : Nat) : hasAttr o m = true ↔ o.attributes &&& m ≠ 0 := by
  unfold hasAttr
  simp

theorem collidePair_eq_hitStage (K : Consts) (E : PassEnv) (s : PassState) (a b : Nat) :
    collidePair K E s a b
      = if (withBounds E s.objs b a).owner = (withBounds E s.objs b b).owner then
          hitStage K E s a b
        else if (hitStage K E s a b).aborted then hitStage K E s a b
        else separate K E (hitStage K E s a b) a b := by
  unfold collidePair hitStage
  dsimp only
  split_ifs <;> rfl

theorem hitStage_of_same_owner (K : Consts) (E : PassEnv) (s : PassState) (a b : Nat)
    (h : (withBounds E s.objs b a).owner = (withBounds E s.objs b b).owner) :
    hitStage K E s a b
      = { s with objs := withBounds E s.objs b, trace := s.trace ++ [Event.examined a b] } := by
  unfold hitStage
  dsimp only
  rw [if_pos h]

theorem correctEvents_append (t u : List Event) :
    correctEvents (t ++ u) = correctEvents t ++ correctEvents u := by
  unfold correctEvents
  rw [List.filter_append]

theorem hitFirst_correctEvents (K : Consts) (E : PassEnv) (s : PassState) (a b : Nat) :
    correctEvents (hitFirst K E s a b).trace = correctEvents s.trace := by
  unfold hitFirst
  split
  · dsimp only
    rw [correctEvents_append]
    simp [correctEvents]
  · rfl

theorem hitSecond_correctEvents (K : Consts) (E : PassEnv) (s : PassState) (a b : Nat) :
    correctEvents (hitSecond K E s a b).trace = correctEvents s.trace := by
  unfold hitSecond
  split
  · dsimp only
    rw [correctEvents_append]
    simp [correctEvents]
  · rfl

theorem hitBoxes_correctEvents (K : Consts) (E : PassEnv) (s : PassState) (a b : Nat) :
    correctEvents (hitBoxes K E s a b).trace = correctEvents s.trace := by
  unfold hitBoxes
  split
  · rw [hitSecond_correctEvents, hitFirst_correctEvents]
  · rfl

theorem hitBeam_correctEvents (K : Consts) (E : PassEnv) (s : PassState) (a b : Nat) :
    correctEvents (hitBeam K E s a b).trace = correctEvents s.trace := by
  unfold hitBeam
  dsimp only
  split
  · rfl
  · split
    · dsimp only
      rw [correctEvents_append]
      simp [correctEvents]
    · rfl
    · rfl

theorem hitStage_correctEvents (K : Consts) (E : PassEnv) (s : PassState) (a b : Nat) :
    correctEvents (hitStage K E s a b).trace = correctEvents s.trace := by
  have e : correctEvents (s.trace ++ [Event.examined a b]) = correctEvents s.trace := by
    rw [correctEvents_append]
    simp [correctEvents]
  unfold hitStage
  dsimp only
  split_ifs
  · exact e
  · rw [hitBoxes_correctEvents]; exact e
  · rw [hitBeam_correctEvents]; exact e

theorem occupySameSpace_iff (s d : Rect) :
    occupySameSpace s d = true
      ↔ (d.left ≤ s.right ∧ s.left ≤ d.right ∧ d.top ≤ s.bottom ∧ s.top ≤ d.bottom) := by
  unfold occupySameSpace
  simp only [Bool.and_eq_true, decide_eq_true_eq, ge_iff_le]
  tauto

/-- The condition under which motion.cpp:864-882 calls `CorrectPhysicalSpace`, read
in the state the hit stage leaves. -/
theorem separate_eq (K : Consts) (E : PassEnv) (s2 : PassState) (a b : Nat)
    (hbit : ∃ n : Nat, K.kOccupiesSpace = 2 ^ n) :
    (hasAttr (s2.objs a) K.kOccupiesSpace = true ∧ hasAttr (s2.objs b) K.kOccupiesSpace = true ∧
      (s2.objs a).owner ≠ (s2.objs b).owner ∧
      (s2.objs a).absoluteBounds.left ≤ (s2.objs b).absoluteBounds.right ∧
      (s2.objs b).absoluteBounds.left ≤ (s2.objs a).absoluteBounds.right ∧
      (s2.objs a).absoluteBounds.top ≤ (s2.objs b).absoluteBounds.bottom ∧
      (s2.objs b).absoluteBounds.top ≤ (s2.objs a).absoluteBounds.bottom →
      separate K E s2 a b
        = { s2 with objs := E.CorrectPhysicalSpace s2.objs a b,
                    trace := s2.trace ++ [Event.correct a b] }) ∧
    (¬ (hasAttr (s2.objs a) K.kOccupiesSpace = true ∧
        hasAttr (s2.objs b) K.kOccupiesSpace = true ∧
        (s2.objs a).owner ≠ (s2.objs b).owner ∧
        (s2.objs a).absoluteBounds.left ≤ (s2.objs b).absoluteBounds.right ∧
        (s2.objs b).absoluteBounds.left ≤ (s2.objs a).absoluteBounds.right ∧
        (s2.objs a).absoluteBounds.top ≤ (s2.objs b).absoluteBounds.bottom ∧
        (s2.objs b).absoluteBounds.top ≤ (s2.objs a).absoluteBounds.bottom) →
      separate K E s2 a b = s2) := by
  obtain ⟨n, hn⟩ := hbit
  have hboth := both_have_bit (s2.objs b).attributes (s2.objs a).attributes n
  rw [← hn] at hboth
  have ha := hasAttr_iff (s2.objs a) K.kOccupiesSpace
  have hb := hasAttr_iff (s2.objs b) K.kOccupiesSpace
  have ho := occupySameSpace_iff (s2.objs b).absoluteBounds (s2.objs a).absoluteBounds
  constructor
  · rintro ⟨h1, h2, h3, h4, h5, h6, h7⟩
    unfold separate
    rw [if_neg, if_pos (ho.mpr ⟨h4, h5, h6, h7⟩)]
    intro h
    rcases h with h | h
    · exact hboth.mpr ⟨hb.mp h2, ha.mp h1⟩ h
    · exact h3 h.symm
  · intro hc
    unfold separate
    by_cases c1 : ((s2.objs b).attributes &&& (s2.objs a).attributes) &&& K.kOccupiesSpace = 0
        ∨ (s2.objs b).owner = (s2.objs a).owner
    · rw [if_pos c1]
    · rw [if_neg c1]
      by_cases c2 : occupySameSpace (s2.objs b).absoluteBounds (s2.objs a).absoluteBounds = true
      · exfalso
        apply hc
        have c3 := not_or.mp c1
        have c4 := hboth.mp c3.1
        have c5 := ho.mp c2
        exact ⟨ha.mpr c4.2, hb.mpr c4.1, fun h => c3.2 h.symm, c5.1, c5.2.1, c5.2.2.1, c5.2.2.2⟩
      · rw [if_neg c2]

theorem collidePair_eq_separate (K : Consts) (E : PassEnv) (s : PassState) (a b : Nat)
    (hrun : (hitStage K E s a b).aborted = false) :
    collidePair K E s a b = separate K E (hitStage K E s a b) a b := by
  rw [collidePair_eq_hitStage]
  by_cases ow : (withBounds E s.objs b a).owner = (withBounds E s.objs b b).owner
  · rw [if_pos ow]
    have e := hitStage_of_same_owner K E s a b ow
    have e2 : ((hitStage K E s a b).objs b).owner = ((hitStage K E s a b).objs a).owner := by
      rw [e]
      exact ow.symm
    unfold separate
    rw [if_pos (Or.inr e2)]
  · rw [if_neg ow, hrun]
    rfl

theorem append_singleton_ne_self (t : List Event) (e : Event) : t ≠ t ++ [e] := by
  intro h
  have := congrArg List.length h
  simp at this

/-- C34: for a pair `(A, B)` processed by the near pass whose hit stage ends normally,
`CorrectPhysicalSpace(A, B)` is invoked if and only if both objects have
`kOccupiesSpace` (a single-bit flag), their owners differ, and their `absoluteBounds`
overlap, touching edges counting as overlap, all three read after the hit
notifications have run; when it is invoked it is the last thing the pair body does
and it works on the table the notifications left; otherwise the pair body ends in the
state the hit stage left; and the pair body invokes it at most once. -/
theorem C34_correct_iff (K : Consts) (E : PassEnv) (s : PassState) (a b : Nat)
    (hbit : ∃ n : Nat, K.kOccupiesSpace = 2 ^ n)
    (hrun : (hitStage K E s a b).aborted = false) :
    ((hasAttr ((hitStage K E s a b).objs a) K.kOccupiesSpace = true ∧
      hasAttr ((hitStage K E s a b).objs b) K.kOccupiesSpace = true ∧
      ((hitStage K E s a b).objs a).owner ≠ ((hitStage K E s a b).objs b).owner ∧
      ((hitStage K E s a b).objs a).absoluteBounds.left
        ≤ ((hitStage K E s a b).objs b).absoluteBounds.right ∧
      ((hitStage K E s a b).objs b).absoluteBounds.left
        ≤ ((hitStage K E s a b).objs a).absoluteBounds.right ∧
      ((hitStage K E s a b).objs a).absoluteBounds.top
        ≤ ((hitStage K E s a b).objs b).absoluteBounds.bottom ∧
      ((hitStage K E s a b).objs b).absoluteBounds.top
        ≤ ((hitStage K E s a b).objs a).absoluteBounds.bottom)
      ↔ (collidePair K E s a b).trace
          = (hitStage K E s a b).trace ++ [Event.correct a b]) ∧
    ((collidePair K E s a b).trace = (hitStage K E s a b).trace ++ [Event.correct a b] →
      (collidePair K E s a b).objs = E.CorrectPhysicalSpace (hitStage K E s a b).objs a b) ∧
    ((collidePair K E s a b).trace ≠ (hitStage K E s a b).trace ++ [Event.correct a b] →
      collidePair K E s a b = hitStage K E s a b) ∧
    (correctEvents (collidePair K E s a b).trace).length
      ≤ (correctEvents s.trace).length + 1 := by
  have hsep := separate_eq K E (hitStage K E s a b) a b hbit
  rw [collidePair_eq_separate K E s a b hrun]
  have hc := hitStage_correctEvents K E s a b
  generalize hitStage K E s a b = s2 at hsep hc ⊢
  by_cases c : (hasAttr (s2.objs a) K.kOccupiesSpace = true ∧
      hasAttr (s2.objs b) K.kOccupiesSpace = true ∧
      (s2.objs a).owner ≠ (s2.objs b).owner ∧
      (s2.objs a).absoluteBounds.left ≤ (s2.objs b).absoluteBounds.right ∧
      (s2.objs b).absoluteBounds.left ≤ (s2.objs a).absoluteBounds.right ∧
      (s2.objs a).absoluteBounds.top ≤ (s2.objs b).absoluteBounds.bottom ∧
      (s2.objs b).absoluteBounds.top ≤ (s2.objs a).absoluteBounds.bottom)
  · rw [hsep.1 c]
    refine ⟨⟨fun _ => rfl, fun _ => c⟩, fun _ => rfl, fun h => absurd rfl h, ?_⟩
    dsimp only
    rw [correctEvents_append, hc]
    simp [correctEvents]
  · rw [hsep.2 c]
    refine ⟨⟨fun h => absurd h c, fun h => absurd h (append_singleton_ne_self _ _)⟩,
      fun h => absurd h (append_singleton_ne_self _ _), fun _ => rfl, ?_⟩
    rw [hc]
    omega

/-- Witness for C34: the two sample ships, of different owners, both occupying space,
with overlapping boxes: after the two hit notifications the pair is handed to
`CorrectPhysicalSpace`, once. -/
theorem C34_correct_iff_witness :
    (collidePair demoConsts demoEnv ⟨demoObjsA, [], false⟩ 1 0).trace
      = [Event.examined 1 0, Event.hit 1 0, Event.hit 0 1, Event.correct 1 0] ∧
    (correctEvents (collidePair demoConsts demoEnv ⟨demoObjsA, [], false⟩ 1 0).trace).length
      ≤ (correctEvents ([] : List Event)).length + 1 :=
  ⟨by decide,
   (C34_correct_iff demoConsts demoEnv ⟨demoObjsA, [], false⟩ 1 0 ⟨24, by decide⟩
      (by decide)).2.2.2⟩

/-! ## The cached box -/

theorem shiftRight_nonneg_of_nonneg (x : Int) (n : Nat) (h : 0 ≤ x) : 0 ≤ x >>> n := by
  rw [shiftRight_eq_ediv]
  exact Int.ediv_nonneg h (by positivity)

/-- C35: once computed in the near pass (the recompute condition `left >= right`
holds) for an object with a sprite whose current frame has non-negative width and
height and whose `naturalScale` is non-negative, `absoluteBounds` has
`left = location.h - ((center.h * naturalScale) >> SHIFT_SCALE)`,
`right = left + ((width * naturalScale) >> SHIFT_SCALE)`, the same for `top` and
`bottom`, and `right >= left` and `bottom >= top`; and the per-tick invalidation of the
rebuild (`right = left = 0`) satisfies the recompute condition. -/
theorem C35_bounds_ordered (K : Consts) (SHIFT_SCALE : Nat) (o : SpaceObject) (frame : Frame)
    (hs : o.sprite = some frame) (hw : 0 ≤ frame.width) (hh : 0 ≤ frame.height)
    (hscale : 0 ≤ o.naturalScale)
    (hstale : o.absoluteBounds.left ≥ o.absoluteBounds.right) :
    (computeBounds SHIFT_SCALE o).absoluteBounds.left
      = o.location.h - ((frame.center.h * o.naturalScale) >>> SHIFT_SCALE) ∧
    (computeBounds SHIFT_SCALE o).absoluteBounds.right
      = (computeBounds SHIFT_SCALE o).absoluteBounds.left
        + ((frame.width * o.naturalScale) >>> SHIFT_SCALE) ∧
    (computeBounds SHIFT_SCALE o).absoluteBounds.top
      = o.location.v - ((frame.center.v * o.naturalScale) >>> SHIFT_SCALE) ∧
    (computeBounds SHIFT_SCALE o).absoluteBounds.bottom
      = (computeBounds SHIFT_SCALE o).absoluteBounds.top
        + ((frame.height * o.naturalScale) >>> SHIFT_SCALE) ∧
    (computeBounds SHIFT_SCALE o).absoluteBounds.right
      ≥ (computeBounds SHIFT_SCALE o).absoluteBounds.left ∧
    (computeBounds SHIFT_SCALE o).absoluteBounds.bottom
      ≥ (computeBounds SHIFT_SCALE o).absoluteBounds.top ∧
    (∀ (s : RebuildState) (a : Nat),
      hasAttr (s.objs a) (kConsiderDistanceAttributes K) = true →
      ((insertInGrid K s a).objs a).absoluteBounds.left
        ≥ ((insertInGrid K s a).objs a).absoluteBounds.right) := by
  have hwn := shiftRight_nonneg_of_nonneg _ SHIFT_SCALE (mul_nonneg hw hscale)
  have hhn := shiftRight_nonneg_of_nonneg _ SHIFT_SCALE (mul_nonneg hh hscale)
  have e : computeBounds SHIFT_SCALE o
      = { o with absoluteBounds :=
          ⟨o.location.h + -((frame.center.h * o.naturalScale) >>> SHIFT_SCALE),
           o.location.v + -((frame.center.v * o.naturalScale) >>> SHIFT_SCALE),
           o.location.h + -((frame.center.h * o.naturalScale) >>> SHIFT_SCALE)
             + ((frame.width * o.naturalScale) >>> SHIFT_SCALE),
           o.location.v + -((frame.center.v * o.naturalScale) >>> SHIFT_SCALE)
             + ((frame.height * o.naturalScale) >>> SHIFT_SCALE)⟩ } := by
    unfold computeBounds
    rw [if_pos hstale, hs]
  rw [e]
  dsimp only
  refine ⟨by omega, rfl, by omega, rfl, by omega, by omega, fun s a hattr => ?_⟩
  unfold insertInGrid
  dsimp only
  rw [if_pos hattr]
  dsimp only
  rw [Function.update_same]

/-- Witness for C35: the sample object with a sprite frame 10 by 6 at scale 1. -/
theorem C35_bounds_ordered_witness :
    (computeBounds 12 demoSprite).absoluteBounds = ⟨995, 997, 1005, 1003⟩ ∧
    (computeBounds 12 demoSprite).absoluteBounds.right
      ≥ (computeBounds 12 demoSprite).absoluteBounds.left :=
  ⟨by decide,
   (C35_bounds_ordered demoConsts 12 demoSprite ⟨10, 6, ⟨5, 3⟩⟩ rfl (by decide) (by decide)
      (by decide) (by decide)).2.2.2.2.1⟩

/-! ## Broad-phase completeness -/

theorem flatMap_sublist {α β : Type} (f h : α → List β) (hs : ∀ x, (f x).Sublist (h x)) :
    ∀ l : List α, (l.flatMap f).Sublist (l.flatMap h) := by
  intro l
  induction l with
  | nil => exact List.Sublist.refl _
  | cons x rest ih =>
    rw [List.flatMap_cons, List.flatMap_cons]
    exact List.Sublist.append (hs x) ih

theorem unitMatches_sublist (g : Grid) (fuel : Nat) (i : Int) (a k : Nat) :
    (unitMatches g fuel i a k).Sublist
      (unitCandidates g.nearObject g.nextNearObject g.unitsToCheck fuel i a k) := by
  unfold unitMatches
  split
  · exact List.nil_sublist _
  · exact List.filter_sublist _

theorem pairMatches_sublist (g : Grid) (fuel : Nat) :
    (pairMatches g fuel).Sublist
      (pairCandidates g.nearObject g.nextNearObject g.unitsToCheck fuel) := by
  unfold pairMatches pairCandidates
  apply flatMap_sublist
  intro i
  unfold cellMatches cellCandidates
  apply flatMap_sublist
  intro a
  apply List.Sublist.map
  unfold objectMatches objectCandidates
  apply flatMap_sublist
  intro k
  exact unitMatches_sublist g fuel i a k

theorem mem_unitMatches (g : Grid) (fuel : Nat) (i : Int) (a k b : Nat) :
    b ∈ unitMatches g fuel i a k ↔
      (0 ≤ (expectedSuper g i a k).h ∧ 0 ≤ (expectedSuper g i a k).v ∧
        b ∈ unitCandidates g.nearObject g.nextNearObject g.unitsToCheck fuel i a k ∧
        g.collisionGrid b = expectedSuper g i a k) := by
  unfold unitMatches
  split
  · rename_i h
    constructor
    · intro hb
      exact absurd hb (List.not_mem_nil _)
    · intro hb
      omega
  · rename_i h
    rw [List.mem_filter, decide_eq_true_eq]
    constructor
    · intro hb
      exact ⟨by omega, by omega, hb.1, hb.2⟩
    · intro hb
      exact ⟨hb.2.2.1, hb.2.2.2⟩

theorem mem_pairMatches (g : Grid) (fuel : Nat) (a b : Nat) :
    (a, b) ∈ pairMatches g fuel ↔
      ∃ i : Nat, i < kProximityGridDataLength.toNat ∧
        a ∈ chainFrom g.nextNearObject fuel (g.nearObject i) ∧
        ∃ k : Nat, k < kUnitsToCheckNumber ∧ b ∈ unitMatches g fuel i a k := by
  unfold pairMatches cellMatches objectMatches
  simp only [List.mem_flatMap, List.mem_map, List.mem_range, Prod.mk.injEq]
  constructor
  · rintro ⟨i, hi, a1, ha1, b1, ⟨k, hk, hb1⟩, e1, e2⟩
    subst e1 e2
    exact ⟨i, hi, ha1, k, hk, hb1⟩
  · rintro ⟨i, hi, ha, k, hk, hb⟩
    exact ⟨i, hi, a, ha, b, ⟨k, hk, hb⟩, rfl, rfl⟩

theorem nearPair_matched (K : Consts) (E : PassEnv) (g : Grid) (a : Nat) (superx supery : Int)
    (s : PassState) (b : Nat) :
    ∃ l, l.Sublist (if g.collisionGrid b = ⟨superx, supery⟩ then [(a, b)] else []) ∧
      examinedPairs (nearPair K E g a superx supery s b).trace = examinedPairs s.trace ++ l := by
  by_cases hab : s.aborted = true
  · refine ⟨[], List.nil_sublist _, ?_⟩
    unfold nearPair
    rw [if_pos hab]
    simp
  · by_cases hc : ((s.objs b).attributes ||| (s.objs a).attributes) &&& K.kCanCollide = 0
        ∨ ((s.objs b).attributes ||| (s.objs a).attributes) &&& K.kCanBeHit = 0
        ∨ (g.collisionGrid b).h ≠ superx
        ∨ (g.collisionGrid b).v ≠ supery
    · refine ⟨[], List.nil_sublist _, ?_⟩
      unfold nearPair
      rw [if_neg hab, if_pos hc]
      simp
    · have h1 : (g.collisionGrid b).h = superx := by
        by_contra c
        exact hc (Or.inr (Or.inr (Or.inl c)))
      have h2 : (g.collisionGrid b).v = supery := by
        by_contra c
        exact hc (Or.inr (Or.inr (Or.inr c)))
      have hm : g.collisionGrid b = ⟨superx, supery⟩ := by
        rw [← h1, ← h2]
      rw [if_pos hm]
      refine ⟨[(a, b)], List.Sublist.refl _, ?_⟩
      unfold nearPair
      rw [if_neg hab, if_neg hc]
      exact collidePair_examined K E s a b

theorem flatMap_matched_pair (a : Nat) (p : Nat → Prop) [DecidablePred p] (l : List Nat) :
    (l.flatMap fun b => if p b then [(a, b)] else [])
      = (l.filter fun b => decide (p b)).map (Prod.mk a) := by
  induction l with
  | nil => rfl
  | cons x rest ih =>
    rw [List.flatMap_cons, ih]
    by_cases h : p x
    · rw [if_pos h, List.filter_cons_of_pos (by simpa using h)]
      rfl
    · rw [if_neg h, List.filter_cons_of_neg (by simpa using h)]
      rfl

theorem nearPairs_matched (K : Consts) (E : PassEnv) (g : Grid) (a : Nat) (superx supery : Int)
    (bs : List Nat) (s : PassState) :
    ∃ l, l.Sublist
        ((bs.filter fun b => decide (g.collisionGrid b = ⟨superx, supery⟩)).map (Prod.mk a)) ∧
      examinedPairs (bs.foldl (nearPair K E g a superx supery) s).trace
        = examinedPairs s.trace ++ l := by
  have := foldl_examined (nearPair K E g a superx supery)
    (fun b => if g.collisionGrid b = ⟨superx, supery⟩ then [(a, b)] else [])
    (nearPair_matched K E g a superx supery) bs s
  rw [flatMap_matched_pair a (fun b => g.collisionGrid b = ⟨superx, supery⟩)] at this
  exact this

theorem nearUnit_matched (K : Consts) (E : PassEnv) (g : Grid) (i : Int) (a : Nat)
    (st : PassState × Int) (k : Nat)
    (hinv : st.1.aborted = true ∨ st.2 = cellAfter g.unitsToCheck i (k - 1)) :
    ∃ l, l.Sublist ((unitMatches g E.chainFuel i a k).map (Prod.mk a)) ∧
      examinedPairs (nearUnit K E g i a st k).1.trace = examinedPairs st.1.trace ++ l ∧
      ((nearUnit K E g i a st k).1.aborted = true ∨
        (nearUnit K E g i a st k).2 = cellAfter g.unitsToCheck i k) := by
  unfold nearUnit
  split
  · rename_i hab
    exact ⟨[], List.nil_sublist _, by simp, Or.inl hab⟩
  · rename_i hab
    have hcur : st.2 = cellAfter g.unitsToCheck i (k - 1) := by
      rcases hinv with h | h
      · exact absurd h hab
      · exact h
    split
    · rename_i hk
      subst hk
      dsimp only
      split
      · exact ⟨[], List.nil_sublist _, by simp, Or.inr hcur⟩
      · rename_i hneg
        obtain ⟨l, hl, he⟩ := nearPairs_matched K E g a (g.collisionGrid a).h
          (g.collisionGrid a).v
          (chainFrom g.nextNearObject E.chainFuel (g.nextNearObject a)) st.1
        refine ⟨l, ?_, he, Or.inr hcur⟩
        have e0 : expectedSuper g i a 0 = g.collisionGrid a := by
          unfold expectedSuper
          rw [if_pos rfl]
        unfold unitMatches unitCandidates
        rw [e0, if_neg hneg, if_pos rfl]
        exact hl
    · rename_i hk
      dsimp only
      have hcell : st.2 + (g.unitsToCheck i k).adjacentUnit = cellAfter g.unitsToCheck i k := by
        rw [hcur]; exact cellAfter_pred_succ _ _ _ hk
      split
      · exact ⟨[], List.nil_sublist _, by simp, Or.inl rfl⟩
      · split
        · exact ⟨[], List.nil_sublist _, by simp, Or.inr hcell⟩
        · rename_i hneg
          obtain ⟨l, hl, he⟩ := nearPairs_matched K E g a
            ((g.collisionGrid a).h + (g.unitsToCheck i k).superOffset.h)
            ((g.collisionGrid a).v + (g.unitsToCheck i k).superOffset.v)
            (chainFrom g.nextNearObject E.chainFuel
              (g.nearObject (st.2 + (g.unitsToCheck i k).adjacentUnit))) st.1
          refine ⟨l, ?_, he, Or.inr hcell⟩
          have e0 : expectedSuper g i a k
              = ⟨(g.collisionGrid a).h + (g.unitsToCheck i k).superOffset.h,
                 (g.collisionGrid a).v + (g.unitsToCheck i k).superOffset.v⟩ := by
            unfold expectedSuper
            rw [if_neg hk]
          unfold unitMatches unitCandidates
          rw [e0, if_neg hneg, if_neg hk, ← hcell]
          exact hl

theorem nearUnits_matched (K : Consts) (E : PassEnv) (g : Grid) (i : Int) (a : Nat) :
    ∀ (n k0 : Nat) (st : PassState × Int),
      (st.1.aborted = true ∨ st.2 = cellAfter g.unitsToCheck i (k0 - 1)) →
      ∃ l, l.Sublist
          (((List.range' k0 n).flatMap (unitMatches g E.chainFuel i a)).map (Prod.mk a)) ∧
        examinedPairs ((List.range' k0 n).foldl (nearUnit K E g i a) st).1.trace
          = examinedPairs st.1.trace ++ l := by
  intro n
  induction n with
  | zero => intro k0 st _; exact ⟨[], List.nil_sublist _, by simp⟩
  | succ n ih =>
    intro k0 st hinv
    obtain ⟨l1, hl1, e1, hinv1⟩ := nearUnit_matched K E g i a st k0 hinv
    obtain ⟨l2, hl2, e2⟩ := ih (k0 + 1) (nearUnit K E g i a st k0) (by simpa using hinv1)
    refine ⟨l1 ++ l2, ?_, ?_⟩
    · rw [List.range'_succ, List.flatMap_cons, List.map_append]
      exact List.Sublist.append hl1 hl2
    · rw [List.range'_succ, List.foldl_cons, e2, e1, List.append_assoc]

theorem nearObjectStep_matched (K : Consts) (E : PassEnv) (g : Grid) (i : Int)
    (s : PassState) (a : Nat) :
    ∃ l, l.Sublist ((objectMatches g E.chainFuel i a).map (Prod.mk a)) ∧
      examinedPairs (nearObjectStep K E g i s a).trace = examinedPairs s.trace ++ l := by
  unfold nearObjectStep
  split
  · exact ⟨[], List.nil_sublist _, by simp⟩
  · dsimp only
    have := nearUnits_matched K E g i a kUnitsToCheckNumber 0
      ({ s with objs := Function.update s.objs a (computeBounds E.SHIFT_SCALE (s.objs a)) }, i)
      (Or.inr rfl)
    rw [← List.range_eq_range'] at this
    exact this

/-- The pairs the near pass examines form a sublist of the pairs its loops reach with
the grid-coordinate match satisfied. -/
theorem nearPass_matched (K : Consts) (E : PassEnv) (g : Grid) (objs : Objs) :
    (examinedPairs (nearPass K E g objs).trace).Sublist (pairMatches g E.chainFuel) := by
  have hcell : ∀ (s : PassState) (i : Nat), ∃ l,
      l.Sublist (cellMatches g E.chainFuel i) ∧
      examinedPairs (nearCell K E g s i).trace = examinedPairs s.trace ++ l := by
    intro s i
    exact foldl_examined (nearObjectStep K E g i) _ (nearObjectStep_matched K E g i) _ s
  obtain ⟨l, hl, he⟩ := foldl_examined (nearCell K E g) _ hcell
    (List.range kProximityGridDataLength.toNat) ⟨objs, [], false⟩
  unfold nearPass
  rw [he]
  simpa [pairMatches] using hl

theorem nearCell_coords (loc : Point) :
    nearCellIndex loc = ((nearCoord loc).v % 16) * 16 + (nearCoord loc).h % 16 ∧
    collisionGridOf loc = ⟨(nearCoord loc).h / 16, (nearCoord loc).v / 16⟩ := by
  have e4 : kCollisionSuperExtraShift = 4 := rfl
  have e15 : kProximityUnitAndModulo = 15 := rfl
  constructor
  · unfold nearCellIndex nearCoord
    rw [e15, land_fifteen, land_fifteen, shiftLeft_four]
  · unfold collisionGridOf nearCoord
    rw [e4, shiftRight_eq_ediv, shiftRight_eq_ediv _ 4]
    norm_num

/-- In the table of `InitMotion`, for an object of coordinates `(X, Y)` in its cell:
the cell each adjacency entry leads to and the coordinates expected there. -/
theorem expected_InitMotion (g g0 : Grid) (htab : g.unitsToCheck = (InitMotion g0).unitsToCheck)
    (a : Nat) (X Y : Int) (hcg : g.collisionGrid a = ⟨X / 16, Y / 16⟩) :
    (cellAfter g.unitsToCheck ((Y % 16) * 16 + X % 16) 1 = (Y % 16) * 16 + (X + 1) % 16 ∧
      expectedSuper g ((Y % 16) * 16 + X % 16) a 1 = ⟨(X + 1) / 16, Y / 16⟩) ∧
    (cellAfter g.unitsToCheck ((Y % 16) * 16 + X % 16) 2
        = ((Y + 1) % 16) * 16 + (X - 1) % 16 ∧
      expectedSuper g ((Y % 16) * 16 + X % 16) a 2 = ⟨(X - 1) / 16, (Y + 1) / 16⟩) ∧
    (cellAfter g.unitsToCheck ((Y % 16) * 16 + X % 16) 3 = ((Y + 1) % 16) * 16 + X % 16 ∧
      expectedSuper g ((Y % 16) * 16 + X % 16) a 3 = ⟨X / 16, (Y + 1) / 16⟩) ∧
    (cellAfter g.unitsToCheck ((Y % 16) * 16 + X % 16) 4
        = ((Y + 1) % 16) * 16 + (X + 1) % 16 ∧
      expectedSuper g ((Y % 16) * 16 + X % 16) a 4 = ⟨(X + 1) / 16, (Y + 1) / 16⟩) ∧
    expectedSuper g ((Y % 16) * 16 + X % 16) a 0 = ⟨X / 16, Y / 16⟩ := by
  have e256 : kProximityGridDataLength = 256 := by decide
  have hi0 : 0 ≤ (Y % 16) * 16 + X % 16 := by omega
  have hi1 : (Y % 16) * 16 + X % 16 < kProximityGridDataLength := by rw [e256]; omega
  have q1 : ((Y % 16) * 16 + X % 16) / 16 = Y % 16 := by omega
  have q2 : ((Y % 16) * 16 + X % 16) % 16 = X % 16 := by omega
  have wx := wrapUnit_spec (X % 16) (by omega) (by omega)
  have wy := wrapUnit_spec (Y % 16) (by omega) (by omega)
  have wx1 := wrapUnit_spec (X % 16 + 1) (by omega) (by omega)
  have wxm := wrapUnit_spec (X % 16 + -1) (by omega) (by omega)
  have wy1 := wrapUnit_spec (Y % 16 + 1) (by omega) (by omega)
  have e0 : expectedSuper g ((Y % 16) * 16 + X % 16) a 0 = ⟨X / 16, Y / 16⟩ := by
    unfold expectedSuper
    rw [if_pos rfl, hcg]
  refine ⟨?_, ?_, ?_, ?_, e0⟩
  · have c := (cellAfter_InitMotion g0 _ hi0 hi1).1
    have s := (superOffset_InitMotion g0 _ hi0 hi1).1
    rw [q1, q2] at c s
    unfold expectedSuper
    rw [if_neg (by decide), hcg, htab, c, s]
    simp only [Point.mk.injEq]
    clear c s htab hcg e0
    refine ⟨?_, ?_, ?_⟩ <;> omega
  · have c := (cellAfter_InitMotion g0 _ hi0 hi1).2.1
    have s := (superOffset_InitMotion g0 _ hi0 hi1).2.1
    rw [q1, q2] at c s
    unfold expectedSuper
    rw [if_neg (by decide), hcg, htab, c, s]
    simp only [Point.mk.injEq]
    clear c s htab hcg e0
    refine ⟨?_, ?_, ?_⟩ <;> omega
  · have c := (cellAfter_InitMotion g0 _ hi0 hi1).2.2.1
    have s := (superOffset_InitMotion g0 _ hi0 hi1).2.2.1
    rw [q1, q2] at c s
    unfold expectedSuper
    rw [if_neg (by decide), hcg, htab, c, s]
    simp only [Point.mk.injEq]
    clear c s htab hcg e0
    refine ⟨?_, ?_, ?_⟩ <;> omega
  · have c := (cellAfter_InitMotion g0 _ hi0 hi1).2.2.2
    have s := (superOffset_InitMotion g0 _ hi0 hi1).2.2.2
    rw [q1, q2] at c s
    unfold expectedSuper
    rw [if_neg (by decide), hcg, htab, c, s]
    simp only [Point.mk.injEq]
    clear c s htab hcg e0
    refine ⟨?_, ?_, ?_⟩ <;> omega

theorem pairMatches_intro (g : Grid) (fuel : Nat) (i : Int) (hi0 : 0 ≤ i)
    (hi1 : i < kProximityGridDataLength) (a b k : Nat) (hk : k < kUnitsToCheckNumber)
    (ha : a ∈ chainFrom g.nextNearObject fuel (g.nearObject i))
    (hb : b ∈ unitCandidates g.nearObject g.nextNearObject g.unitsToCheck fuel i a k)
    (hm : g.collisionGrid b = expectedSuper g i a k)
    (h0 : 0 ≤ (g.collisionGrid b).h ∧ 0 ≤ (g.collisionGrid b).v) :
    (a, b) ∈ pairMatches g fuel := by
  rw [mem_pairMatches]
  have e : ((i.toNat : Nat) : Int) = i := Int.toNat_of_nonneg hi0
  refine ⟨i.toNat, ?_, ?_, k, hk, ?_⟩
  · have e256 : kProximityGridDataLength = 256 := by decide
    rw [e256] at hi1 ⊢
    omega
  · rw [e]; exact ha
  · rw [e, mem_unitMatches]
    rw [hm] at h0
    exact ⟨h0.1, h0.2, hb, hm⟩

/-- An object reached from the cell of `A` under one of the entries `1 .. 4`. -/
theorem matched_forward (g g0 : Grid) (fuel : Nat)
    (htab : g.unitsToCheck = (InitMotion g0).unitsToCheck)
    (A B : Nat) (XA YA XB YB : Int)
    (hA : A ∈ chainFrom g.nextNearObject fuel (g.nearObject ((YA % 16) * 16 + XA % 16)))
    (hB : B ∈ chainFrom g.nextNearObject fuel (g.nearObject ((YB % 16) * 16 + XB % 16)))
    (cA : g.collisionGrid A = ⟨XA / 16, YA / 16⟩)
    (cB : g.collisionGrid B = ⟨XB / 16, YB / 16⟩)
    (h0 : 0 ≤ (g.collisionGrid B).h ∧ 0 ≤ (g.collisionGrid B).v)
    (hd : (XB = XA + 1 ∧ YB = YA) ∨ (XB = XA - 1 ∧ YB = YA + 1) ∨ (XB = XA ∧ YB = YA + 1)
      ∨ (XB = XA + 1 ∧ YB = YA + 1)) :
    (A, B) ∈ pairMatches g fuel := by
  have e256 : kProximityGridDataLength = 256 := by decide
  have hi0 : 0 ≤ (YA % 16) * 16 + XA % 16 := by omega
  have hi1 : (YA % 16) * 16 + XA % 16 < kProximityGridDataLength := by rw [e256]; omega
  obtain ⟨⟨c1, x1⟩, ⟨c2, x2⟩, ⟨c3, x3⟩, ⟨c4, x4⟩, _⟩ := expected_InitMotion g g0 htab A XA YA cA
  rcases hd with ⟨dx, dy⟩ | ⟨dx, dy⟩ | ⟨dx, dy⟩ | ⟨dx, dy⟩
  · subst dx dy
    refine pairMatches_intro g fuel _ hi0 hi1 A B 1 (by decide) hA ?_ (by rw [cB, x1]) h0
    unfold unitCandidates
    rw [if_neg (by decide), c1]
    exact hB
  · subst dx dy
    refine pairMatches_intro g fuel _ hi0 hi1 A B 2 (by decide) hA ?_ (by rw [cB, x2]) h0
    unfold unitCandidates
    rw [if_neg (by decide), c2]
    exact hB
  · subst dx dy
    refine pairMatches_intro g fuel _ hi0 hi1 A B 3 (by decide) hA ?_ (by rw [cB, x3]) h0
    unfold unitCandidates
    rw [if_neg (by decide), c3]
    exact hB
  · subst dx dy
    refine pairMatches_intro g fuel _ hi0 hi1 A B 4 (by decide) hA ?_ (by rw [cB, x4]) h0
    unfold unitCandidates
    rw [if_neg (by decide), c4]
    exact hB

/-- Two objects of one cell with the same coordinates: the one that comes first in the
list of the cell meets the other under the entry 0. -/
theorem matched_same_cell (g : Grid) (fuel : Nat)
    (hbk : BucketsOK g.nearObject g.nextNearObject fuel)
    (A B : Nat) (c : Int) (hc0 : 0 ≤ c) (hc1 : c < kProximityGridDataLength)
    (hA : A ∈ chainFrom g.nextNearObject fuel (g.nearObject c))
    (hB : B ∈ chainFrom g.nextNearObject fuel (g.nearObject c))
    (hne : A ≠ B) (hcg : g.collisionGrid A = g.collisionGrid B)
    (h0 : 0 ≤ (g.collisionGrid B).h ∧ 0 ≤ (g.collisionGrid B).v) :
    (A, B) ∈ pairMatches g fuel ∨ (B, A) ∈ pairMatches g fuel := by
  have ex : ∀ x : Nat, expectedSuper g c x 0 = g.collisionGrid x := by
    intro x
    unfold expectedSuper
    rw [if_pos rfl]
  obtain ⟨l1, l2, hl⟩ := List.append_of_mem hA
  rw [hl] at hB
  rcases List.mem_append.1 hB with h1 | h2
  · right
    obtain ⟨m1, m2, hm⟩ := List.append_of_mem h1
    have hl2 : chainFrom g.nextNearObject fuel (g.nearObject c) = m1 ++ B :: (m2 ++ A :: l2) := by
      rw [hl, hm]
      simp
    have ht := hbk.2.2 c hc0 hc1 m1 B (m2 ++ A :: l2) hl2
    refine pairMatches_intro g fuel c hc0 hc1 B A 0 (by decide) (by rw [hl2]; simp) ?_
      (by rw [ex, hcg]) (by rw [hcg]; exact h0)
    unfold unitCandidates
    rw [if_pos rfl, ht]
    simp
  · left
    have h3 : B ∈ l2 := by
      rcases List.mem_cons.1 h2 with h | h
      · exact absurd h.symm hne
      · exact h
    have ht := hbk.2.2 c hc0 hc1 l1 A l2 hl
    refine pairMatches_intro g fuel c hc0 hc1 A B 0 (by decide) hA ?_
      (by rw [ex, hcg]) h0
    unfold unitCandidates
    rw [if_pos rfl, ht]
    exact h3

/-- A pair the loops match lies in one cell or in neighbouring cells, by its full
near-cell coordinates. -/
theorem matched_close (g g0 : Grid) (fuel : Nat)
    (htab : g.unitsToCheck = (InitMotion g0).unitsToCheck)
    (hbk : BucketsOK g.nearObject g.nextNearObject fuel) (ins : List Insertion)
    (hchain : ∀ c : Int, 0 ≤ c → c < kProximityGridDataLength →
      chainFrom g.nextNearObject fuel (g.nearObject c) = nearBucket ins c)
    (hcg : ∀ e ∈ ins, g.collisionGrid e.object = collisionGridOf e.snapshot.location)
    (a b : Nat) (h : (a, b) ∈ pairMatches g fuel) :
    ∃ eA ∈ ins, ∃ eB ∈ ins, eA.object = a ∧ eB.object = b ∧
      -1 ≤ (nearCoord eB.snapshot.location).h - (nearCoord eA.snapshot.location).h ∧
      (nearCoord eB.snapshot.location).h - (nearCoord eA.snapshot.location).h ≤ 1 ∧
      -1 ≤ (nearCoord eB.snapshot.location).v - (nearCoord eA.snapshot.location).v ∧
      (nearCoord eB.snapshot.location).v - (nearCoord eA.snapshot.location).v ≤ 1 := by
  have e256 : kProximityGridDataLength = 256 := by decide
  have e5 : kUnitsToCheckNumber = 5 := rfl
  obtain ⟨n, hn, ha, k, hk, hb⟩ := (mem_pairMatches g fuel a b).1 h
  have hi0 : (0 : Int) ≤ (n : Int) := Int.ofNat_nonneg n
  have hi1 : (n : Int) < kProximityGridDataLength := by
    rw [e256] at hn ⊢
    omega
  have ha0 := ha
  rw [hchain _ hi0 hi1, mem_nearBucket] at ha
  obtain ⟨eA, heA, cellA, objA⟩ := ha
  obtain ⟨kA, sA⟩ := nearCell_coords eA.snapshot.location
  have cgA := hcg eA heA
  rw [objA, sA] at cgA
  rw [kA] at cellA
  obtain ⟨_, _, hcand, hm⟩ := (mem_unitMatches g fuel n a k b).1 hb
  obtain ⟨⟨c1, x1⟩, ⟨c2, x2⟩, ⟨c3, x3⟩, ⟨c4, x4⟩, x0⟩ :=
    expected_InitMotion g g0 htab a _ _ cgA
  rw [cellA] at c1 x1 c2 x2 c3 x3 c4 x4 x0
  have fin : ∀ c : Int, 0 ≤ c → c < 256 →
      b ∈ chainFrom g.nextNearObject fuel (g.nearObject c) →
      ∃ eB ∈ ins, eB.object = b ∧
        c = ((nearCoord eB.snapshot.location).v % 16) * 16
              + (nearCoord eB.snapshot.location).h % 16 ∧
        g.collisionGrid b = ⟨(nearCoord eB.snapshot.location).h / 16,
                             (nearCoord eB.snapshot.location).v / 16⟩ := by
    intro c hc0 hc1 hbc
    rw [hchain c hc0 (by rw [e256]; exact hc1), mem_nearBucket] at hbc
    obtain ⟨eB, heB, cellB, objB⟩ := hbc
    obtain ⟨kB, sB⟩ := nearCell_coords eB.snapshot.location
    have cgB := hcg eB heB
    rw [objB, sB] at cgB
    exact ⟨eB, heB, objB, by rw [← cellB, kB], cgB⟩
  unfold unitCandidates at hcand
  rw [e5] at hk
  have hk5 : k = 0 ∨ k = 1 ∨ k = 2 ∨ k = 3 ∨ k = 4 := by omega
  rcases hk5 with hk0 | hk0 | hk0 | hk0 | hk0
  · subst hk0
    rw [if_pos rfl] at hcand
    have hb2 := tail_subset _ _ fuel hbk n hi0 hi1 a ha0 b hcand
    obtain ⟨eB, heB, objB, cellB, cgB⟩ := fin n hi0 (by rw [e256] at hi1; exact hi1) hb2
    rw [hm, x0] at cgB
    simp only [Point.mk.injEq] at cgB
    refine ⟨eA, heA, eB, heB, objA, objB, ?_⟩
    clear c1 x1 c2 x2 c3 x3 c4 x4 x0 hm hcand hb2 hb ha0 h cgA
    omega
  · subst hk0
    rw [if_neg (by decide), c1] at hcand
    obtain ⟨eB, heB, objB, cellB, cgB⟩ := fin _ (by omega) (by omega) hcand
    rw [hm, x1] at cgB
    simp only [Point.mk.injEq] at cgB
    refine ⟨eA, heA, eB, heB, objA, objB, ?_⟩
    clear c1 x1 c2 x2 c3 x3 c4 x4 x0 hm hcand hb ha0 h cgA
    omega
  · subst hk0
    rw [if_neg (by decide), c2] at hcand
    obtain ⟨eB, heB, objB, cellB, cgB⟩ := fin _ (by omega) (by omega) hcand
    rw [hm, x2] at cgB
    simp only [Point.mk.injEq] at cgB
    refine ⟨eA, heA, eB, heB, objA, objB, ?_⟩
    clear c1 x1 c2 x2 c3 x3 c4 x4 x0 hm hcand hb ha0 h cgA
    omega
  · subst hk0
    rw [if_neg (by decide), c3] at hcand
    obtain ⟨eB, heB, objB, cellB, cgB⟩ := fin _ (by omega) (by omega) hcand
    rw [hm, x3] at cgB
    simp only [Point.mk.injEq] at cgB
    refine ⟨eA, heA, eB, heB, objA, objB, ?_⟩
    clear c1 x1 c2 x2 c3 x3 c4 x4 x0 hm hcand hb ha0 h cgA
    omega
  · subst hk0
    rw [if_neg (by decide), c4] at hcand
    obtain ⟨eB, heB, objB, cellB, cgB⟩ := fin _ (by omega) (by omega) hcand
    rw [hm, x4] at cgB
    simp only [Point.mk.injEq] at cgB
    refine ⟨eA, heA, eB, heB, objA, objB, ?_⟩
    clear c1 x1 c2 x2 c3 x3 c4 x4 x0 hm hcand hb ha0 h cgA
    omega

theorem entry_unique (ins : List Insertion) (hnd : (ins.map fun e => e.object).Nodup)
    (e1 e2 : Insertion) (h1 : e1 ∈ ins) (h2 : e2 ∈ ins) (h : e1.object = e2.object) :
    e1 = e2 :=
  List.inj_on_of_nodup_map hnd h1 h2 h

/-- The loops of the near pass over the grid as the rebuild leaves it (adjacency table
from `InitMotion`, active list without repetition, bucket lists followed to their
end). Every two distinct objects inserted in the near grid whose stored
`collisionGrid` coordinates are non-negative and whose full near-cell coordinates
(location at insertion `>> 7`, on each axis) are equal or differ by at most 1 on each
axis are reached by the loops exactly once, as an unordered pair, with the
grid-coordinate match satisfied. Conversely every pair the loops reach with the match
satisfied consists of two inserted objects whose full near-cell coordinates differ by
at most 1 on each axis, each object having one insertion record only. -/
theorem pairMatches_complete (K : Consts) (R : RebuildEnv) (E : PassEnv) (objs : Objs)
    (g g0 : Grid) (order : List Nat) (s : RebuildState)
    (hs : s = rebuildGrid K R objs g order)
    (hinit : g.unitsToCheck = (InitMotion g0).unitsToCheck)
    (hnd : order.Nodup) (hfuel : order.length ≤ E.chainFuel) :
    (∀ eA ∈ s.inserted, ∀ eB ∈ s.inserted, eA.object ≠ eB.object →
      0 ≤ (s.grid.collisionGrid eA.object).h → 0 ≤ (s.grid.collisionGrid eA.object).v →
      0 ≤ (s.grid.collisionGrid eB.object).h → 0 ≤ (s.grid.collisionGrid eB.object).v →
      -1 ≤ (nearCoord eB.snapshot.location).h - (nearCoord eA.snapshot.location).h →
      (nearCoord eB.snapshot.location).h - (nearCoord eA.snapshot.location).h ≤ 1 →
      -1 ≤ (nearCoord eB.snapshot.location).v - (nearCoord eA.snapshot.location).v →
      (nearCoord eB.snapshot.location).v - (nearCoord eA.snapshot.location).v ≤ 1 →
      timesMatched s.grid E.chainFuel eA.object eB.object = 1) ∧
    (∀ a b : Nat, (a, b) ∈ pairMatches s.grid E.chainFuel →
      ∃ eA ∈ s.inserted, ∃ eB ∈ s.inserted, eA.object = a ∧ eB.object = b ∧
        -1 ≤ (nearCoord eB.snapshot.location).h - (nearCoord eA.snapshot.location).h ∧
        (nearCoord eB.snapshot.location).h - (nearCoord eA.snapshot.location).h ≤ 1 ∧
        -1 ≤ (nearCoord eB.snapshot.location).v - (nearCoord eA.snapshot.location).v ∧
        (nearCoord eB.snapshot.location).v - (nearCoord eA.snapshot.location).v ≤ 1) ∧
    (∀ e1 ∈ s.inserted, ∀ e2 ∈ s.inserted, e1.object = e2.object → e1 = e2) := by
  have htab : s.grid.unitsToCheck = (InitMotion g0).unitsToCheck := by
    rw [hs, rebuildGrid_unitsToCheck, hinit]
  have hbk : BucketsOK s.grid.nearObject s.grid.nextNearObject E.chainFuel := by
    rw [hs]
    exact rebuilt_near_buckets K R objs g order hnd E.chainFuel hfuel
  have hinv : RebuildInv K s order := by
    rw [hs]
    exact rebuildGrid_inv K R objs g order hnd
  have hchain : ∀ c : Int, 0 ≤ c → c < kProximityGridDataLength →
      chainFrom s.grid.nextNearObject E.chainFuel (s.grid.nearObject c)
        = nearBucket s.inserted c := by
    intro c hc0 hc1
    rw [hs]
    exact rebuilt_near_chain K R objs g order hnd E.chainFuel hfuel c hc0 hc1
  have hcg : ∀ e ∈ s.inserted,
      s.grid.collisionGrid e.object = collisionGridOf e.snapshot.location :=
    fun e he => (hinv.2.2.2.2 e he).1
  have hobj := inserted_nodup K s order hinv hnd
  have hadj : AdjacencyOK s.grid.unitsToCheck := by
    rw [htab]
    exact initMotion_adjacencyOK g0
  refine ⟨?_, fun a b h => matched_close s.grid g0 E.chainFuel htab hbk s.inserted hchain hcg a b h,
    fun e1 h1 e2 h2 h => entry_unique s.inserted hobj e1 e2 h1 h2 h⟩
  intro eA heA eB heB hne a0 a1 b0 b1 dx0 dx1 dy0 dy1
  have hle : timesMatched s.grid E.chainFuel eA.object eB.object ≤ 1 := by
    unfold timesMatched
    exact countP_samePair_le_one _ _ _
      ((pairCandidates_pairwise _ _ _ _ hbk hadj).sublist
        (pairMatches_sublist s.grid E.chainFuel))
  have hmem : ∀ e ∈ s.inserted,
      e.object ∈ chainFrom s.grid.nextNearObject E.chainFuel
        (s.grid.nearObject (((nearCoord e.snapshot.location).v % 16) * 16
          + (nearCoord e.snapshot.location).h % 16)) ∧
      s.grid.collisionGrid e.object
        = ⟨(nearCoord e.snapshot.location).h / 16, (nearCoord e.snapshot.location).v / 16⟩ := by
    intro e he
    obtain ⟨kc, sc⟩ := nearCell_coords e.snapshot.location
    have r := nearCellIndex_range e.snapshot.location
    constructor
    · rw [← kc, hchain _ r.1 r.2, mem_nearBucket]
      exact ⟨e, he, rfl, rfl⟩
    · rw [hcg e he, sc]
  obtain ⟨mA, cA⟩ := hmem eA heA
  obtain ⟨mB, cB⟩ := hmem eB heB
  have hex : (eA.object, eB.object) ∈ pairMatches s.grid E.chainFuel
      ∨ (eB.object, eA.object) ∈ pairMatches s.grid E.chainFuel := by
    have e256 : kProximityGridDataLength = 256 := by decide
    by_cases same : (nearCoord eB.snapshot.location).h = (nearCoord eA.snapshot.location).h
        ∧ (nearCoord eB.snapshot.location).v = (nearCoord eA.snapshot.location).v
    · rw [same.1, same.2] at mB cB
      exact matched_same_cell s.grid E.chainFuel hbk eA.object eB.object _ (by omega)
        (by rw [e256]; omega) mA mB hne (by rw [cA, cB]) ⟨b0, b1⟩
    · by_cases fwd :
          ((nearCoord eB.snapshot.location).h = (nearCoord eA.snapshot.location).h + 1 ∧
            (nearCoord eB.snapshot.location).v = (nearCoord eA.snapshot.location).v)
          ∨ ((nearCoord eB.snapshot.location).h = (nearCoord eA.snapshot.location).h - 1 ∧
            (nearCoord eB.snapshot.location).v = (nearCoord eA.snapshot.location).v + 1)
          ∨ ((nearCoord eB.snapshot.location).h = (nearCoord eA.snapshot.location).h ∧
            (nearCoord eB.snapshot.location).v = (nearCoord eA.snapshot.location).v + 1)
          ∨ ((nearCoord eB.snapshot.location).h = (nearCoord eA.snapshot.location).h + 1 ∧
            (nearCoord eB.snapshot.location).v = (nearCoord eA.snapshot.location).v + 1)
      · exact Or.inl (matched_forward s.grid g0 E.chainFuel htab eA.object eB.object _ _ _ _
          mA mB cA cB ⟨b0, b1⟩ fwd)
      · refine Or.inr (matched_forward s.grid g0 E.chainFuel htab eB.object eA.object _ _ _ _
          mB mA cB cA ⟨a0, a1⟩ ?_)
        clear mA mB cA cB hmem hle hcg hchain hadj hbk htab hinv hobj
        omega
  have hge : 0 < timesMatched s.grid E.chainFuel eA.object eB.object := by
    unfold timesMatched
    rw [List.countP_pos_iff]
    rcases hex with h | h
    · exact ⟨_, h, by simp⟩
    · exact ⟨_, h, by simp⟩
  omega

/-! ## The clipping loop neither divides by zero nor runs for ever -/

theorem no_shared_bit (a b n : Nat) (h : a &&& b = 0) (ha : a &&& 2 ^ n ≠ 0)
    (hb : b &&& 2 ^ n ≠ 0) : False := by
  rw [Nat.and_two_pow] at ha hb
  have t : (a &&& b).testBit n = true := by
    rw [Nat.testBit_and]
    cases ha3 : a.testBit n <;> cases hb3 : b.testBit n <;> simp_all
  rw [h] at t
  simp at t

theorem mClipCode_bits (x y : Int) (bounds : Rect) :
    (mClipCode x y bounds &&& 8 ≠ 0 ↔ x < bounds.left) ∧
    (mClipCode x y bounds &&& 4 ≠ 0 ↔ x > bounds.right - 1) ∧
    (mClipCode x y bounds &&& 2 ≠ 0 ↔ y < bounds.top) ∧
    (mClipCode x y bounds &&& 1 ≠ 0 ↔ y > bounds.bottom - 1) ∧
    (mClipCode x y bounds = 0 ↔
      ¬ x < bounds.left ∧ ¬ x > bounds.right - 1 ∧ ¬ y < bounds.top ∧
      ¬ y > bounds.bottom - 1) := by
  unfold mClipCode
  by_cases h1 : x < bounds.left <;> by_cases h2 : x > bounds.right - 1 <;>
    by_cases h3 : y < bounds.top <;> by_cases h4 : y > bounds.bottom - 1 <;>
    simp only [h1, h2, h3, h4, if_true, if_false, not_true_eq_false, not_false_eq_true,
      and_true, and_false, false_and, true_and, iff_true, iff_false] <;> decide

theorem ne_zero_of_and_ne_zero (a m : Nat) (h : a &&& m ≠ 0) : a ≠ 0 := by
  intro h0
  rw [h0] at h
  simp at h

theorem clipIteration_start_left (bounds : Rect) (c : ClipState) (h8 : c.cs &&& 8 ≠ 0)
    (hd : c.xe - c.xs ≠ 0) :
    clipIteration bounds c
      = some { c with
          xs := bounds.left
          ys := c.ys + Int.tdiv ((c.ye - c.ys) * (bounds.left - c.xs)) (c.xe - c.xs)
          cs := mClipCode bounds.left
            (c.ys + Int.tdiv ((c.ye - c.ys) * (bounds.left - c.xs)) (c.xe - c.xs)) bounds } := by
  unfold clipIteration
  dsimp only
  rw [if_pos (ne_zero_of_and_ne_zero _ _ h8), if_pos h8, if_neg hd]

theorem clipIteration_start_right (bounds : Rect) (c : ClipState) (h8 : ¬ c.cs &&& 8 ≠ 0)
    (h4 : c.cs &&& 4 ≠ 0) (hd : c.xe - c.xs ≠ 0) :
    clipIteration bounds c
      = some { c with
          xs := bounds.right - 1
          ys := c.ys + Int.tdiv ((c.ye - c.ys) * (bounds.right - 1 - c.xs)) (c.xe - c.xs)
          cs := mClipCode (bounds.right - 1)
            (c.ys + Int.tdiv ((c.ye - c.ys) * (bounds.right - 1 - c.xs)) (c.xe - c.xs))
            bounds } := by
  unfold clipIteration
  dsimp only
  rw [if_pos (ne_zero_of_and_ne_zero _ _ h4), if_neg h8, if_pos h4, if_neg hd]

theorem clipIteration_start_top (bounds : Rect) (c : ClipState) (h8 : ¬ c.cs &&& 8 ≠ 0)
    (h4 : ¬ c.cs &&& 4 ≠ 0) (h2 : c.cs &&& 2 ≠ 0) (hd : c.ye - c.ys ≠ 0) :
    clipIteration bounds c
      = some { c with
          xs := c.xs + Int.tdiv ((c.xe - c.xs) * (bounds.top - c.ys)) (c.ye - c.ys)
          ys := bounds.top
          cs := mClipCode
            (c.xs + Int.tdiv ((c.xe - c.xs) * (bounds.top - c.ys)) (c.ye - c.ys))
            bounds.top bounds } := by
  unfold clipIteration
  dsimp only
  rw [if_pos (ne_zero_of_and_ne_zero _ _ h2), if_neg h8, if_neg h4, if_pos h2, if_neg hd]

theorem clipIteration_start_bottom (bounds : Rect) (c : ClipState) (h8 : ¬ c.cs &&& 8 ≠ 0)
    (h4 : ¬ c.cs &&& 4 ≠ 0) (h2 : ¬ c.cs &&& 2 ≠ 0) (h1 : c.cs &&& 1 ≠ 0)
    (hd : c.ye - c.ys ≠ 0) :
    clipIteration bounds c
      = some { c with
          xs := c.xs + Int.tdiv ((c.xe - c.xs) * (bounds.bottom - 1 - c.ys)) (c.ye - c.ys)
          ys := bounds.bottom - 1
          cs := mClipCode
            (c.xs + Int.tdiv ((c.xe - c.xs) * (bounds.bottom - 1 - c.ys)) (c.ye - c.ys))
            (bounds.bottom - 1) bounds } := by
  unfold clipIteration
  dsimp only
  rw [if_pos (ne_zero_of_and_ne_zero _ _ h1), if_neg h8, if_neg h4, if_neg h2, if_pos h1,
    if_neg hd]

theorem clipIteration_end_left (bounds : Rect) (c : ClipState) (h0 : c.cs = 0)
    (h8 : c.ce &&& 8 ≠ 0) (hd : c.xe - c.xs ≠ 0) :
    clipIteration bounds c
      = some { c with
          xe := bounds.left
          ye := c.ye + Int.tdiv ((c.ye - c.ys) * (bounds.left - c.xe)) (c.xe - c.xs)
          ce := mClipCode bounds.left
            (c.ye + Int.tdiv ((c.ye - c.ys) * (bounds.left - c.xe)) (c.xe - c.xs)) bounds } := by
  unfold clipIteration
  dsimp only
  rw [if_neg (not_not.mpr h0), if_pos (ne_zero_of_and_ne_zero _ _ h8), if_pos h8, if_neg hd]

theorem clipIteration_end_right (bounds : Rect) (c : ClipState) (h0 : c.cs = 0)
    (h8 : ¬ c.ce &&& 8 ≠ 0) (h4 : c.ce &&& 4 ≠ 0) (hd : c.xe - c.xs ≠ 0) :
    clipIteration bounds c
      = some { c with
          xe := bounds.right - 1
          ye := c.ye + Int.tdiv ((c.ye - c.ys) * (bounds.right - 1 - c.xe)) (c.xe - c.xs)
          ce := mClipCode (bounds.right - 1)
            (c.ye + Int.tdiv ((c.ye - c.ys) * (bounds.right - 1 - c.xe)) (c.xe - c.xs))
            bounds } := by
  unfold clipIteration
  dsimp only
  rw [if_neg (not_not.mpr h0), if_pos (ne_zero_of_and_ne_zero _ _ h4), if_neg h8, if_pos h4,
    if_neg hd]

theorem clipIteration_end_top (bounds : Rect) (c : ClipState) (h0 : c.cs = 0)
    (h8 : ¬ c.ce &&& 8 ≠ 0) (h4 : ¬ c.ce &&& 4 ≠ 0) (h2 : c.ce &&& 2 ≠ 0)
    (hd : c.ye - c.ys ≠ 0) :
    clipIteration bounds c
      = some { c with
          xe := c.xe + Int.tdiv ((c.xe - c.xs) * (bounds.top - c.ye)) (c.ye - c.ys)
          ye := bounds.top
          ce := mClipCode
            (c.xe + Int.tdiv ((c.xe - c.xs) * (bounds.top - c.ye)) (c.ye - c.ys))
            bounds.top bounds } := by
  unfold clipIteration
  dsimp only
  rw [if_neg (not_not.mpr h0), if_pos (ne_zero_of_and_ne_zero _ _ h2), if_neg h8, if_neg h4,
    if_pos h2, if_neg hd]

theorem clipIteration_end_bottom (bounds : Rect) (c : ClipState) (h0 : c.cs = 0)
    (h8 : ¬ c.ce &&& 8 ≠ 0) (h4 : ¬ c.ce &&& 4 ≠ 0) (h2 : ¬ c.ce &&& 2 ≠ 0)
    (h1 : c.ce &&& 1 ≠ 0) (hd : c.ye - c.ys ≠ 0) :
    clipIteration bounds c
      = some { c with
          xe := c.xe + Int.tdiv ((c.xe - c.xs) * (bounds.bottom - 1 - c.ye)) (c.ye - c.ys)
          ye := bounds.bottom - 1
          ce := mClipCode
            (c.xe + Int.tdiv ((c.xe - c.xs) * (bounds.bottom - 1 - c.ye)) (c.ye - c.ys))
            (bounds.bottom - 1) bounds } := by
  unfold clipIteration
  dsimp only
  rw [if_neg (not_not.mpr h0), if_pos (ne_zero_of_and_ne_zero _ _ h1), if_neg h8, if_neg h4,
    if_neg h2, if_pos h1, if_neg hd]

/-- The facts about the end points that the outcodes carry when they are current and
share no bit. -/
theorem codes_facts (bounds : Rect) (c : ClipState) (hinv : codesCurrent bounds c)
    (hand : c.cs &&& c.ce = 0) :
    (c.cs &&& 8 ≠ 0 ↔ c.xs < bounds.left) ∧ (c.cs &&& 4 ≠ 0 ↔ c.xs > bounds.right - 1) ∧
    (c.cs &&& 2 ≠ 0 ↔ c.ys < bounds.top) ∧ (c.cs &&& 1 ≠ 0 ↔ c.ys > bounds.bottom - 1) ∧
    (c.ce &&& 8 ≠ 0 ↔ c.xe < bounds.left) ∧ (c.ce &&& 4 ≠ 0 ↔ c.xe > bounds.right - 1) ∧
    (c.ce &&& 2 ≠ 0 ↔ c.ye < bounds.top) ∧ (c.ce &&& 1 ≠ 0 ↔ c.ye > bounds.bottom - 1) ∧
    (c.cs = 0 ↔ ¬ c.xs < bounds.left ∧ ¬ c.xs > bounds.right - 1 ∧ ¬ c.ys < bounds.top ∧
      ¬ c.ys > bounds.bottom - 1) ∧
    (c.ce = 0 ↔ ¬ c.xe < bounds.left ∧ ¬ c.xe > bounds.right - 1 ∧ ¬ c.ye < bounds.top ∧
      ¬ c.ye > bounds.bottom - 1) ∧
    ¬ (c.xs < bounds.left ∧ c.xe < bounds.left) ∧
    ¬ (c.xs > bounds.right - 1 ∧ c.xe > bounds.right - 1) ∧
    ¬ (c.ys < bounds.top ∧ c.ye < bounds.top) ∧
    ¬ (c.ys > bounds.bottom - 1 ∧ c.ye > bounds.bottom - 1) := by
  have bs := mClipCode_bits c.xs c.ys bounds
  have be := mClipCode_bits c.xe c.ye bounds
  rw [← hinv.1] at bs
  rw [← hinv.2] at be
  have n8 := no_shared_bit c.cs c.ce 3 hand
  have n4 := no_shared_bit c.cs c.ce 2 hand
  have n2 := no_shared_bit c.cs c.ce 1 hand
  have n1 := no_shared_bit c.cs c.ce 0 hand
  refine ⟨bs.1, bs.2.1, bs.2.2.1, bs.2.2.2.1, be.1, be.2.1, be.2.2.1, be.2.2.2.1,
    bs.2.2.2.2, be.2.2.2.2, ?_, ?_, ?_, ?_⟩
  · exact fun h => n8 (bs.1.mpr h.1) (be.1.mpr h.2)
  · exact fun h => n4 (bs.2.1.mpr h.1) (be.2.1.mpr h.2)
  · exact fun h => n2 (bs.2.2.1.mpr h.1) (be.2.2.1.mpr h.2)
  · exact fun h => n1 (bs.2.2.2.1.mpr h.1) (be.2.2.2.1.mpr h.2)

/-- An iteration of the loop entered with current outcodes that share no bit does
not divide by zero, leaves the outcodes current and shortens the segment. -/
theorem clipIteration_progress (bounds : Rect) (c : ClipState)
    (hinv : codesCurrent bounds c) (hor : c.cs ||| c.ce ≠ 0) (hand : c.cs &&& c.ce = 0) :
    ∃ c1 : ClipState, clipIteration bounds c = some c1 ∧ codesCurrent bounds c1 ∧
      clipMeasure c1 < clipMeasure c := by
  obtain ⟨fs8, fs4, fs2, fs1, fe8, fe4, fe2, fe1, fs0, fe0, n8, n4, n2, n1⟩ :=
    codes_facts bounds c hinv hand
  by_cases s8 : c.cs &&& 8 ≠ 0
  · have a1 := fs8.mp s8
    have t := tdiv_between (c.ye - c.ys) (bounds.left - c.xs) (c.xe - c.xs)
      (Or.inl ⟨by omega, by omega, by omega⟩)
    refine ⟨_, clipIteration_start_left bounds c s8 (by omega), ⟨rfl, hinv.2⟩, ?_⟩
    unfold clipMeasure
    dsimp only
    omega
  by_cases s4 : c.cs &&& 4 ≠ 0
  · have a1 := fs4.mp s4
    have t := tdiv_between (c.ye - c.ys) (bounds.right - 1 - c.xs) (c.xe - c.xs)
      (Or.inr ⟨by omega, by omega, by omega⟩)
    refine ⟨_, clipIteration_start_right bounds c s8 s4 (by omega), ⟨rfl, hinv.2⟩, ?_⟩
    unfold clipMeasure
    dsimp only
    omega
  by_cases s2 : c.cs &&& 2 ≠ 0
  · have a1 := fs2.mp s2
    have t := tdiv_between (c.xe - c.xs) (bounds.top - c.ys) (c.ye - c.ys)
      (Or.inl ⟨by omega, by omega, by omega⟩)
    refine ⟨_, clipIteration_start_top bounds c s8 s4 s2 (by omega), ⟨rfl, hinv.2⟩, ?_⟩
    unfold clipMeasure
    dsimp only
    omega
  by_cases s1 : c.cs &&& 1 ≠ 0
  · have a1 := fs1.mp s1
    have t := tdiv_between (c.xe - c.xs) (bounds.bottom - 1 - c.ys) (c.ye - c.ys)
      (Or.inr ⟨by omega, by omega, by omega⟩)
    refine ⟨_, clipIteration_start_bottom bounds c s8 s4 s2 s1 (by omega), ⟨rfl, hinv.2⟩, ?_⟩
    unfold clipMeasure
    dsimp only
    omega
  have s0 : c.cs = 0 :=
    fs0.mpr ⟨fun h => s8 (fs8.mpr h), fun h => s4 (fs4.mpr h), fun h => s2 (fs2.mpr h),
      fun h => s1 (fs1.mpr h)⟩
  have b := fs0.mp s0
  by_cases e8 : c.ce &&& 8 ≠ 0
  · have a1 := fe8.mp e8
    have t := tdiv_between_neg (c.ye - c.ys) (bounds.left - c.xe) (c.xe - c.xs)
      (Or.inr ⟨by omega, by omega, by omega⟩)
    refine ⟨_, clipIteration_end_left bounds c s0 e8 (by omega), ⟨hinv.1, rfl⟩, ?_⟩
    unfold clipMeasure
    dsimp only
    omega
  by_cases e4 : c.ce &&& 4 ≠ 0
  · have a1 := fe4.mp e4
    have t := tdiv_between_neg (c.ye - c.ys) (bounds.right - 1 - c.xe) (c.xe - c.xs)
      (Or.inl ⟨by omega, by omega, by omega⟩)
    refine ⟨_, clipIteration_end_right bounds c s0 e8 e4 (by omega), ⟨hinv.1, rfl⟩, ?_⟩
    unfold clipMeasure
    dsimp only
    omega
  by_cases e2 : c.ce &&& 2 ≠ 0
  · have a1 := fe2.mp e2
    have t := tdiv_between_neg (c.xe - c.xs) (bounds.top - c.ye) (c.ye - c.ys)
      (Or.inr ⟨by omega, by omega, by omega⟩)
    refine ⟨_, clipIteration_end_top bounds c s0 e8 e4 e2 (by omega), ⟨hinv.1, rfl⟩, ?_⟩
    unfold clipMeasure
    dsimp only
    omega
  by_cases e1 : c.ce &&& 1 ≠ 0
  · have a1 := fe1.mp e1
    have t := tdiv_between_neg (c.xe - c.xs) (bounds.bottom - 1 - c.ye) (c.ye - c.ys)
      (Or.inl ⟨by omega, by omega, by omega⟩)
    refine ⟨_, clipIteration_end_bottom bounds c s0 e8 e4 e2 e1 (by omega), ⟨hinv.1, rfl⟩, ?_⟩
    unfold clipMeasure
    dsimp only
    omega
  exfalso
  have e0 : c.ce = 0 :=
    fe0.mpr ⟨fun h => e8 (fe8.mpr h), fun h => e4 (fe4.mpr h), fun h => e2 (fe2.mpr h),
      fun h => e1 (fe1.mpr h)⟩
  rw [s0, e0] at hor
  exact hor rfl

theorem clipLoop_ne_divideByZero (bounds : Rect) (beamHit : Bool) (fuel : Nat) :
    ∀ c : ClipState, codesCurrent bounds c →
      clipLoop bounds fuel c beamHit ≠ ClipOutcome.divideByZero := by
  induction fuel with
  | zero =>
    intro c _
    unfold clipLoop
    split_ifs <;> simp
  | succ n ih =>
    intro c hinv
    unfold clipLoop
    by_cases h1 : c.cs ||| c.ce = 0
    · rw [if_pos h1]
      split_ifs <;> simp
    · rw [if_neg h1]
      by_cases h2 : c.cs &&& c.ce ≠ 0
      · rw [if_pos h2]
        simp
      · rw [if_neg h2]
        obtain ⟨c1, e, hinv1, _⟩ := clipIteration_progress bounds c hinv h1 (not_not.mp h2)
        simp only [e]
        exact ih c1 hinv1

theorem clipLoop_ends (bounds : Rect) (beamHit : Bool) (fuel : Nat) :
    ∀ c : ClipState, codesCurrent bounds c → clipMeasure c ≤ fuel →
      clipLoop bounds fuel c beamHit = ClipOutcome.hit
        ∨ clipLoop bounds fuel c beamHit = ClipOutcome.miss := by
  induction fuel with
  | zero =>
    intro c hinv hm
    unfold clipLoop
    by_cases h1 : c.cs ||| c.ce = 0
    · rw [if_pos h1]
      cases beamHit <;> simp
    · rw [if_neg h1]
      by_cases h2 : c.cs &&& c.ce ≠ 0
      · rw [if_pos h2]
        exact Or.inr rfl
      · exfalso
        obtain ⟨c1, _, _, hlt⟩ := clipIteration_progress bounds c hinv h1 (not_not.mp h2)
        omega
  | succ n ih =>
    intro c hinv hm
    unfold clipLoop
    by_cases h1 : c.cs ||| c.ce = 0
    · rw [if_pos h1]
      cases beamHit <;> simp
    · rw [if_neg h1]
      by_cases h2 : c.cs &&& c.ce ≠ 0
      · rw [if_pos h2]
        exact Or.inr rfl
      · rw [if_neg h2]
        obtain ⟨c1, e, hinv1, hlt⟩ := clipIteration_progress bounds c hinv h1 (not_not.mp h2)
        simp only [e]
        exact ih c1 hinv1 (by omega)

theorem clipLoop_freed (bounds : Rect) (fuel : Nat) (xs ys xe ye : Int) :
    clipLoop bounds fuel ⟨xs, ys, xe, ye, 1, 1⟩ false = ClipOutcome.miss := by
  unfold clipLoop
  simp

theorem clipLoop_unfold (bounds : Rect) (fuel : Nat) (c : ClipState) (beamHit : Bool) :
    clipLoop bounds fuel c beamHit
      = if c.cs ||| c.ce = 0 then (if beamHit then ClipOutcome.hit else ClipOutcome.miss)
        else if c.cs &&& c.ce ≠ 0 then ClipOutcome.miss
        else
          match fuel with
          | 0 => ClipOutcome.unfinished
          | fuel + 1 =>
            match clipIteration bounds c with
            | none => ClipOutcome.divideByZero
            | some c1 => clipLoop bounds fuel c1 beamHit := by
  conv_lhs => rw [clipLoop.eq_def]
  try rfl

theorem clipLoop_stable (bounds : Rect) (beamHit : Bool) (fuel : Nat) :
    ∀ (c : ClipState) (more : Nat), codesCurrent bounds c → clipMeasure c ≤ fuel →
      clipLoop bounds (fuel + more) c beamHit = clipLoop bounds fuel c beamHit := by
  induction fuel with
  | zero =>
    intro c more hinv hm
    rw [clipLoop_unfold bounds _ c, clipLoop_unfold bounds _ c]
    by_cases h1 : c.cs ||| c.ce = 0
    · rw [if_pos h1, if_pos h1]
    · rw [if_neg h1, if_neg h1]
      by_cases h2 : c.cs &&& c.ce ≠ 0
      · rw [if_pos h2, if_pos h2]
      · exfalso
        obtain ⟨c1, _, _, hlt⟩ := clipIteration_progress bounds c hinv h1 (not_not.mp h2)
        omega
  | succ n ih =>
    intro c more hinv hm
    have e1 : n + 1 + more = (n + more) + 1 := by omega
    rw [e1]
    rw [clipLoop_unfold bounds _ c, clipLoop_unfold bounds _ c]
    by_cases h1 : c.cs ||| c.ce = 0
    · rw [if_pos h1, if_pos h1]
    · rw [if_neg h1, if_neg h1]
      by_cases h2 : c.cs &&& c.ce ≠ 0
      · rw [if_pos h2, if_pos h2]
      · rw [if_neg h2, if_neg h2]
        obtain ⟨c1, e, hinv1, hlt⟩ := clipIteration_progress bounds c hinv h1 (not_not.mp h2)
        simp only [e]
        exact ih c1 more hinv1 (by omega)

/-- C37: the beam clipping loop never divides by zero. In a state of the loop whose
outcodes are those of the two end points and share no bit (the only states in which
the body runs), `xd = xe - xs` is not zero whenever an outcode has a left or right bit
(the clips that divide by `xd`), and `yd = ye - ys` is not zero whenever an outcode has
a top or bottom bit (the clips that divide by `yd`); the iteration then yields a state
whose outcodes are again those of the end points. Hence the beam test ends in a
division by zero for no beam, no target box and no iteration bound. -/
theorem C37_no_division_by_zero (K : Consts) (fuel : Nat) (sObject : SpaceObject)
    (lastGlobalLocation : Point) (bounds : Rect) :
    beamClip K fuel sObject lastGlobalLocation bounds ≠ ClipOutcome.divideByZero ∧
    (∀ c : ClipState, codesCurrent bounds c → c.cs &&& c.ce = 0 →
      ((c.cs &&& 8 ≠ 0 ∨ c.cs &&& 4 ≠ 0 ∨ c.ce &&& 8 ≠ 0 ∨ c.ce &&& 4 ≠ 0) →
        c.xe - c.xs ≠ 0) ∧
      ((c.cs &&& 2 ≠ 0 ∨ c.cs &&& 1 ≠ 0 ∨ c.ce &&& 2 ≠ 0 ∨ c.ce &&& 1 ≠ 0) →
        c.ye - c.ys ≠ 0) ∧
      (c.cs ||| c.ce ≠ 0 →
        ∃ c1 : ClipState, clipIteration bounds c = some c1 ∧ codesCurrent bounds c1)) := by
  constructor
  · unfold beamClip
    dsimp only
    split
    · rw [clipLoop_freed]
      simp
    · exact clipLoop_ne_divideByZero bounds true fuel _ ⟨rfl, rfl⟩
  · intro c hinv hand
    obtain ⟨fs8, fs4, fs2, fs1, fe8, fe4, fe2, fe1, fs0, fe0, n8, n4, n2, n1⟩ :=
      codes_facts bounds c hinv hand
    refine ⟨fun h => ?_, fun h => ?_, fun hor => ?_⟩
    · rw [fs8, fs4, fe8, fe4] at h
      omega
    · rw [fs2, fs1, fe2, fe1] at h
      omega
    · obtain ⟨c1, e, hinv1, _⟩ := clipIteration_progress bounds c hinv hor hand
      exact ⟨c1, e, hinv1⟩

/-- C38: the beam clipping loop terminates, for every target box (also one that is
not `left < right` and `top < bottom`) and every pair of integer end points, with
unbounded integers and the truncating division: every iteration entered with current
outcodes shortens `|xe - xs| + |ye - ys|`, so that once the iteration bound is at
least that length for the segment of the beam, the loop is left by one of its two
exits (both outcodes zero, or a shared bit) with a hit or a miss, and a larger bound
gives the same outcome. -/
theorem C38_clip_terminates (K : Consts) (fuel : Nat) (sObject : SpaceObject)
    (lastGlobalLocation : Point) (bounds : Rect)
    (hfuel : fuel ≥ (lastGlobalLocation.h - sObject.location.h).natAbs
                + (lastGlobalLocation.v - sObject.location.v).natAbs) :
    (beamClip K fuel sObject lastGlobalLocation bounds = ClipOutcome.hit
      ∨ beamClip K fuel sObject lastGlobalLocation bounds = ClipOutcome.miss) ∧
    (∀ more : Nat, beamClip K (fuel + more) sObject lastGlobalLocation bounds
      = beamClip K fuel sObject lastGlobalLocation bounds) ∧
    (∀ c : ClipState, codesCurrent bounds c → c.cs ||| c.ce ≠ 0 → c.cs &&& c.ce = 0 →
      ∃ c1 : ClipState, clipIteration bounds c = some c1 ∧ codesCurrent bounds c1 ∧
        clipMeasure c1 < clipMeasure c) ∧
    (∀ (c : ClipState) (beamHit : Bool), codesCurrent bounds c → clipMeasure c ≤ fuel →
      clipLoop bounds fuel c beamHit = ClipOutcome.hit
        ∨ clipLoop bounds fuel c beamHit = ClipOutcome.miss) := by
  refine ⟨?_, fun more => ?_, fun c hinv hor hand => clipIteration_progress bounds c hinv hor hand,
    fun c beamHit hinv hm => clipLoop_ends bounds beamHit fuel c hinv hm⟩
  · unfold beamClip
    dsimp only
    split
    · rw [clipLoop_freed]
      exact Or.inr rfl
    · exact clipLoop_ends bounds true fuel _ ⟨rfl, rfl⟩ hfuel
  · unfold beamClip
    dsimp only
    split
    · rw [clipLoop_freed, clipLoop_freed]
    · exact clipLoop_stable bounds true fuel _ more ⟨rfl, rfl⟩ hfuel

/-- Witness for C38: the sample beam from `(1000, 900)` to `(1000, 1100)` against the box
`(995, 995, 1005, 1005)`: the segment has length 200, and the loop ends with a hit. -/
theorem C38_clip_terminates_witness :
    beamClip demoConsts 200 demoBeam ⟨1000, 1100⟩ ⟨995, 995, 1005, 1005⟩ = ClipOutcome.hit ∧
    (beamClip demoConsts 200 demoBeam ⟨1000, 1100⟩ ⟨995, 995, 1005, 1005⟩ = ClipOutcome.hit
      ∨ beamClip demoConsts 200 demoBeam ⟨1000, 1100⟩ ⟨995, 995, 1005, 1005⟩
          = ClipOutcome.miss) :=
  ⟨by decide,
   (C38_clip_terminates demoConsts 200 demoBeam ⟨1000, 1100⟩ ⟨995, 995, 1005, 1005⟩
      (by decide)).1⟩

/-! ## The rounding of displacements, again -/

theorem extractRounded_mono (f g : Int) (h : f ≤ g) : extractRounded f ≤ extractRounded g := by
  rw [extractRounded_eq_floor, extractRounded_eq_floor]
  omega

/-- C39: the two sign branches of the displacement rounding compute one function. For
every raw fraction `f`, both `(f + 128) >> 8` and `((f - 128) >> 8) + 1` equal
`floor((f + 128) / 256)`, so the amount extracted (in `MoveSpaceObjects`, lines
277-289, and in the separation loop of `CorrectPhysicalSpace`, lines 1093-1122) is
`floor((f + 128) / 256)` whatever the sign of `f`; it is monotone in `f`, and the
remainder `f - 256 * h` lies in `[-128, 127]`. -/
theorem C39_rounding_branches (f : Int) :
    more_evil_fixed_to_long (f + mFloatToFixed_half) = (f + 128) / 256 ∧
    more_evil_fixed_to_long (f - mFloatToFixed_half) + 1 = (f + 128) / 256 ∧
    extractRounded f = (f + 128) / 256 ∧
    (∀ g : Int, f ≤ g → extractRounded f ≤ extractRounded g) ∧
    -128 ≤ f - 256 * extractRounded f ∧ f - 256 * extractRounded f ≤ 127 ∧
    (∀ o : SpaceObject,
      (integratePhase o).location.h
        = o.location.h - (o.motionFraction.h + o.velocity.h + 128) / 256 ∧
      (integratePhase o).location.v
        = o.location.v - (o.motionFraction.v + o.velocity.v + 128) / 256 ∧
      (separationMove o).location.h
        = o.location.h - (o.motionFraction.h + o.velocity.h + 128) / 256 ∧
      (separationMove o).location.v
        = o.location.v - (o.motionFraction.v + o.velocity.v + 128) / 256) := by
  have e1 : more_evil_fixed_to_long (f + mFloatToFixed_half) = (f + 128) / 256 := by
    unfold more_evil_fixed_to_long mFloatToFixed_half
    rw [shiftRight_eight]
  have e2 : more_evil_fixed_to_long (f - mFloatToFixed_half) + 1 = (f + 128) / 256 := by
    unfold more_evil_fixed_to_long mFloatToFixed_half
    rw [shiftRight_eight]
    omega
  have e3 := extractRounded_eq_floor f
  refine ⟨e1, e2, e3, fun g h => extractRounded_mono f g h, ?_, ?_, fun o => ?_⟩
  · rw [e3]; omega
  · rw [e3]; omega
  · have s1 : (separationMove o).location.h
        = o.location.h - extractRounded (o.motionFraction.h + o.velocity.h) := rfl
    have s2 : (separationMove o).location.v
        = o.location.v - extractRounded (o.motionFraction.v + o.velocity.v) := rfl
    have i1 : (integratePhase o).location.h
        = o.location.h - extractRounded (o.motionFraction.h + o.velocity.h) := rfl
    have i2 : (integratePhase o).location.v
        = o.location.v - extractRounded (o.motionFraction.v + o.velocity.v) := rfl
    rw [s1, s2, i1, i2, extractRounded_eq_floor, extractRounded_eq_floor]
    exact ⟨rfl, rfl, rfl, rfl⟩

/-! ## The frame of `CorrectPhysicalSpace` -/

theorem boxOffsets_separationBounds (off : BoxOffsets) (o : SpaceObject) :
    boxOffsets (separationBounds off o) = off := by
  unfold boxOffsets separationBounds
  cases off with
  | mk l t r b =>
    simp only [BoxOffsets.mk.injEq]
    exact ⟨by omega, by omega, by omega, by omega⟩

theorem motionErased_step (off : BoxOffsets) (o : SpaceObject) :
    motionErased (separationBounds off (separationMove o)) = motionErased o := rfl

theorem separationLoop_rigid (offA offB : BoxOffsets) (fuel : Nat) :
    ∀ a b a1 b1 : SpaceObject, boxOffsets a = offA → boxOffsets b = offB →
      separationLoop offA offB fuel a b = SepOutcome.done a1 b1 →
      boxOffsets a1 = offA ∧ boxOffsets b1 = offB ∧
      motionErased a1 = motionErased a ∧ motionErased b1 = motionErased b := by
  induction fuel with
  | zero =>
    intro a b a1 b1 ha hb h
    unfold separationLoop at h
    split at h
    · exact absurd h (by simp)
    · simp only [SepOutcome.done.injEq] at h
      rw [← h.1, ← h.2]
      exact ⟨ha, hb, rfl, rfl⟩
  | succ n ih =>
    intro a b a1 b1 ha hb h
    unfold separationLoop at h
    split at h
    · have r := ih _ _ a1 b1 (boxOffsets_separationBounds offA (separationMove a))
        (boxOffsets_separationBounds offB (separationMove b)) h
      exact ⟨r.1, r.2.1, r.2.2.1.trans (motionErased_step offA a),
        r.2.2.2.trans (motionErased_step offB b)⟩
    · simp only [SepOutcome.done.injEq] at h
      rw [← h.1, ← h.2]
      exact ⟨ha, hb, rfl, rfl⟩

theorem CorrectPhysicalSpace_rigid (X : MathExt) (fuel : Nat) (a b a1 b1 : SpaceObject)
    (h : CorrectPhysicalSpace X fuel a b = SepOutcome.done a1 b1) :
    boxOffsets a1 = boxOffsets a ∧ boxOffsets b1 = boxOffsets b ∧
    motionErased a1 = motionErased a ∧ motionErased b1 = motionErased b := by
  obtain ⟨a2, b2, hp, ha, hb, ea, eb⟩ : ∃ a2 b2 : SpaceObject,
      assignVelocities X a b = some (a2, b2) ∧ boxOffsets a2 = boxOffsets a ∧
      boxOffsets b2 = boxOffsets b ∧ motionErased a2 = motionErased a ∧
      motionErased b2 = motionErased b :=
    ⟨_, _, assignVelocities_eq X a b, rfl, rfl, rfl, rfl⟩
  rw [CorrectPhysicalSpace_of_assign X fuel a b a2 b2 hp] at h
  by_cases c : a2.velocity.h ≠ 0 ∨ a2.velocity.v ≠ 0 ∨ b2.velocity.h ≠ 0 ∨ b2.velocity.v ≠ 0
  · rw [if_pos c] at h
    have r := separationLoop_rigid _ _ fuel a2 b2 a1 b1 rfl rfl h
    exact ⟨r.1.trans ha, r.2.1.trans hb, r.2.2.1.trans ea, r.2.2.2.trans eb⟩
  · rw [if_neg c] at h
    simp only [SepOutcome.done.injEq] at h
    rw [← h.1, ← h.2]
    exact ⟨ha, hb, ea, eb⟩

theorem eq_of_motionErased (a a1 : SpaceObject) (h : motionErased a1 = motionErased a) :
    a1 = { a with velocity := a1.velocity, motionFraction := a1.motionFraction,
                  location := a1.location, absoluteBounds := a1.absoluteBounds } := by
  have e1 : a1 = { motionErased a1 with
      velocity := a1.velocity, motionFraction := a1.motionFraction,
      location := a1.location, absoluteBounds := a1.absoluteBounds } := rfl
  rw [h] at e1
  exact e1

theorem box_of_offsets (a a1 : SpaceObject) (h : boxOffsets a1 = boxOffsets a) :
    a1.absoluteBounds.right - a1.absoluteBounds.left
      = a.absoluteBounds.right - a.absoluteBounds.left ∧
    a1.absoluteBounds.bottom - a1.absoluteBounds.top
      = a.absoluteBounds.bottom - a.absoluteBounds.top ∧
    a1.location.h - a1.absoluteBounds.left = a.location.h - a.absoluteBounds.left ∧
    a1.absoluteBounds.right - a1.location.h = a.absoluteBounds.right - a.location.h ∧
    a1.location.v - a1.absoluteBounds.top = a.location.v - a.absoluteBounds.top ∧
    a1.absoluteBounds.bottom - a1.location.v = a.absoluteBounds.bottom - a.location.v := by
  unfold boxOffsets at h
  simp only [BoxOffsets.mk.injEq] at h
  omega

/-- C40: `CorrectPhysicalSpace` moves each box rigidly with its object. One iteration
of the separation loop, run on any state of an object with any offsets taken on entry,
leaves the four distances from the location to the sides of the box equal to those
offsets and writes no field but motionFraction, location and absoluteBounds; and when
the function returns, for each of the two objects `right - left`, `bottom - top`,
`location.h - left`, `right - location.h`, `location.v - top` and `bottom - location.v`
equal their values on entry, and the object returned is the object passed in but for
velocity, motionFraction, location and absoluteBounds. -/
theorem C40_rigid_box (X : MathExt) (fuel : Nat) (a b a1 b1 : SpaceObject)
    (h : CorrectPhysicalSpace X fuel a b = SepOutcome.done a1 b1) :
    (∀ (off : BoxOffsets) (o : SpaceObject),
      boxOffsets (separationBounds off (separationMove o)) = off ∧
      separationBounds off (separationMove o)
        = { o with
            motionFraction := (separationBounds off (separationMove o)).motionFraction,
            location := (separationBounds off (separationMove o)).location,
            absoluteBounds := (separationBounds off (separationMove o)).absoluteBounds }) ∧
    (a1.absoluteBounds.right - a1.absoluteBounds.left
      = a.absoluteBounds.right - a.absoluteBounds.left ∧
    a1.absoluteBounds.bottom - a1.absoluteBounds.top
      = a.absoluteBounds.bottom - a.absoluteBounds.top ∧
    a1.location.h - a1.absoluteBounds.left = a.location.h - a.absoluteBounds.left ∧
    a1.absoluteBounds.right - a1.location.h = a.absoluteBounds.right - a.location.h ∧
    a1.location.v - a1.absoluteBounds.top = a.location.v - a.absoluteBounds.top ∧
    a1.absoluteBounds.bottom - a1.location.v = a.absoluteBounds.bottom - a.location.v) ∧
    (b1.absoluteBounds.right - b1.absoluteBounds.left
      = b.absoluteBounds.right - b.absoluteBounds.left ∧
    b1.absoluteBounds.bottom - b1.absoluteBounds.top
      = b.absoluteBounds.bottom - b.absoluteBounds.top ∧
    b1.location.h - b1.absoluteBounds.left = b.location.h - b.absoluteBounds.left ∧
    b1.absoluteBounds.right - b1.location.h = b.absoluteBounds.right - b.location.h ∧
    b1.location.v - b1.absoluteBounds.top = b.location.v - b.absoluteBounds.top ∧
    b1.absoluteBounds.bottom - b1.location.v = b.absoluteBounds.bottom - b.location.v) ∧
    a1 = { a with velocity := a1.velocity, motionFraction := a1.motionFraction,
                  location := a1.location, absoluteBounds := a1.absoluteBounds } ∧
    b1 = { b with velocity := b1.velocity, motionFraction := b1.motionFraction,
                  location := b1.location, absoluteBounds := b1.absoluteBounds } := by
  have r := CorrectPhysicalSpace_rigid X fuel a b a1 b1 h
  exact ⟨fun off o => ⟨boxOffsets_separationBounds off _, rfl⟩, box_of_offsets a a1 r.1,
    box_of_offsets b b1 r.2.1, eq_of_motionErased a a1 r.2.2.1,
    eq_of_motionErased b b1 r.2.2.2⟩

/-- Witness for C40: the two sample objects at rest, one above the other with touching
boxes 10 by 10, are pushed apart in two iterations; both boxes are still 10 by 10. -/
theorem C40_rigid_box_witness :
    CorrectPhysicalSpace demoRot 5 demoRestA demoRestB = SepOutcome.done demoApartA demoApartB ∧
    demoApartA.absoluteBounds = ⟨995, 992, 1005, 1002⟩ ∧
    demoApartA.absoluteBounds.right - demoApartA.absoluteBounds.left
      = demoRestA.absoluteBounds.right - demoRestA.absoluteBounds.left :=
  ⟨by decide, by decide,
   (C40_rigid_box demoRot 5 demoRestA demoRestB demoApartA demoApartB (by decide)).2.1.1⟩


/-! ## The whole unit of `MoveSpaceObjects` -/

theorem animatePhase_frame (K : Consts) (M : MoveEnv) (s : MoveState) (a : Nat) :
    (∀ i : Nat, i ≠ a → (animatePhase K M s a).objs i = s.objs i) ∧
    ((animatePhase K M s a).objs a = s.objs a
      ∨ (animatePhase K M s a).objs a = { s.objs a with active := K.kObjectToBeFreed }) := by
  unfold animatePhase
  by_cases h0 : (s.animation a).baseFrameSpeed ≠ 0
  · rw [if_pos h0]
    rcases h1 : animateForward (hasAttr (s.objs a) M.kAnimationCycle) (s.animation a)
        M.animationFuel
        ⟨(s.animation a).thisShape + (s.animation a).frameDirection * (s.animation a).frameSpeed,
         false, true⟩ with _ | s1
    · exact ⟨fun _ _ => rfl, Or.inl rfl⟩
    · dsimp only
      rcases h2 : animateBackward (hasAttr (s.objs a) M.kAnimationCycle) (s.animation a)
          M.animationFuel s1 with _ | s2
      · exact ⟨fun _ _ => rfl, Or.inl rfl⟩
      · dsimp only
        by_cases hm : s2.marked = true
        · rw [if_pos hm]
          exact ⟨fun i hi => modifyObject_other _ _ _ _ hi, Or.inr (modifyObject_same _ _ _)⟩
        · rw [if_neg hm]
          exact ⟨fun _ _ => rfl, Or.inl rfl⟩
  · rw [if_neg h0]
    exact ⟨fun _ _ => rfl, Or.inl rfl⟩

theorem markBeam_frame (K : Consts) (t : BeamTable) (a : Nat) :
    (∀ i : Nat, i ≠ a → (markBeam K t a).objs i = t.objs i) ∧
    ((markBeam K t a).objs a).active = K.kObjectToBeFreed := by
  unfold markBeam
  exact ⟨fun i hi => by dsimp only; rw [modifyObject_other _ _ _ _ hi],
    by dsimp only; rw [modifyObject_same]⟩

theorem anchorRelative_frame (K : Consts) (t : BeamTable) (a : Nat) :
    (∀ i : Nat, i ≠ a → (anchorRelative K t a).objs i = t.objs i) ∧
    (((anchorRelative K t a).objs a).active = (t.objs a).active
      ∨ ((anchorRelative K t a).objs a).active = K.kObjectToBeFreed) := by
  unfold anchorRelative
  rcases (t.links a).fromObject with _ | target
  · exact ⟨fun _ _ => rfl, Or.inl rfl⟩
  · dsimp only
    by_cases hv : targetValid t target (t.links a).fromObjectID = true
    · rw [if_pos hv]
      refine ⟨fun i hi => by dsimp only; rw [modifyObject_other _ _ _ _ hi], Or.inl ?_⟩
      dsimp only
      rw [modifyObject_same]
      rfl
    · rw [if_neg hv]
      exact ⟨(markBeam_frame K t a).1, Or.inr (markBeam_frame K t a).2⟩

/-- The beam branch, whatever the kind of the beam, writes the beam only and leaves it
in the state it had or marks it `kObjectToBeFreed`. -/
theorem beamPhase_frame (K : Consts) (B : BeamEnv) (t r : BeamTable) (a : Nat)
    (h : beamPhase K B t a = some r) :
    (∀ i : Nat, i ≠ a → r.objs i = t.objs i) ∧
    ((r.objs a).active = (t.objs a).active ∨ (r.objs a).active = K.kObjectToBeFreed) := by
  unfold beamPhase at h
  rcases hd : (t.objs a).beam with _ | b
  · rw [hd] at h
    exact absurd h (by simp)
  · rw [hd] at h
    dsimp only at h
    obtain ⟨u1, hu1⟩ : ∃ u1 : BeamTable, u1 = { t with links := (Function.update t.links a
        { t.links a with objectLocation := (t.objs a).location }) } := ⟨_, rfl⟩
    have o1 : u1.objs = t.objs := by rw [hu1]
    rw [← hu1] at h
    split at h
    · have e := Option.some.inj h
      obtain ⟨_, p2, _, _, _, p6, _⟩ := anchorTo_props K u1 a
      obtain ⟨_, q2, _, q4, _⟩ := anchorFrom_props K (anchorTo K u1 a) a
      rw [← e]
      refine ⟨fun i hi => ?_, ?_⟩
      · rw [q2 i hi, p2 i hi, o1]
      · rw [q4]
        split
        · exact Or.inr rfl
        · rw [p6, o1]
          split
          · exact Or.inr rfl
          · exact Or.inl rfl
    · split at h
      · have e := Option.some.inj h
        obtain ⟨f1, f2⟩ := anchorRelative_frame K u1 a
        rw [← e]
        rw [o1] at f1 f2
        exact ⟨f1, f2⟩
      · have e := Option.some.inj h
        rw [← e, o1]
        exact ⟨fun _ _ => rfl, Or.inl rfl⟩

/-- What one unit does to the table: an object not in use is left alone; otherwise the
object `a` alone is written, and it ends in use or marked `kObjectToBeFreed`. -/
theorem moveSpaceObject_frame (K : Consts) (X : MathExt) (B : BeamEnv) (M : MoveEnv)
    (s : MoveState) (a : Nat) :
    ((s.objs a).active ≠ K.kObjectInUse → moveSpaceObject K X B M s a = s) ∧
    (∀ i : Nat, i ≠ a → (moveSpaceObject K X B M s a).objs i = s.objs i) ∧
    ((s.objs a).active = K.kObjectInUse →
      ((moveSpaceObject K X B M s a).objs a).active = K.kObjectInUse
        ∨ ((moveSpaceObject K X B M s a).objs a).active = K.kObjectToBeFreed) := by
  obtain ⟨_, _, m3⟩ := moved_fields K X (s.objs a)
  have hsame : (modifyObject s.objs a (fun o => boundsPhase K (motionPhase K X o))) a
      = boundsPhase K (motionPhase K X (s.objs a)) := modifyObject_same _ _ _
  have hoth : ∀ i : Nat, i ≠ a →
      (modifyObject s.objs a (fun o => boundsPhase K (motionPhase K X o))) i = s.objs i :=
    fun i hi => modifyObject_other _ _ _ _ hi
  by_cases hin : (s.objs a).active = K.kObjectInUse
  · have m4 : (boundsPhase K (motionPhase K X (s.objs a))).active = K.kObjectInUse
        ∨ (boundsPhase K (motionPhase K X (s.objs a))).active = K.kObjectToBeFreed := by
      rcases m3 with h | h
      · exact Or.inl (h.trans hin)
      · exact Or.inr h
    refine ⟨fun h => absurd hin h, ?_⟩
    unfold moveSpaceObject
    rw [if_pos hin]
    by_cases hs : hasAttr (boundsPhase K (motionPhase K X (s.objs a))) B.kIsSelfAnimated = true
    · rw [if_pos hs]
      obtain ⟨f1, f2⟩ := animatePhase_frame K M
        { s with objs := (modifyObject s.objs a (fun o => boundsPhase K (motionPhase K X o))) } a
      refine ⟨fun i hi => (f1 i hi).trans (hoth i hi), fun _ => ?_⟩
      rcases f2 with f2 | f2
      · rw [f2]
        dsimp only
        rw [hsame]
        exact m4
      · rw [f2]
        exact Or.inr rfl
    · rw [if_neg hs]
      by_cases hb : hasAttr (boundsPhase K (motionPhase K X (s.objs a))) K.kIsBeam = true
      · rw [if_pos hb]
        rcases hp : beamPhase K B
            ⟨modifyObject s.objs a (fun o => boundsPhase K (motionPhase K X o)), s.id, s.links⟩
            a with _ | r
        · dsimp only
          refine ⟨hoth, fun _ => ?_⟩
          rw [hsame]
          exact m4
        · obtain ⟨f1, f2⟩ := beamPhase_frame K B _ r a hp
          dsimp only at f1 f2 ⊢
          refine ⟨fun i hi => (f1 i hi).trans (hoth i hi), fun _ => ?_⟩
          rw [hsame] at f2
          rcases f2 with f2 | f2
          · rw [f2]; exact m4
          · exact Or.inr f2
      · rw [if_neg hb]
        dsimp only
        refine ⟨hoth, fun _ => ?_⟩
        rw [hsame]
        exact m4
  · have e : moveSpaceObject K X B M s a = s := by
      unfold moveSpaceObject
      rw [if_neg hin]
    exact ⟨fun _ => e, fun i _ => by rw [e], fun h => absurd h hin⟩

theorem moveSpaceObject_deferred (K : Consts) (X : MathExt) (B : BeamEnv) (M : MoveEnv)
    (s : MoveState) (a i : Nat) :
    Deferred K (s.objs i) ((moveSpaceObject K X B M s a).objs i) := by
  obtain ⟨f0, f1, f2⟩ := moveSpaceObject_frame K X B M s a
  by_cases hi : i = a
  · subst hi
    by_cases hin : (s.objs i).active = K.kObjectInUse
    · intro _
      rcases f2 hin with h | h
      · exact ⟨Or.inr (Or.inl h), Or.inl (h.trans hin.symm)⟩
      · exact ⟨Or.inr (Or.inr h), Or.inr ⟨hin, h⟩⟩
    · rw [f0 hin]
      exact Deferred.refl K _
  · rw [f1 i hi]
    exact Deferred.refl K _

theorem moveObjects_deferred (K : Consts) (X : MathExt) (B : BeamEnv) (M : MoveEnv)
    (order : List Nat) (s : MoveState) (i : Nat) :
    Deferred K (s.objs i) ((moveObjects K X B M order s).objs i) := by
  unfold moveObjects
  refine foldl_related (Deferred K) (Deferred.refl K) (Deferred.trans K)
    (fun s : MoveState => s.objs) _ (fun s a i => ?_) order s i
  dsimp only
  split
  · exact Deferred.refl K _
  · exact moveSpaceObject_deferred K X B M s a i

theorem moveUnits_deferred (K : Consts) (X : MathExt) (B : BeamEnv) (M : MoveEnv)
    (unitsToDo : Int) (order : List Nat) (s : MoveState) (i : Nat) :
    Deferred K (s.objs i) ((moveUnits K X B M unitsToDo order s).objs i) := by
  unfold moveUnits
  exact foldl_related (Deferred K) (Deferred.refl K) (Deferred.trans K)
    (fun s : MoveState => s.objs) _ (fun s _ i => moveObjects_deferred K X B M order s i)
    _ s i
/-- An object that takes the animation branch, or neither branch, ends the unit where
the boundary check has put it. -/
theorem moveSpaceObject_location (K : Consts) (X : MathExt) (B : BeamEnv) (M : MoveEnv)
    (s : MoveState) (a : Nat) (hact : (s.objs a).active = K.kObjectInUse)
    (hkind : hasAttr (s.objs a) B.kIsSelfAnimated = true ∨ hasAttr (s.objs a) K.kIsBeam = false) :
    ((moveSpaceObject K X B M s a).objs a).location = (moveObject K X (s.objs a)).location ∧
    ((moveSpaceObject K X B M s a).objs a).velocity = (moveObject K X (s.objs a)).velocity := by
  obtain ⟨m1, _, _⟩ := moved_fields K X (s.objs a)
  have hsame : (modifyObject s.objs a (fun o => boundsPhase K (motionPhase K X o))) a
      = boundsPhase K (motionPhase K X (s.objs a)) := modifyObject_same _ _ _
  have hmove : moveObject K X (s.objs a) = boundsPhase K (motionPhase K X (s.objs a)) := by
    unfold moveObject
    rw [if_pos hact]
  have ha : ∀ m : Nat, hasAttr (boundsPhase K (motionPhase K X (s.objs a))) m
      = hasAttr (s.objs a) m := fun m => hasAttr_congr _ _ m m1
  rw [hmove]
  unfold moveSpaceObject
  rw [if_pos hact, ha, ha]
  by_cases hs : hasAttr (s.objs a) B.kIsSelfAnimated = true
  · rw [if_pos hs]
    obtain ⟨_, f2⟩ := animatePhase_frame K M
      { s with objs := (modifyObject s.objs a (fun o => boundsPhase K (motionPhase K X o))) } a
    rcases f2 with f2 | f2
    · rw [f2]
      dsimp only
      rw [hsame]
      exact ⟨rfl, rfl⟩
    · rw [f2]
      dsimp only
      rw [hsame]
      exact ⟨rfl, rfl⟩
  · rw [if_neg hs]
    have hb : hasAttr (s.objs a) K.kIsBeam = false := by
      rcases hkind with h | h
      · exact absurd h hs
      · exact h
    rw [hb]
    simp only [Bool.false_eq_true, if_false]
    rw [hsame]
    exact ⟨rfl, rfl⟩

/-- C24, as stated, fails for a beam: the sample beam bounces, is in use and lies in
the middle of the world; its to-target, in use and with the id the beam has stored,
lies one unit to the left of the world. After the boundary check the beam branch
moves the beam to the location of its target (motion.cpp:401-403): at the end of the
unit the beam is in use and its `location.h` is below `kThinkiverseTopLeft`. -/
theorem C24_counterexample :
    (demoBouncingBeam.objs 0).active = demoConsts.kObjectInUse ∧
    hasAttr (demoBouncingBeam.objs 0) demoConsts.kDoesBounce = true ∧
    ((moveSpaceObject demoConsts demoExt demoBeamEnv demoMoveEnv demoBouncingBeam 0).objs 0).active
      = demoConsts.kObjectInUse ∧
    ((moveSpaceObject demoConsts demoExt demoBeamEnv demoMoveEnv demoBouncingBeam 0).objs 0).location
      = ⟨1073610754, 1073741823⟩ ∧
    ((moveSpaceObject demoConsts demoExt demoBeamEnv demoMoveEnv demoBouncingBeam
        0).objs 0).location.h < kThinkiverseTopLeft demoConsts := by
  decide

/-- C24, amended: for an object in use with `kDoesBounce`, after the boundary check
of a sub-tick unit of `MoveSpaceObjects` both coordinates lie within
`[kThinkiverseTopLeft, kThinkiverseBottomRight]`, and they still do at the end of the
unit if the object is self-animated or is not a beam, the rest of the unit leaving its
location and velocity as the check has left them (the beam branch can move a beam to
the location of a target outside the range). On each axis independently, a moved
coordinate below the range is set to `kThinkiverseTopLeft` and one above it to
`kThinkiverseBottomRight`, with the velocity of that axis negated, and a coordinate
inside the range is kept with its velocity; the boundary check leaves the object in
use. -/
theorem C24_bounce_clamps (K : Consts) (X : MathExt) (B : BeamEnv) (M : MoveEnv)
    (s : MoveState) (a : Nat)
    (hact : (s.objs a).active = K.kObjectInUse)
    (hb : hasAttr (s.objs a) K.kDoesBounce = true) :
    (kThinkiverseTopLeft K ≤ (moveObject K X (s.objs a)).location.h ∧
      (moveObject K X (s.objs a)).location.h ≤ kThinkiverseBottomRight K ∧
      kThinkiverseTopLeft K ≤ (moveObject K X (s.objs a)).location.v ∧
      (moveObject K X (s.objs a)).location.v ≤ kThinkiverseBottomRight K) ∧
    ((hasAttr (s.objs a) B.kIsSelfAnimated = true ∨ hasAttr (s.objs a) K.kIsBeam = false) →
      ((moveSpaceObject K X B M s a).objs a).location = (moveObject K X (s.objs a)).location ∧
      ((moveSpaceObject K X B M s a).objs a).velocity = (moveObject K X (s.objs a)).velocity ∧
      kThinkiverseTopLeft K ≤ ((moveSpaceObject K X B M s a).objs a).location.h ∧
      ((moveSpaceObject K X B M s a).objs a).location.h ≤ kThinkiverseBottomRight K ∧
      kThinkiverseTopLeft K ≤ ((moveSpaceObject K X B M s a).objs a).location.v ∧
      ((moveSpaceObject K X B M s a).objs a).location.v ≤ kThinkiverseBottomRight K) ∧
    ((motionPhase K X (s.objs a)).location.h < kThinkiverseTopLeft K →
      (moveObject K X (s.objs a)).location.h = kThinkiverseTopLeft K ∧
      (moveObject K X (s.objs a)).velocity.h = -(motionPhase K X (s.objs a)).velocity.h) ∧
    ((motionPhase K X (s.objs a)).location.h > kThinkiverseBottomRight K →
      (moveObject K X (s.objs a)).location.h = kThinkiverseBottomRight K ∧
      (moveObject K X (s.objs a)).velocity.h = -(motionPhase K X (s.objs a)).velocity.h) ∧
    (kThinkiverseTopLeft K ≤ (motionPhase K X (s.objs a)).location.h →
      (motionPhase K X (s.objs a)).location.h ≤ kThinkiverseBottomRight K →
      (moveObject K X (s.objs a)).location.h = (motionPhase K X (s.objs a)).location.h ∧
      (moveObject K X (s.objs a)).velocity.h = (motionPhase K X (s.objs a)).velocity.h) ∧
    ((motionPhase K X (s.objs a)).location.v < kThinkiverseTopLeft K →
      (moveObject K X (s.objs a)).location.v = kThinkiverseTopLeft K ∧
      (moveObject K X (s.objs a)).velocity.v = -(motionPhase K X (s.objs a)).velocity.v) ∧
    ((motionPhase K X (s.objs a)).location.v > kThinkiverseBottomRight K →
      (moveObject K X (s.objs a)).location.v = kThinkiverseBottomRight K ∧
      (moveObject K X (s.objs a)).velocity.v = -(motionPhase K X (s.objs a)).velocity.v) ∧
    (kThinkiverseTopLeft K ≤ (motionPhase K X (s.objs a)).location.v →
      (motionPhase K X (s.objs a)).location.v ≤ kThinkiverseBottomRight K →
      (moveObject K X (s.objs a)).location.v = (motionPhase K X (s.objs a)).location.v ∧
      (moveObject K X (s.objs a)).velocity.v = (motionPhase K X (s.objs a)).velocity.v) ∧
    (moveObject K X (s.objs a)).active = K.kObjectInUse := by
  obtain ⟨r, h1, h2, h3, h4, h5, h6, h7⟩ := moveObject_bounce K X (s.objs a) hact hb
  refine ⟨r, fun hkind => ?_, h1, h2, h3, h4, h5, h6, h7⟩
  obtain ⟨e1, e2⟩ := moveSpaceObject_location K X B M s a hact hkind
  rw [e1]
  exact ⟨rfl, e2, r.1, r.2.1, r.2.2.1, r.2.2.2⟩

/-- Witness for C24: the self-animated sample object bounces and drifts one unit past
the left edge; at the end of the unit it is on the edge with its horizontal velocity
negated, although the animation branch has marked it `kObjectToBeFreed` (it has run
past its last shape). -/
theorem C24_bounce_clamps_witness :
    ((moveSpaceObject demoConsts demoExt demoBeamEnv demoMoveEnv demoAnimated 0).objs 0).active
      = demoConsts.kObjectToBeFreed ∧
    ((moveSpaceObject demoConsts demoExt demoBeamEnv demoMoveEnv demoAnimated 0).objs 0).location.h
      = kThinkiverseTopLeft demoConsts ∧
    kThinkiverseTopLeft demoConsts
      ≤ ((moveSpaceObject demoConsts demoExt demoBeamEnv demoMoveEnv demoAnimated
          0).objs 0).location.h :=
  ⟨by decide, by decide,
   ((C24_bounce_clamps demoConsts demoExt demoBeamEnv demoMoveEnv demoAnimated 0 (by decide)
      (by decide)).2.1 (Or.inl (by decide))).2.2.1⟩
/-- `CorrectPhysicalSpace` writes no `active` field. -/
theorem CorrectPhysicalSpace_active (X : MathExt) (fuel : Nat) (a b a1 b1 : SpaceObject)
    (h : CorrectPhysicalSpace X fuel a b = SepOutcome.done a1 b1) :
    a1.active = a.active ∧ b1.active = b.active := by
  obtain ⟨_, _, ea, eb⟩ := CorrectPhysicalSpace_rigid X fuel a b a1 b1 h
  have ha : (motionErased a1).active = (motionErased a).active := by rw [ea]
  have hb : (motionErased b1).active = (motionErased b).active := by rw [eb]
  exact ⟨ha, hb⟩

/-- The call of motion.cpp:881 changes no `active` field of the table. -/
theorem correctInTable_active (X : MathExt) (fuel : Nat) (objs : Objs) (a b i : Nat) :
    ((correctInTable X fuel objs a b) i).active = (objs i).active := by
  unfold correctInTable
  rcases h : CorrectPhysicalSpace X fuel (objs a) (objs b) with ⟨a1, b1⟩ | _ | _
  · obtain ⟨ea, eb⟩ := CorrectPhysicalSpace_active X fuel _ _ a1 b1 h
    dsimp only
    by_cases hb : i = b
    · subst hb
      rw [Function.update_same]
      exact eb
    · rw [Function.update_noteq hb]
      by_cases ha : i = a
      · subst ha
        rw [Function.update_same]
        exact ea
      · rw [Function.update_noteq ha]
  · rfl
  · rfl

/-- C25: destruction is deferred. Provided the actions defined outside motion.cpp that
the passes call (`exec` of the expire and activate actions, `HitObject`) themselves
only ever take an object from in use to `kObjectToBeFreed`, for every object of the
table its `active` state stays what it was or goes from `kObjectInUse` to
`kObjectToBeFreed` over one sub-tick unit of `MoveSpaceObjects` for any object (motion,
boundary check, animation and beam branches, motion.cpp:163-459), over any number of
units for any list of objects, over the grid rebuild, and over the near pass of
`CollideSpaceObjects` with `CorrectPhysicalSpace` of motion.cpp:1007 as its resolver,
which itself writes no `active` state. The far pass changes no `active` state at all.
None of them calls `free()`: it is called in the closing sweep only, and there on
exactly the objects of the list that are `kObjectToBeFreed` when the sweep starts, in
the order of the list. (The second loop of `MoveSpaceObjects`, motion.cpp:461-561,
writes sprite fields and `runTimeFlags` only.) -/
theorem C25_deferred_destruction (K : Consts) (X : MathExt) (B : BeamEnv) (M : MoveEnv)
    (R : RebuildEnv) (E : PassEnv) (W : SweepEnv)
    (hexp : ∀ t a i, Deferred K (t i) (R.execExpire t a i))
    (hact : ∀ t a i, Deferred K (t i) (R.execActivate t a i))
    (hhit : ∀ t a b i, Deferred K (t i) (E.HitObject t a b i)) :
    (∀ (s : MoveState) (a i : Nat),
      Deferred K (s.objs i) ((moveSpaceObject K X B M s a).objs i)) ∧
    (∀ (s : MoveState) (a : Nat), (s.objs a).active = K.kObjectInUse →
      ((moveSpaceObject K X B M s a).objs a).active = K.kObjectInUse ∨
      ((moveSpaceObject K X B M s a).objs a).active = K.kObjectToBeFreed) ∧
    (∀ (unitsToDo : Int) (order : List Nat) (s : MoveState) (i : Nat),
      Deferred K (s.objs i) ((moveUnits K X B M unitsToDo order s).objs i)) ∧
    (∀ (objs : Objs) (g : Grid) (order : List Nat) (i : Nat),
      Deferred K (objs i) ((rebuildGrid K R objs g order).objs i)) ∧
    (∀ (fuel : Nat) (a b a1 b1 : SpaceObject),
      CorrectPhysicalSpace X fuel a b = SepOutcome.done a1 b1 →
      a1.active = a.active ∧ b1.active = b.active) ∧
    (∀ (fuel : Nat) (objs : Objs) (g : Grid) (i : Nat),
      Deferred K (objs i) ((nearPass K (withResolver E X fuel) g objs).objs i)) ∧
    (∀ (objs : Objs) (g : Grid) (i : Nat),
      ((farPass K E g objs).objs i).active = (objs i).active) ∧
    (∀ (objs : Objs) (all : List Nat), all.Nodup →
      (closingSweep K W objs all).freed
        = all.filter (fun a => decide ((objs a).active = K.kObjectToBeFreed))) := by
  refine ⟨fun s a i => moveSpaceObject_deferred K X B M s a i,
    fun s a h => (moveSpaceObject_frame K X B M s a).2.2 h,
    fun u order s i => moveUnits_deferred K X B M u order s i,
    fun objs g order i => ?_,
    fun fuel a b a1 b1 h => CorrectPhysicalSpace_active X fuel a b a1 b1 h,
    fun fuel objs g i => nearPass_deferred K (withResolver E X fuel) hhit
      (fun t a b i => Deferred.of_active K _ _ (correctInTable_active X fuel t a b i)) g objs i,
    fun objs g i => farPass_active K E g objs i, fun objs all hnd => ?_⟩
  · unfold rebuildGrid
    exact foldl_related (Deferred K) (Deferred.refl K) (Deferred.trans K)
      (fun s : RebuildState => s.objs) _
      (fun s a i => rebuildStep_deferred K R hexp hact s a i) order (rebuildStart objs g) i
  · unfold closingSweep
    rw [foldl_sweepStep_freed K W all _ hnd]
    rfl

/-- Witness for C25: the self-animated sample object, in use and past its last shape
without `kAnimationCycle`, is `kObjectToBeFreed` after one unit of `MoveSpaceObjects`,
which is a deferred change; and the closing sweep over the sample table with the beam
marked for removal frees that beam and nothing else. -/
theorem C25_deferred_destruction_witness :
    (demoAnimated.objs 0).active = demoConsts.kObjectInUse ∧
    ((moveSpaceObject demoConsts demoExt demoBeamEnv demoMoveEnv demoAnimated 0).objs 0).active
      = demoConsts.kObjectToBeFreed ∧
    Deferred demoConsts (demoAnimated.objs 0)
      ((moveSpaceObject demoConsts demoExt demoBeamEnv demoMoveEnv demoAnimated 0).objs 0) ∧
    (closingSweep demoConsts demoSweep demoFreedObjs [0, 1, 2, 3]).freed
      = [0, 1, 2, 3].filter
          (fun a => decide ((demoFreedObjs a).active = demoConsts.kObjectToBeFreed)) ∧
    [0, 1, 2, 3].filter
        (fun a => decide ((demoFreedObjs a).active = demoConsts.kObjectToBeFreed)) = [2] :=
  ⟨by decide, by decide,
   (C25_deferred_destruction demoConsts demoExt demoBeamEnv demoMoveEnv demoRebuildEnv demoEnv
      demoSweep
      (fun t _ i => Deferred.refl demoConsts (t i))
      (fun t _ i => Deferred.refl demoConsts (t i))
      (fun t _ _ i => Deferred.refl demoConsts (t i))).1 demoAnimated 0 0,
   (C25_deferred_destruction demoConsts demoExt demoBeamEnv demoMoveEnv demoRebuildEnv demoEnv
      demoSweep
      (fun t _ i => Deferred.refl demoConsts (t i))
      (fun t _ i => Deferred.refl demoConsts (t i))
      (fun t _ _ i => Deferred.refl demoConsts (t i))).2.2.2.2.2.2.2 demoFreedObjs [0, 1, 2, 3]
      (by decide),
   by decide⟩
/-! ## The nearest-target record as a fold over the considerations -/

/-- What a loop leaves in a projection of its state is the fold, over the log of the
loop, of the update each log entry stands for, if that holds for every step. -/
theorem foldl_log_fold {σ α β ρ : Type} (proj : σ → ρ) (upd : ρ → β → ρ) (f : σ → α → σ)
    (log : σ → α → List β)
    (h : ∀ s a, proj (f s a) = (log s a).foldl upd (proj s)) :
    ∀ (l : List α) (s : σ), proj (l.foldl f s) = (foldlLog f log l s).foldl upd (proj s) := by
  intro l
  induction l with
  | nil => intro s; rfl
  | cons a rest ih =>
    intro s
    rw [List.foldl_cons, ih, foldlLog, List.foldl_append, h]

/-- One evaluation of motion.cpp:942-947 as an update of the record of any object. -/
theorem farClosest_record (K : Consts) (E : PassEnv) (d : Int) (objs : Objs) (p q z : Nat) :
    closestRecord (farClosest K E d objs p q z)
      = considerAs z (closestRecord (objs z))
          ⟨p, q, d, E.engages (objs p) (objs q) && hasAttr (objs q) K.kPotentialTarget⟩ := by
  unfold farClosest considerAs consider
  dsimp only
  by_cases hz : p = z
  · subst hz
    rw [if_pos rfl]
    by_cases he : E.engages (objs p) (objs q) = true
    · rw [if_pos he, he, Bool.true_and]
      by_cases hc : d < (objs p).closestDistance ∧ hasAttr (objs q) K.kPotentialTarget = true
      · have hc2 : d < (closestRecord (objs p)).2 ∧ hasAttr (objs q) K.kPotentialTarget = true := hc
        rw [if_pos hc, if_pos hc2, modifyObject_same]
        rfl
      · have hc2 : ¬ (d < (closestRecord (objs p)).2
            ∧ hasAttr (objs q) K.kPotentialTarget = true) := hc
        rw [if_neg hc, if_neg hc2]
    · rw [if_neg he]
      have he2 : E.engages (objs p) (objs q) = false := by
        cases h : E.engages (objs p) (objs q)
        · rfl
        · exact absurd h he
      rw [he2, Bool.false_and]
      simp
  · rw [if_neg hz]
    have hzp : z ≠ p := fun h => hz h.symm
    split
    · split
      · rw [modifyObject_other _ _ _ _ hzp]
      · rfl
    · rfl

theorem farPair_record (K : Consts) (E : PassEnv) (g : Grid) (a k : Nat) (superx supery : Int)
    (z : Nat) (s : PassState) (b : Nat) :
    closestRecord ((farPair K E g a k superx supery s b).objs z)
      = (farPairLog K E g a superx supery s b).foldl (considerAs z)
          (closestRecord (s.objs z)) := by
  have hstr : ∀ (o : SpaceObject) (c t : Int),
      closestRecord { o with localFoeStrength := c } = closestRecord o ∧
      closestRecord { o with localFriendStrength := t } = closestRecord o :=
    fun _ _ _ => ⟨rfl, rfl⟩
  have hseen : ∀ (o : SpaceObject) (c t : Nat),
      closestRecord { o with seenByPlayerFlags := c } = closestRecord o ∧
      closestRecord { o with runTimeFlags := t } = closestRecord o :=
    fun _ _ _ => ⟨rfl, rfl⟩
  unfold farPair farPairLog
  by_cases h1 : (s.objs b).owner ≠ (s.objs a).owner
      ∧ (g.distanceGrid b).h = superx ∧ (g.distanceGrid b).v = supery
      ∧ canSee K (s.objs b) = true ∧ canSee K (s.objs a) = true
  · rw [if_pos h1, if_pos h1]
    dsimp only
    rw [farStrengthFoe_field closestRecord _ _ _ _ hstr, farClosest_record, farClosest_record,
      farSeen_field closestRecord _ _ _ _ _ _ hseen]
    rfl
  · rw [if_neg h1, if_neg h1]
    by_cases h2 : (g.distanceGrid b).h = superx ∧ (g.distanceGrid b).v = supery ∧ k = 0
    · rw [if_pos h2]
      by_cases h3 : (s.objs a).owner ≠ (s.objs b).owner
      · rw [if_pos h3]
        dsimp only
        rw [farStrengthFoe_field closestRecord _ _ _ _ hstr]
        rfl
      · rw [if_neg h3]
        dsimp only
        rw [farStrengthFriend_field closestRecord _ _ _ _ hstr]
        rfl
    · rw [if_neg h2]
      rfl

theorem farUnit_record (K : Consts) (E : PassEnv) (g : Grid) (i : Int) (a z : Nat)
    (st : PassState × Int) (k : Nat) :
    closestRecord ((farUnit K E g i a st k).1.objs z)
      = (farUnitLog K E g i a st k).foldl (considerAs z) (closestRecord (st.1.objs z)) := by
  have hfold : ∀ (sx sy : Int) (l : List Nat) (s : PassState),
      closestRecord ((l.foldl (farPair K E g a k sx sy) s).objs z)
        = (foldlLog (farPair K E g a k sx sy) (farPairLog K E g a sx sy) l s).foldl
            (considerAs z) (closestRecord (s.objs z)) :=
    fun sx sy l s => foldl_log_fold (fun s : PassState => closestRecord (s.objs z))
      (considerAs z) _ _ (fun s b => farPair_record K E g a k sx sy z s b) l s
  unfold farUnit farUnitLog
  by_cases hk : k = 0
  · rw [if_pos hk, if_pos hk]
    dsimp only
    by_cases hneg : (g.distanceGrid a).h < 0 ∨ (g.distanceGrid a).v < 0
    · rw [if_pos hneg, if_pos hneg]
      rfl
    · rw [if_neg hneg, if_neg hneg]
      exact hfold _ _ _ _
  · rw [if_neg hk, if_neg hk]
    dsimp only
    by_cases hneg : (g.distanceGrid a).h + (g.unitsToCheck i k).superOffset.h < 0
        ∨ (g.distanceGrid a).v + (g.unitsToCheck i k).superOffset.v < 0
    · rw [if_pos hneg, if_pos hneg]
      rfl
    · rw [if_neg hneg, if_neg hneg]
      exact hfold _ _ _ _

theorem farObjectStep_record (K : Consts) (E : PassEnv) (g : Grid) (i : Int) (z : Nat)
    (s : PassState) (a : Nat) :
    closestRecord ((farObjectStep K E g i s a).objs z)
      = (farObjectLog K E g i s a).foldl (considerAs z) (closestRecord (s.objs z)) := by
  unfold farObjectStep farObjectLog
  exact foldl_log_fold (fun st : PassState × Int => closestRecord (st.1.objs z))
    (considerAs z) _ _ (fun st k => farUnit_record K E g i a z st k) _ (s, i)

theorem farCell_record (K : Consts) (E : PassEnv) (g : Grid) (z : Nat)
    (s : PassState) (i : Nat) :
    closestRecord ((farCell K E g s i).objs z)
      = (farCellLog K E g s i).foldl (considerAs z) (closestRecord (s.objs z)) := by
  unfold farCell farCellLog
  exact foldl_log_fold (fun s : PassState => closestRecord (s.objs z))
    (considerAs z) _ _ (fun s a => farObjectStep_record K E g i z s a) _ s

theorem farPass_record (K : Consts) (E : PassEnv) (g : Grid) (objs : Objs) (z : Nat) :
    closestRecord ((farPass K E g objs).objs z)
      = (farPassLog K E g objs).foldl (considerAs z) (closestRecord (objs z)) := by
  unfold farPass farPassLog
  exact foldl_log_fold (fun s : PassState => closestRecord (s.objs z))
    (considerAs z) _ _ (fun s i => farCell_record K E g z s i) _ ⟨objs, [], false⟩

/-- Only the considerations of the object itself count for its record. -/
theorem foldl_considerAs (x : Nat) :
    ∀ (l : List Consideration) (r : Option Nat × Int),
      l.foldl (considerAs x) r = (considerationsOf x l).foldl consider r := by
  intro l
  induction l with
  | nil => intro r; rfl
  | cons c rest ih =>
    intro r
    unfold considerationsOf at ih ⊢
    rw [List.foldl_cons, ih, List.filter_cons]
    unfold considerAs
    by_cases h : c.subject = x
    · rw [if_pos h]
      have hb : (c.subject == x) = true := by rw [h]; exact beq_self_eq_true x
      rw [if_pos hb, List.foldl_cons]
    · rw [if_neg h]
      have hb : ¬ ((c.subject == x) = true) := fun hb => h (eq_of_beq hb)
      rw [if_neg hb]

/-- Considerations that are not accepted or are not nearer than a bound leave a record
that is nearer than the bound nearer than the bound. -/
theorem foldl_consider_above (d : Int) :
    ∀ (l : List Consideration) (r : Option Nat × Int), d < r.2 →
      (∀ c ∈ l, c.accepted = true → d < c.distance) → d < (l.foldl consider r).2 := by
  intro l
  induction l with
  | nil => intro r hr _; exact hr
  | cons c rest ih =>
    intro r hr hl
    rw [List.foldl_cons]
    refine ih _ ?_ (fun c1 h1 => hl c1 (List.mem_cons_of_mem _ h1))
    unfold consider
    by_cases hc : c.distance < r.2 ∧ c.accepted = true
    · rw [if_pos hc]
      exact hl c (List.mem_cons_self _ _) hc.2
    · rw [if_neg hc]
      exact hr

/-- Considerations that are not accepted or are not nearer than the record leave it. -/
theorem foldl_consider_kept :
    ∀ (l : List Consideration) (r : Option Nat × Int),
      (∀ c ∈ l, c.accepted = true → r.2 ≤ c.distance) → l.foldl consider r = r := by
  intro l
  induction l with
  | nil => intro r _; rfl
  | cons c rest ih =>
    intro r hl
    have hstep : consider r c = r := by
      unfold consider
      by_cases hc : c.distance < r.2 ∧ c.accepted = true
      · have := hl c (List.mem_cons_self _ _) hc.2
        omega
      · rw [if_neg hc]
    rw [List.foldl_cons, hstep]
    exact ih r (fun c1 h1 => hl c1 (List.mem_cons_of_mem _ h1))

/-- The first accepted consideration at the least distance is the one recorded. -/
theorem foldl_consider_earliest (pre post : List Consideration) (o : Consideration)
    (r : Option Nat × Int) (hacc : o.accepted = true) (hd : o.distance < r.2)
    (hpre : ∀ c ∈ pre, c.accepted = true → o.distance < c.distance)
    (hpost : ∀ c ∈ post, c.accepted = true → o.distance ≤ c.distance) :
    (pre ++ o :: post).foldl consider r = (some o.candidate, o.distance) := by
  have h1 := foldl_consider_above o.distance pre r hd hpre
  have h2 : consider (pre.foldl consider r) o = (some o.candidate, o.distance) := by
    unfold consider
    rw [if_pos ⟨h1, hacc⟩]
  rw [List.foldl_append, List.foldl_cons, h2]
  exact foldl_consider_kept post _ hpost
/-- C17: nearest-target selection in the far-grid pass uses strict less-than. One
evaluation of motion.cpp:942-947 changes the record (`closestObject`,
`closestDistance`) of the considering object only, and only if the distance of the
candidate is strictly smaller than its `closestDistance`, which then becomes that
distance with the candidate as `closestObject`. Over the pass `closestDistance` never
increases, and `closestObject` is kept where `closestDistance` is. The record an object
has after the pass is the one obtained from its record before the pass by going
through the candidates it considers, in the order of the pass, and taking each accepted
candidate (engaged, with `kPotentialTarget`) that is strictly nearer than the record.
So if `o` is an accepted candidate nearer than the record before the pass, every
accepted candidate processed before it is strictly farther and no accepted candidate
processed after it is nearer, then `o` is the final `closestObject`, at its distance:
among candidates at equal minimal distance, the earliest processed. -/
theorem C17_nearest_target_strict (K : Consts) (E : PassEnv) (g : Grid) :
    (∀ (d : Int) (objs : Objs) (x y z : Nat),
      closestRecord (farClosest K E d objs x y z) ≠ closestRecord (objs z) →
        z = x ∧ d < (objs x).closestDistance ∧
        (farClosest K E d objs x y x).closestDistance = d ∧
        (farClosest K E d objs x y x).closestObject = some y) ∧
    (∀ (objs : Objs) (i : Nat),
      ((farPass K E g objs).objs i).closestDistance ≤ (objs i).closestDistance ∧
      (((farPass K E g objs).objs i).closestDistance = (objs i).closestDistance →
        ((farPass K E g objs).objs i).closestObject = (objs i).closestObject)) ∧
    (∀ (objs : Objs) (x : Nat),
      closestRecord ((farPass K E g objs).objs x)
        = (considerationsOf x (farPassLog K E g objs)).foldl consider
            (closestRecord (objs x))) ∧
    (∀ (objs : Objs) (x : Nat) (pre post : List Consideration) (o : Consideration),
      considerationsOf x (farPassLog K E g objs) = pre ++ o :: post →
      o.accepted = true →
      o.distance < (objs x).closestDistance →
      (∀ c ∈ pre, c.accepted = true → o.distance < c.distance) →
      (∀ c ∈ post, c.accepted = true → o.distance ≤ c.distance) →
      ((farPass K E g objs).objs x).closestObject = some o.candidate ∧
      ((farPass K E g objs).objs x).closestDistance = o.distance) := by
  have hrec : ∀ (objs : Objs) (x : Nat),
      closestRecord ((farPass K E g objs).objs x)
        = (considerationsOf x (farPassLog K E g objs)).foldl consider
            (closestRecord (objs x)) := by
    intro objs x
    rw [farPass_record, foldl_considerAs]
  refine ⟨fun d objs x y z hne => ?_, (farPass_closest_kept K E g).2.2, hrec,
    fun objs x pre post o hlog hacc hd hpre hpost => ?_⟩
  · rw [farClosest_record] at hne
    unfold considerAs at hne
    dsimp only at hne
    by_cases hz : x = z
    · subst hz
      rw [if_pos rfl] at hne
      have hr := farClosest_record K E d objs x y x
      unfold considerAs at hr
      dsimp only at hr
      rw [if_pos rfl] at hr
      unfold consider at hne hr
      dsimp only at hne hr
      by_cases hc : d < (closestRecord (objs x)).2 ∧
          (E.engages (objs x) (objs y) && hasAttr (objs y) K.kPotentialTarget) = true
      · rw [if_pos hc] at hr
        refine ⟨rfl, hc.1, ?_, ?_⟩
        · exact congrArg Prod.snd hr
        · exact congrArg Prod.fst hr
      · rw [if_neg hc] at hne
        exact absurd rfl hne
    · rw [if_neg hz] at hne
      exact absurd rfl hne
  · have h := hrec objs x
    rw [hlog, foldl_consider_earliest pre post o _ hacc hd hpre hpost] at h
    exact ⟨congrArg Prod.fst h, congrArg Prod.snd h⟩

set_option maxRecDepth 100000 in
/-- Witness for C17: the first sample object considers the two targets at the same
distance 9, the one at handle 2 first (the object inserted last heads the list of its
cell); after the pass its `closestObject` is that target. -/
theorem C17_nearest_target_strict_witness :
    considerationsOf 0 (farPassLog demoConsts demoEngageEnv demoTargetGrid demoTargetObjs)
      = [] ++ (⟨0, 2, 9, true⟩ : Consideration) :: [⟨0, 1, 9, true⟩] ∧
    ((farPass demoConsts demoEngageEnv demoTargetGrid demoTargetObjs).objs 0).closestObject
      = some 2 ∧
    ((farPass demoConsts demoEngageEnv demoTargetGrid demoTargetObjs).objs 0).closestDistance
      = 9 :=
  ⟨by decide,
   (C17_nearest_target_strict demoConsts demoEngageEnv demoTargetGrid).2.2.2 demoTargetObjs 0
     [] [⟨0, 1, 9, true⟩] ⟨0, 2, 9, true⟩ (by decide) (by decide) (by decide) (by decide)
     (by decide)⟩
/-! ## The near pass examines exactly the matched pairs that pass the capability test -/

theorem hitBoxes_attributes (K : Consts) (E : PassEnv)
    (hhit : ∀ t a b i, (E.HitObject t a b i).attributes = (t i).attributes)
    (s1 : PassState) (a b i : Nat) :
    ((hitBoxes K E s1 a b).objs i).attributes = (s1.objs i).attributes := by
  have h1 : ((hitFirst K E s1 a b).objs i).attributes = (s1.objs i).attributes := by
    unfold hitFirst
    split
    · exact hhit _ _ _ _
    · rfl
  have h2 : ((hitSecond K E (hitFirst K E s1 a b) a b).objs i).attributes
      = ((hitFirst K E s1 a b).objs i).attributes := by
    unfold hitSecond
    split
    · exact hhit _ _ _ _
    · rfl
  unfold hitBoxes
  split
  · exact h2.trans h1
  · rfl

theorem hitBeam_attributes (K : Consts) (E : PassEnv)
    (hhit : ∀ t a b i, (E.HitObject t a b i).attributes = (t i).attributes)
    (s1 : PassState) (a b i : Nat) :
    ((hitBeam K E s1 a b).objs i).attributes = (s1.objs i).attributes := by
  unfold hitBeam
  dsimp only
  split
  · rfl
  · split
    · exact hhit _ _ _ _
    · rfl
    · rfl

theorem separate_attributes (K : Consts) (E : PassEnv)
    (hsep : ∀ t a b i, (E.CorrectPhysicalSpace t a b i).attributes = (t i).attributes)
    (s2 : PassState) (a b i : Nat) :
    ((separate K E s2 a b).objs i).attributes = (s2.objs i).attributes := by
  unfold separate
  split
  · rfl
  · split
    · exact hsep _ _ _ _
    · rfl

theorem collidePair_attributes (K : Consts) (E : PassEnv)
    (hhit : ∀ t a b i, (E.HitObject t a b i).attributes = (t i).attributes)
    (hsep : ∀ t a b i, (E.CorrectPhysicalSpace t a b i).attributes = (t i).attributes)
    (s : PassState) (a b i : Nat) :
    ((collidePair K E s a b).objs i).attributes = (s.objs i).attributes := by
  have h0 : (withBounds E s.objs b i).attributes = (s.objs i).attributes :=
    withBounds_attributes E s.objs b i
  have hb := hitBoxes_attributes K E hhit
    ⟨withBounds E s.objs b, s.trace ++ [Event.examined a b], s.aborted⟩ a b i
  have hm := hitBeam_attributes K E hhit
    ⟨withBounds E s.objs b, s.trace ++ [Event.examined a b], s.aborted⟩ a b i
  have hsb := separate_attributes K E hsep
    (hitBoxes K E ⟨withBounds E s.objs b, s.trace ++ [Event.examined a b], s.aborted⟩ a b) a b i
  have hsm := separate_attributes K E hsep
    (hitBeam K E ⟨withBounds E s.objs b, s.trace ++ [Event.examined a b], s.aborted⟩ a b) a b i
  unfold collidePair
  dsimp only
  split_ifs <;> first
    | exact h0
    | exact hb.trans h0
    | exact hm.trans h0
    | exact hsb.trans (hb.trans h0)
    | exact hsm.trans (hm.trans h0)

/-- A loop whose steps keep an invariant, stay stopped once stopped and, when they end
not stopped, add a known list of pairs to those examined: the same holds of the loop,
with the lists of the steps one after the other. -/
theorem foldl_exact {α : Type} (Inv : PassState → Prop) (f : PassState → α → PassState)
    (L : α → List (Nat × Nat))
    (h : ∀ s x, Inv s → Inv (f s x) ∧ (s.aborted = true → (f s x).aborted = true) ∧
      ((f s x).aborted = false → examinedPairs (f s x).trace = examinedPairs s.trace ++ L x)) :
    ∀ (l : List α) (s : PassState), Inv s →
      Inv (l.foldl f s) ∧ (s.aborted = true → (l.foldl f s).aborted = true) ∧
      ((l.foldl f s).aborted = false →
        examinedPairs (l.foldl f s).trace = examinedPairs s.trace ++ l.flatMap L) := by
  intro l
  induction l with
  | nil => intro s hs; exact ⟨hs, fun h => h, fun _ => by simp⟩
  | cons x rest ih =>
    intro s hs
    obtain ⟨i1, m1, e1⟩ := h s x hs
    obtain ⟨i2, m2, e2⟩ := ih (f s x) i1
    rw [List.foldl_cons]
    refine ⟨i2, fun hab => m2 (m1 hab), fun hfin => ?_⟩
    have hmid : (f s x).aborted = false := by
      cases hx : (f s x).aborted
      · rfl
      · rw [m2 hx] at hfin
        exact absurd hfin (by decide)
    rw [e2 hfin, e1 hmid, List.flatMap_cons, List.append_assoc]

theorem nearPair_exact (K : Consts) (E : PassEnv)
    (hhit : ∀ t a b i, (E.HitObject t a b i).attributes = (t i).attributes)
    (hsep : ∀ t a b i, (E.CorrectPhysicalSpace t a b i).attributes = (t i).attributes)
    (objs0 : Objs) (g : Grid) (a : Nat) (superx supery : Int) (s : PassState) (b : Nat)
    (hatt : ∀ j, (s.objs j).attributes = (objs0 j).attributes) :
    (∀ j, ((nearPair K E g a superx supery s b).objs j).attributes = (objs0 j).attributes) ∧
    (s.aborted = true → (nearPair K E g a superx supery s b).aborted = true) ∧
    ((nearPair K E g a superx supery s b).aborted = false →
      examinedPairs (nearPair K E g a superx supery s b).trace
        = examinedPairs s.trace ++
          (if g.collisionGrid b = ⟨superx, supery⟩ ∧ capable K objs0 (a, b) = true
            then [(a, b)] else [])) := by
  by_cases hab : s.aborted = true
  · have e : nearPair K E g a superx supery s b = s := by
      unfold nearPair
      rw [if_pos hab]
    rw [e]
    refine ⟨hatt, fun h => h, fun h => ?_⟩
    rw [hab] at h
    exact absurd h (by decide)
  · by_cases hc : ((s.objs b).attributes ||| (s.objs a).attributes) &&& K.kCanCollide = 0
        ∨ ((s.objs b).attributes ||| (s.objs a).attributes) &&& K.kCanBeHit = 0
        ∨ (g.collisionGrid b).h ≠ superx
        ∨ (g.collisionGrid b).v ≠ supery
    · have e : nearPair K E g a superx supery s b = s := by
        unfold nearPair
        rw [if_neg hab, if_pos hc]
      rw [e]
      refine ⟨hatt, fun h => h, fun _ => ?_⟩
      have hno : ¬ (g.collisionGrid b = ⟨superx, supery⟩ ∧ capable K objs0 (a, b) = true) := by
        rintro ⟨hm, hcap⟩
        unfold capable at hcap
        dsimp only at hcap
        rw [← hatt a, ← hatt b] at hcap
        have hcap2 := of_decide_eq_true hcap
        rcases hc with h | h | h | h
        · exact hcap2 (Or.inl h)
        · exact hcap2 (Or.inr h)
        · exact h (by rw [hm])
        · exact h (by rw [hm])
      rw [if_neg hno, List.append_nil]
    · have e : nearPair K E g a superx supery s b = collidePair K E s a b := by
        unfold nearPair
        rw [if_neg hab, if_neg hc]
      rw [e]
      refine ⟨fun j => (collidePair_attributes K E hhit hsep s a b j).trans (hatt j),
        fun h => absurd h hab, fun _ => ?_⟩
      have h1 : (g.collisionGrid b).h = superx := by
        by_contra c
        exact hc (Or.inr (Or.inr (Or.inl c)))
      have h2 : (g.collisionGrid b).v = supery := by
        by_contra c
        exact hc (Or.inr (Or.inr (Or.inr c)))
      have hm : g.collisionGrid b = ⟨superx, supery⟩ := by
        rw [← h1, ← h2]
      have hcap : capable K objs0 (a, b) = true := by
        unfold capable
        dsimp only
        rw [← hatt a, ← hatt b]
        apply decide_eq_true
        rintro (h | h)
        · exact hc (Or.inl h)
        · exact hc (Or.inr (Or.inl h))
      rw [if_pos ⟨hm, hcap⟩]
      exact collidePair_examined K E s a b

theorem flatMap_matched_capable (a : Nat) (p : Nat → Prop) [DecidablePred p]
    (q : Nat × Nat → Bool) (l : List Nat) :
    (l.flatMap fun b => if p b ∧ q (a, b) = true then [(a, b)] else [])
      = ((l.filter fun b => decide (p b)).map (Prod.mk a)).filter q := by
  induction l with
  | nil => rfl
  | cons x rest ih =>
    rw [List.flatMap_cons, ih]
    by_cases h : p x
    · rw [List.filter_cons_of_pos (by simpa using h), List.map_cons, List.filter_cons]
      by_cases hq : q (a, x) = true
      · rw [if_pos ⟨h, hq⟩, if_pos hq]
        rfl
      · rw [if_neg (fun c => hq c.2), if_neg hq]
        rfl
    · rw [if_neg (fun c => h c.1), List.filter_cons_of_neg (by simpa using h)]
      rfl

theorem nearPairs_exact (K : Consts) (E : PassEnv)
    (hhit : ∀ t a b i, (E.HitObject t a b i).attributes = (t i).attributes)
    (hsep : ∀ t a b i, (E.CorrectPhysicalSpace t a b i).attributes = (t i).attributes)
    (objs0 : Objs) (g : Grid) (a : Nat) (superx supery : Int) (bs : List Nat) (s : PassState)
    (hatt : ∀ j, (s.objs j).attributes = (objs0 j).attributes) :
    (∀ j, ((bs.foldl (nearPair K E g a superx supery) s).objs j).attributes
      = (objs0 j).attributes) ∧
    (s.aborted = true → (bs.foldl (nearPair K E g a superx supery) s).aborted = true) ∧
    ((bs.foldl (nearPair K E g a superx supery) s).aborted = false →
      examinedPairs (bs.foldl (nearPair K E g a superx supery) s).trace
        = examinedPairs s.trace ++
          ((bs.filter fun b => decide (g.collisionGrid b = ⟨superx, supery⟩)).map
            (Prod.mk a)).filter (capable K objs0)) := by
  have := foldl_exact (fun s : PassState => ∀ j, (s.objs j).attributes = (objs0 j).attributes)
    (nearPair K E g a superx supery)
    (fun b => if g.collisionGrid b = ⟨superx, supery⟩ ∧ capable K objs0 (a, b) = true
      then [(a, b)] else [])
    (fun s b hs => nearPair_exact K E hhit hsep objs0 g a superx supery s b hs) bs s hatt
  rw [flatMap_matched_capable a (fun b => g.collisionGrid b = ⟨superx, supery⟩)] at this
  exact this

theorem nearUnit_exact (K : Consts) (E : PassEnv)
    (hhit : ∀ t a b i, (E.HitObject t a b i).attributes = (t i).attributes)
    (hsep : ∀ t a b i, (E.CorrectPhysicalSpace t a b i).attributes = (t i).attributes)
    (objs0 : Objs) (g : Grid) (i : Int) (a : Nat) (st : PassState × Int) (k : Nat)
    (hatt : ∀ j, (st.1.objs j).attributes = (objs0 j).attributes)
    (hinv : st.1.aborted = true ∨ st.2 = cellAfter g.unitsToCheck i (k - 1)) :
    (∀ j, ((nearUnit K E g i a st k).1.objs j).attributes = (objs0 j).attributes) ∧
    (st.1.aborted = true → (nearUnit K E g i a st k).1.aborted = true) ∧
    ((nearUnit K E g i a st k).1.aborted = true ∨
      (nearUnit K E g i a st k).2 = cellAfter g.unitsToCheck i k) ∧
    ((nearUnit K E g i a st k).1.aborted = false →
      examinedPairs (nearUnit K E g i a st k).1.trace
        = examinedPairs st.1.trace ++
          ((unitMatches g E.chainFuel i a k).map (Prod.mk a)).filter (capable K objs0)) := by
  by_cases hab : st.1.aborted = true
  · have e : nearUnit K E g i a st k = st := by
      unfold nearUnit
      rw [if_pos hab]
    rw [e]
    refine ⟨hatt, fun h => h, Or.inl hab, fun h => ?_⟩
    rw [hab] at h
    exact absurd h (by decide)
  · have hcur : st.2 = cellAfter g.unitsToCheck i (k - 1) := by
      rcases hinv with h | h
      · exact absurd h hab
      · exact h
    by_cases hk : k = 0
    · subst hk
      have e0 : expectedSuper g i a 0 = g.collisionGrid a := by
        unfold expectedSuper
        rw [if_pos rfl]
      by_cases hneg : (g.collisionGrid a).h < 0 ∨ (g.collisionGrid a).v < 0
      · have e : nearUnit K E g i a st 0 = st := by
          unfold nearUnit
          rw [if_neg hab, if_pos rfl]
          dsimp only
          rw [if_pos hneg]
        have em : unitMatches g E.chainFuel i a 0 = [] := by
          unfold unitMatches
          rw [e0, if_pos hneg]
        rw [e, em]
        exact ⟨hatt, fun h => h, Or.inr hcur, fun _ => by simp⟩
      · have e : nearUnit K E g i a st 0
            = ((chainFrom g.nextNearObject E.chainFuel (g.nextNearObject a)).foldl
                (nearPair K E g a (g.collisionGrid a).h (g.collisionGrid a).v) st.1, st.2) := by
          unfold nearUnit
          rw [if_neg hab, if_pos rfl]
          dsimp only
          rw [if_neg hneg]
        have em : unitMatches g E.chainFuel i a 0
            = (chainFrom g.nextNearObject E.chainFuel (g.nextNearObject a)).filter
                fun b => decide (g.collisionGrid b = g.collisionGrid a) := by
          unfold unitMatches unitCandidates
          rw [e0, if_neg hneg, if_pos rfl]
        obtain ⟨p1, p2, p3⟩ := nearPairs_exact K E hhit hsep objs0 g a (g.collisionGrid a).h
          (g.collisionGrid a).v
          (chainFrom g.nextNearObject E.chainFuel (g.nextNearObject a)) st.1 hatt
        rw [e, em]
        exact ⟨p1, p2, Or.inr hcur, p3⟩
    · have hcell : st.2 + (g.unitsToCheck i k).adjacentUnit = cellAfter g.unitsToCheck i k := by
        rw [hcur]; exact cellAfter_pred_succ _ _ _ hk
      have e0 : expectedSuper g i a k
          = ⟨(g.collisionGrid a).h + (g.unitsToCheck i k).superOffset.h,
             (g.collisionGrid a).v + (g.unitsToCheck i k).superOffset.v⟩ := by
        unfold expectedSuper
        rw [if_neg hk]
      by_cases hex : (g.unitsToCheck i k).adjacentUnit > 256
          ∨ (g.unitsToCheck i k).adjacentUnit < -256
      · have e : nearUnit K E g i a st k = ({ st.1 with aborted := true }, st.2) := by
          unfold nearUnit
          rw [if_neg hab, if_neg hk]
          dsimp only
          rw [if_pos hex]
        rw [e]
        exact ⟨hatt, fun _ => rfl, Or.inl rfl,
          fun h => absurd (show true = false from h) (by decide)⟩
      · by_cases hneg : (g.collisionGrid a).h + (g.unitsToCheck i k).superOffset.h < 0
            ∨ (g.collisionGrid a).v + (g.unitsToCheck i k).superOffset.v < 0
        · have e : nearUnit K E g i a st k
              = (st.1, st.2 + (g.unitsToCheck i k).adjacentUnit) := by
            unfold nearUnit
            rw [if_neg hab, if_neg hk]
            dsimp only
            rw [if_neg hex, if_pos hneg]
          have em : unitMatches g E.chainFuel i a k = [] := by
            unfold unitMatches
            rw [e0, if_pos hneg]
          rw [e, em]
          exact ⟨hatt, fun h => h, Or.inr hcell, fun _ => by simp⟩
        · have e : nearUnit K E g i a st k
              = ((chainFrom g.nextNearObject E.chainFuel
                    (g.nearObject (st.2 + (g.unitsToCheck i k).adjacentUnit))).foldl
                  (nearPair K E g a ((g.collisionGrid a).h + (g.unitsToCheck i k).superOffset.h)
                    ((g.collisionGrid a).v + (g.unitsToCheck i k).superOffset.v)) st.1,
                 st.2 + (g.unitsToCheck i k).adjacentUnit) := by
            unfold nearUnit
            rw [if_neg hab, if_neg hk]
            dsimp only
            rw [if_neg hex, if_neg hneg]
          have em : unitMatches g E.chainFuel i a k
              = (chainFrom g.nextNearObject E.chainFuel
                  (g.nearObject (st.2 + (g.unitsToCheck i k).adjacentUnit))).filter
                  fun b => decide (g.collisionGrid b
                    = ⟨(g.collisionGrid a).h + (g.unitsToCheck i k).superOffset.h,
                       (g.collisionGrid a).v + (g.unitsToCheck i k).superOffset.v⟩) := by
            unfold unitMatches unitCandidates
            rw [e0, if_neg hneg, if_neg hk, ← hcell]
          obtain ⟨p1, p2, p3⟩ := nearPairs_exact K E hhit hsep objs0 g a
            ((g.collisionGrid a).h + (g.unitsToCheck i k).superOffset.h)
            ((g.collisionGrid a).v + (g.unitsToCheck i k).superOffset.v)
            (chainFrom g.nextNearObject E.chainFuel
              (g.nearObject (st.2 + (g.unitsToCheck i k).adjacentUnit))) st.1 hatt
          rw [e, em]
          exact ⟨p1, p2, Or.inr hcell, p3⟩

theorem nearUnits_exact (K : Consts) (E : PassEnv)
    (hhit : ∀ t a b i, (E.HitObject t a b i).attributes = (t i).attributes)
    (hsep : ∀ t a b i, (E.CorrectPhysicalSpace t a b i).attributes = (t i).attributes)
    (objs0 : Objs) (g : Grid) (i : Int) (a : Nat) :
    ∀ (n k0 : Nat) (st : PassState × Int),
      (∀ j, (st.1.objs j).attributes = (objs0 j).attributes) →
      (st.1.aborted = true ∨ st.2 = cellAfter g.unitsToCheck i (k0 - 1)) →
      (∀ j, (((List.range' k0 n).foldl (nearUnit K E g i a) st).1.objs j).attributes
        = (objs0 j).attributes) ∧
      (st.1.aborted = true → ((List.range' k0 n).foldl (nearUnit K E g i a) st).1.aborted = true) ∧
      (((List.range' k0 n).foldl (nearUnit K E g i a) st).1.aborted = false →
        examinedPairs ((List.range' k0 n).foldl (nearUnit K E g i a) st).1.trace
          = examinedPairs st.1.trace ++
            (((List.range' k0 n).flatMap (unitMatches g E.chainFuel i a)).map
              (Prod.mk a)).filter (capable K objs0)) := by
  intro n
  induction n with
  | zero => intro k0 st hatt _; exact ⟨hatt, fun h => h, fun _ => by simp⟩
  | succ n ih =>
    intro k0 st hatt hinv
    obtain ⟨a1, m1, c1, e1⟩ := nearUnit_exact K E hhit hsep objs0 g i a st k0 hatt hinv
    obtain ⟨a2, m2, e2⟩ := ih (k0 + 1) (nearUnit K E g i a st k0) a1 (by simpa using c1)
    rw [List.range'_succ, List.foldl_cons]
    refine ⟨a2, fun hab => m2 (m1 hab), fun hfin => ?_⟩
    have hmid : (nearUnit K E g i a st k0).1.aborted = false := by
      cases hx : (nearUnit K E g i a st k0).1.aborted
      · rfl
      · rw [m2 hx] at hfin
        exact absurd hfin (by decide)
    rw [e2 hfin, e1 hmid, List.flatMap_cons, List.map_append, List.filter_append,
      List.append_assoc]

theorem nearObjectStep_exact (K : Consts) (E : PassEnv)
    (hhit : ∀ t a b i, (E.HitObject t a b i).attributes = (t i).attributes)
    (hsep : ∀ t a b i, (E.CorrectPhysicalSpace t a b i).attributes = (t i).attributes)
    (objs0 : Objs) (g : Grid) (i : Int) (s : PassState) (a : Nat)
    (hatt : ∀ j, (s.objs j).attributes = (objs0 j).attributes) :
    (∀ j, ((nearObjectStep K E g i s a).objs j).attributes = (objs0 j).attributes) ∧
    (s.aborted = true → (nearObjectStep K E g i s a).aborted = true) ∧
    ((nearObjectStep K E g i s a).aborted = false →
      examinedPairs (nearObjectStep K E g i s a).trace
        = examinedPairs s.trace ++
          ((objectMatches g E.chainFuel i a).map (Prod.mk a)).filter (capable K objs0)) := by
  by_cases hab : s.aborted = true
  · have e : nearObjectStep K E g i s a = s := by
      unfold nearObjectStep
      rw [if_pos hab]
    rw [e]
    refine ⟨hatt, fun h => h, fun h => ?_⟩
    rw [hab] at h
    exact absurd h (by decide)
  · have e : nearObjectStep K E g i s a
        = ((List.range kUnitsToCheckNumber).foldl (nearUnit K E g i a)
            (⟨Function.update s.objs a (computeBounds E.SHIFT_SCALE (s.objs a)), s.trace,
              s.aborted⟩, i)).1 := by
      unfold nearObjectStep
      rw [if_neg hab]
    have hatt1 : ∀ j, ((Function.update s.objs a (computeBounds E.SHIFT_SCALE (s.objs a))) j).attributes
        = (objs0 j).attributes := by
      intro j
      by_cases h : j = a
      · subst h
        rw [Function.update_same, computeBounds_attributes]
        exact hatt j
      · rw [Function.update_noteq h]
        exact hatt j
    have := nearUnits_exact K E hhit hsep objs0 g i a kUnitsToCheckNumber 0
      (⟨Function.update s.objs a (computeBounds E.SHIFT_SCALE (s.objs a)), s.trace,
        s.aborted⟩, i) hatt1 (Or.inr rfl)
    rw [← List.range_eq_range'] at this
    rw [e]
    unfold objectMatches
    exact ⟨this.1, fun h => absurd h hab, this.2.2⟩

theorem nearCell_exact (K : Consts) (E : PassEnv)
    (hhit : ∀ t a b i, (E.HitObject t a b i).attributes = (t i).attributes)
    (hsep : ∀ t a b i, (E.CorrectPhysicalSpace t a b i).attributes = (t i).attributes)
    (objs0 : Objs) (g : Grid) (s : PassState) (i : Nat)
    (hatt : ∀ j, (s.objs j).attributes = (objs0 j).attributes) :
    (∀ j, ((nearCell K E g s i).objs j).attributes = (objs0 j).attributes) ∧
    (s.aborted = true → (nearCell K E g s i).aborted = true) ∧
    ((nearCell K E g s i).aborted = false →
      examinedPairs (nearCell K E g s i).trace
        = examinedPairs s.trace ++ (cellMatches g E.chainFuel i).filter (capable K objs0)) := by
  have := foldl_exact (fun s : PassState => ∀ j, (s.objs j).attributes = (objs0 j).attributes)
    (nearObjectStep K E g i)
    (fun a => ((objectMatches g E.chainFuel i a).map (Prod.mk a)).filter (capable K objs0))
    (fun s a hs => nearObjectStep_exact K E hhit hsep objs0 g i s a hs)
    (chainFrom g.nextNearObject E.chainFuel (g.nearObject i)) s hatt
  unfold nearCell cellMatches
  rw [List.filter_flatMap]
  exact this

/-- A near pass that runs to its end, with callbacks that leave the attributes alone,
examines exactly the pairs its loops reach with the grid-coordinate match satisfied
that pass the capability test, in the order of the loops. -/
theorem nearPass_exact (K : Consts) (E : PassEnv)
    (hhit : ∀ t a b i, (E.HitObject t a b i).attributes = (t i).attributes)
    (hsep : ∀ t a b i, (E.CorrectPhysicalSpace t a b i).attributes = (t i).attributes)
    (g : Grid) (objs : Objs) (hfin : (nearPass K E g objs).aborted = false) :
    examinedPairs (nearPass K E g objs).trace
      = (pairMatches g E.chainFuel).filter (capable K objs) := by
  have := foldl_exact (fun s : PassState => ∀ j, (s.objs j).attributes = (objs j).attributes)
    (nearCell K E g)
    (fun i : Nat => (cellMatches g E.chainFuel i).filter (capable K objs))
    (fun s i hs => nearCell_exact K E hhit hsep objs g s i hs)
    (List.range kProximityGridDataLength.toNat) ⟨objs, [], false⟩ (fun _ => rfl)
  have hnil : examinedPairs ([] : List Event) = [] := rfl
  unfold nearPass at hfin ⊢
  unfold pairMatches
  rw [List.filter_flatMap, this.2.2 hfin]
  dsimp only
  rw [hnil, List.nil_append]
theorem capable_symm (K : Consts) (objs : Objs) (a b : Nat) :
    capable K objs (a, b) = capable K objs (b, a) := by
  unfold capable
  dsimp only
  rw [Nat.lor_comm]

/-- Filtering by the capability test does not change how often a pair that passes it
occurs. -/
theorem countP_filter_capable (K : Consts) (objs : Objs) (l : List (Nat × Nat)) (x y : Nat)
    (hcap : capable K objs (x, y) = true) :
    (l.filter (capable K objs)).countP
        (fun p => (p.1 == x && p.2 == y) || (p.1 == y && p.2 == x))
      = l.countP (fun p => (p.1 == x && p.2 == y) || (p.1 == y && p.2 == x)) := by
  rw [List.countP_filter]
  apply List.countP_congr
  intro p _
  obtain ⟨p1, p2⟩ := p
  constructor
  · intro h
    simp only [Bool.and_eq_true] at h
    exact h.1
  · intro h
    simp only [Bool.and_eq_true]
    refine ⟨h, ?_⟩
    simp only [Bool.or_eq_true, Bool.and_eq_true, beq_iff_eq] at h
    rcases h with ⟨h1, h2⟩ | ⟨h1, h2⟩
    · rw [h1, h2]; exact hcap
    · rw [h1, h2, capable_symm]; exact hcap

/-- C36: broad-phase completeness. On the grid as the rebuild leaves it (adjacency
table from `InitMotion`, active list without repetition, bucket lists followed to
their end), for every two distinct objects A and B inserted in the near grid whose
stored `collisionGrid` coordinates are non-negative and whose full near-cell
coordinates (location at insertion `>> 7`, on each axis) are equal or differ by at most
1 on each axis, the loops of the near pass reach the pair exactly once with the
grid-coordinate match satisfied, and the near pass itself, run on any table to its end
(no exception, no undefined behaviour) with `HitObject` and `CorrectPhysicalSpace`
leaving the attributes alone, enters the pair body exactly once for the pair if the
two objects pass the capability test of motion.cpp:746-748: the pairs such a pass
examines are exactly the pairs the loops reach with the match satisfied that pass the
capability test, in the order of the loops. Conversely every pair that the loops reach
with the match satisfied, and so every pair any near pass examines, consists of two
inserted objects whose full near-cell coordinates differ by at most 1 on each axis,
each object having one insertion record only (objects that merely alias to the same or
a neighbouring bucket after wrap-around are never paired). -/
theorem C36_broad_phase_complete (K : Consts) (R : RebuildEnv) (E : PassEnv) (objs : Objs)
    (g g0 : Grid) (order : List Nat) (s : RebuildState)
    (hs : s = rebuildGrid K R objs g order)
    (hinit : g.unitsToCheck = (InitMotion g0).unitsToCheck)
    (hnd : order.Nodup) (hfuel : order.length ≤ E.chainFuel) :
    (∀ eA ∈ s.inserted, ∀ eB ∈ s.inserted, eA.object ≠ eB.object →
      0 ≤ (s.grid.collisionGrid eA.object).h → 0 ≤ (s.grid.collisionGrid eA.object).v →
      0 ≤ (s.grid.collisionGrid eB.object).h → 0 ≤ (s.grid.collisionGrid eB.object).v →
      -1 ≤ (nearCoord eB.snapshot.location).h - (nearCoord eA.snapshot.location).h →
      (nearCoord eB.snapshot.location).h - (nearCoord eA.snapshot.location).h ≤ 1 →
      -1 ≤ (nearCoord eB.snapshot.location).v - (nearCoord eA.snapshot.location).v →
      (nearCoord eB.snapshot.location).v - (nearCoord eA.snapshot.location).v ≤ 1 →
      timesMatched s.grid E.chainFuel eA.object eB.object = 1 ∧
      ∀ objs1 : Objs,
        (∀ t a b i, (E.HitObject t a b i).attributes = (t i).attributes) →
        (∀ t a b i, (E.CorrectPhysicalSpace t a b i).attributes = (t i).attributes) →
        (nearPass K E s.grid objs1).aborted = false →
        capable K objs1 (eA.object, eB.object) = true →
        timesExamined (nearPass K E s.grid objs1).trace eA.object eB.object = 1) ∧
    (∀ objs1 : Objs,
      (∀ t a b i, (E.HitObject t a b i).attributes = (t i).attributes) →
      (∀ t a b i, (E.CorrectPhysicalSpace t a b i).attributes = (t i).attributes) →
      (nearPass K E s.grid objs1).aborted = false →
      examinedPairs (nearPass K E s.grid objs1).trace
        = (pairMatches s.grid E.chainFuel).filter (capable K objs1)) ∧
    (∀ a b : Nat, (a, b) ∈ pairMatches s.grid E.chainFuel →
      ∃ eA ∈ s.inserted, ∃ eB ∈ s.inserted, eA.object = a ∧ eB.object = b ∧
        -1 ≤ (nearCoord eB.snapshot.location).h - (nearCoord eA.snapshot.location).h ∧
        (nearCoord eB.snapshot.location).h - (nearCoord eA.snapshot.location).h ≤ 1 ∧
        -1 ≤ (nearCoord eB.snapshot.location).v - (nearCoord eA.snapshot.location).v ∧
        (nearCoord eB.snapshot.location).v - (nearCoord eA.snapshot.location).v ≤ 1) ∧
    (∀ (objs1 : Objs) (a b : Nat), (a, b) ∈ examinedPairs (nearPass K E s.grid objs1).trace →
      ∃ eA ∈ s.inserted, ∃ eB ∈ s.inserted, eA.object = a ∧ eB.object = b ∧
        -1 ≤ (nearCoord eB.snapshot.location).h - (nearCoord eA.snapshot.location).h ∧
        (nearCoord eB.snapshot.location).h - (nearCoord eA.snapshot.location).h ≤ 1 ∧
        -1 ≤ (nearCoord eB.snapshot.location).v - (nearCoord eA.snapshot.location).v ∧
        (nearCoord eB.snapshot.location).v - (nearCoord eA.snapshot.location).v ≤ 1) ∧
    (∀ e1 ∈ s.inserted, ∀ e2 ∈ s.inserted, e1.object = e2.object → e1 = e2) := by
  obtain ⟨c1, c2, c3⟩ := pairMatches_complete K R E objs g g0 order s hs hinit hnd hfuel
  refine ⟨fun eA heA eB heB hne a0 a1 b0 b1 dx0 dx1 dy0 dy1 => ?_,
    fun objs1 hhit hsep hfin => nearPass_exact K E hhit hsep s.grid objs1 hfin, c2,
    fun objs1 a b h => c2 a b ((nearPass_matched K E s.grid objs1).subset h), c3⟩
  have hm := c1 eA heA eB heB hne a0 a1 b0 b1 dx0 dx1 dy0 dy1
  refine ⟨hm, fun objs1 hhit hsep hfin hcap => ?_⟩
  unfold timesExamined
  rw [nearPass_exact K E hhit hsep s.grid objs1 hfin,
    countP_filter_capable K objs1 _ _ _ hcap]
  exact hm

set_option maxRecDepth 1000000 in
/-- Witness for C36 on the sample table, rebuilt over a freshly initialised grid: the
two ships, five units apart in one cell, are the first two objects inserted; the near
pass over the sample table runs to its end and enters the pair body for them exactly
once. -/
theorem C36_broad_phase_complete_witness :
    ((rebuildGrid demoConsts demoRebuildEnv demoObjs (InitMotion staleGrid)
      [0, 1, 2, 3]).inserted.map fun e => e.object) = [0, 1, 2] ∧
    (nearPass demoConsts demoEnv
      (rebuildGrid demoConsts demoRebuildEnv demoObjs (InitMotion staleGrid) [0, 1, 2, 3]).grid
      demoObjs).aborted = false ∧
    timesExamined (nearPass demoConsts demoEnv
      (rebuildGrid demoConsts demoRebuildEnv demoObjs (InitMotion staleGrid) [0, 1, 2, 3]).grid
      demoObjs).trace 0 1 = 1 :=
  ⟨by decide, by decide,
   ((C36_broad_phase_complete demoConsts demoRebuildEnv demoEnv demoObjs
      (InitMotion staleGrid) staleGrid [0, 1, 2, 3] _ rfl rfl (by decide) (by decide)).1
      _ (List.get_mem _ 0 (by decide)) _ (List.get_mem _ 1 (by decide))
      (by decide) (by decide) (by decide) (by decide) (by decide)
      (by decide) (by decide) (by decide) (by decide)).2 demoObjs
      (fun _ _ _ _ => rfl) (fun _ _ _ _ => rfl) (by decide) (by decide)⟩

end Antares
